import Mathlib

/-!
# Section and symbol directive engine of the ELF back end (gas/config/obj-elf.c)

A shallow embedding of the section-handling directives of `obj-elf.c` and
machine-checked statements about them.

Conventions of the embedding.

* The process-wide variables of the C file (`now_seg`, `now_subseg`,
  `previous_section`, `previous_subsection`, `section_stack`, the sections of
  `stdoutput`, the symbol table, the diagnostics printed so far) are the
  fields of `State`; every directive handler is a function on `State`.
* `as_warn` and `as_bad` append to `State.diags`; `as_fatal` ends the run and
  is the `Except.error` outcome.
* A `segT` is a pointer to a section.  Sections of the output file are named
  by their position in creation order; the absolute section is a constant of
  its own.  A section pointer that may be null is an `Option segT`.
* `unsigned int` and `bfd_vma` values are natural numbers, `int` values are
  integers, conversions between them are written out (`to_unsigned`,
  `to_int`).
* The target hooks `md_flush_pending_output`, `md_elf_section_change_hook`,
  `md_elf_section_flags`, `md_elf_section_letter`, `md_elf_section_type`,
  `md_elf_section_word` and `tc_canonicalize_section_name` are optional
  macros; the embedding is the configuration in which none is defined.
-/

namespace ObjElf

/-! ## Constants of `include/elf/common.h` and `bfd.h` -/

def SHT_NULL : Nat := 0
def SHT_PROGBITS : Nat := 1
def SHT_NOTE : Nat := 7
def SHT_NOBITS : Nat := 8
def SHT_INIT_ARRAY : Nat := 14
def SHT_FINI_ARRAY : Nat := 15
def SHT_PREINIT_ARRAY : Nat := 16
def SHT_GROUP : Nat := 17
def SHT_LOPROC : Nat := 0x70000000

def SHF_WRITE : Nat := 0x1
def SHF_ALLOC : Nat := 0x2
def SHF_EXECINSTR : Nat := 0x4
def SHF_MERGE : Nat := 0x10
def SHF_STRINGS : Nat := 0x20
def SHF_GROUP : Nat := 0x200
def SHF_TLS : Nat := 0x400
def SHF_MASKOS : Nat := 0x0ff00000
def SHF_GNU_MBIND : Nat := 0x01000000
def SHF_MASKPROC : Nat := 0xf0000000
def SHF_EXCLUDE : Nat := 0x80000000

def SEC_ALLOC : Nat := 0x1
def SEC_LOAD : Nat := 0x2
def SEC_RELOC : Nat := 0x4
def SEC_READONLY : Nat := 0x8
def SEC_CODE : Nat := 0x10
def SEC_THREAD_LOCAL : Nat := 0x400
def SEC_EXCLUDE : Nat := 0x8000
def SEC_SORT_ENTRIES : Nat := 0x10000
def SEC_LINK_ONCE : Nat := 0x20000
def SEC_LINK_DUPLICATES_DISCARD : Nat := 0x0
def SEC_MERGE : Nat := 0x800000
def SEC_STRINGS : Nat := 0x1000000
def SEC_HAS_CONTENTS : Nat := 0x100
def SEC_IN_MEMORY : Nat := 0x4000
def SEC_GROUP : Nat := 0x2000000

def BSF_FUNCTION : Nat := 0x8
def BSF_OBJECT : Nat := 0x10000
def BSF_THREAD_LOCAL : Nat := 0x40000
def BSF_GNU_INDIRECT_FUNCTION : Nat := 0x400000
def BSF_GNU_UNIQUE : Nat := 0x800000

def STV_INTERNAL : Nat := 1
def STV_HIDDEN : Nat := 2
def STV_PROTECTED : Nat := 3

def ELFOSABI_NONE : Nat := 0
def ELFOSABI_GNU : Nat := 3
def ELFOSABI_FREEBSD : Nat := 9

/-- The character that separates a name from its version (`ELF_VER_CHR`). -/
def ELF_VER_CHR : Char := '@'

/-- The C expression `a & ~b` on unsigned values: the bits of `a` that are
not in `b`.  It does not depend on the width of the operands. -/
def andNot (a b : Nat) : Nat := a &&& (a ^^^ b)

/-- The C expression `~x` on an `unsigned int` (32 bits): the complement in
32 bits, which has no bit from bit 32 up. -/
def not_unsigned (x : Nat) : Nat := 4294967295 - x % 4294967296

/-- Conversion of an `int` to `unsigned int` (32 bits). -/
def to_unsigned (x : Int) : Nat := (x % 4294967296).toNat

/-- Conversion of a wider integer to `int` (32 bits, two's complement). -/
def to_int (x : Int) : Int := (x + 2147483648) % 4294967296 - 2147483648

/-! ## Data model -/

/-- A section pointer (`segT`, `asection *`) that is not null. -/
inductive segT where
  | reg (index : Nat)
  | absolute_section
  | undefined_section
  | common_section
deriving DecidableEq, Repr

/-- The fields of an `asection`, of its `elf_section_data` and of its
`segment_info` that `obj-elf.c` reads or writes. -/
structure asection where
  name : String
  flags : Nat
  entsize : Nat
  sh_type : Nat
  sh_flags : Nat
  sh_info : Nat
  group_name : Option String
  bss : Bool
  /-- The link `elf_next_in_group (sec)`: the position of the next member. -/
  next_in_group : Option Nat := none
  /-- The link `elf_sec_group (sec)`: the position of the control section. -/
  sec_group : Option Nat := none
  /-- The signature `elf_group_id (sec)`: the position of the symbol in the
  symbol table. -/
  group_id : Option Nat := none
  /-- The size set by `bfd_set_section_size`. -/
  size : Nat := 0
  /-- The alignment set by `bfd_set_section_alignment`. -/
  alignment_power : Nat := 0
deriving DecidableEq, Repr

/-- An entry of the special-section table (`struct bfd_elf_special_section`),
without its name text. -/
structure bfd_elf_special_section where
  prefix_length : Nat
  suffix_length : Int
  type : Nat
  attr : Nat
deriving DecidableEq, Repr

/-- A frame of the `.pushsection` stack (`struct section_stack` without its
`next` link; the stack is the list of its frames, top first). -/
structure section_stack where
  seg : segT
  prev_seg : Option segT
  subseg : Int
  prev_subseg : Int
deriving DecidableEq, Repr

/-- What `match` points at in `obj_elf_change_section`
(`struct section_match`). -/
structure section_match where
  group_name : Option String
  info : Nat
deriving DecidableEq, Repr

/-- The operators of an expression (`operatorT` of expr.h) that the
directives tell apart, and one that needs resolving. -/
inductive operatorT where
  | O_absent
  | O_constant
  | O_symbol
  | O_add
deriving DecidableEq, Repr

/-- An expression (`expressionS` of expr.h): its operator, the names of its
symbols and its number. -/
structure expressionS where
  X_op : operatorT
  X_add_symbol : Option String := none
  X_op_symbol : Option String := none
  X_add_number : Int := 0
deriving DecidableEq, Repr

/-- A gas symbol with its BFD symbol and its ELF data, as far as `obj-elf.c`
reads or writes them: its name; the section whose BFD symbol it stands for,
if any; its segment, value and the address of its frag; the marks external,
weak, volatile, equated, used and used in a relocation; whether it is kept
as a local symbol structure; the BFD flags of its type; the fields
`st_other` and `st_size` of its ELF symbol; and the fields `local` (here
`obj_local`), `size` and `versioned_name` of its `struct elf_obj_sy`. -/
structure symbolS where
  name : String
  bfdsym : Option segT
  segment : segT := segT.undefined_section
  value : Nat := 0
  fr_address : Nat := 0
  external : Bool := false
  weak : Bool := false
  volatile : Bool := false
  equated : Bool := false
  used : Bool := false
  used_in_reloc : Bool := false
  sy_local_symbol : Bool := false
  flags : Nat := 0
  st_other : Nat := 0
  st_size : Nat := 0
  obj_local : Bool := false
  size : Option expressionS := none
  versioned_name : Option String := none
deriving DecidableEq, Repr

/-- The texts handed to `as_warn` and `as_bad` by the section directives. -/
inductive Message where
  | setting_incorrect_section_type (name : String)
  | ignoring_incorrect_section_type (name : String)
  | setting_incorrect_section_attributes (name : String)
  | ignoring_changed_section_type (name : String)
  | ignoring_changed_section_attributes (name : String)
  | ignoring_changed_section_entity_size (name : String)
  | extraneous_characters_at_end_of_numeric_section_type
  | unrecognized_section_type
  | unrecognized_section_attribute
  | missing_name
  | invalid_merge_entity_size
  | entity_size_for_SHF_MERGE_not_specified
  | clone_flag_ignored_with_G_present
  | group_name_for_SHF_GROUP_not_specified
  | unsupported_mbind_section_info
  | character_following_name_is_not_hash
  | junk_at_end_of_line
  | previous_without_corresponding_section
  | popsection_without_corresponding_pushsection
  | Missing_symbol_name_in_directive
  | expected_comma_after_name_in_symver
  | cant_be_versioned_to_common_symbol (name sym : String)
  | missing_version_name (versioned_name sym : String)
  | multiple_versions (name versioned_name sym : String)
  | expected_comma_after_name_in_size_directive (name : String)
  | missing_expression_in_size_directive
  | symbol_is_already_defined (name : String)
  | symbol_type_is_supported_only_by_GNU_and_FreeBSD_targets (type_name : String)
  | symbol_type_is_supported_only_by_GNU_targets (type_name : String)
  | unrecognized_symbol_type (type_name : String)
  | size_expression_does_not_evaluate_to_a_constant (name : String)
  | invalid_attempt_to_declare_external_version_name_as_default (versioned_name : String)
  | can_not_be_both_weak_and_common (name : String)
  | assuming_all_members_of_group_are_COMDAT (group_name : String)
deriving DecidableEq, Repr

/-- A diagnostic that was printed: a warning (`as_warn`) or an error
(`as_bad`). -/
inductive Diag where
  | as_warn (m : Message)
  | as_bad (m : Message)
deriving DecidableEq, Repr

/-- The reasons for `as_fatal`. -/
inductive Fatal where
  | SHF_ALLOC_not_set_for_GNU_MBIND_section (name : String)
  | unrecognized_section_attribute
deriving DecidableEq, Repr

/-- The lists of the sections of each group (`struct group_list`): `head`
holds the first section of each list, so that `num_group` is its length,
and `indexes` maps a group name to its position in `head`. -/
structure group_list where
  head : List Nat
  indexes : List (String × Nat)
deriving DecidableEq, Repr

/-- The process-wide state of the section directives. -/
structure State where
  sections : List asection
  symbols : List symbolS
  now_seg : segT
  now_subseg : Int
  previous_section : Option segT
  previous_subsection : Int
  section_stack : List section_stack
  diags : List Diag
  /-- The field `elf_osabi` of the back-end data of the output file. -/
  elf_osabi : Nat := 0
  /-- The symbols that `symbol_clone` has taken out of the symbol table. -/
  detached : List symbolS := []
  /-- The static variable `groups`. -/
  groups : group_list := { head := [], indexes := [] }
deriving DecidableEq, Repr

/-- The parts of the ELF back end of BFD that `obj_elf_change_section`
consults: `bed->get_sec_type_attr`, which finds the special-section entry of a
section from its name, and `bfd_elf_get_default_section_type`. -/
structure Backend where
  get_sec_type_attr : String → Option bfd_elf_special_section
  bfd_elf_get_default_section_type : Nat → Nat

/-- The section a pointer points at; the absolute section is not a section
of the output file and carries no ELF data. -/
def State.sec? (s : State) : segT → Option asection
  | .reg i => s.sections[i]?
  | .absolute_section => none
  | .undefined_section => none
  | .common_section => none

/-- The section a pointer into the list of sections points at. -/
def sec_at (secs : List asection) (k : Nat) : asection :=
  secs[k]?.getD
    { name := "", flags := 0, entsize := 0, sh_type := 0, sh_flags := 0, sh_info := 0,
      group_name := none, bss := false }

/-- The macro `elf_group_name (sec)`. -/
def elf_group_name (s : State) (sec : segT) : Option String :=
  match s.sec? sec with
  | some x => x.group_name
  | none => none

def State.warn (s : State) (m : Message) : State :=
  { s with diags := s.diags ++ [Diag.as_warn m] }

def State.bad (s : State) (m : Message) : State :=
  { s with diags := s.diags ++ [Diag.as_bad m] }

/-! ## Collaborators in `subsegs.c`, `symbols.c` and BFD -/

/-- Modelled from the spec: `subseg_set` of subsegs.c (switch the current
context): the given section and subsection become the current ones. -/
def subseg_set (s : State) (sec : segT) (subseg : Int) : State :=
  { s with now_seg := sec, now_subseg := subseg }

/-- Modelled from the spec: `subseg_force_new` of subsegs.c (create a section
by name): a fresh section of that name is added to the output file, after
the existing ones, and becomes the current section. -/
def subseg_force_new (s : State) (name : String) (subseg : Int) : Nat × State :=
  (s.sections.length,
   { s with
     sections := s.sections ++
       [{ name := name, flags := 0, entsize := 0, sh_type := 0, sh_flags := 0,
          sh_info := 0, group_name := none, bss := false }],
     now_seg := segT.reg s.sections.length,
     now_subseg := subseg })

/-- The callback `get_section`: does the section match both the group name
and the `sh_info` field asked for. -/
def get_section (sec : asection) (m : section_match) : Bool :=
  decide (sec.sh_info = m.info) &&
    (decide (sec.group_name = m.group_name) ||
      (match sec.group_name, m.group_name with
       | some g, some gname => decide (g = gname)
       | _, _ => false))

/-- The first element of a list that satisfies a test, with its position. -/
def first_index {α : Type} (p : α → Bool) : List α → Option (Nat × α)
  | [] => none
  | x :: xs =>
    if p x then some (0, x)
    else (first_index p xs).map (fun r => (r.1 + 1, r.2))

/-- Modelled from the spec: `bfd_get_section_by_name_if` of BFD (find a
section by (name, group, info)): the first section of the output file that
has the name and satisfies the callback, with its position. -/
def bfd_get_section_by_name_if (secs : List asection) (name : String)
    (m : section_match) : Option (Nat × asection) :=
  first_index (fun sec => decide (sec.name = name) && get_section sec m) secs

/-- Replace the element at a position of a list by its image under `f`:
an assignment through a pointer into the list. -/
def modify_nth {α : Type} (f : α → α) : Nat → List α → List α
  | _, [] => []
  | 0, x :: xs => f x :: xs
  | n + 1, x :: xs => x :: modify_nth f n xs

/-- Modelled from the spec: `symbol_find` of symbols.c (find a symbol by
name): the position of the symbol of that name in the symbol table. -/
def symbol_find (syms : List symbolS) (name : String) : Option Nat :=
  (first_index (fun y => decide (y.name = name)) syms).map Prod.fst

/-! ## `obj_elf_change_section` -/

/-- The arguments of one call of `obj_elf_change_section`. -/
structure ChangeArgs where
  name : String
  type : Nat
  info : Nat
  attr : Nat
  entsize : Int
  group_name : Option String
  linkonce : Int
  push : Int
deriving DecidableEq, Repr

/-- Lines 519-552 of `obj_elf_change_section`: the section type after it
has been reconciled with the type of the special-section entry, and the
warning this gives.  `is_new` is `old_sec == NULL`. -/
def special_section_type (ssect : bfd_elf_special_section) (name : String)
    (type : Nat) (is_new : Bool) : Nat × List Diag :=
  if type = SHT_NULL then (ssect.type, [])
  else if type ≠ ssect.type then
    if is_new && decide (ssect.type ≠ SHT_INIT_ARRAY)
        && decide (ssect.type ≠ SHT_FINI_ARRAY)
        && decide (ssect.type ≠ SHT_PREINIT_ARRAY) then
      if ssect.type ≠ SHT_NOTE ∧ type < SHT_LOPROC then
        (type, [Diag.as_warn (Message.setting_incorrect_section_type name)])
      else (type, [])
    else
      (ssect.type, [Diag.as_warn (Message.ignoring_incorrect_section_type name)])
  else (type, [])

/-- Lines 554-590 of `obj_elf_change_section`: the value of `override` and
the warning given when the explicit flags are not among the flags of the
special-section entry. -/
def special_section_override (ssect : bfd_elf_special_section) (name : String)
    (attr : Nat) (group_name : Option String) (is_new : Bool) : Bool × List Diag :=
  if is_new
      && decide (andNot (attr &&& not_unsigned (SHF_MASKOS ||| SHF_MASKPROC)) ssect.attr ≠ 0) then
    if ssect.type = SHT_NOTE ∧ (attr = SHF_ALLOC ∨ attr = SHF_EXECINSTR) then
      (false, [])
    else if ssect.suffix_length = -2 ∧ name.data[ssect.prefix_length]? = some '.'
        ∧ andNot (andNot (andNot attr ssect.attr) SHF_MERGE) SHF_STRINGS = 0 then
      (false, [])
    else if attr = SHF_ALLOC
        ∧ (name = ".interp" ∨ name = ".strtab" ∨ name = ".symtab") then
      (true, [])
    else if attr = SHF_EXECINSTR ∧ name = ".note.GNU-stack" then
      (true, [])
    else
      (true,
       if group_name = none then
         [Diag.as_warn (Message.setting_incorrect_section_attributes name)]
       else [])
  else (false, [])

/-- Lines 515-594 of `obj_elf_change_section`: type, flags and warnings after
the special-section entry, if there is one, has been taken into account. -/
def special_section (ssect : Option bfd_elf_special_section) (name : String)
    (type attr : Nat) (group_name : Option String) (is_new : Bool) :
    Nat × Nat × List Diag :=
  match ssect with
  | none => (type, attr, [])
  | some e =>
    let ty := special_section_type e name type is_new
    let ov := special_section_override e name attr group_name is_new
    let attr1 := if !ov.1 && is_new then attr ||| e.attr else attr
    (ty.1, attr1, ty.2 ++ ov.2)

/-- Lines 599-614 of `obj_elf_change_section`: the BFD flags for an ELF
type, ELF flags and link-once marker. -/
def bfd_flags (attr type : Nat) (linkonce : Int) : Nat :=
  let flags :=
    SEC_RELOC
    ||| (if attr &&& SHF_WRITE ≠ 0 then 0 else SEC_READONLY)
    ||| (if attr &&& SHF_ALLOC ≠ 0 then SEC_ALLOC else 0)
    ||| (if attr &&& SHF_ALLOC ≠ 0 ∧ type ≠ SHT_NOBITS then SEC_LOAD else 0)
    ||| (if attr &&& SHF_EXECINSTR ≠ 0 then SEC_CODE else 0)
    ||| (if attr &&& SHF_MERGE ≠ 0 then SEC_MERGE else 0)
    ||| (if attr &&& SHF_STRINGS ≠ 0 then SEC_STRINGS else 0)
    ||| (if attr &&& SHF_EXCLUDE ≠ 0 then SEC_EXCLUDE else 0)
    ||| (if attr &&& SHF_TLS ≠ 0 then SEC_THREAD_LOCAL else 0)
  if linkonce ≠ 0 then flags ||| (SEC_LINK_ONCE ||| SEC_LINK_DUPLICATES_DISCARD)
  else flags

/-- The flags compared when a section is declared again (lines 654-657). -/
def redeclaration_mask : Nat :=
  SEC_ALLOC ||| SEC_LOAD ||| SEC_READONLY ||| SEC_CODE
  ||| SEC_EXCLUDE ||| SEC_SORT_ENTRIES ||| SEC_MERGE ||| SEC_STRINGS
  ||| SEC_LINK_ONCE ||| SEC_LINK_DUPLICATES_DISCARD
  ||| SEC_THREAD_LOCAL

/-- Lines 616-641 of `obj_elf_change_section`: the fields written into a
section that has just been created. -/
def declare_section (bed : Backend) (a : ChangeArgs) (type attr flags : Nat)
    (sec : asection) : asection :=
  let type1 := if type = SHT_NULL then bed.bfd_elf_get_default_section_type flags else type
  { sec with
    sh_type := type1,
    sh_flags := attr,
    sh_info := a.info,
    bss := if type1 = SHT_NOBITS then true else sec.bss,
    flags := flags,
    entsize := if flags &&& SEC_MERGE ≠ 0 then to_unsigned a.entsize else sec.entsize,
    group_name := a.group_name }

/-- Lines 635-640 of `obj_elf_change_section`: the symbol of the new section
enters the symbol table, through the symbol that already has the name of the
section if there is one. -/
def add_section_symbol (syms : List symbolS) (name : String) (sec : segT) :
    List symbolS :=
  match symbol_find syms name with
  | some k => modify_nth (fun y => { y with bfdsym := some sec }) k syms
  | none => syms ++ [{ name := name, bfdsym := some sec }]

/-- Lines 642-667 of `obj_elf_change_section`: the warnings given when an
existing section is declared again. -/
def redeclaration_warnings (a : ChangeArgs) (type attr flags : Nat)
    (old : asection) : List Diag :=
  (if type ≠ SHT_NULL ∧ type ≠ old.sh_type then
     [Diag.as_warn (Message.ignoring_changed_section_type a.name)]
   else [])
  ++ (if attr ≠ 0 then
        (if (old.flags ^^^ flags) &&& redeclaration_mask ≠ 0 then
           [Diag.as_warn (Message.ignoring_changed_section_attributes a.name)]
         else [])
        ++ (if flags &&& SEC_MERGE ≠ 0 ∧ old.entsize ≠ to_unsigned a.entsize then
              [Diag.as_warn (Message.ignoring_changed_section_entity_size a.name)]
            else [])
      else [])

/-- Lines 648-662 of `obj_elf_change_section`: the ELF flags of an existing
section after it has been declared again. -/
def redeclared_section (attr flags : Nat) (old : asection) : asection :=
  if attr ≠ 0 ∧ ¬ ((old.flags ^^^ flags) &&& redeclaration_mask ≠ 0) then
    { old with sh_flags := attr }
  else old

/-- The function `obj_elf_change_section`. -/
def obj_elf_change_section (bed : Backend) (a : ChangeArgs) (s : State) :
    Except Fatal State :=
  -- lines 486-498
  let s1 : State :=
    if a.push ≠ 0 then
      { s with section_stack :=
          { seg := s.now_seg, prev_seg := s.previous_section,
            subseg := s.now_subseg, prev_subseg := s.previous_subsection }
          :: s.section_stack }
    else s
  let s2 : State :=
    { s1 with previous_section := some s1.now_seg,
              previous_subsection := s1.now_subseg }
  -- lines 500-510
  let old_sec :=
    bfd_get_section_by_name_if s2.sections a.name
      { group_name := a.group_name, info := a.info }
  let created : Nat × State :=
    match old_sec with
    | some old => (old.1, subseg_set s2 (segT.reg old.1) 0)
    | none => subseg_force_new s2 a.name 0
  let sec := created.1
  let s3 := created.2
  -- lines 512-594
  let ssect := bed.get_sec_type_attr a.name
  let r := special_section ssect a.name a.type a.attr a.group_name old_sec.isNone
  let type := r.1
  let attr := r.2.1
  let s4 : State := { s3 with diags := s3.diags ++ r.2.2 }
  -- lines 596-597
  if attr &&& (SHF_ALLOC ||| SHF_GNU_MBIND) = SHF_GNU_MBIND then
    Except.error (Fatal.SHF_ALLOC_not_set_for_GNU_MBIND_section a.name)
  else
    -- lines 599-614
    let flags := bfd_flags attr type a.linkonce
    match old_sec with
    | none =>
      -- lines 616-641
      Except.ok
        { s4 with
          sections := modify_nth (declare_section bed a type attr flags) sec s4.sections,
          symbols := add_section_symbol s4.symbols a.name (segT.reg sec) }
    | some old =>
      -- lines 642-667
      Except.ok
        { s4 with
          sections := modify_nth (redeclared_section attr flags) sec s4.sections,
          diags := s4.diags ++ redeclaration_warnings a type attr flags old.2 }

/-! ## The other section-changing directives -/

/-- Modelled from the spec: `s_data` of read.c (flush and switch to the
fixed data section): the data section becomes current, with the subsection
number read from the line. -/
def s_data (data_section : segT) (subseg : Int) (s : State) : State :=
  subseg_set s data_section subseg

/-- Modelled from the spec: `s_text` of read.c (flush and switch to the
fixed text section): the text section becomes current, with the subsection
number read from the line. -/
def s_text (text_section : segT) (subseg : Int) (s : State) : State :=
  subseg_set s text_section subseg

/-- The function `obj_elf_section_change_hook`. -/
def obj_elf_section_change_hook (s : State) : State :=
  { s with previous_section := some s.now_seg,
           previous_subsection := s.now_subseg }

/-- Modelled from the spec: `s_struct` of read.c (flush and switch to the
absolute section): it tells the ELF back end that the section changes and
makes the absolute section current. -/
def s_struct (s : State) : State :=
  subseg_set (obj_elf_section_change_hook s) segT.absolute_section 0

/-- The function `obj_elf_data`; `subseg` is the subsection number on the
line. -/
def obj_elf_data (data_section : segT) (subseg : Int) (s : State) : State :=
  s_data data_section subseg
    { s with previous_section := some s.now_seg,
             previous_subsection := s.now_subseg }

/-- The function `obj_elf_text`; `subseg` is the subsection number on the
line. -/
def obj_elf_text (text_section : segT) (subseg : Int) (s : State) : State :=
  s_text text_section subseg
    { s with previous_section := some s.now_seg,
             previous_subsection := s.now_subseg }

/-- The function `obj_elf_struct`. -/
def obj_elf_struct (s : State) : State :=
  s_struct
    { s with previous_section := some s.now_seg,
             previous_subsection := s.now_subseg }

/-- The function `obj_elf_subsection`; `temp` is the value of the expression
on the line. -/
def obj_elf_subsection (temp : Int) (s : State) : State :=
  subseg_set
    { s with previous_section := some s.now_seg,
             previous_subsection := s.now_subseg }
    s.now_seg (to_int temp)

/-- The function `obj_elf_previous`. -/
def obj_elf_previous (s : State) : State :=
  match s.previous_section with
  | none => s.warn Message.previous_without_corresponding_section
  | some new_section =>
    let new_subsection := s.previous_subsection
    subseg_set
      { s with previous_section := some s.now_seg,
               previous_subsection := s.now_subseg }
      new_section new_subsection

/-- The function `obj_elf_popsection`. -/
def obj_elf_popsection (s : State) : State :=
  match s.section_stack with
  | [] => s.warn Message.popsection_without_corresponding_pushsection
  | top :: next =>
    subseg_set
      { s with section_stack := next,
               previous_section := top.prev_seg,
               previous_subsection := top.prev_subseg }
      top.seg top.subseg

/-- A run of calls of `obj_elf_change_section`, one after the other; a fatal
error ends the run. -/
def run_calls (bed : Backend) : List ChangeArgs → State → Except Fatal State
  | [], s => Except.ok s
  | a :: rest, s =>
    match obj_elf_change_section bed a s with
    | Except.ok s1 => run_calls bed rest s1
    | Except.error e => Except.error e

/-- The frame that a push saves. -/
def saved_frame (s : State) : section_stack :=
  { seg := s.now_seg, prev_seg := s.previous_section,
    subseg := s.now_subseg, prev_subseg := s.previous_subsection }

/-- The stack after the push step of `obj_elf_change_section`. -/
def pushed_stack (a : ChangeArgs) (s : State) : List section_stack :=
  if a.push ≠ 0 then saved_frame s :: s.section_stack else s.section_stack

/-- The section that `subseg_force_new` creates. -/
def fresh_section (name : String) : asection :=
  { name := name, flags := 0, entsize := 0, sh_type := 0, sh_flags := 0,
    sh_info := 0, group_name := none, bss := false }

/-- The test of line 596: the flags hold GNU_MBIND without ALLOC. -/
def mbind_without_alloc (attr : Nat) : Prop :=
  attr &&& (SHF_ALLOC ||| SHF_GNU_MBIND) = SHF_GNU_MBIND

instance (attr : Nat) : Decidable (mbind_without_alloc attr) := by
  unfold mbind_without_alloc; infer_instance

/-- Outcomes of a function that may end in `as_fatal` can be compared. -/
instance {ε α : Type} [DecidableEq ε] [DecidableEq α] : DecidableEq (Except ε α)
  | Except.ok a, Except.ok b =>
    if h : a = b then isTrue (by rw [h]) else isFalse (fun h1 => h (by injection h1))
  | Except.error a, Except.error b =>
    if h : a = b then isTrue (by rw [h]) else isFalse (fun h1 => h (by injection h1))
  | Except.ok _, Except.error _ => isFalse (fun h1 => by cases h1)
  | Except.error _, Except.ok _ => isFalse (fun h1 => by cases h1)

/-! ## Reading the line of a directive

The text of the line is a list of characters that starts at
`input_line_pointer`; the end of the list reads as the NUL that ends the
input buffer.  The functions of the reader (read.c, expr.c) are parameters:
each one is given the text at `input_line_pointer` and says how far it moves
the pointer, so the pointer only moves forward. -/

/-- The character at `input_line_pointer`. -/
def peek (ilp : List Char) : Char := ilp.headD (Char.ofNat 0)

/-- The macro `SKIP_WHITESPACE ()`: step over one blank. -/
def SKIP_WHITESPACE (ilp : List Char) : List Char :=
  if peek ilp = ' ' then ilp.tail else ilp

/-- The macro `ISDIGIT`. -/
def ISDIGIT (c : Char) : Bool := decide ('0' ≤ c ∧ c ≤ '9')

/-- The functions of the reader that the section directives call. -/
structure Reader where
  /-- The string read by `demand_copy_C_string` (none for NULL) and the
  number of characters it moves the pointer. -/
  demand_copy_C_string : List Char → Option (List Char) × Nat
  /-- The value of `get_absolute_expression` and the number of characters
  it moves the pointer. -/
  get_absolute_expression : List Char → Int × Nat
  /-- The effect of `get_symbol_name (&beg)` followed by
  `restore_line_pointer`: where `beg` points and where the pointer is
  afterwards, both counted from the pointer before. -/
  get_symbol_name : List Char → Nat × Nat
  /-- The number of characters `ignore_rest_of_line` moves the pointer. -/
  ignore_rest_of_line : List Char → Nat
  /-- Whether `demand_empty_rest_of_line` finds junk at the end of the line. -/
  junk_at_end_of_line : List Char → Bool
  /-- The byte in memory before the first character of a string returned by
  `demand_copy_C_string`. -/
  byte_before_string : Char
  /-- The effect of `get_symbol_name (&name)` alone: where `name` points,
  counted from the pointer before, and the length of the name; the pointer
  is at the end of the name afterwards. -/
  symbol_name : List Char → Nat × Nat
  /-- The same with `@` counted among the characters of a name, as
  `obj_elf_symver` arranges. -/
  versioned_symbol_name : List Char → Nat × Nat
  /-- The expression read by `expression (&exp)` and the number of
  characters it moves the pointer. -/
  expression : List Char → expressionS × Nat

/-- The command-line flags that `obj_elf_section` reads, the bound on the
number of rounds of the `%S` substitution loop that the embedding follows,
and the MRI section directive of read.c. -/
structure Options where
  flag_mri : Bool
  flag_sectname_subst : Bool
  subst_bound : Nat
  s_mri_sect : State → State

/-- The largest `unsigned long` (a host whose `long` has 64 bits). -/
def ULONG_MAX : Nat := 18446744073709551615

/-- The value of a character as a digit of a number, as `strtoul` reads it. -/
def digit_value (c : Char) : Option Nat :=
  if '0' ≤ c ∧ c ≤ '9' then some (c.toNat - 48)
  else if 'a' ≤ c ∧ c ≤ 'z' then some (c.toNat - 97 + 10)
  else if 'A' ≤ c ∧ c ≤ 'Z' then some (c.toNat - 65 + 10)
  else none

/-- The digits of one base at the start of a text: their value, after the
value `v` of the digits before them, and their number, after `n`. -/
def scan_digits (base : Nat) : List Char → Nat → Nat → Nat × Nat
  | [], v, n => (v, n)
  | c :: r, v, n =>
    match digit_value c with
    | some d => if d < base then scan_digits base r (v * base + d) (n + 1) else (v, n)
    | none => (v, n)

/-- Modelled from the spec: `strtoul (str, &end, 0)` of the C library (a
numeric literal), for a text that begins with a digit, as at each of its
calls: the value, and the number of characters up to `end`.  A text that
begins with `0x` and a hexadecimal digit is hexadecimal, another text that
begins with `0` is octal, the others are decimal; a value that does not fit
is `ULONG_MAX`. -/
def strtoul (str : List Char) : Nat × Nat :=
  match str with
  | '0' :: x :: r =>
    if (x = 'x' ∨ x = 'X') ∧ (scan_digits 16 r 0 0).2 ≠ 0 then
      (min (scan_digits 16 r 0 0).1 ULONG_MAX, (scan_digits 16 r 0 0).2 + 2)
    else
      (min (scan_digits 8 (x :: r) 0 1).1 ULONG_MAX, (scan_digits 8 (x :: r) 0 1).2)
  | _ =>
    (min (scan_digits 10 str 0 0).1 ULONG_MAX, (scan_digits 10 str 0 0).2)

/-- The loop of `obj_elf_parse_section_letters`.  `prev` is the character
before `str` in memory, `skip` the number of characters of `str` that an
earlier round has already stepped over. -/
def parse_section_letters_loop :
    Char → Nat → List Char → Nat → Bool → Except Fatal (Nat × Bool)
  | _, _, [], attr, is_clone => Except.ok (attr, is_clone)
  | _, skip + 1, c :: rest, attr, is_clone =>
    parse_section_letters_loop c skip rest attr is_clone
  | prev, 0, c :: rest, attr, is_clone =>
    if c = 'a' then parse_section_letters_loop c 0 rest (attr ||| SHF_ALLOC) is_clone
    else if c = 'e' then parse_section_letters_loop c 0 rest (attr ||| SHF_EXCLUDE) is_clone
    else if c = 'w' then parse_section_letters_loop c 0 rest (attr ||| SHF_WRITE) is_clone
    else if c = 'x' then parse_section_letters_loop c 0 rest (attr ||| SHF_EXECINSTR) is_clone
    else if c = 'M' then parse_section_letters_loop c 0 rest (attr ||| SHF_MERGE) is_clone
    else if c = 'S' then parse_section_letters_loop c 0 rest (attr ||| SHF_STRINGS) is_clone
    else if c = 'G' then parse_section_letters_loop c 0 rest (attr ||| SHF_GROUP) is_clone
    else if c = 'T' then parse_section_letters_loop c 0 rest (attr ||| SHF_TLS) is_clone
    else if c = 'd' then parse_section_letters_loop c 0 rest (attr ||| SHF_GNU_MBIND) is_clone
    else if c = '?' then parse_section_letters_loop c 0 rest attr true
    else if c = 'm' ∧ prev = 'a' then
      if rest.head? = some 's' then
        parse_section_letters_loop c 1 rest ((attr ||| SHF_MERGE) ||| SHF_STRINGS) is_clone
      else
        parse_section_letters_loop c 0 rest (attr ||| SHF_MERGE) is_clone
    else if ISDIGIT c then
      parse_section_letters_loop c ((strtoul (c :: rest)).2 - 1) rest
        (attr ||| (strtoul (c :: rest)).1) is_clone
    else Except.error Fatal.unrecognized_section_attribute

/-- The function `obj_elf_parse_section_letters`, for `len` the length of
the string: the flags and the clone marker.  `before` is the byte in memory
before the string. -/
def obj_elf_parse_section_letters (before : Char) (str : List Char) :
    Except Fatal (Nat × Bool) :=
  parse_section_letters_loop before 0 str 0 false

/-- The function `obj_elf_section_type`: the type and the warning given.
`str` is the text from the start of the name on, `len` the length of the
name. -/
def obj_elf_section_type (str : List Char) (len : Nat) (warn : Bool) :
    Int × List Diag :=
  if len = 8 ∧ str.take 8 = "progbits".data then (SHT_PROGBITS, [])
  else if len = 6 ∧ str.take 6 = "nobits".data then (SHT_NOBITS, [])
  else if len = 4 ∧ str.take 4 = "note".data then (SHT_NOTE, [])
  else if len = 10 ∧ str.take 10 = "init_array".data then (SHT_INIT_ARRAY, [])
  else if len = 10 ∧ str.take 10 = "fini_array".data then (SHT_FINI_ARRAY, [])
  else if len = 13 ∧ str.take 13 = "preinit_array".data then (SHT_PREINIT_ARRAY, [])
  else if ISDIGIT (peek str) then
    (to_int (strtoul str).1,
     if warn ∧ (strtoul str).2 ≠ len then
       [Diag.as_warn Message.extraneous_characters_at_end_of_numeric_section_type]
     else [])
  else (0, if warn then [Diag.as_warn Message.unrecognized_section_type] else [])

/-- The function `obj_elf_section_word`: the flag of the word, the type it
names when it is not a flag, and the warning given. -/
def obj_elf_section_word (str : List Char) (len : Nat) (type : Int) :
    Nat × Int × List Diag :=
  if len = 5 ∧ str.take 5 = "write".data then (SHF_WRITE, type, [])
  else if len = 5 ∧ str.take 5 = "alloc".data then (SHF_ALLOC, type, [])
  else if len = 9 ∧ str.take 9 = "execinstr".data then (SHF_EXECINSTR, type, [])
  else if len = 7 ∧ str.take 7 = "exclude".data then (SHF_EXCLUDE, type, [])
  else if len = 3 ∧ str.take 3 = "tls".data then (SHF_TLS, type, [])
  else
    if (obj_elf_section_type str len false).1 ≠ 0 then
      (0, (obj_elf_section_type str len false).1, [])
    else (0, type, [Diag.as_warn Message.unrecognized_section_attribute])

/-- The name of the section a pointer points at (`now_seg->name`). -/
def section_name (s : State) (sec : segT) : List Char :=
  match sec with
  | segT.reg i =>
    match s.sections[i]? with
    | some x => x.name.data
    | none => []
  | segT.absolute_section => "*ABS*".data
  | segT.undefined_section => "*UND*".data
  | segT.common_section => "*COM*".data

/-- The `%S` substitution loop of `obj_elf_section_name` (lines 865-883),
followed for at most the given number of rounds; none when the loop has not
ended by then. -/
def sectname_subst (now_name : List Char) : Nat → List Char → Option (List Char)
  | 0, _ => none
  | bound + 1, name =>
    match name.dropWhile (fun c => c ≠ '%') with
    | '%' :: 'S' :: after =>
      sectname_subst now_name bound
        (name.takeWhile (fun c => c ≠ '%') ++ now_name ++ after)
    | _ => some name

/-- What `obj_elf_section_name` returns. -/
inductive NameResult where
  | name (n : List Char) (ilp : List Char) (s : State)
  | null (ilp : List Char) (s : State)
  | no_result

/-- The characters that end an unquoted section name: those of the string
given to `strchr` at line 854, and the NUL that ends it. -/
def ends_name (c : Char) : Bool :=
  decide (c = '\n' ∨ c = '\t' ∨ c = ',' ∨ c = ';' ∨ c = ' ' ∨ c = Char.ofNat 0)

/-- The function `obj_elf_section_name`. -/
def obj_elf_section_name (rd : Reader) (opts : Options) (s : State)
    (ilp0 : List Char) : NameResult :=
  let ilp := SKIP_WHITESPACE ilp0
  if peek ilp = '"' then
    match rd.demand_copy_C_string ilp with
    | (none, n) =>
      NameResult.null ((ilp.drop n).drop (rd.ignore_rest_of_line (ilp.drop n))) s
    | (some name, n) => NameResult.name name (SKIP_WHITESPACE (ilp.drop n)) s
  else
    let len := (ilp.takeWhile (fun c => !ends_name c)).length
    if len = 0 then
      NameResult.null (ilp.drop (rd.ignore_rest_of_line ilp)) (s.bad Message.missing_name)
    else
      match (if opts.flag_sectname_subst then
               sectname_subst (section_name s s.now_seg) opts.subst_bound (ilp.take len)
             else some (ilp.take len)) with
      | none => NameResult.no_result
      | some name => NameResult.name name (SKIP_WHITESPACE (ilp.drop len)) s

/-- The local variables of `obj_elf_section`, with `input_line_pointer`
and the state. -/
structure SectionLocals where
  name : String
  type : Int
  attr : Nat
  entsize : Int
  group_name : Option String
  linkonce : Int
  new_subsection : Int
  info : Nat
  ilp : List Char
  s : State
deriving DecidableEq, Repr

/-- The arguments that `obj_elf_section` hands to `obj_elf_change_section`
at line 1113. -/
def SectionLocals.args (l : SectionLocals) (push : Int) : ChangeArgs :=
  { name := l.name, type := to_unsigned l.type, info := l.info, attr := l.attr,
    entsize := l.entsize, group_name := l.group_name, linkonce := l.linkonce,
    push := push }

/-- How far `obj_elf_section` has come. -/
inductive SectionProgress where
  | returned (s : State)
  | no_result
  | fatal (f : Fatal)
  | done (l : SectionLocals)
  | letters (l : SectionLocals) (is_clone : Bool)
deriving DecidableEq, Repr

/-- What the loop over the words of the first syntax gives. -/
inductive WordsResult where
  | bad (s : State)
  | done (ilp : List Char) (attr : Nat) (type : Int) (s : State)

/-- Lines 1086-1106 of `obj_elf_section`: the loop over the `#word` flags of
the first syntax. -/
def section_words (rd : Reader) (ilp : List Char) (attr : Nat) (type : Int)
    (s : State) : WordsResult :=
  if peek (SKIP_WHITESPACE ilp) = '#' then
    let ilp2 := (SKIP_WHITESPACE ilp).tail
    let be := rd.get_symbol_name ilp2
    let w := obj_elf_section_word (ilp2.drop be.1) (be.2 - be.1) type
    let ilp3 := SKIP_WHITESPACE (ilp2.drop be.2)
    if peek ilp3 = ',' then
      section_words rd ilp3.tail (attr ||| w.1) w.2.1 { s with diags := s.diags ++ w.2.2 }
    else
      WordsResult.done ilp3 (attr ||| w.1) w.2.1 { s with diags := s.diags ++ w.2.2 }
  else
    WordsResult.bad (s.bad Message.character_following_name_is_not_hash)
termination_by ilp.length
decreasing_by
  rename_i h1 h2
  have a1 : ∀ l : List Char, (SKIP_WHITESPACE l).length ≤ l.length := by
    intro l; unfold SKIP_WHITESPACE; split <;> simp
  have a2 : (SKIP_WHITESPACE ilp).tail.length < (SKIP_WHITESPACE ilp).length := by
    cases hh : SKIP_WHITESPACE ilp with
    | nil => rw [hh] at h1; simp [peek] at h1
    | cons _ _ => simp
  have a3 := a1 ilp
  have a4 := a1 (List.drop (rd.get_symbol_name (SKIP_WHITESPACE ilp).tail).2
    (SKIP_WHITESPACE ilp).tail)
  have a5 : (List.drop (rd.get_symbol_name (SKIP_WHITESPACE ilp).tail).2
      (SKIP_WHITESPACE ilp).tail).length ≤ (SKIP_WHITESPACE ilp).tail.length := by
    rw [List.length_drop]; omega
  have a6 : ∀ l : List Char, l.tail.length ≤ l.length := by intro l; simp
  have a7 := a6 (SKIP_WHITESPACE (List.drop (rd.get_symbol_name (SKIP_WHITESPACE ilp).tail).2
    (SKIP_WHITESPACE ilp).tail))
  omega

/-- What the reading of the type field gives: nothing when the directive
returns, else the type, the pointer and the warnings. -/
inductive TypeField where
  | returned
  | read (type : Int) (ilp : List Char) (diags : List Diag)

/-- Lines 969-1005 of `obj_elf_section`: the optional type after the flag
string.  `type` is the type so far. -/
def section_type_field (rd : Reader) (type : Int) (ilp0 : List Char) : TypeField :=
  let ilp := SKIP_WHITESPACE ilp0
  if peek ilp = ',' then
    let save := ilp
    let ilp1 := SKIP_WHITESPACE ilp.tail
    let c := peek ilp1
    if c = '"' then
      match rd.demand_copy_C_string ilp1 with
      | (none, _) => TypeField.returned
      | (some beg, n) =>
        TypeField.read (obj_elf_section_type beg beg.length true).1 (ilp1.drop n)
          (obj_elf_section_type beg beg.length true).2
    else if c = '@' ∨ c = '%' then
      let ilp2 := ilp1.tail
      if ISDIGIT (peek ilp2) then
        TypeField.read (to_int (strtoul ilp2).1) (ilp2.drop (strtoul ilp2).2) []
      else
        let be := rd.get_symbol_name ilp2
        TypeField.read (obj_elf_section_type (ilp2.drop be.1) (be.2 - be.1) true).1
          (ilp2.drop be.2)
          (obj_elf_section_type (ilp2.drop be.1) (be.2 - be.1) true).2
    else TypeField.read type save []
  else TypeField.read type ilp []

/-- Lines 957-1005 of `obj_elf_section`, entered with the pointer at the
quote that opens the flag string: the flag letters and the type. -/
def section_letters (rd : Reader) (l : SectionLocals) : SectionProgress :=
  match rd.demand_copy_C_string l.ilp with
  | (none, _) => SectionProgress.returned l.s
  | (some beg, n) =>
    match obj_elf_parse_section_letters rd.byte_before_string beg with
    | Except.error f => SectionProgress.fatal f
    | Except.ok (attr, is_clone) =>
      match section_type_field rd l.type (l.ilp.drop n) with
      | TypeField.returned => SectionProgress.returned l.s
      | TypeField.read type ilp diags =>
        SectionProgress.letters
          { l with attr := l.attr ||| attr, type := type, ilp := ilp,
                   s := { l.s with diags := l.s.diags ++ diags } }
          is_clone

/-- Lines 957-1107 of `obj_elf_section`: the flags in either syntax. -/
def section_flags (rd : Reader) (l : SectionLocals) : SectionProgress :=
  if peek l.ilp = '"' then section_letters rd l
  else
    match section_words rd l.ilp l.attr l.type l.s with
    | WordsResult.bad s => SectionProgress.returned s
    | WordsResult.done ilp attr type s =>
      SectionProgress.done { l with ilp := ilp, attr := attr, type := type, s := s }

/-- Lines 906-1005 and 1084-1108 of `obj_elf_section`: everything up to the
entity size of the second syntax, or up to the label `done` when the
directive has no flag string. -/
def section_head (rd : Reader) (opts : Options) (push : Int) (s : State)
    (ilp : List Char) : SectionProgress :=
  if opts.flag_mri then
    SectionProgress.returned
      (opts.s_mri_sect
        { s with previous_section := some s.now_seg,
                 previous_subsection := s.now_subseg })
  else
    match obj_elf_section_name rd opts s ilp with
    | NameResult.no_result => SectionProgress.no_result
    | NameResult.null _ s1 => SectionProgress.returned s1
    | NameResult.name name ilp1 s1 =>
      let l : SectionLocals :=
        { name := String.mk name, type := SHT_NULL, attr := 0, entsize := 0,
          group_name := none, linkonce := 0, new_subsection := -1, info := 0,
          ilp := ilp1, s := s1 }
      if peek ilp1 = ',' then
        let ilp2 := SKIP_WHITESPACE ilp1.tail
        if push ≠ 0 ∧ ISDIGIT (peek ilp2) = true then
          let e := rd.get_absolute_expression ilp2
          let ilp3 := SKIP_WHITESPACE (ilp2.drop e.2)
          if peek ilp3 ≠ ',' then
            SectionProgress.done { l with new_subsection := to_int e.1, ilp := ilp3 }
          else
            section_flags rd
              { l with new_subsection := to_int e.1, ilp := SKIP_WHITESPACE ilp3.tail }
        else section_flags rd { l with ilp := ilp2 }
      else SectionProgress.done l

/-- Lines 1007-1025 of `obj_elf_section`: the entity size of a section with
the MERGE flag. -/
def section_merge (rd : Reader) (l0 : SectionLocals) : SectionLocals :=
  let l := { l0 with ilp := SKIP_WHITESPACE l0.ilp }
  if l.attr &&& SHF_MERGE ≠ 0 ∧ peek l.ilp = ',' then
    let ilp1 := SKIP_WHITESPACE l.ilp.tail
    let e := rd.get_absolute_expression ilp1
    let entsize := to_int e.1
    let ilp2 := SKIP_WHITESPACE (ilp1.drop e.2)
    if entsize < 0 then
      { l with ilp := ilp2, s := l.s.warn Message.invalid_merge_entity_size,
               attr := andNot l.attr SHF_MERGE, entsize := 0 }
    else { l with ilp := ilp2, entsize := entsize }
  else if l.attr &&& SHF_MERGE ≠ 0 then
    { l with s := l.s.warn Message.entity_size_for_SHF_MERGE_not_specified,
             attr := andNot l.attr SHF_MERGE }
  else l

/-- Lines 1027-1031 of `obj_elf_section`: the clone marker is dropped, with
a warning, when the GROUP flag is present. -/
def section_clone_marker (l : SectionLocals) (is_clone : Bool) :
    SectionLocals × Bool :=
  if l.attr &&& SHF_GROUP ≠ 0 ∧ is_clone = true then
    ({ l with s := l.s.warn Message.clone_flag_ignored_with_G_present }, false)
  else (l, is_clone)

/-- Lines 1032-1055 of `obj_elf_section`: the group name of a section with
the GROUP flag; none when the reading of the name does not end. -/
def section_group (rd : Reader) (opts : Options) (l : SectionLocals) :
    Option SectionLocals :=
  if l.attr &&& SHF_GROUP ≠ 0 ∧ peek l.ilp = ',' then
    match obj_elf_section_name rd opts l.s l.ilp.tail with
    | NameResult.no_result => none
    | NameResult.null ilp1 s1 =>
      some { l with ilp := ilp1, s := s1, attr := andNot l.attr SHF_GROUP }
    | NameResult.name g ilp1 s1 =>
      if peek ilp1 = ',' then
        let ilp2 := SKIP_WHITESPACE ilp1.tail
        if ilp2.take 6 = "comdat".data then
          some { l with ilp := ilp2.drop 6, s := s1, group_name := some (String.mk g),
                        linkonce := 1 }
        else
          some { l with ilp := ilp2, s := s1, group_name := some (String.mk g) }
      else if l.name.data.take 13 = ".gnu.linkonce".data then
        some { l with ilp := ilp1, s := s1, group_name := some (String.mk g),
                      linkonce := 1 }
      else
        some { l with ilp := ilp1, s := s1, group_name := some (String.mk g) }
  else if l.attr &&& SHF_GROUP ≠ 0 then
    some { l with s := l.s.warn Message.group_name_for_SHF_GROUP_not_specified,
                  attr := andNot l.attr SHF_GROUP }
  else some l

/-- Lines 1057-1065 of `obj_elf_section`: with the clone marker, the group
name and the link-once marker are those of the current section. -/
def section_clone (l : SectionLocals) (is_clone : Bool) : SectionLocals :=
  if is_clone then
    match elf_group_name l.s l.s.now_seg with
    | some now_group =>
      { l with
        group_name := some now_group,
        linkonce :=
          match l.s.sec? l.s.now_seg with
          | some x => if x.flags &&& SEC_LINK_ONCE ≠ 0 then 1 else 0
          | none => 0 }
    | none => l
  else l

/-- Lines 1067-1082 of `obj_elf_section`: the `sh_info` field of a section
with the GNU_MBIND flag. -/
def section_mbind (l : SectionLocals) : SectionLocals :=
  if l.attr &&& SHF_GNU_MBIND ≠ 0 ∧ peek l.ilp = ',' then
    let ilp1 := SKIP_WHITESPACE l.ilp.tail
    if ISDIGIT (peek ilp1) then
      let info := (strtoul ilp1).1 % 4294967296
      if info = 4294967295 then
        { l with ilp := ilp1.drop (strtoul ilp1).2,
                 s := l.s.warn Message.unsupported_mbind_section_info, info := 0 }
      else { l with ilp := ilp1.drop (strtoul ilp1).2, info := info }
    else { l with ilp := ilp1 }
  else l

/-- What `obj_elf_section` does before line 1113: it returns, or it does not
come to an end, or it ends in `as_fatal`, or it calls
`obj_elf_change_section` with the arguments `a`, in the state `s`, and has
read the subsection number `new_subsection`. -/
inductive SectionResult where
  | returned (s : State)
  | no_result
  | fatal (f : Fatal)
  | call (a : ChangeArgs) (new_subsection : Int) (s : State)
deriving DecidableEq

/-- Lines 1110-1113 of `obj_elf_section`: the end of the line is checked and
the call is made. -/
def section_done (rd : Reader) (push : Int) (l : SectionLocals) : SectionResult :=
  SectionResult.call (l.args push) l.new_subsection
    (if rd.junk_at_end_of_line l.ilp then l.s.bad Message.junk_at_end_of_line else l.s)

/-- Lines 1007-1083 of `obj_elf_section`: what follows the flag string and
the type in the second syntax. -/
def section_tail (rd : Reader) (opts : Options) (l : SectionLocals)
    (is_clone : Bool) : Option SectionLocals :=
  let m := section_clone_marker (section_merge rd l) is_clone
  match section_group rd opts m.1 with
  | none => none
  | some l1 => some (section_mbind (section_clone l1 m.2))

/-- The function `obj_elf_section` up to its call of
`obj_elf_change_section`. -/
def obj_elf_section_parse (rd : Reader) (opts : Options) (push : Int) (s : State)
    (ilp : List Char) : SectionResult :=
  match section_head rd opts push s ilp with
  | SectionProgress.returned s1 => SectionResult.returned s1
  | SectionProgress.no_result => SectionResult.no_result
  | SectionProgress.fatal f => SectionResult.fatal f
  | SectionProgress.done l => section_done rd push l
  | SectionProgress.letters l is_clone =>
    match section_tail rd opts l is_clone with
    | none => SectionResult.no_result
    | some l1 => section_done rd push l1

/-- The function `obj_elf_section`; none when it does not come to an end
within the bound on the substitution loop. -/
def obj_elf_section (rd : Reader) (opts : Options) (bed : Backend) (push : Int)
    (s : State) (ilp : List Char) : Option (Except Fatal State) :=
  match obj_elf_section_parse rd opts push s ilp with
  | SectionResult.returned s1 => some (Except.ok s1)
  | SectionResult.no_result => none
  | SectionResult.fatal f => some (Except.error f)
  | SectionResult.call a new_subsection s1 =>
    match obj_elf_change_section bed a s1 with
    | Except.error f => some (Except.error f)
    | Except.ok s2 =>
      if push ≠ 0 ∧ new_subsection ≠ -1 then
        some (Except.ok (subseg_set s2 s2.now_seg new_subsection))
      else some (Except.ok s2)

/-- The warning of line 1023. -/
def merge_warning : Diag :=
  Diag.as_warn Message.entity_size_for_SHF_MERGE_not_specified

/-- The key under which a section is registered: its name, its group name
and its `sh_info` field. -/
def section_key (sec : asection) : String × Option String × Nat :=
  (sec.name, sec.group_name, sec.sh_info)

/-- No two sections of the list have the same key. -/
def unique_keys (secs : List asection) : Prop :=
  (secs.map section_key).Nodup

/-! ## The flag letters, as the specification describes them -/

/-- The recognised flag letters: a, e, w, x, M, S, G, T, d and the clone
marker. -/
def is_flag_letter (c : Char) : Bool :=
  c = 'a' || c = 'e' || c = 'w' || c = 'x' || c = 'M' || c = 'S' || c = 'G'
    || c = 'T' || c = 'd' || c = '?'

/-- The bit of a flag letter; the clone marker and every other character
have none. -/
def letter_bit (c : Char) : Nat :=
  if c = 'a' then SHF_ALLOC
  else if c = 'e' then SHF_EXCLUDE
  else if c = 'w' then SHF_WRITE
  else if c = 'x' then SHF_EXECINSTR
  else if c = 'M' then SHF_MERGE
  else if c = 'S' then SHF_STRINGS
  else if c = 'G' then SHF_GROUP
  else if c = 'T' then SHF_TLS
  else if c = 'd' then SHF_GNU_MBIND
  else 0

/-- The bitwise OR of the bits of the letters of a flag string. -/
def letters_value (str : List Char) : Nat :=
  str.foldl (fun v c => v ||| letter_bit c) 0

/-- The bits of the nine flag letters, in the order a, e, w, x, M, S, G, T,
d. -/
def letter_bits : List Nat :=
  [SHF_ALLOC, SHF_EXCLUDE, SHF_WRITE, SHF_EXECINSTR, SHF_MERGE, SHF_STRINGS,
   SHF_GROUP, SHF_TLS, SHF_GNU_MBIND]

/-- The decimal value of a string of decimal digits. -/
def decimal_value (str : List Char) : Nat :=
  str.foldl (fun v c => v * 10 + (c.toNat - 48)) 0

/-- The character before position `k` of a text whose first character
follows `prev` in memory. -/
def char_before : Char → Nat → List Char → Char
  | prev, _, [] => prev
  | prev, 0, _ :: _ => prev
  | _, k + 1, c :: rest => char_before c k rest

/-- The flag strings in which every character is a recognised flag letter,
or belongs to a number, or belongs to one of the compatibility forms `am`
and `ams`.  `Recognised prev str` says so of the text `str` that follows the
character `prev`: the text is empty; or it begins with a flag letter; or it
begins with an `m` that directly follows an `a`, with an `s` directly after
it or without; or it begins with a number, which is what `strtoul` reads
from a digit on; and what comes after is recognised in its turn. -/
inductive Recognised : Char → List Char → Prop where
  | nil (prev : Char) : Recognised prev []
  | letter (prev c : Char) (rest : List Char) :
      is_flag_letter c = true → Recognised c rest → Recognised prev (c :: rest)
  | compat_m (rest : List Char) :
      rest.head? ≠ some 's' → Recognised 'm' rest → Recognised 'a' ('m' :: rest)
  | compat_ms (rest : List Char) :
      Recognised 's' rest → Recognised 'a' ('m' :: 's' :: rest)
  | number (prev c : Char) (rest : List Char) :
      ISDIGIT c = true →
      Recognised (char_before c ((strtoul (c :: rest)).2 - 1) rest)
        (rest.drop ((strtoul (c :: rest)).2 - 1)) →
      Recognised prev (c :: rest)

/-- The names of the fixed table of section types. -/
def section_type_names : List (List Char) :=
  ["progbits".data, "nobits".data, "note".data, "init_array".data,
   "fini_array".data, "preinit_array".data]

/-- The explicit flags, without the bits reserved for the operating system
and the processor and without the bits from bit 32 up, hold a flag that is
not among the flags of the special-section entry (the test of lines
554-555, whose mask `~(SHF_MASKOS | SHF_MASKPROC)` is an `unsigned int`). -/
def extra_flags (e : bfd_elf_special_section) (attr : Nat) : Prop :=
  andNot (attr &&& not_unsigned (SHF_MASKOS ||| SHF_MASKPROC)) e.attr ≠ 0

instance (e : bfd_elf_special_section) (attr : Nat) : Decidable (extra_flags e attr) := by
  unfold extra_flags; infer_instance

/-- The exempt case of a note section: the implicit type is NOTE and the
explicit flags are exactly ALLOC or exactly EXECINSTR. -/
def exempt_note (e : bfd_elf_special_section) (attr : Nat) : Prop :=
  e.type = SHT_NOTE ∧ (attr = SHF_ALLOC ∨ attr = SHF_EXECINSTR)

/-- The exempt case of a name like `.rodata.str`: the entry allows a suffix
after a dot, the name goes on with a dot after the prefix of the entry, and
the only explicit flags that are not flags of the entry are MERGE and
STRINGS. -/
def exempt_suffix (e : bfd_elf_special_section) (name : String) (attr : Nat) : Prop :=
  e.suffix_length = -2 ∧ name.data[e.prefix_length]? = some '.'
    ∧ andNot (andNot (andNot attr e.attr) SHF_MERGE) SHF_STRINGS = 0

/-- The exempt case of `.interp`, `.strtab` and `.symtab`: the explicit
flags are exactly ALLOC. -/
def exempt_alloc (name : String) (attr : Nat) : Prop :=
  attr = SHF_ALLOC ∧ (name = ".interp" ∨ name = ".strtab" ∨ name = ".symtab")

/-- The exempt case of `.note.GNU-stack`: the explicit flags are exactly
EXECINSTR. -/
def exempt_stack (name : String) (attr : Nat) : Prop :=
  attr = SHF_EXECINSTR ∧ name = ".note.GNU-stack"

instance (e : bfd_elf_special_section) (attr : Nat) : Decidable (exempt_note e attr) := by
  unfold exempt_note; infer_instance

instance (e : bfd_elf_special_section) (name : String) (attr : Nat) :
    Decidable (exempt_suffix e name attr) := by
  unfold exempt_suffix; infer_instance

instance (name : String) (attr : Nat) : Decidable (exempt_alloc name attr) := by
  unfold exempt_alloc; infer_instance

instance (name : String) (attr : Nat) : Decidable (exempt_stack name attr) := by
  unfold exempt_stack; infer_instance

/-- The value of `attr` when `obj_elf_change_section` reaches the test of
line 596: the explicit flags after the special-section block of lines
515-594. -/
def effective_flags (bed : Backend) (a : ChangeArgs) (s : State) : Nat :=
  (special_section (bed.get_sec_type_attr a.name) a.name a.type a.attr a.group_name
    (bfd_get_section_by_name_if s.sections a.name
      { group_name := a.group_name, info := a.info }).isNone).2.1

/-- The warning of line 1029. -/
def clone_warning : Diag :=
  Diag.as_warn Message.clone_flag_ignored_with_G_present

/-! ## Symbols and the directives that name them -/

/-- A new symbol: undefined, with no attribute set. -/
def symbol_make (name : String) : symbolS :=
  { name := name, bfdsym := none }

/-- Modelled from the spec: `symbol_find_or_make` of symbols.c (create/find
symbols): the position of the symbol of that name in the symbol table; when
there is none, a new symbol of that name, undefined and with no attribute
set, is added at the end of the table. -/
def symbol_find_or_make (syms : List symbolS) (name : String) : Nat × List symbolS :=
  match symbol_find syms name with
  | some i => (i, syms)
  | none => (syms.length, syms ++ [symbol_make name])

/-- The macro `SKIP_WHITESPACE_AFTER_NAME ()`: step over a closing quote and
over one blank. -/
def SKIP_WHITESPACE_AFTER_NAME (ilp : List Char) : List Char :=
  SKIP_WHITESPACE (if peek ilp = '"' then ilp.tail else ilp)

/-- The function `get_sym_from_input_line_and_check`: the position of the
symbol in the table, the pointer after the name, and the state. -/
def get_sym_from_input_line_and_check (rd : Reader) (s : State) (ilp : List Char) :
    Nat × List Char × State :=
  let span := rd.symbol_name ilp
  let name := String.mk ((ilp.drop span.1).take span.2)
  let sym := symbol_find_or_make s.symbols name
  let ilp1 := SKIP_WHITESPACE_AFTER_NAME (ilp.drop (span.1 + span.2))
  let s1 : State := { s with symbols := sym.2 }
  -- there is no symbol name if the pointer has not moved
  if span.2 = 0 ∧ ilp1.length = (ilp.drop (span.1 + span.2)).length then
    (sym.1, ilp1, s1.bad Message.Missing_symbol_name_in_directive)
  else (sym.1, ilp1, s1)

/-- Lines 390-391 of `obj_elf_visibility`: the two assignments to the
`st_other` field, an `unsigned char`. -/
def set_visibility (visibility : Nat) (y : symbolS) : symbolS :=
  { y with st_other := (andNot y.st_other 3 ||| visibility) % 256 }

/-- The loop of `obj_elf_visibility` (lines 383-405) over the names of a
comma-separated list: the state and the pointer after it.  Each round that
goes on has stepped over a comma, so the first argument, which counts the
rounds still allowed, is never used up when it starts above the length of
the line. -/
def visibility_loop (rd : Reader) (visibility : Nat) :
    Nat → State → List Char → State × List Char
  | 0, s, ilp => (s, ilp)
  | rounds + 1, s, ilp =>
    let r := get_sym_from_input_line_and_check rd s ilp
    let s1 : State :=
      { r.2.2 with symbols := modify_nth (set_visibility visibility) r.1 r.2.2.symbols }
    if peek r.2.1 = ',' then
      let ilp2 := SKIP_WHITESPACE r.2.1.tail
      if peek ilp2 = '\n' then (s1, ilp2)
      else visibility_loop rd visibility rounds s1 ilp2
    else (s1, r.2.1)

/-- The function `obj_elf_visibility`, the handler of `.internal`, `.hidden`
and `.protected`. -/
def obj_elf_visibility (rd : Reader) (visibility : Nat) (s : State) (ilp : List Char) :
    State :=
  let r := visibility_loop rd visibility (ilp.length + 1) s ilp
  if rd.junk_at_end_of_line r.2 then r.1.bad Message.junk_at_end_of_line else r.1

/-- The symbol that `symbol_find` finds under a name. -/
def symbol_named (syms : List symbolS) (name : String) : Option symbolS :=
  (first_index (fun y => decide (y.name = name)) syms).map Prod.snd

/-- The names of a comma-separated list of symbols, as the directives
`.internal`, `.hidden`, `.protected` read it: a name, then, as long as a
comma follows that is not the last thing on the line, the next name. -/
def listed_names (rd : Reader) : Nat → List Char → List String
  | 0, _ => []
  | rounds + 1, ilp =>
    let span := rd.symbol_name ilp
    let name := String.mk ((ilp.drop span.1).take span.2)
    let ilp1 := SKIP_WHITESPACE_AFTER_NAME (ilp.drop (span.1 + span.2))
    if peek ilp1 = ',' then
      if peek (SKIP_WHITESPACE ilp1.tail) = '\n' then [name]
      else name :: listed_names rd rounds (SKIP_WHITESPACE ilp1.tail)
    else [name]

/-- Apply `f` to the first symbol of a name, or, when the table has none,
to a new symbol of that name added at its end. -/
def update_named (f : symbolS → symbolS) (name : String) : List symbolS → List symbolS
  | [] => [f (symbol_make name)]
  | y :: ys => if y.name = name then f y :: ys else y :: update_named f name ys

/-- Apply `f` to the symbols of a list of names, one name after the other. -/
def update_all (f : symbolS → symbolS) (names : List String) (syms : List symbolS) :
    List symbolS :=
  names.foldl (fun l n => update_named f n l) syms

/-- One name of a visibility directive: the symbol is found or made and its
visibility is set. -/
def visibility_of_name (visibility : Nat) (syms : List symbolS) (name : String) :
    List symbolS :=
  modify_nth (set_visibility visibility) (symbol_find_or_make syms name).1
    (symbol_find_or_make syms name).2

/-! ## `.size`, `.symver` and `.type` -/

/-- The conversion of an `offsetT` to the unsigned `bfd_vma` (a host whose
`long` has 64 bits). -/
def to_bfd_vma (x : Int) : Nat := (x % 18446744073709551616).toNat

/-- The function `restore_line_pointer` of read.c: the character is put
back, and a closing quote is stepped over. -/
def restore_line_pointer (ilp : List Char) : List Char :=
  if peek ilp = '"' then ilp.tail else ilp

/-- The symbol a pointer into the symbol table points at. -/
def sym_at (syms : List symbolS) (i : Nat) : symbolS :=
  syms[i]?.getD (symbol_make "")

/-- Modelled from the spec: `S_IS_DEFINED` of symbols.c (a symbol that is
not still undefined): the segment of the symbol is not the undefined
section. -/
def S_IS_DEFINED (y : symbolS) : Bool := decide (y.segment ≠ segT.undefined_section)

/-- Modelled from the spec: `S_IS_COMMON` of symbols.c (common-ness): the
segment of the symbol is the common section. -/
def S_IS_COMMON (y : symbolS) : Bool := decide (y.segment = segT.common_section)

/-- The assignments of lines 1765-1778 of `obj_elf_size` to the symbol. -/
def set_size (exp : expressionS) (y : symbolS) : symbolS :=
  if exp.X_op = operatorT.O_constant then
    { y with st_size := to_bfd_vma exp.X_add_number, size := none }
  else { y with size := some exp }

/-- The function `obj_elf_size`. -/
def obj_elf_size (rd : Reader) (s : State) (ilp : List Char) : State :=
  let span := rd.symbol_name ilp
  let name := String.mk ((ilp.drop span.1).take span.2)
  let ilp1 := SKIP_WHITESPACE_AFTER_NAME (ilp.drop (span.1 + span.2))
  if peek ilp1 ≠ ',' then
    s.bad (Message.expected_comma_after_name_in_size_directive name)
  else
    let e := rd.expression ilp1.tail
    let ilp2 := ilp1.tail.drop e.2
    let s1 : State :=
      if e.1.X_op = operatorT.O_absent then
        s.bad Message.missing_expression_in_size_directive
      else s
    let exp : expressionS :=
      if e.1.X_op = operatorT.O_absent then
        { e.1 with X_op := operatorT.O_constant, X_add_number := 0 }
      else e.1
    let sym := symbol_find_or_make s1.symbols name
    let s2 : State := { s1 with symbols := modify_nth (set_size exp) sym.1 sym.2 }
    if rd.junk_at_end_of_line ilp2 then s2.bad Message.junk_at_end_of_line else s2

/-- The function `obj_elf_symver`. -/
def obj_elf_symver (rd : Reader) (s : State) (ilp : List Char) : State :=
  let r := get_sym_from_input_line_and_check rd s ilp
  if peek r.2.1 ≠ ',' then r.2.2.bad Message.expected_comma_after_name_in_symver
  else
    let ilp2 := SKIP_WHITESPACE r.2.1.tail
    let span := rd.versioned_symbol_name ilp2
    let name := String.mk ((ilp2.drop span.1).take span.2)
    let ilp3 := restore_line_pointer (ilp2.drop (span.1 + span.2))
    let sym := sym_at r.2.2.symbols r.1
    if S_IS_COMMON sym then
      r.2.2.bad (Message.cant_be_versioned_to_common_symbol name sym.name)
    else
      match sym.versioned_name with
      | none =>
        let s1 : State :=
          { r.2.2 with
            symbols := modify_nth (fun y => { y with versioned_name := some name }) r.1
              r.2.2.symbols }
        if ELF_VER_CHR ∉ name.data then
          s1.bad (Message.missing_version_name name sym.name)
        else if rd.junk_at_end_of_line ilp3 then s1.bad Message.junk_at_end_of_line
        else s1
      | some versioned_name =>
        if versioned_name ≠ name then
          r.2.2.bad (Message.multiple_versions name versioned_name sym.name)
        else if rd.junk_at_end_of_line ilp3 then r.2.2.bad Message.junk_at_end_of_line
        else r.2.2

/-- The function `obj_elf_type_name`: the name of the type, a run of digits
or a symbol name, and the pointer after it. -/
def obj_elf_type_name (rd : Reader) (ilp : List Char) : String × List Char :=
  if ISDIGIT (peek ilp) then
    (String.mk (ilp.takeWhile ISDIGIT), ilp.dropWhile ISDIGIT)
  else
    (String.mk ((ilp.drop (rd.symbol_name ilp).1).take (rd.symbol_name ilp).2),
     ilp.drop ((rd.symbol_name ilp).1 + (rd.symbol_name ilp).2))

/-- Modelled from the spec: `symbol_clone (sym, 1)` of symbols.c (a symbol
that is still provisional is cloned first to preserve prior bindings): the
clone, a copy of the symbol, takes its place in the symbol table, and the
symbol itself leaves the table. -/
def symbol_clone (s : State) (i : Nat) : State :=
  { s with detached := s.detached ++ [sym_at s.symbols i] }

/-- Lines 1863-1890 of `obj_elf_type`: the type `common`.  The second
component tells whether the symbol was cloned, so that `elfsym` points at
the symbol that left the table, the last of the detached ones. -/
def type_common (s : State) (i : Nat) : State × Bool :=
  let sym := sym_at s.symbols i
  if ¬ S_IS_COMMON sym then
    if sym.volatile then
      let s1 := symbol_clone s i
      ({ s1 with
         symbols := modify_nth
           (fun y => { y with segment := segT.common_section, value := 0, external := true,
                              fr_address := 0, volatile := false }) i s1.symbols },
       true)
    else if S_IS_DEFINED sym ∨ sym.equated then
      (s.bad (Message.symbol_is_already_defined sym.name), false)
    else
      ({ s with
         symbols := modify_nth
           (fun y => { y with segment := segT.common_section, value := 0, external := true })
           i s.symbols },
       false)
  else (s, false)

/-- Lines 1846-1924 of `obj_elf_type`: the BFD flags of a type name, the
state after the checks that go with it, and whether the symbol was cloned. -/
def symbol_type (type_name : String) (s : State) (i : Nat) : Nat × State × Bool :=
  if type_name = "function" ∨ type_name = "2" ∨ type_name = "STT_FUNC" then
    (BSF_FUNCTION, s, false)
  else if type_name = "object" ∨ type_name = "1" ∨ type_name = "STT_OBJECT" then
    (BSF_OBJECT, s, false)
  else if type_name = "tls_object" ∨ type_name = "6" ∨ type_name = "STT_TLS" then
    (BSF_OBJECT ||| BSF_THREAD_LOCAL, s, false)
  else if type_name = "notype" ∨ type_name = "0" ∨ type_name = "STT_NOTYPE" then
    (0, s, false)
  else if type_name = "common" ∨ type_name = "5" ∨ type_name = "STT_COMMON" then
    (BSF_OBJECT, (type_common s i).1, (type_common s i).2)
  else if type_name = "gnu_indirect_function" ∨ type_name = "10"
      ∨ type_name = "STT_GNU_IFUNC" then
    (BSF_FUNCTION ||| BSF_GNU_INDIRECT_FUNCTION,
     if ¬ (s.elf_osabi = ELFOSABI_GNU ∨ s.elf_osabi = ELFOSABI_FREEBSD
          ∨ s.elf_osabi = ELFOSABI_NONE) then
       s.bad (Message.symbol_type_is_supported_only_by_GNU_and_FreeBSD_targets type_name)
     else s,
     false)
  else if type_name = "gnu_unique_object" then
    (BSF_OBJECT ||| BSF_GNU_UNIQUE,
     { (if ¬ (s.elf_osabi = ELFOSABI_GNU ∨ s.elf_osabi = ELFOSABI_NONE) then
          s.bad (Message.symbol_type_is_supported_only_by_GNU_targets type_name)
        else s) with elf_osabi := ELFOSABI_GNU },
     false)
  else (0, s.bad (Message.unrecognized_symbol_type type_name), false)

/-- The function `obj_elf_type`. -/
def obj_elf_type (rd : Reader) (s : State) (ilp : List Char) : State :=
  let r := get_sym_from_input_line_and_check rd s ilp
  let ilp1 := SKIP_WHITESPACE (if peek r.2.1 = ',' then r.2.1.tail else r.2.1)
  let ilp2 :=
    if peek ilp1 = '#' ∨ peek ilp1 = '@' ∨ peek ilp1 = '"' ∨ peek ilp1 = '%' then ilp1.tail
    else ilp1
  let tn := obj_elf_type_name rd ilp2
  let t := symbol_type tn.1 r.2.2 r.1
  let ilp3 := if peek tn.2 = '"' then tn.2.tail else tn.2
  -- `elfsym->symbol.flags |= type`
  let s1 : State :=
    if t.2.2 then
      { t.2.1 with
        detached := modify_nth (fun y => { y with flags := y.flags ||| t.1 })
          (t.2.1.detached.length - 1) t.2.1.detached }
    else
      { t.2.1 with
        symbols := modify_nth (fun y => { y with flags := y.flags ||| t.1 }) r.1
          t.2.1.symbols }
  if rd.junk_at_end_of_line ilp3 then s1.bad Message.junk_at_end_of_line else s1

/-! ## `elf_frob_symbol` -/

/-- Lines 1976-1993 of `elf_frob_symbol`: the pending size expression of the
symbol is resolved and given up.  `resolve_expression` is the function of
that name of expr.c: whether it succeeds, and the expression afterwards. -/
def frob_size (flag_allow_nonconst_size : Bool)
    (resolve_expression : List symbolS → expressionS → Bool × expressionS)
    (i : Nat) (s : State) : State :=
  match (sym_at s.symbols i).size with
  | none => s
  | some size =>
    let r := resolve_expression s.symbols size
    let s1 : State :=
      if r.1 = true ∧ r.2.X_op = operatorT.O_constant then
        { s with
          symbols := modify_nth (fun y => { y with st_size := to_bfd_vma r.2.X_add_number })
            i s.symbols }
      else if !flag_allow_nonconst_size then
        s.bad (Message.size_expression_does_not_evaluate_to_a_constant
          (sym_at s.symbols i).name)
      else
        s.warn (Message.size_expression_does_not_evaluate_to_a_constant
          (sym_at s.symbols i).name)
    { s1 with symbols := modify_nth (fun y => { y with size := none }) i s1.symbols }

/-- One assignment to the symbol at position `dest` that reads the symbol
at position `src`: `f` gives the new `dest` from `src` and the old `dest`. -/
def assign (src dest : Nat) (f : symbolS → symbolS → symbolS) (syms : List symbolS) :
    List symbolS :=
  modify_nth (f (sym_at syms src)) dest syms

/-- The function `elf_copy_symbol_attributes`, on the symbol table: `dest`
and `src` are positions in it. -/
def elf_copy_symbol_attributes (dest src : Nat) (syms : List symbolS) : List symbolS :=
  syms
    |> assign src dest (fun x y => { y with size := x.size })
    |> assign src dest (fun x y => { y with st_size := x.st_size })
    |> assign src dest
        (fun x y => { y with st_other := ((y.st_other &&& 3) ||| andNot x.st_other 3) % 256 })

/-- Modelled from the spec: `copy_symbol_attributes` of symbols.c (this will
copy over the size information): the attributes the object format copies,
through its hook `elf_copy_symbol_attributes`. -/
def copy_symbol_attributes (dest src : Nat) (syms : List symbolS) : List symbolS :=
  elf_copy_symbol_attributes dest src syms

/-- Lines 2060-2083 of `elf_frob_symbol`: the symbol at `symp2` is made an
alias of the symbol at `symp`, one assignment after the other. -/
def frob_alias (symp symp2 : Nat) (syms : List symbolS) : List symbolS :=
  syms
    |> assign symp symp2 (fun x y => { y with segment := x.segment })
    |> assign symp symp2
        (fun x y => { y with
          value := (x.value + 18446744073709551616 - x.fr_address % 18446744073709551616)
                    % 18446744073709551616 })
    |> assign symp symp2 (fun x y => { y with fr_address := x.fr_address })
    |> copy_symbol_attributes symp2 symp
    |> assign symp symp2 (fun x y => { y with st_other := x.st_other })
    |> assign symp symp2 (fun x y => if x.weak then { y with weak := true } else y)
    |> assign symp symp2 (fun x y => if x.external then { y with external := true } else y)

/-- The fields of a symbol that making an alias of it leaves alone: its
name, its segment, its size and pending size expression, its versioned name
and the marks weak and external. -/
def kept_fields (y : symbolS) :
    String × segT × Nat × Option expressionS × Option String × Bool × Bool :=
  (y.name, y.segment, y.st_size, y.size, y.versioned_name, y.weak, y.external)

/-- Lines 1995-2084 of `elf_frob_symbol`: the versioned name of the symbol.
The result is the state, the value of `*puntp` and whether the function has
returned. -/
def frob_version (i : Nat) (punt : Bool) (s : State) : State × Bool × Bool :=
  match (sym_at s.symbols i).versioned_name with
  | none => (s, punt, false)
  | some versioned_name =>
    -- `p` is what follows the first separator
    let p := (versioned_name.data.dropWhile (fun c => c ≠ ELF_VER_CHR)).tail
    if ELF_VER_CHR ∉ versioned_name.data then (s, true, false)
    else if ¬ S_IS_DEFINED (sym_at s.symbols i) then
      let s1 : State :=
        if peek p = ELF_VER_CHR then
          s.bad (Message.invalid_attempt_to_declare_external_version_name_as_default
            versioned_name)
        else s
      ({ s1 with
         symbols := modify_nth (fun y => { y with name := versioned_name }) i s1.symbols },
       punt || decide (peek p = ELF_VER_CHR), false)
    else if peek p = ELF_VER_CHR ∧ peek p.tail = ELF_VER_CHR then
      let renamed := String.mk
        (versioned_name.data.takeWhile (fun c => c ≠ ELF_VER_CHR)
          ++ ELF_VER_CHR :: ELF_VER_CHR :: p.tail.tail)
      ({ s with
         symbols := modify_nth
           (fun y => { y with versioned_name := some renamed, name := renamed }) i
           s.symbols },
       punt, false)
    else
      let symp2 := symbol_find_or_make s.symbols versioned_name
      let s1 : State := { s with symbols := symp2.2 }
      if S_IS_COMMON (sym_at s1.symbols i) then
        (s1.bad (Message.cant_be_versioned_to_common_symbol versioned_name
           (sym_at s1.symbols i).name),
         true, true)
      else ({ s1 with symbols := frob_alias i symp2.1 s1.symbols }, punt, false)

/-- Lines 2086-2092 of `elf_frob_symbol`: a weak symbol must not be
common. -/
def frob_weak (i : Nat) (s : State) : State :=
  if (sym_at s.symbols i).weak ∧ S_IS_COMMON (sym_at s.symbols i) then
    s.bad (Message.can_not_be_both_weak_and_common (sym_at s.symbols i).name)
  else s

/-- The function `elf_frob_symbol` on the symbol at position `i` of the
symbol table: the state and the value of `*puntp` afterwards. -/
def elf_frob_symbol (flag_allow_nonconst_size : Bool)
    (resolve_expression : List symbolS → expressionS → Bool × expressionS)
    (i : Nat) (punt : Bool) (s : State) : State × Bool :=
  let r := frob_version i punt (frob_size flag_allow_nonconst_size resolve_expression i s)
  if r.2.2 then (r.1, r.2.1) else (frob_weak i r.1, r.2.1)

/-- A run of `.symver` directives, one line of operands after the other. -/
def symver_directives (rd : Reader) (lines : List (List Char)) (s : State) : State :=
  lines.foldl (fun s1 ilp => obj_elf_symver rd s1 ilp) s

/-- Every versioned name in the symbol table contains the version separator,
or the error about its missing version has been reported. -/
def versioned_names_checked (s : State) : Prop :=
  ∀ y ∈ s.symbols, ∀ v, y.versioned_name = some v →
    ELF_VER_CHR ∈ v.data ∨ Diag.as_bad (Message.missing_version_name v y.name) ∈ s.diags

/-! ## Section groups -/

/-- Modelled from the spec: `hash_find` of hash.c (maps group name to index
in head array): the index stored under the name, if any. -/
def hash_find (indexes : List (String × Nat)) (key : String) : Option Nat :=
  (indexes.find? (fun e => decide (e.1 = key))).map Prod.snd

/-- Modelled from the spec: `hash_insert` of hash.c (add index to hash): the
index is stored under the name. -/
def hash_insert (indexes : List (String × Nat)) (key : String) (value : Nat) :
    List (String × Nat) :=
  indexes ++ [(key, value)]

/-- The function `build_group_lists`, called for the section at position
`sec` of the output file. -/
def build_group_lists (s : State) (sec : Nat) : State :=
  match elf_group_name s (segT.reg sec) with
  | none => s
  | some group_name =>
    match hash_find s.groups.indexes group_name with
    | some elem_idx =>
      { s with
        sections := modify_nth
          (fun x => { x with next_in_group := s.groups.head[elem_idx]? }) sec s.sections,
        groups := { s.groups with head := s.groups.head.set elem_idx sec } }
    | none =>
      { s with
        groups :=
          { head := s.groups.head ++ [sec],
            indexes := hash_insert s.groups.indexes group_name s.groups.head.length } }

/-- Modelled from the spec: `bfd_map_over_sections` of BFD (for every
registered section): the function is called for every section of the output
file, in the order of registration. -/
def bfd_map_over_sections (f : State → Nat → State) (s : State) : State :=
  (List.range s.sections.length).foldl f s

/-- The loop of lines 2178-2188 of `elf_adjust_symtab` over the members of a
group: the flags of the control section and whether the warning is given;
none when the loop has not ended after the given number of rounds. -/
def group_flags (secs : List asection) (head : Nat) :
    Nat → Option Nat → Nat → Option (Nat × Bool)
  | 0, _, _ => none
  | _ + 1, none, flags => some (flags, false)
  | rounds + 1, some k, flags =>
    if ((sec_at secs k).flags ^^^ flags) &&& SEC_LINK_ONCE ≠ 0 then
      if k ≠ head then
        some (flags ||| SEC_LINK_ONCE ||| SEC_LINK_DUPLICATES_DISCARD, true)
      else
        group_flags secs head rounds (sec_at secs k).next_in_group
          (flags ||| SEC_LINK_ONCE ||| SEC_LINK_DUPLICATES_DISCARD)
    else group_flags secs head rounds (sec_at secs k).next_in_group flags

/-- Modelled from the spec: `symbol_find_exact` of symbols.c (find a symbol
by name): the position of the symbol of that name in the symbol table. -/
def symbol_find_exact (syms : List symbolS) (name : String) : Option Nat :=
  symbol_find syms name

/-- Lines 2207-2228 of `elf_adjust_symtab`: the signature symbol of a group.
A symbol of the name of the group is used when the table has one that is
its last symbol or is not kept as a local symbol structure (in the table,
a list, every symbol but the last has a next symbol whose previous symbol
it is); else a symbol is made with `symbol_new`, marked local and put at
the end of the table.  The result is the table and the position of the
symbol. -/
def group_signature (syms : List symbolS) (group_name : String) (now_seg : segT) :
    List symbolS × Nat :=
  match symbol_find_exact syms group_name with
  | some sy =>
    if sy ≠ syms.length - 1 ∧ (sym_at syms sy).sy_local_symbol = true then
      (syms ++ [{ name := group_name, bfdsym := none, segment := now_seg, value := 0,
                  obj_local := true }],
       syms.length)
    else (syms, sy)
  | none =>
    (syms ++ [{ name := group_name, bfdsym := none, segment := now_seg, value := 0,
                obj_local := true }],
     syms.length)

/-- One round of the loop of lines 2170-2229 of `elf_adjust_symtab`: the
control section of the group at position `i` of `groups.head`; none when
the loop over the members does not end. -/
def adjust_group (s : State) (i : Nat) : Option State :=
  let head := s.groups.head.getD i 0
  let group_name := (elf_group_name s (segT.reg head)).getD ""
  match group_flags s.sections head (s.sections.length + 1) (some head)
      (SEC_READONLY ||| SEC_HAS_CONTENTS ||| SEC_IN_MEMORY ||| SEC_GROUP) with
  | none => none
  | some (flags, warned) =>
    let s1 : State :=
      if warned then s.warn (Message.assuming_all_members_of_group_are_COMDAT group_name)
      else s
    let made := subseg_force_new s1 ".group" 0
    let sy := group_signature made.2.symbols group_name made.2.now_seg
    some
      { made.2 with
        sections :=
          modify_nth (fun x => { x with sec_group := some made.1 }) head
            (modify_nth
              (fun x => { x with flags := flags, alignment_power := 2, sh_type := SHT_GROUP,
                                 next_in_group := some head, group_id := some sy.2 })
              made.1 made.2.sections),
        symbols := sy.1 }

/-- The loop of `elf_adjust_symtab` over the groups `i`, `i + 1`, ... -/
def adjust_groups : Nat → Nat → State → Option State
  | 0, _, s => some s
  | n + 1, i, s =>
    match adjust_group s i with
    | none => none
    | some s1 => adjust_groups n (i + 1) s1

/-- The function `elf_adjust_symtab`; none when it does not come to an
end. -/
def elf_adjust_symtab (s : State) : Option State :=
  let s1 := bfd_map_over_sections build_group_lists
    { s with groups := { head := [], indexes := [] } }
  adjust_groups s1.groups.head.length 0 s1

/-- The loop of lines 2300-2301 of `elf_frob_file_after_relocs` over the
members of a group: the size of the control section; none when the loop has
not ended after the given number of rounds. -/
def group_size (secs : List asection) : Nat → Option Nat → Nat → Option Nat
  | 0, _, _ => none
  | _ + 1, none, size => some size
  | rounds + 1, some k, size =>
    group_size secs rounds (sec_at secs k).next_in_group
      (size + (if (sec_at secs k).flags &&& SEC_RELOC ≠ 0 then 8 else 4))

/-- One round of the loop of lines 2293-2310 of `elf_frob_file_after_relocs`:
the size of the control section of the group at position `i`. -/
def frob_group (s : State) (i : Nat) : Option State :=
  let head := s.groups.head.getD i 0
  match group_size s.sections (s.sections.length + 1) (some head) 4 with
  | none => none
  | some size =>
    let group := (sec_at s.sections head).sec_group.getD 0
    some
      { subseg_set s (segT.reg group) 0 with
        sections := modify_nth (fun x => { x with size := size }) group s.sections }

/-- The loop of `elf_frob_file_after_relocs` over the groups `i`, `i + 1`,
... -/
def frob_groups : Nat → Nat → State → Option State
  | 0, _, s => some s
  | n + 1, i, s =>
    match frob_group s i with
    | none => none
    | some s1 => frob_groups n (i + 1) s1

/-- The function `elf_frob_file_after_relocs`; none when it does not come to
an end. -/
def elf_frob_file_after_relocs (s : State) : Option State :=
  (frob_groups s.groups.head.length 0 s).map
    (fun s1 => { s1 with groups := { s1.groups with indexes := [] } })

/-- The sections reached from a section by the links `elf_next_in_group`,
in the order in which they are reached. -/
inductive Chain (secs : List asection) : Option Nat → List Nat → Prop where
  | nil : Chain secs none []
  | cons (k : Nat) (x : asection) (ms : List Nat) :
      secs[k]? = some x → Chain secs x.next_in_group ms → Chain secs (some k) (k :: ms)

/-- The group name of the section at a position. -/
def group_name_at (secs : List asection) (k : Nat) : Option String :=
  secs[k]?.bind (fun x => x.group_name)

/-- The positions, among the first `n` sections, of the sections that carry
a group name, in the order of registration. -/
def members_upto (secs : List asection) (n : Nat) (g : String) : List Nat :=
  (List.range n).filter (fun k => decide (group_name_at secs k = some g))

/-- The positions of the sections that carry a group name, in the order of
registration. -/
def group_members (secs : List asection) (g : String) : List Nat :=
  members_upto secs secs.length g

/-- The group lists after `build_group_lists` has visited the first `k`
sections of the list `secs0` of sections, as they were before: the sections
differ from `secs0` in their links only, and only among the first `k`; the
hash finds a position in `head` under a name exactly when the section there
carries the name; every list is headed by the last member seen and leads
back through the members of its group to the first; and every group seen
has a list. -/
structure lists_built (secs0 : List asection) (k : Nat) (s : State) : Prop where
  length_eq : s.sections.length = secs0.length
  names : ∀ j, group_name_at s.sections j = group_name_at secs0 j
  untouched : ∀ j, k ≤ j → s.sections[j]? = secs0[j]?
  find_iff : ∀ g idx, hash_find s.groups.indexes g = some idx
    ↔ (idx < s.groups.head.length
        ∧ group_name_at secs0 (s.groups.head.getD idx 0) = some g)
  chain : ∀ i, i < s.groups.head.length →
    ∃ g, group_name_at secs0 (s.groups.head.getD i 0) = some g
      ∧ Chain s.sections (some (s.groups.head.getD i 0)) (members_upto secs0 k g).reverse
  found : ∀ g, members_upto secs0 k g ≠ [] → ∃ idx, hash_find s.groups.indexes g = some idx
  flags : ∀ j, (sec_at s.sections j).flags = (sec_at secs0 j).flags

/-- The state after `elf_adjust_symtab` has made the control sections of the
first `i` groups, `secs1` being the sections and `heads` the heads of the
lists before: the old sections keep their links, group names and flags, and
the control section of group `m` comes `m` places after them, has the name
`.group` and the type `SHT_GROUP`, points at the head of the list, and has
a signature symbol of the name of the group. -/
structure groups_adjusted (secs1 : List asection) (heads : List Nat) (i : Nat)
    (s : State) : Prop where
  length_eq : s.sections.length = secs1.length + i
  heads_eq : s.groups.head = heads
  members : ∀ (j : Nat) (x1 : asection), secs1[j]? = some x1 →
    ∃ x : asection, s.sections[j]? = some x ∧ x.next_in_group = x1.next_in_group
      ∧ x.group_name = x1.group_name ∧ x.flags = x1.flags
  control : ∀ m, m < i →
    ∃ (c : asection) (sy : Nat), s.sections[secs1.length + m]? = some c
      ∧ c.name = ".group" ∧ c.sh_type = SHT_GROUP ∧ c.group_name = none
      ∧ c.next_in_group = some (heads.getD m 0) ∧ c.group_id = some sy
      ∧ sy < s.symbols.length
      ∧ (sym_at s.symbols sy).name = (group_name_at secs1 (heads.getD m 0)).getD ""

/-- The group names of the heads of the group lists, list by list. -/
def head_names (secs : List asection) (heads : List Nat) : List String :=
  heads.map (fun head => (group_name_at secs head).getD "")

/-- Does the section at a position carry the flag `SEC_RELOC`, the test
`(s->flags & SEC_RELOC) != 0` of `elf_frob_file_after_relocs`. -/
def carries_reloc (secs : List asection) (k : Nat) : Bool :=
  decide ((sec_at secs k).flags &&& SEC_RELOC ≠ 0)

/-! ## Recorded attributes -/

/-- An entry of the list `recorded_attributes`
(`struct recorded_attribute_info`), without its link to the next entry. -/
structure recorded_attribute_info where
  vendor : Int
  base : Nat
  mask : Nat
deriving DecidableEq, Repr

/-- The function `record_attribute`, on the list `recorded_attributes`.  The
mask is an `unsigned long` of 64 bits, so that `8 * sizeof (rai->mask)` is
64. -/
def record_attribute (vendor : Int) (tag : Nat)
    (recorded_attributes : List recorded_attribute_info) : List recorded_attribute_info :=
  let base := tag / 64
  let mask := 1 <<< (tag % 64)
  match first_index (fun rai => decide (rai.vendor = vendor ∧ rai.base = base))
      recorded_attributes with
  | some (i, _) =>
    modify_nth (fun rai => { rai with mask := rai.mask ||| mask }) i recorded_attributes
  | none => { vendor := vendor, base := base, mask := mask } :: recorded_attributes

/-- A run of calls of `record_attribute`, each with its vendor and tag. -/
def record_attributes (calls : List (Int × Nat))
    (recorded_attributes : List recorded_attribute_info) : List recorded_attribute_info :=
  calls.foldl (fun l c => record_attribute c.1 c.2 l) recorded_attributes

/-- A vendor and tag are marked as seen: the list has an entry of the vendor
and of the base `tag / 64` in whose mask bit `tag % 64` is set. -/
def attribute_seen (recorded_attributes : List recorded_attribute_info) (vendor : Int)
    (tag : Nat) : Prop :=
  ∃ rai ∈ recorded_attributes,
    rai.vendor = vendor ∧ rai.base = tag / 64 ∧ rai.mask.testBit (tag % 64) = true

/-! ## Runs of section directives -/

/-- A directive that changes the current section, with what it has read
from its line: a call of `obj_elf_change_section` (from `.section` or
`.pushsection`), `.previous`, `.popsection`, `.subsection`, `.data`, `.text`
and `.struct`. -/
inductive Directive where
  | change (a : ChangeArgs)
  | previous
  | popsection
  | subsection (temp : Int)
  | data (data_section : segT) (subseg : Int)
  | text (text_section : segT) (subseg : Int)
  | struct
deriving DecidableEq, Repr

/-- The handler of a directive. -/
def Directive.run (bed : Backend) : Directive → State → Except Fatal State
  | .change a, s => obj_elf_change_section bed a s
  | .previous, s => Except.ok (obj_elf_previous s)
  | .popsection, s => Except.ok (obj_elf_popsection s)
  | .subsection temp, s => Except.ok (obj_elf_subsection temp s)
  | .data data_section subseg, s => Except.ok (obj_elf_data data_section subseg s)
  | .text text_section subseg, s => Except.ok (obj_elf_text text_section subseg s)
  | .struct, s => Except.ok (obj_elf_struct s)

/-- A run of directives, one after the other; a fatal error ends the run. -/
def run_directives (bed : Backend) : List Directive → State → Except Fatal State
  | [], s => Except.ok s
  | d :: rest, s =>
    match d.run bed s with
    | Except.ok s1 => run_directives bed rest s1
    | Except.error e => Except.error e

/-- Is the directive a push: a call of `obj_elf_change_section` with `push`
set. -/
def Directive.is_push : Directive → Bool
  | .change a => decide (a.push ≠ 0)
  | _ => false

/-- Is the directive `.popsection`. -/
def Directive.is_pop : Directive → Bool
  | .popsection => true
  | _ => false

/-- Runs of directives in which every `.popsection` has its push and every
push its `.popsection`. -/
inductive Balanced : List Directive → Prop where
  | nil : Balanced []
  | plain (d : Directive) (rest : List Directive) :
      d.is_push = false → d.is_pop = false → Balanced rest → Balanced (d :: rest)
  | nest (a : ChangeArgs) (inner rest : List Directive) :
      a.push ≠ 0 → Balanced inner → Balanced rest →
      Balanced (Directive.change a :: (inner ++ Directive.popsection :: rest))

/-! ## `elf_frob_file_before_adjust` -/

/-- Lines 2259-2265 of `elf_frob_file_before_adjust`: the versioned name
after the two characters that follow its first separator have been taken
out, which happens when both are separators too. -/
def before_adjust_name (versioned_name : String) : String :=
  -- `p` is what follows the first separator
  let p := (versioned_name.data.dropWhile (fun c => c ≠ ELF_VER_CHR)).tail
  if ELF_VER_CHR ∈ versioned_name.data ∧ peek p = ELF_VER_CHR
      ∧ peek p.tail = ELF_VER_CHR then
    String.mk
      (versioned_name.data.takeWhile (fun c => c ≠ ELF_VER_CHR) ++ ELF_VER_CHR :: p.tail.tail)
  else versioned_name

/-- One round of the loop of `elf_frob_file_before_adjust`: the symbol
afterwards, and whether `symbol_remove` has taken it out of the list. -/
def before_adjust_symbol (symp : symbolS) : symbolS × Bool :=
  if ¬ S_IS_DEFINED symp then
    match symp.versioned_name with
    | some versioned_name =>
      ({ symp with versioned_name := some (before_adjust_name versioned_name) },
       decide (symp.used = false ∧ symp.used_in_reloc = false))
    | none =>
      (symp, decide (symp.weak = true ∧ symp.used = false ∧ symp.used_in_reloc = false))
  else (symp, false)

/-- The loop of `elf_frob_file_before_adjust` over the list of symbols.
Modelled from the spec: `symbol_remove` of symbols.c (remove symbols): the
symbol leaves the list, the others keep their order. -/
def before_adjust_loop : List symbolS → List symbolS
  | [] => []
  | symp :: rest =>
    if (before_adjust_symbol symp).2 then before_adjust_loop rest
    else (before_adjust_symbol symp).1 :: before_adjust_loop rest

/-- The function `elf_frob_file_before_adjust`. -/
def elf_frob_file_before_adjust (s : State) : State :=
  { s with symbols := before_adjust_loop s.symbols }

/-- A symbol is undefined, is neither used nor used in a relocation, and
either carries a versioned name or is weak. -/
def unneeded (y : symbolS) : Bool :=
  !S_IS_DEFINED y && !y.used && !y.used_in_reloc && (y.versioned_name.isSome || y.weak)

/-! ## The bits of a symbol type -/

/-- Is the section at a position link-once: the flag `SEC_LINK_ONCE` is
among its flags. -/
def link_once (secs : List asection) (k : Nat) : Bool :=
  decide ((sec_at secs k).flags &&& SEC_LINK_ONCE ≠ 0)

/-- The flags of the control section of a group with the given members:
read-only, has-contents, in-memory and GROUP, and link-once, with
duplicates discarded, when a member is link-once. -/
def control_flags (secs : List asection) (ms : List Nat) : Nat :=
  if ms.any (link_once secs) then
    SEC_READONLY ||| SEC_HAS_CONTENTS ||| SEC_IN_MEMORY ||| SEC_GROUP
      ||| SEC_LINK_ONCE ||| SEC_LINK_DUPLICATES_DISCARD
  else SEC_READONLY ||| SEC_HAS_CONTENTS ||| SEC_IN_MEMORY ||| SEC_GROUP

/-- The members of a group disagree on being link-once: one is and one is
not. -/
def members_disagree (secs : List asection) (ms : List Nat) : Bool :=
  ms.any (link_once secs) && ms.any (fun k => !link_once secs k)

/-- The warnings of `elf_adjust_symtab` for the first `k` groups: one for
each group whose members disagree, in the order of the groups. -/
def group_warnings (secs : List asection) (names : List String) (members : Nat → List Nat) :
    Nat → List Diag
  | 0 => []
  | k + 1 =>
    group_warnings secs names members k ++
      (if members_disagree secs (members k) then
         [Diag.as_warn (Message.assuming_all_members_of_group_are_COMDAT (names.getD k ""))]
       else [])

/-- The section the arguments name is declared for the first time: no
section of the name matches the group name and the info (line 533). -/
def first_declaration (a : ChangeArgs) (s : State) : Prop :=
  bfd_get_section_by_name_if s.sections a.name
    { group_name := a.group_name, info := a.info } = none

instance (a : ChangeArgs) (s : State) : Decidable (first_declaration a s) := by
  unfold first_declaration; infer_instance

/-- The flags in which the fatal error looks for GNU_MBIND without ALLOC,
described by cases: the explicit flags alone when the name has no
special-section entry; the explicit flags together with the implicit flags
of the entry when the section is declared for the first time and either the
explicit flags hold no flag outside the implicit ones (among bits 0 to 19),
or the entry is a note section with explicit flags ALLOC or EXECINSTR, or
the name goes on after the prefix of the entry and the only flags outside
the implicit ones are MERGE and STRINGS; and the explicit flags alone in
every other case. -/
def merged_flags (bed : Backend) (a : ChangeArgs) (s : State) : Nat :=
  match bed.get_sec_type_attr a.name with
  | none => a.attr
  | some e =>
    if first_declaration a s
        ∧ (¬ extra_flags e a.attr ∨ exempt_note e a.attr ∨ exempt_suffix e a.name a.attr) then
      a.attr ||| e.attr
    else a.attr

/-! ## Sample data for evaluation -/

/-- Modelled from the spec: `bfd_elf_get_default_section_type` of BFD (the
type inferred later for a section without one): NOBITS for a section that
is allocated and not loaded, PROGBITS otherwise. -/
def default_section_type (flags : Nat) : Nat :=
  if flags &&& SEC_ALLOC ≠ 0 ∧ flags &&& SEC_LOAD = 0 then SHT_NOBITS else SHT_PROGBITS

/-- A back end with a few entries of the generic special-section table. -/
def sample_backend : Backend :=
  { get_sec_type_attr := fun name =>
      if name = ".data" then
        some { prefix_length := 5, suffix_length := -2, type := SHT_PROGBITS,
               attr := SHF_ALLOC ||| SHF_WRITE }
      else if name = ".data1" then
        some { prefix_length := 6, suffix_length := 0, type := SHT_PROGBITS,
               attr := SHF_ALLOC ||| SHF_WRITE }
      else if name = ".init_array" then
        some { prefix_length := 11, suffix_length := -2, type := SHT_INIT_ARRAY,
               attr := SHF_ALLOC ||| SHF_WRITE }
      else none,
    bfd_elf_get_default_section_type := default_section_type }

/-- A reader for plain lines: a string is the text between two quotes,
without escapes; an absolute expression is a decimal number, with a minus
sign or without; a symbol is made of letters, digits, `_`, `.` and `$`; the
rest of a line ends after its newline; a line has junk at its end when
something other than a blank comes before the newline. -/
def sample_reader : Reader :=
  { demand_copy_C_string := fun ilp =>
      match SKIP_WHITESPACE ilp with
      | '"' :: r =>
        if (r.dropWhile (fun c => c ≠ '"')).isEmpty then (none, ilp.length)
        else
          (some (r.takeWhile (fun c => c ≠ '"')),
           (ilp.length - r.length) + (r.takeWhile (fun c => c ≠ '"')).length + 1)
      | _ => (none, 0),
    get_absolute_expression := fun ilp =>
      match ilp with
      | '-' :: r => (- ((scan_digits 10 r 0 0).1 : Int), (scan_digits 10 r 0 0).2 + 1)
      | _ => (((scan_digits 10 ilp 0 0).1 : Int), (scan_digits 10 ilp 0 0).2),
    get_symbol_name := fun ilp =>
      (0, (ilp.takeWhile
            (fun c => c.isAlphanum || c = '_' || c = '.' || c = '$')).length),
    ignore_rest_of_line := fun ilp =>
      (ilp.takeWhile (fun c => c ≠ '\n')).length + 1,
    junk_at_end_of_line := fun ilp =>
      !(decide (peek (SKIP_WHITESPACE ilp) = '\n')
        || decide (peek (SKIP_WHITESPACE ilp) = Char.ofNat 0)),
    byte_before_string := Char.ofNat 0,
    symbol_name := fun ilp =>
      match ilp with
      | '"' :: r => (1, (r.takeWhile (fun c => c ≠ '"')).length)
      | _ =>
        (0, (ilp.takeWhile
              (fun c => c.isAlphanum || c = '_' || c = '.' || c = '$')).length),
    versioned_symbol_name := fun ilp =>
      match ilp with
      | '"' :: r => (1, (r.takeWhile (fun c => c ≠ '"')).length)
      | _ =>
        (0, (ilp.takeWhile
              (fun c => c.isAlphanum || c = '_' || c = '.' || c = '$' || c = '@')).length),
    expression := fun ilp =>
      match ilp with
      | [] => ({ X_op := operatorT.O_absent }, 0)
      | c :: _ =>
        if ISDIGIT c then
          ({ X_op := operatorT.O_constant,
             X_add_number := ((scan_digits 10 ilp 0 0).1 : Int) },
           (scan_digits 10 ilp 0 0).2)
        else if c.isAlpha || c = '_' || c = '.' then
          ({ X_op := operatorT.O_symbol,
             X_add_symbol :=
               some (String.mk (ilp.takeWhile
                 (fun c => c.isAlphanum || c = '_' || c = '.' || c = '$'))) },
           (ilp.takeWhile
             (fun c => c.isAlphanum || c = '_' || c = '.' || c = '$')).length)
        else ({ X_op := operatorT.O_absent }, 0) }

/-- The options of a plain run: no MRI mode, no `%S` substitution. -/
def sample_options : Options :=
  { flag_mri := false, flag_sectname_subst := false, subst_bound := 0,
    s_mri_sect := fun s => s }

/-- The state at the start of an assembly: the text section exists and is
current, nothing has been pushed and no previous section is remembered. -/
def sample_state : State :=
  { sections :=
      [{ name := ".text", flags := SEC_RELOC ||| SEC_ALLOC ||| SEC_LOAD ||| SEC_READONLY ||| SEC_CODE,
         entsize := 0, sh_type := SHT_PROGBITS, sh_flags := SHF_ALLOC ||| SHF_EXECINSTR,
         sh_info := 0, group_name := none, bss := false }],
    symbols := [{ name := ".text", bfdsym := some (segT.reg 0) }],
    now_seg := segT.reg 0,
    now_subseg := 0,
    previous_section := none,
    previous_subsection := 0,
    section_stack := [],
    diags := [] }

/-- The arguments of `.pushsection .data,"aw"`. -/
def push_data : ChangeArgs :=
  { name := ".data", type := SHT_NULL, info := 0, attr := SHF_ALLOC ||| SHF_WRITE,
    entsize := 0, group_name := none, linkonce := 0, push := 1 }

/-- The arguments of `.pushsection .foo,"ax",@progbits`. -/
def push_foo : ChangeArgs :=
  { name := ".foo", type := SHT_PROGBITS, info := 0, attr := SHF_ALLOC ||| SHF_EXECINSTR,
    entsize := 0, group_name := none, linkonce := 0, push := 1 }

/-- The section `.data` as `.pushsection .data,"aw"` declares it. -/
def data_section_declared : asection :=
  { name := ".data", flags := SEC_RELOC ||| SEC_ALLOC ||| SEC_LOAD, entsize := 0,
    sh_type := SHT_PROGBITS, sh_flags := SHF_ALLOC ||| SHF_WRITE, sh_info := 0,
    group_name := none, bss := false }

/-- The section `.foo` as `.pushsection .foo,"ax",@progbits` declares it. -/
def foo_section_declared : asection :=
  { name := ".foo",
    flags := SEC_RELOC ||| SEC_ALLOC ||| SEC_LOAD ||| SEC_READONLY ||| SEC_CODE,
    entsize := 0, sh_type := SHT_PROGBITS, sh_flags := SHF_ALLOC ||| SHF_EXECINSTR,
    sh_info := 0, group_name := none, bss := false }

/-- The state after `.pushsection .data,"aw"` at the start of an assembly. -/
def state_after_push_data : State :=
  { sample_state with
    sections := sample_state.sections ++ [data_section_declared],
    symbols := sample_state.symbols ++ [{ name := ".data", bfdsym := some (segT.reg 1) }],
    now_seg := segT.reg 1,
    previous_section := some (segT.reg 0),
    section_stack := [{ seg := segT.reg 0, prev_seg := none, subseg := 0, prev_subseg := 0 }] }

/-- The state after `.pushsection .data,"aw"` and
`.pushsection .foo,"ax",@progbits` at the start of an assembly. -/
def state_after_two_pushes : State :=
  { state_after_push_data with
    sections := state_after_push_data.sections ++ [foo_section_declared],
    symbols := state_after_push_data.symbols ++ [{ name := ".foo", bfdsym := some (segT.reg 2) }],
    now_seg := segT.reg 2,
    previous_section := some (segT.reg 1),
    section_stack :=
      [{ seg := segT.reg 1, prev_seg := some (segT.reg 0), subseg := 0, prev_subseg := 0 },
       { seg := segT.reg 0, prev_seg := none, subseg := 0, prev_subseg := 0 }] }

/-- The arguments of `.section .data1,"a"`. -/
def declare_data1 : ChangeArgs :=
  { name := ".data1", type := SHT_NULL, info := 0, attr := SHF_ALLOC,
    entsize := 0, group_name := none, linkonce := 0, push := 0 }

/-- The state after `.section .data1,"a"` at the start of an assembly: the
flags of the special-section entry (ALLOC and WRITE) are those of the new
section. -/
def state_after_data1 : State :=
  { sample_state with
    sections := sample_state.sections ++
      [{ name := ".data1", flags := SEC_RELOC ||| SEC_ALLOC ||| SEC_LOAD, entsize := 0,
         sh_type := SHT_PROGBITS, sh_flags := SHF_ALLOC ||| SHF_WRITE, sh_info := 0,
         group_name := none, bss := false }],
    symbols := sample_state.symbols ++ [{ name := ".data1", bfdsym := some (segT.reg 1) }],
    now_seg := segT.reg 1,
    previous_section := some (segT.reg 0) }

/-- The arguments of `.section .foo,"aw",@progbits`. -/
def declare_foo_aw : ChangeArgs :=
  { name := ".foo", type := SHT_PROGBITS, info := 0, attr := SHF_ALLOC ||| SHF_WRITE,
    entsize := 0, group_name := none, linkonce := 0, push := 0 }

/-- The state after `.section .foo,"aw",@progbits` follows the two pushes. -/
def state_after_foo_aw : State :=
  { state_after_two_pushes with
    previous_section := some (segT.reg 2),
    diags := [Diag.as_warn (Message.ignoring_changed_section_attributes ".foo")] }

/-- The line of `.section .x,"aM",@progbits,0`, after the keyword. -/
def line_merge_zero : List Char := " .x,\"aM\",@progbits,0\n".data

/-- The line of `.section .x,"aM",@progbits` (no entity size). -/
def line_merge_missing : List Char := " .x,\"aM\",@progbits\n".data

/-- The line of `.section .rodata.str,"aMS",@progbits,1`. -/
def line_rodata_str : List Char := " .rodata.str,\"aMS\",@progbits,1\n".data

/-- The line of `.section .text.f,"axG",@progbits,g,comdat`. -/
def line_group_member : List Char := " .text.f,\"axG\",@progbits,g,comdat\n".data

/-- The line of `.section .x,"a?"`. -/
def line_clone : List Char := " .x,\"a?\"\n".data

/-- The state after `.section .text.f,"axG",@progbits,g,comdat` at the start
of an assembly: the current section is a member of the group `g`. -/
def state_in_group : State :=
  { sample_state with
    sections := sample_state.sections ++
      [{ name := ".text.f",
         flags := SEC_RELOC ||| SEC_ALLOC ||| SEC_LOAD ||| SEC_READONLY ||| SEC_CODE
                    ||| SEC_LINK_ONCE,
         entsize := 0, sh_type := SHT_PROGBITS,
         sh_flags := SHF_ALLOC ||| SHF_EXECINSTR ||| SHF_GROUP, sh_info := 0,
         group_name := some "g", bss := false }],
    symbols := sample_state.symbols ++ [{ name := ".text.f", bfdsym := some (segT.reg 1) }],
    now_seg := segT.reg 1,
    previous_section := some (segT.reg 0) }

/-- The local variables of `obj_elf_section` after the flag string and the
type of `.section .rodata.str,"aMS",@progbits,1` have been read. -/
def rodata_str_locals : SectionLocals :=
  { name := ".rodata.str", type := 1, attr := SHF_ALLOC ||| SHF_MERGE ||| SHF_STRINGS,
    entsize := 0, group_name := none, linkonce := 0, new_subsection := -1, info := 0,
    ilp := ",1\n".data, s := sample_state }

/-- The arguments that `.section .rodata.str,"aMS",@progbits,1` hands to
`obj_elf_change_section`. -/
def rodata_str_args : ChangeArgs :=
  { name := ".rodata.str", type := SHT_PROGBITS, info := 0,
    attr := SHF_ALLOC ||| SHF_MERGE ||| SHF_STRINGS, entsize := 1, group_name := none,
    linkonce := 0, push := 0 }

/-- The state after `.section .rodata.str,"aMS",@progbits,1` at the start of
an assembly. -/
def state_after_rodata_str : State :=
  { sample_state with
    sections := sample_state.sections ++
      [{ name := ".rodata.str",
         flags := SEC_RELOC ||| SEC_READONLY ||| SEC_ALLOC ||| SEC_LOAD ||| SEC_MERGE
                    ||| SEC_STRINGS,
         entsize := 1, sh_type := SHT_PROGBITS,
         sh_flags := SHF_ALLOC ||| SHF_MERGE ||| SHF_STRINGS, sh_info := 0,
         group_name := none, bss := false }],
    symbols := sample_state.symbols
      ++ [{ name := ".rodata.str", bfdsym := some (segT.reg 1) }],
    now_seg := segT.reg 1,
    previous_section := some (segT.reg 0) }

/-- The local variables of `obj_elf_section` after the flag string and the
type of `.section .x,"aM",@progbits` have been read. -/
def merge_missing_locals : SectionLocals :=
  { name := ".x", type := 1, attr := SHF_ALLOC ||| SHF_MERGE,
    entsize := 0, group_name := none, linkonce := 0, new_subsection := -1, info := 0,
    ilp := "\n".data, s := sample_state }

/-- The arguments that `.section .x,"aM",@progbits` hands to
`obj_elf_change_section`. -/
def merge_missing_args : ChangeArgs :=
  { name := ".x", type := SHT_PROGBITS, info := 0, attr := SHF_ALLOC, entsize := 0,
    group_name := none, linkonce := 0, push := 0 }

/-- The arguments that `.section .text.f,"axG",@progbits,g,comdat` hands to
`obj_elf_change_section`. -/
def group_member_args : ChangeArgs :=
  { name := ".text.f", type := SHT_PROGBITS, info := 0,
    attr := SHF_ALLOC ||| SHF_EXECINSTR ||| SHF_GROUP, entsize := 0,
    group_name := some "g", linkonce := 1, push := 0 }

/-- A back end with some more entries of the generic special-section
table: `.interp`, `.note.GNU-stack`, the names that begin with `.note`, and
`.rodata` with or without a suffix after a dot. -/
def generic_backend : Backend :=
  { get_sec_type_attr := fun name =>
      if name = ".interp" then
        some { prefix_length := 7, suffix_length := 0, type := SHT_PROGBITS, attr := 0 }
      else if name = ".note.GNU-stack" then
        some { prefix_length := 15, suffix_length := 0, type := SHT_PROGBITS, attr := 0 }
      else if name.data.take 5 = ".note".data then
        some { prefix_length := 5, suffix_length := -1, type := SHT_NOTE, attr := 0 }
      else if name = ".rodata" ∨ name.data.take 8 = ".rodata.".data then
        some { prefix_length := 7, suffix_length := -2, type := SHT_PROGBITS,
               attr := SHF_ALLOC }
      else sample_backend.get_sec_type_attr name,
    bfd_elf_get_default_section_type := default_section_type }

/-- The arguments of `.section .note.foo,"",@progbits`. -/
def declare_note_progbits : ChangeArgs :=
  { name := ".note.foo", type := SHT_PROGBITS, info := 0, attr := 0, entsize := 0,
    group_name := none, linkonce := 0, push := 0 }

/-- The arguments of `.section .data,"aw",@nobits`. -/
def declare_data_nobits : ChangeArgs :=
  { name := ".data", type := SHT_NOBITS, info := 0, attr := SHF_ALLOC ||| SHF_WRITE,
    entsize := 0, group_name := none, linkonce := 0, push := 0 }

/-- The arguments of `.section .init_array,"aw",@progbits`. -/
def declare_init_array_progbits : ChangeArgs :=
  { name := ".init_array", type := SHT_PROGBITS, info := 0,
    attr := SHF_ALLOC ||| SHF_WRITE, entsize := 0, group_name := none, linkonce := 0,
    push := 0 }

/-- The arguments of `.section .data,"ax"`. -/
def declare_data_ax : ChangeArgs :=
  { name := ".data", type := SHT_NULL, info := 0, attr := SHF_ALLOC ||| SHF_EXECINSTR,
    entsize := 0, group_name := none, linkonce := 0, push := 0 }

/-- The state after the first declaration of a section at the start of an
assembly: the section is added after `.text` and is current, and the
diagnostics are the ones given. -/
def state_after_declaring (sec : asection) (diags : List Diag) : State :=
  { sample_state with
    sections := sample_state.sections ++ [sec],
    symbols := sample_state.symbols ++ [{ name := sec.name, bfdsym := some (segT.reg 1) }],
    now_seg := segT.reg 1,
    previous_section := some (segT.reg 0),
    diags := diags }

/-- First declaration of `.note.foo` with the flag letter `a`. -/
def declare_note_alloc : ChangeArgs :=
  { name := ".note.foo", type := SHT_NULL, info := 0, attr := SHF_ALLOC, entsize := 0,
    group_name := none, linkonce := 0, push := 0 }

/-- First declaration of `.rodata.str1.1` with the flag letters `aMS` and the
entity size 1. -/
def declare_rodata_str : ChangeArgs :=
  { name := ".rodata.str1.1", type := SHT_PROGBITS, info := 0,
    attr := SHF_ALLOC ||| SHF_MERGE ||| SHF_STRINGS, entsize := 1,
    group_name := none, linkonce := 0, push := 0 }

/-- First declaration of `.interp` with the flag letter `a`. -/
def declare_interp_alloc : ChangeArgs :=
  { name := ".interp", type := SHT_NULL, info := 0, attr := SHF_ALLOC, entsize := 0,
    group_name := none, linkonce := 0, push := 0 }

/-- First declaration of `.note.GNU-stack` with the flag letter `x`. -/
def declare_gnu_stack_exec : ChangeArgs :=
  { name := ".note.GNU-stack", type := SHT_PROGBITS, info := 0, attr := SHF_EXECINSTR,
    entsize := 0, group_name := none, linkonce := 0, push := 0 }

/-- The arguments of `.section .foo,"d"`. -/
def declare_foo_mbind : ChangeArgs :=
  { name := ".foo", type := SHT_NULL, info := 0, attr := SHF_GNU_MBIND, entsize := 0,
    group_name := none, linkonce := 0, push := 0 }

/-- The arguments of `.section .data,"d"`. -/
def declare_data_mbind : ChangeArgs :=
  { name := ".data", type := SHT_NULL, info := 0, attr := SHF_GNU_MBIND, entsize := 0,
    group_name := none, linkonce := 0, push := 0 }

/-- The arguments of `.section .data,"xd"`. -/
def declare_data_exec_mbind : ChangeArgs :=
  { name := ".data", type := SHT_NULL, info := 0, attr := SHF_EXECINSTR ||| SHF_GNU_MBIND,
    entsize := 0, group_name := none, linkonce := 0, push := 0 }

/-- A line with the clone marker and the GROUP letter in its flag string,
and the group name `h`. -/
def line_clone_group : List Char := " .x,\"aG?\",@progbits,h\n".data

/-- A line with the clone marker and the GROUP letter in its flag string,
and no group name. -/
def line_clone_group_unnamed : List Char := " .x,\"aG?\"\n".data

/-- The operands of `.hidden foo,bar`. -/
def line_foo_bar : List Char := "foo,bar\n".data

/-- The operands of `.size foo,12`. -/
def line_size_constant : List Char := "foo,12\n".data

/-- The operands of `.size foo,bar`. -/
def line_size_symbol : List Char := "foo,bar\n".data

/-- The operands of `.size foo,` with nothing after the comma. -/
def line_size_absent : List Char := "foo,\n".data

/-- A resolver of expressions for the examples: a constant is resolved; a
symbol plus a number is resolved to a constant when the symbol is in the
absolute section; nothing else is. -/
def sample_resolve (syms : List symbolS) (e : expressionS) : Bool × expressionS :=
  match e.X_op with
  | operatorT.O_constant => (true, e)
  | operatorT.O_symbol =>
    match e.X_add_symbol with
    | some n =>
      match symbol_named syms n with
      | some y =>
        if y.segment = segT.absolute_section then
          (true, { X_op := operatorT.O_constant,
                   X_add_number := (y.value : Int) + e.X_add_number })
        else (false, e)
      | none => (false, e)
    | none => (false, e)
  | _ => (false, e)

/-- The state after `.size foo,twelve` and `.size bar,nowhere`, where
`twelve` is the absolute symbol of value 12 and `nowhere` is undefined. -/
def state_pending_sizes : State :=
  { sample_state with
    symbols := sample_state.symbols ++
      [{ name := "foo", bfdsym := none,
         size := some { X_op := operatorT.O_symbol, X_add_symbol := some "twelve" } },
       { name := "twelve", bfdsym := none, segment := segT.absolute_section, value := 12 },
       { name := "bar", bfdsym := none, st_size := 7,
         size := some { X_op := operatorT.O_symbol, X_add_symbol := some "nowhere" } },
       { name := "nowhere", bfdsym := none }] }

/-- The operands of `.symver foo,foo@V1`. -/
def line_symver_v1 : List Char := "foo,foo@V1\n".data

/-- The operands of `.symver foo,foo@V2`. -/
def line_symver_v2 : List Char := "foo,foo@V2\n".data

/-- The operands of `.symver foo,bar`, an alias without a version. -/
def line_symver_unversioned : List Char := "foo,bar\n".data

/-- The state after `.symver foo,foo@V1` at the start of an assembly. -/
def state_foo_v1 : State :=
  { sample_state with
    symbols := sample_state.symbols
      ++ [{ name := "foo", bfdsym := none, versioned_name := some "foo@V1" }] }

/-- A symbol table with the undefined symbols `foo`, versioned `foo@V1`,
and `bar`, versioned `bar@@V1`, and the symbol `baz`, defined in the text
section and versioned `baz@@@V1`. -/
def state_versioned : State :=
  { sample_state with
    symbols := sample_state.symbols ++
      [{ name := "foo", bfdsym := none, versioned_name := some "foo@V1" },
       { name := "bar", bfdsym := none, versioned_name := some "bar@@V1" },
       { name := "baz", bfdsym := none, segment := segT.reg 0, value := 4,
         versioned_name := some "baz@@@V1" }] }

/-- The operands of `.type foo,common`. -/
def line_type_common : List Char := "foo,common\n".data

/-- The operands of `.type foo,@5`. -/
def line_type_five : List Char := "foo,@5\n".data

/-- A symbol table with the symbol `foo` defined in the text section at the
value 4. -/
def state_foo_defined : State :=
  { sample_state with
    symbols := sample_state.symbols
      ++ [{ name := "foo", bfdsym := none, segment := segT.reg 0, value := 4 }] }

/-- A state with three sections: `.text`, and `.text.f` and `.text.h`, both
declared with the group name `g`. -/
def state_two_in_group : State :=
  { state_in_group with
    sections := state_in_group.sections ++
      [{ name := ".text.h",
         flags := SEC_RELOC ||| SEC_ALLOC ||| SEC_LOAD ||| SEC_READONLY ||| SEC_CODE
                    ||| SEC_LINK_ONCE,
         entsize := 0, sh_type := SHT_PROGBITS,
         sh_flags := SHF_ALLOC ||| SHF_EXECINSTR ||| SHF_GROUP, sh_info := 0,
         group_name := some "g", bss := false }],
    symbols := state_in_group.symbols ++ [{ name := ".text.h", bfdsym := some (segT.reg 2) }],
    now_seg := segT.reg 2,
    previous_section := some (segT.reg 1) }

/-- A state with four sections: `.text`, and `.text.f`, `.text.h` and
`.note.k`, all three declared with the group name `g`; the last one does
not carry the flag `SEC_RELOC`. -/
def state_three_in_group : State :=
  { state_two_in_group with
    sections := state_two_in_group.sections ++
      [{ name := ".note.k", flags := SEC_READONLY ||| SEC_LINK_ONCE,
         entsize := 0, sh_type := SHT_NOTE, sh_flags := SHF_GROUP, sh_info := 0,
         group_name := some "g", bss := false }],
    symbols := state_two_in_group.symbols ++ [{ name := ".note.k", bfdsym := some (segT.reg 3) }],
    now_seg := segT.reg 3,
    previous_section := some (segT.reg 2) }

/-- The state after `elf_adjust_symtab` has made the control section of the
group `g` of three members. -/
def state_groups_made : State :=
  (elf_adjust_symtab state_three_in_group).getD state_three_in_group

/-- The arguments of `.section .tbss.x,"awT",@nobits`. -/
def declare_tbss_nobits : ChangeArgs :=
  { name := ".tbss.x", type := SHT_NOBITS, info := 0,
    attr := SHF_ALLOC ||| SHF_WRITE ||| SHF_TLS, entsize := 0, group_name := none,
    linkonce := 0, push := 0 }

/-- The state after `.section .tbss.x,"awT",@nobits` at the start of an
assembly. -/
def state_after_tbss : State :=
  state_after_declaring
    { name := ".tbss.x", flags := SEC_RELOC ||| SEC_ALLOC ||| SEC_THREAD_LOCAL,
      entsize := 0, sh_type := SHT_NOBITS,
      sh_flags := SHF_ALLOC ||| SHF_WRITE ||| SHF_TLS, sh_info := 0,
      group_name := none, bss := true }
    []

/-- The state after `.pushsection .foo,"ax",@progbits`, `.previous`,
`.subsection 1` and `.popsection` follow `.pushsection .data,"aw"`. -/
def state_after_push_pop : State :=
  { state_after_push_data with
    sections := state_after_two_pushes.sections,
    symbols := state_after_two_pushes.symbols }

/-- A symbol table with `.text`; `foo`, undefined and unused, with the
versioned name `foo@@@V1`; `bar`, undefined and used in a relocation, with
the versioned name `bar@@@V1`; `baz`, defined, with the versioned name
`baz@@@V1`; `qux`, undefined, unused and weak; `quux`, undefined and
unused; and `sym`, undefined and used, with the versioned name `sym@V1`. -/
def state_before_adjust : State :=
  { sample_state with
    symbols := sample_state.symbols ++
      [{ name := "foo", bfdsym := none, versioned_name := some "foo@@@V1" },
       { name := "bar", bfdsym := none, used_in_reloc := true,
         versioned_name := some "bar@@@V1" },
       { name := "baz", bfdsym := none, segment := segT.reg 0, value := 4,
         versioned_name := some "baz@@@V1" },
       { name := "qux", bfdsym := none, weak := true },
       { name := "quux", bfdsym := none },
       { name := "sym", bfdsym := none, used := true, versioned_name := some "sym@V1" }] }

/-- The state after `.symver foo,bar` for a symbol `foo` defined in the text
section: the error about the missing version has been reported and `bar` is
the versioned name of `foo`. -/
def state_foo_alias_bar : State :=
  { state_foo_defined with
    symbols := sample_state.symbols
      ++ [{ name := "foo", bfdsym := none, segment := segT.reg 0, value := 4,
            versioned_name := some "bar" }],
    diags := [Diag.as_bad (Message.missing_version_name "bar" "foo")] }

/-- A symbol table with `.text` and `sym`, defined in the text section at
the value 12 in a frag at the address 8, external, hidden, of size 4, with
the versioned name `sym@@V1`. -/
def state_sym_default : State :=
  { sample_state with
    symbols := sample_state.symbols
      ++ [{ name := "sym", bfdsym := none, segment := segT.reg 0, value := 12,
            fr_address := 8, external := true, st_other := STV_HIDDEN, st_size := 4,
            versioned_name := some "sym@@V1" }] }

/-- A symbol table with `.text` and `x`, weak and common. -/
def state_weak_common : State :=
  { sample_state with
    symbols := sample_state.symbols
      ++ [{ name := "x", bfdsym := none, segment := segT.common_section, weak := true }] }

/-- A state with four sections: `.text`, and `.text.f`, `.text.h` and
`.data.g`, all three declared with the group name `g`; the first two are
link-once, the last one is not. -/
def state_mixed_group : State :=
  { state_two_in_group with
    sections := state_two_in_group.sections ++
      [{ name := ".data.g", flags := SEC_RELOC ||| SEC_ALLOC ||| SEC_LOAD,
         entsize := 0, sh_type := SHT_PROGBITS,
         sh_flags := SHF_ALLOC ||| SHF_WRITE ||| SHF_GROUP, sh_info := 0,
         group_name := some "g", bss := false }],
    symbols := state_two_in_group.symbols ++ [{ name := ".data.g", bfdsym := some (segT.reg 3) }],
    now_seg := segT.reg 3,
    previous_section := some (segT.reg 2) }

/-- The state after `.section .data,"d"` at the start of an assembly. -/
def state_after_data_mbind : State :=
  state_after_declaring
    { name := ".data", flags := SEC_RELOC ||| SEC_ALLOC ||| SEC_LOAD,
      entsize := 0, sh_type := SHT_PROGBITS,
      sh_flags := SHF_GNU_MBIND ||| SHF_ALLOC ||| SHF_WRITE, sh_info := 0,
      group_name := none, bss := false }
    []

/-- The arguments that `.section .x,"a?"` hands on in a section of the group
`g`. -/
def clone_args : ChangeArgs :=
  { name := ".x", type := SHT_NULL, info := 0, attr := SHF_ALLOC, entsize := 0,
    group_name := some "g", linkonce := 1, push := 0 }

/-- The arguments of a first declaration of `.data` whose explicit flags
are bit 32 alone. -/
def declare_data_bit32 : ChangeArgs :=
  { name := ".data", type := SHT_NULL, info := 0, attr := 4294967296, entsize := 0,
    group_name := none, linkonce := 0, push := 0 }

/-- The state after that declaration at the start of an assembly. -/
def state_after_data_bit32 : State :=
  state_after_declaring
    { name := ".data", flags := SEC_RELOC ||| SEC_ALLOC ||| SEC_LOAD,
      entsize := 0, sh_type := SHT_PROGBITS,
      sh_flags := 4294967296 ||| SHF_ALLOC ||| SHF_WRITE, sh_info := 0,
      group_name := none, bss := false }
    []

/-- The line of `.section .x,"aM",@progbits,2147483648`. -/
def line_merge_two_pow_31 : List Char := " .x,\"aM\",@progbits,2147483648\n".data

/-- The line of `.section .x,"aM",@progbits,4294967297`. -/
def line_merge_two_pow_32_plus_1 : List Char := " .x,\"aM\",@progbits,4294967297\n".data

/-! # Properties -/

/-! ## Lists -/

theorem modify_nth_length {α : Type} (f : α → α) (n : Nat) (l : List α) :
    (modify_nth f n l).length = l.length := by
  induction l generalizing n with
  | nil => simp [modify_nth]
  | cons x xs ih => cases n <;> simp [modify_nth, ih]

theorem modify_nth_append_last {α : Type} (f : α → α) (l : List α) (x : α) :
    modify_nth f l.length (l ++ [x]) = l ++ [f x] := by
  induction l with
  | nil => simp [modify_nth]
  | cons y ys ih => simp [modify_nth, ih]

theorem modify_nth_get {α : Type} (f : α → α) (n k : Nat) (l : List α) :
    (modify_nth f n l)[k]? = if k = n then l[k]?.map f else l[k]? := by
  induction l generalizing n k with
  | nil => simp [modify_nth]
  | cons x xs ih =>
    cases n with
    | zero => cases k <;> simp [modify_nth]
    | succ n => cases k <;> simp [modify_nth, ih]

theorem modify_nth_fixed {α : Type} (f : α → α) (n : Nat) (l : List α)
    (h : ∀ x, l[n]? = some x → f x = x) : modify_nth f n l = l := by
  induction l generalizing n with
  | nil => simp [modify_nth]
  | cons x xs ih =>
    cases n with
    | zero => simp [modify_nth]; exact h x (by simp)
    | succ n =>
      simp only [modify_nth, List.cons.injEq, true_and]
      exact ih n (fun y hy => h y (by simpa using hy))

theorem first_index_get {α : Type} (p : α → Bool) (l : List α) (i : Nat) (x : α)
    (h : first_index p l = some (i, x)) : l[i]? = some x ∧ p x = true := by
  induction l generalizing i with
  | nil => simp [first_index] at h
  | cons y ys ih =>
    simp only [first_index] at h
    split at h
    · injection h with h; injection h with h1 h2; subst h1; subst h2; simp [*]
    · cases hr : first_index p ys with
      | none => simp [hr] at h
      | some r =>
        obtain ⟨j, z⟩ := r
        simp [hr] at h
        obtain ⟨h1, h2⟩ := h
        subst h1; subst h2
        simpa using ih j hr

theorem first_index_none {α : Type} (p : α → Bool) (l : List α) :
    first_index p l = none ↔ ∀ x ∈ l, p x = false := by
  induction l with
  | nil => simp [first_index]
  | cons y ys ih =>
    by_cases hy : p y = true
    · simp [first_index, hy]
    · simp [first_index, hy, ih]

/-! ## The two cases of `obj_elf_change_section` -/

theorem change_section_new (bed : Backend) (a : ChangeArgs) (s : State)
    (h : bfd_get_section_by_name_if s.sections a.name
          { group_name := a.group_name, info := a.info } = none) :
    obj_elf_change_section bed a s =
      if mbind_without_alloc
          (special_section (bed.get_sec_type_attr a.name) a.name a.type a.attr
            a.group_name true).2.1 then
        Except.error (Fatal.SHF_ALLOC_not_set_for_GNU_MBIND_section a.name)
      else
        Except.ok
          { s with
            sections := s.sections ++
              [declare_section bed a
                (special_section (bed.get_sec_type_attr a.name) a.name a.type a.attr
                  a.group_name true).1
                (special_section (bed.get_sec_type_attr a.name) a.name a.type a.attr
                  a.group_name true).2.1
                (bfd_flags
                  (special_section (bed.get_sec_type_attr a.name) a.name a.type a.attr
                    a.group_name true).2.1
                  (special_section (bed.get_sec_type_attr a.name) a.name a.type a.attr
                    a.group_name true).1 a.linkonce)
                (fresh_section a.name)],
            symbols := add_section_symbol s.symbols a.name (segT.reg s.sections.length),
            now_seg := segT.reg s.sections.length,
            now_subseg := 0,
            previous_section := some s.now_seg,
            previous_subsection := s.now_subseg,
            section_stack := pushed_stack a s,
            diags := s.diags ++
              (special_section (bed.get_sec_type_attr a.name) a.name a.type a.attr
                a.group_name true).2.2 } := by
  by_cases hp : a.push = 0 <;>
    simp [obj_elf_change_section, hp, h, subseg_force_new, mbind_without_alloc,
      pushed_stack, saved_frame, fresh_section, modify_nth_append_last]

theorem change_section_old (bed : Backend) (a : ChangeArgs) (s : State)
    (i : Nat) (old : asection)
    (h : bfd_get_section_by_name_if s.sections a.name
          { group_name := a.group_name, info := a.info } = some (i, old)) :
    obj_elf_change_section bed a s =
      if mbind_without_alloc
          (special_section (bed.get_sec_type_attr a.name) a.name a.type a.attr
            a.group_name false).2.1 then
        Except.error (Fatal.SHF_ALLOC_not_set_for_GNU_MBIND_section a.name)
      else
        Except.ok
          { s with
            sections :=
              modify_nth
                (redeclared_section
                  (special_section (bed.get_sec_type_attr a.name) a.name a.type a.attr
                    a.group_name false).2.1
                  (bfd_flags
                    (special_section (bed.get_sec_type_attr a.name) a.name a.type a.attr
                      a.group_name false).2.1
                    (special_section (bed.get_sec_type_attr a.name) a.name a.type a.attr
                      a.group_name false).1 a.linkonce))
                i s.sections,
            symbols := s.symbols,
            now_seg := segT.reg i,
            now_subseg := 0,
            previous_section := some s.now_seg,
            previous_subsection := s.now_subseg,
            section_stack := pushed_stack a s,
            diags := (s.diags ++
              (special_section (bed.get_sec_type_attr a.name) a.name a.type a.attr
                a.group_name false).2.2) ++
              redeclaration_warnings a
                (special_section (bed.get_sec_type_attr a.name) a.name a.type a.attr
                  a.group_name false).1
                (special_section (bed.get_sec_type_attr a.name) a.name a.type a.attr
                  a.group_name false).2.1
                (bfd_flags
                  (special_section (bed.get_sec_type_attr a.name) a.name a.type a.attr
                    a.group_name false).2.1
                  (special_section (bed.get_sec_type_attr a.name) a.name a.type a.attr
                    a.group_name false).1 a.linkonce)
                old } := by
  by_cases hp : a.push = 0 <;>
    simp [obj_elf_change_section, hp, h, subseg_set, mbind_without_alloc,
      pushed_stack, saved_frame]

/-! ## The context after `obj_elf_change_section` -/

theorem change_section_context (bed : Backend) (a : ChangeArgs) (s s1 : State)
    (h : obj_elf_change_section bed a s = Except.ok s1) :
    s1.section_stack = pushed_stack a s
      ∧ s1.previous_section = some s.now_seg
      ∧ s1.previous_subsection = s.now_subseg
      ∧ s1.now_subseg = 0 := by
  cases hl : bfd_get_section_by_name_if s.sections a.name
      { group_name := a.group_name, info := a.info } with
  | none =>
    rw [change_section_new bed a s hl] at h
    split at h
    · cases h
    · injection h with h; subst h; simp
  | some r =>
    obtain ⟨i, old⟩ := r
    rw [change_section_old bed a s i old hl] at h
    split at h
    · cases h
    · injection h with h; subst h; simp

theorem popsection_cons (s : State) (top : section_stack) (next : List section_stack)
    (h : s.section_stack = top :: next) :
    obj_elf_popsection s =
      { s with section_stack := next,
               previous_section := top.prev_seg,
               previous_subsection := top.prev_subseg,
               now_seg := top.seg,
               now_subseg := top.subseg } := by
  simp [obj_elf_popsection, h, subseg_set]

/-- A run of pushes followed by as many pops restores the current context,
the previous slot and the stack. -/
theorem pushes_then_pops (bed : Backend) (calls : List ChangeArgs) (s s1 : State)
    (hpush : ∀ a ∈ calls, a.push ≠ 0)
    (hrun : run_calls bed calls s = Except.ok s1) :
    (obj_elf_popsection^[calls.length] s1).now_seg = s.now_seg
      ∧ (obj_elf_popsection^[calls.length] s1).now_subseg = s.now_subseg
      ∧ (obj_elf_popsection^[calls.length] s1).previous_section = s.previous_section
      ∧ (obj_elf_popsection^[calls.length] s1).previous_subsection = s.previous_subsection
      ∧ (obj_elf_popsection^[calls.length] s1).section_stack = s.section_stack := by
  induction calls generalizing s with
  | nil =>
    simp only [run_calls] at hrun
    injection hrun with hrun
    subst hrun
    simp
  | cons a rest ih =>
    simp only [run_calls] at hrun
    cases hc : obj_elf_change_section bed a s with
    | error e => simp [hc] at hrun
    | ok s2 =>
      simp only [hc] at hrun
      have hrest := ih s2 (fun b hb => hpush b (List.mem_cons_of_mem a hb)) hrun
      have hctx := change_section_context bed a s s2 hc
      have hp : a.push ≠ 0 := hpush a (List.mem_cons_self a rest)
      have hstack : (obj_elf_popsection^[rest.length] s1).section_stack
          = saved_frame s :: s.section_stack := by
        rw [hrest.2.2.2.2, hctx.1]; simp [pushed_stack, hp]
      rw [List.length_cons, Function.iterate_succ_apply']
      rw [popsection_cons _ _ _ hstack]
      simp [saved_frame]

/-! ## Section stack and previous slot -/

/-- C1: n calls of `obj_elf_change_section` with push set, to arbitrary
sections, followed by n calls of `obj_elf_popsection` leave the current
section, the current subsection and the section stack as they were before
the first push.  (The calls are calls that return: a fatal error ends the
assembly.) -/
theorem C1_pushes_then_pops_restore (bed : Backend) (calls : List ChangeArgs)
    (s s1 : State)
    (hpush : ∀ a ∈ calls, a.push ≠ 0)
    (hrun : run_calls bed calls s = Except.ok s1) :
    (obj_elf_popsection^[calls.length] s1).now_seg = s.now_seg
      ∧ (obj_elf_popsection^[calls.length] s1).now_subseg = s.now_subseg
      ∧ (obj_elf_popsection^[calls.length] s1).section_stack = s.section_stack := by
  have h := pushes_then_pops bed calls s s1 hpush hrun
  exact ⟨h.1, h.2.1, h.2.2.2.2⟩

/-- C1 at `.pushsection .data,"aw"`, `.pushsection .foo,"ax",@progbits` and two
`.popsection` from the start of an assembly: `.text` is current again and the
stack is empty. -/
theorem C1_pushes_then_pops_restore_witness :
    (∀ a ∈ [push_data, push_foo], a.push ≠ 0)
      ∧ run_calls sample_backend [push_data, push_foo] sample_state
          = Except.ok state_after_two_pushes
      ∧ (obj_elf_popsection^[2] state_after_two_pushes).now_seg = segT.reg 0
      ∧ (obj_elf_popsection^[2] state_after_two_pushes).now_subseg = 0
      ∧ (obj_elf_popsection^[2] state_after_two_pushes).section_stack = [] :=
  ⟨by decide, by decide,
   C1_pushes_then_pops_restore sample_backend [push_data, push_foo] sample_state
     state_after_two_pushes (by decide) (by decide)⟩

/-- C2: on an empty section stack `obj_elf_popsection` emits exactly one
warning and leaves the current section, the current subsection, the previous
slot and the stack (and everything else) unchanged. -/
theorem C2_popsection_empty_stack (s : State) (h : s.section_stack = []) :
    (obj_elf_popsection s).diags
        = s.diags ++ [Diag.as_warn Message.popsection_without_corresponding_pushsection]
      ∧ (obj_elf_popsection s).now_seg = s.now_seg
      ∧ (obj_elf_popsection s).now_subseg = s.now_subseg
      ∧ (obj_elf_popsection s).previous_section = s.previous_section
      ∧ (obj_elf_popsection s).previous_subsection = s.previous_subsection
      ∧ (obj_elf_popsection s).section_stack = s.section_stack
      ∧ (obj_elf_popsection s).sections = s.sections
      ∧ (obj_elf_popsection s).symbols = s.symbols := by
  simp [obj_elf_popsection, h, State.warn]

/-- C2 at the start of an assembly, where nothing has been pushed. -/
theorem C2_popsection_empty_stack_witness :
    sample_state.section_stack = []
      ∧ (obj_elf_popsection sample_state).diags
          = [Diag.as_warn Message.popsection_without_corresponding_pushsection]
      ∧ (obj_elf_popsection sample_state).now_seg = segT.reg 0 :=
  ⟨rfl, (C2_popsection_empty_stack sample_state rfl).1,
   (C2_popsection_empty_stack sample_state rfl).2.1⟩

/-- C3: when the previous slot is set, `obj_elf_previous` swaps the current
(section, subsection) with the previous slot and warns about nothing, so two
calls in a row give back the state they started from; and after a switch
from section A to section B by `obj_elf_change_section`, the first
`.previous` makes A current and the second makes B current. -/
theorem C3_previous_swaps (s : State) (p : segT) (bed : Backend) (a : ChangeArgs)
    (s0 s1 : State)
    (hp : s.previous_section = some p)
    (hswitch : obj_elf_change_section bed a s0 = Except.ok s1) :
    ((obj_elf_previous s).now_seg = p
      ∧ (obj_elf_previous s).now_subseg = s.previous_subsection
      ∧ (obj_elf_previous s).previous_section = some s.now_seg
      ∧ (obj_elf_previous s).previous_subsection = s.now_subseg
      ∧ (obj_elf_previous s).diags = s.diags)
    ∧ obj_elf_previous (obj_elf_previous s) = s
    ∧ ((obj_elf_previous s1).now_seg = s0.now_seg
      ∧ (obj_elf_previous (obj_elf_previous s1)).now_seg = s1.now_seg) := by
  have hctx := change_section_context bed a s0 s1 hswitch
  refine ⟨?_, ?_, ?_, ?_⟩
  · simp [obj_elf_previous, hp, subseg_set]
  · cases s
    simp only at hp
    subst hp
    simp [obj_elf_previous, subseg_set]
  · simp [obj_elf_previous, hctx.2.1, subseg_set]
  · simp [obj_elf_previous, hctx.2.1, subseg_set]

/-- C3 after the switch from `.text` to `.data`: `.previous` goes to `.text`,
a second `.previous` back to `.data`. -/
theorem C3_previous_swaps_witness :
    state_after_push_data.previous_section = some (segT.reg 0)
      ∧ obj_elf_change_section sample_backend push_data sample_state
          = Except.ok state_after_push_data
      ∧ obj_elf_previous (obj_elf_previous state_after_push_data) = state_after_push_data
      ∧ (obj_elf_previous state_after_push_data).now_seg = segT.reg 0
      ∧ (obj_elf_previous (obj_elf_previous state_after_push_data)).now_seg = segT.reg 1 :=
  ⟨rfl, by decide,
   (C3_previous_swaps state_after_push_data (segT.reg 0) sample_backend push_data
      sample_state state_after_push_data rfl (by decide)).2.1,
   (C3_previous_swaps state_after_push_data (segT.reg 0) sample_backend push_data
      sample_state state_after_push_data rfl (by decide)).2.2.1,
   (C3_previous_swaps state_after_push_data (segT.reg 0) sample_backend push_data
      sample_state state_after_push_data rfl (by decide)).2.2.2⟩

/-- C4, as stated, fails for `obj_elf_popsection`: after
`.pushsection .data,"aw"` at the start of an assembly, `.popsection` changes
the current section (from `.data` back to `.text`) and leaves the previous
slot empty instead of setting it to `.data`, the section that was current
immediately before. -/
theorem C4_popsection_counterexample :
    obj_elf_change_section sample_backend push_data sample_state
        = Except.ok state_after_push_data
      ∧ state_after_push_data.now_seg = segT.reg 1
      ∧ (obj_elf_popsection state_after_push_data).now_seg = segT.reg 0
      ∧ (obj_elf_popsection state_after_push_data).previous_section = none
      ∧ (obj_elf_popsection state_after_push_data).previous_section
          ≠ some state_after_push_data.now_seg := by
  decide

/-! ## Declaring a section again -/

/-- C5, as stated, fails on a special section: `.section .data1,"a"` at the
start of an assembly declares `.data1` without a warning, and the same
directive a second time emits the warning `ignoring changed section
attributes`, because the flags of the special-section entry are added to the
explicit ones on the first declaration only. -/
theorem C5_same_arguments_counterexample :
    obj_elf_change_section sample_backend declare_data1 sample_state
        = Except.ok state_after_data1
      ∧ state_after_data1.diags = []
      ∧ obj_elf_change_section sample_backend declare_data1 state_after_data1
        = Except.ok
            { state_after_data1 with
              previous_section := some (segT.reg 1),
              diags := [Diag.as_warn (Message.ignoring_changed_section_attributes ".data1")] } := by
  decide

theorem first_index_append_last {α : Type} (p : α → Bool) (l : List α) (x : α)
    (hl : first_index p l = none) (hx : p x = true) :
    first_index p (l ++ [x]) = some (l.length, x) := by
  induction l with
  | nil => simp [first_index, hx]
  | cons y ys ih =>
    simp only [first_index] at hl
    split at hl
    · cases hl
    · rename_i hy
      have hys : first_index p ys = none := by
        cases h : first_index p ys with
        | none => rfl
        | some r => simp [h] at hl
      simp [first_index, hy, ih hys]

theorem special_section_old_attr (ssect : Option bfd_elf_special_section)
    (name : String) (type attr : Nat) (group_name : Option String) :
    (special_section ssect name type attr group_name false).2.1 = attr := by
  cases ssect <;> simp [special_section]

theorem special_section_type_agree (e : bfd_elf_special_section) (name : String)
    (type : Nat) (is_new : Bool) (h : type = SHT_NULL ∨ type = e.type) :
    special_section_type e name type is_new = (e.type, []) := by
  unfold special_section_type
  rcases h with h | h
  · simp [h]
  · by_cases h0 : type = SHT_NULL
    · simp [h0]
    · simp [h0, h]

theorem special_section_old_agree (ssect : Option bfd_elf_special_section)
    (name : String) (type attr : Nat) (group_name : Option String)
    (h : ∀ e, ssect = some e → type = SHT_NULL ∨ type = e.type) :
    special_section ssect name type attr group_name false
      = ((special_section ssect name type attr group_name true).1, attr, []) := by
  cases ssect with
  | none => simp [special_section]
  | some e =>
    have he := h e rfl
    simp [special_section, special_section_type_agree e name type _ he,
      special_section_override]

/-- C5, amended: when the first call creates the section and returns, and
either the section has no special-section entry, or its explicit type is
unset or equal to the type of the entry and its explicit flags are empty or
are the flags the first declaration stores (the entry adds none to them),
then a second call with the same arguments returns, emits no warning, and
leaves the stored type, ELF flags, BFD flags, entity size, group name and
info of every section as they were after the first call. -/
theorem C5_redeclaration_same_arguments (bed : Backend) (a : ChangeArgs)
    (s s1 : State)
    (hnew : bfd_get_section_by_name_if s.sections a.name
              { group_name := a.group_name, info := a.info } = none)
    (hfirst : obj_elf_change_section bed a s = Except.ok s1)
    (hspecial : ∀ e, bed.get_sec_type_attr a.name = some e →
      (a.type = SHT_NULL ∨ a.type = e.type)
        ∧ (a.attr = 0
            ∨ (special_section (some e) a.name a.type a.attr a.group_name true).2.1
                = a.attr)) :
    ∃ s2, obj_elf_change_section bed a s1 = Except.ok s2
      ∧ s2.diags = s1.diags
      ∧ s2.sections = s1.sections
      ∧ s2.now_seg = s1.now_seg := by
  -- the effective type and flags of the two calls
  have hold := special_section_old_agree (bed.get_sec_type_attr a.name) a.name a.type
    a.attr a.group_name (fun e he => (hspecial e he).1)
  have hattr : a.attr = 0
      ∨ (special_section (bed.get_sec_type_attr a.name) a.name a.type a.attr
          a.group_name true).2.1 = a.attr := by
    cases hss : bed.get_sec_type_attr a.name with
    | none => right; simp [special_section]
    | some e => exact (hspecial e hss).2
  rw [change_section_new bed a s hnew] at hfirst
  split at hfirst
  · cases hfirst
  · rename_i hnf
    injection hfirst with hfirst
    generalize hr : special_section (bed.get_sec_type_attr a.name) a.name a.type a.attr
      a.group_name true = r at hfirst hold hattr hnf
    obtain ⟨t1, attr1, w1⟩ := r
    simp only at hfirst hold hattr hnf
    have hfound : bfd_get_section_by_name_if s1.sections a.name
        { group_name := a.group_name, info := a.info }
        = some (s.sections.length,
            declare_section bed a t1 attr1 (bfd_flags attr1 t1 a.linkonce)
              (fresh_section a.name)) := by
      subst hfirst
      exact first_index_append_last _ _ _ hnew
        (by simp [declare_section, fresh_section, get_section])
    rw [change_section_old bed a s1 _ _ hfound, hold]
    have hnf2 : ¬ mbind_without_alloc a.attr := by
      rcases hattr with h0 | h1
      · rw [h0]; decide
      · rw [← h1]; exact hnf
    simp only [hnf2, if_false]
    refine ⟨_, rfl, ?_, ?_, ?_⟩
    · -- no warning
      have hw : redeclaration_warnings a t1 a.attr (bfd_flags a.attr t1 a.linkonce)
          (declare_section bed a t1 attr1 (bfd_flags attr1 t1 a.linkonce)
            (fresh_section a.name)) = [] := by
        unfold redeclaration_warnings
        by_cases h0 : a.attr = 0
        · by_cases ht : t1 = SHT_NULL <;> simp [h0, ht, declare_section]
        · have h1 : attr1 = a.attr := by
            rcases hattr with h | h
            · exact absurd h h0
            · exact h
          subst h1
          by_cases ht : t1 = SHT_NULL <;>
            by_cases hm : bfd_flags a.attr t1 a.linkonce &&& SEC_MERGE = 0 <;>
            simp [h0, ht, hm, declare_section] <;>
            (intro h2 h3; exact absurd h3 h2)
      simp [hw]
    · -- no stored field changes
      subst hfirst
      simp only
      apply modify_nth_fixed
      intro x hx
      simp only [List.getElem?_concat_length, Option.some.injEq] at hx
      subst hx
      unfold redeclared_section
      split
      · rename_i hc
        have h1 : attr1 = a.attr := by
          rcases hattr with h | h
          · exact absurd h hc.1
          · exact h
        simp [declare_section, h1]
      · rfl
    · subst hfirst; rfl

/-- C5, amended, at `.pushsection .data,"aw"`, whose flags are those of the
special-section entry of `.data`. -/
theorem C5_redeclaration_same_arguments_witness :
    bfd_get_section_by_name_if sample_state.sections push_data.name
        { group_name := push_data.group_name, info := push_data.info } = none
      ∧ obj_elf_change_section sample_backend push_data sample_state
          = Except.ok state_after_push_data
      ∧ ∃ s2, obj_elf_change_section sample_backend push_data state_after_push_data
            = Except.ok s2
          ∧ s2.diags = state_after_push_data.diags
          ∧ s2.sections = state_after_push_data.sections
          ∧ s2.now_seg = state_after_push_data.now_seg :=
  ⟨by decide, by decide,
   C5_redeclaration_same_arguments sample_backend push_data sample_state
     state_after_push_data (by decide) (by decide)
     (fun e he => by
        have h : e = { prefix_length := 5, suffix_length := -2, type := SHT_PROGBITS,
                       attr := SHF_ALLOC ||| SHF_WRITE } := by
          simp [sample_backend, push_data] at he
          exact he.symm
        subst h
        decide)⟩

theorem special_section_old_warnings (ssect : Option bfd_elf_special_section)
    (name : String) (type attr : Nat) (group_name : Option String) (m : String) :
    List.count (Diag.as_warn (Message.ignoring_changed_section_attributes m))
      (special_section ssect name type attr group_name false).2.2 = 0 := by
  cases ssect with
  | none => simp [special_section]
  | some e =>
    have hov : special_section_override e name attr group_name false = (false, []) := by
      simp [special_section_override]
    simp only [special_section, hov, special_section_type]
    split <;> (try split) <;> simp

/-- C6: when an existing section is declared again by
`obj_elf_change_section` with a non-empty flag set whose BFD flags differ
from the flags of the section on the comparison mask, the call emits the
warning `ignoring changed section attributes` exactly once and leaves the
stored ELF flags and BFD flags (and every other stored field of every
section) as they were, e.g. "ax" then "aw" keeps WRITE clear.  (The call is
one that returns: flags with GNU_MBIND and without ALLOC are a fatal
error.) -/
theorem C6_changed_attributes_ignored (bed : Backend) (a : ChangeArgs) (s : State)
    (i : Nat) (old : asection)
    (hold : bfd_get_section_by_name_if s.sections a.name
              { group_name := a.group_name, info := a.info } = some (i, old))
    (hattr : a.attr ≠ 0)
    (hdiff : (old.flags ^^^
        bfd_flags a.attr
          (special_section (bed.get_sec_type_attr a.name) a.name a.type a.attr
            a.group_name false).1 a.linkonce) &&& redeclaration_mask ≠ 0)
    (hnf : ¬ mbind_without_alloc a.attr) :
    ∃ s1, obj_elf_change_section bed a s = Except.ok s1
      ∧ List.count (Diag.as_warn (Message.ignoring_changed_section_attributes a.name))
          s1.diags
        = List.count (Diag.as_warn (Message.ignoring_changed_section_attributes a.name))
            s.diags + 1
      ∧ s1.sections = s.sections
      ∧ s1.sections[i]? = some old
      ∧ s1.now_seg = segT.reg i := by
  rw [change_section_old bed a s i old hold]
  have hw := special_section_old_warnings (bed.get_sec_type_attr a.name) a.name a.type
    a.attr a.group_name a.name
  have hsec := (first_index_get _ _ _ _ hold).1
  rw [special_section_old_attr] at *
  simp only [hnf, if_false]
  have hfix : modify_nth (redeclared_section a.attr
      (bfd_flags a.attr
        (special_section (bed.get_sec_type_attr a.name) a.name a.type a.attr
          a.group_name false).1 a.linkonce)) i s.sections = s.sections := by
    apply modify_nth_fixed
    intro x hx
    rw [hsec] at hx
    injection hx with hx
    subst hx
    simp [redeclared_section, hdiff]
  refine ⟨_, rfl, ?_, hfix, ?_, rfl⟩
  · simp only [List.count_append, hw, redeclaration_warnings, hattr, hdiff]
    split <;> split <;> simp
  · simp only [hfix]; exact hsec

/-- C6 at `.section .foo,"aw",@progbits` after `.foo` has been declared with
"ax": one warning, and WRITE stays clear. -/
theorem C6_changed_attributes_ignored_witness :
    bfd_get_section_by_name_if state_after_two_pushes.sections ".foo"
        { group_name := none, info := 0 } = some (2, foo_section_declared)
      ∧ declare_foo_aw.attr ≠ 0
      ∧ ¬ mbind_without_alloc declare_foo_aw.attr
      ∧ ∃ s1, obj_elf_change_section sample_backend declare_foo_aw state_after_two_pushes
            = Except.ok s1
          ∧ List.count (Diag.as_warn (Message.ignoring_changed_section_attributes ".foo"))
              s1.diags
            = List.count (Diag.as_warn (Message.ignoring_changed_section_attributes ".foo"))
                state_after_two_pushes.diags + 1
          ∧ s1.sections = state_after_two_pushes.sections
          ∧ s1.sections[2]? = some foo_section_declared
          ∧ s1.now_seg = segT.reg 2 :=
  ⟨by decide, by decide, by decide,
   C6_changed_attributes_ignored sample_backend declare_foo_aw state_after_two_pushes 2
     foo_section_declared (by decide) (by decide) (by decide) (by decide)⟩

/-! ## One section per key -/

theorem get_section_iff (sec : asection) (m : section_match) :
    get_section sec m = true ↔ sec.sh_info = m.info ∧ sec.group_name = m.group_name := by
  unfold get_section
  cases h1 : sec.group_name <;> cases h2 : m.group_name <;> simp

theorem lookup_matches_key (secs : List asection) (name : String) (m : section_match)
    (i : Nat) (old : asection)
    (h : bfd_get_section_by_name_if secs name m = some (i, old)) :
    secs[i]? = some old ∧ section_key old = (name, m.group_name, m.info) := by
  have hg := first_index_get _ _ _ _ h
  refine ⟨hg.1, ?_⟩
  have hp := hg.2
  simp only [Bool.and_eq_true, decide_eq_true_eq, get_section_iff] at hp
  simp [section_key, hp.1, hp.2.1, hp.2.2]

theorem lookup_none_iff (secs : List asection) (name : String) (m : section_match) :
    bfd_get_section_by_name_if secs name m = none
      ↔ ∀ sec ∈ secs, section_key sec ≠ (name, m.group_name, m.info) := by
  unfold bfd_get_section_by_name_if
  rw [first_index_none]
  constructor
  · intro h sec hsec hk
    have hp := h sec hsec
    simp only [section_key, Prod.mk.injEq] at hk
    have hg : get_section sec m = true := (get_section_iff sec m).2 ⟨hk.2.2, hk.2.1⟩
    simp [hk.1, hg] at hp
  · intro h sec hsec
    by_contra hp
    simp only [Bool.not_eq_false, Bool.and_eq_true, decide_eq_true_eq, get_section_iff] at hp
    exact h sec hsec (by simp [section_key, hp.1, hp.2.1, hp.2.2])

theorem modify_nth_map {α β : Type} (f : α → α) (g : α → β) (n : Nat) (l : List α)
    (h : ∀ x, g (f x) = g x) : (modify_nth f n l).map g = l.map g := by
  induction l generalizing n with
  | nil => simp [modify_nth]
  | cons x xs ih => cases n <;> simp [modify_nth, h, ih]

theorem redeclared_section_key (attr flags : Nat) (old : asection) :
    section_key (redeclared_section attr flags old) = section_key old := by
  unfold redeclared_section
  split <;> simp [section_key]

/-- One call of `obj_elf_change_section` keeps the keys distinct. -/
theorem change_section_unique_keys (bed : Backend) (a : ChangeArgs) (s s1 : State)
    (hu : unique_keys s.sections)
    (h : obj_elf_change_section bed a s = Except.ok s1) :
    unique_keys s1.sections := by
  cases hl : bfd_get_section_by_name_if s.sections a.name
      { group_name := a.group_name, info := a.info } with
  | none =>
    rw [change_section_new bed a s hl] at h
    split at h
    · cases h
    · injection h with h
      subst h
      have hn := (lookup_none_iff _ _ _).1 hl
      simp only [unique_keys, List.map_append, List.map_cons, List.map_nil]
      rw [List.nodup_append]
      refine ⟨hu, by simp, ?_⟩
      intro k hk1 hk2
      simp only [List.mem_singleton] at hk2
      obtain ⟨sec, hsec, hkey⟩ := List.mem_map.1 hk1
      apply hn sec hsec
      rw [hkey, hk2]
      simp [section_key, declare_section, fresh_section]
  | some r =>
    obtain ⟨i, old⟩ := r
    rw [change_section_old bed a s i old hl] at h
    split at h
    · cases h
    · injection h with h
      subst h
      simp only [unique_keys]
      rw [modify_nth_map _ _ _ _ (redeclared_section_key _ _)]
      exact hu

/-- C10: starting from sections with distinct (name, group name, info)
keys, the keys are still distinct after any run of calls of
`obj_elf_change_section`; and a call whose key is the key of an existing
section makes a section with that key the current one and creates no
section. -/
theorem C10_one_section_per_key (bed : Backend) (calls : List ChangeArgs)
    (s s1 : State) (a : ChangeArgs) (t t1 : State) (sec : asection)
    (hu : unique_keys s.sections)
    (hrun : run_calls bed calls s = Except.ok s1)
    (hsec : sec ∈ t.sections)
    (hkey : section_key sec = (a.name, a.group_name, a.info))
    (hcall : obj_elf_change_section bed a t = Except.ok t1) :
    unique_keys s1.sections
      ∧ ∃ i old, t.sections[i]? = some old
          ∧ section_key old = (a.name, a.group_name, a.info)
          ∧ t1.now_seg = segT.reg i
          ∧ t1.sections.length = t.sections.length
          ∧ t1.sections.map section_key = t.sections.map section_key := by
  constructor
  · induction calls generalizing s with
    | nil =>
      simp only [run_calls] at hrun
      injection hrun with hrun
      subst hrun
      exact hu
    | cons b rest ih =>
      simp only [run_calls] at hrun
      cases hc : obj_elf_change_section bed b s with
      | error e => simp [hc] at hrun
      | ok s2 =>
        simp only [hc] at hrun
        exact ih s2 (change_section_unique_keys bed b s s2 hu hc) hrun
  · cases hl : bfd_get_section_by_name_if t.sections a.name
        { group_name := a.group_name, info := a.info } with
    | none =>
      exact absurd hkey ((lookup_none_iff _ _ _).1 hl sec hsec)
    | some r =>
      obtain ⟨i, old⟩ := r
      have hm := lookup_matches_key _ _ _ _ _ hl
      rw [change_section_old bed a t i old hl] at hcall
      split at hcall
      · cases hcall
      · injection hcall with hcall
        subst hcall
        refine ⟨i, old, hm.1, hm.2, rfl, ?_, ?_⟩
        · simp [modify_nth_length]
        · exact modify_nth_map _ _ _ _ (redeclared_section_key _ _)

/-- C10 at the two pushes from the start of an assembly, and at a second
declaration of `.foo`. -/
theorem C10_one_section_per_key_witness :
    unique_keys sample_state.sections
      ∧ run_calls sample_backend [push_data, push_foo] sample_state
          = Except.ok state_after_two_pushes
      ∧ foo_section_declared ∈ state_after_two_pushes.sections
      ∧ section_key foo_section_declared
          = (declare_foo_aw.name, declare_foo_aw.group_name, declare_foo_aw.info)
      ∧ obj_elf_change_section sample_backend declare_foo_aw state_after_two_pushes
          = Except.ok state_after_foo_aw
      ∧ unique_keys state_after_two_pushes.sections
      ∧ ∃ i old, state_after_two_pushes.sections[i]? = some old
          ∧ section_key old
              = (declare_foo_aw.name, declare_foo_aw.group_name, declare_foo_aw.info)
          ∧ state_after_foo_aw.now_seg = segT.reg i
          ∧ state_after_foo_aw.sections.length = state_after_two_pushes.sections.length
          ∧ state_after_foo_aw.sections.map section_key
              = state_after_two_pushes.sections.map section_key :=
  ⟨by unfold unique_keys; decide, by decide, by decide, by decide, by decide,
   C10_one_section_per_key sample_backend [push_data, push_foo] sample_state
     state_after_two_pushes declare_foo_aw state_after_two_pushes state_after_foo_aw
     foo_section_declared (by unfold unique_keys; decide) (by decide) (by decide)
     (by decide) (by decide)⟩

/-! ## Flag bits -/

theorem and_two_pow_ne_zero (x k : Nat) : x &&& 2 ^ k ≠ 0 ↔ x.testBit k = true := by
  constructor
  · intro h
    obtain ⟨i, hi⟩ := Nat.ne_zero_implies_bit_true h
    rw [Nat.testBit_and, Nat.testBit_two_pow] at hi
    simp only [Bool.and_eq_true, decide_eq_true_eq] at hi
    rw [hi.2]; exact hi.1
  · intro h h0
    have h1 : (x &&& 2 ^ k).testBit k = true := by
      rw [Nat.testBit_and, Nat.testBit_two_pow_self, h]; rfl
    rw [h0] at h1
    simp at h1

theorem and_two_pow_eq_zero (x k : Nat) : x &&& 2 ^ k = 0 ↔ x.testBit k = false := by
  have h := and_two_pow_ne_zero x k
  constructor
  · intro h0
    cases hb : x.testBit k with
    | false => rfl
    | true => exact absurd h0 (h.2 hb)
  · intro hb
    by_contra h0
    rw [h.1 h0] at hb
    cases hb

theorem testBit_andNot (a b i : Nat) :
    (andNot a b).testBit i = (a.testBit i && !b.testBit i) := by
  unfold andNot
  rw [Nat.testBit_and, Nat.testBit_xor]
  cases a.testBit i <;> cases b.testBit i <;> rfl

theorem merge_bit (x : Nat) : x &&& SHF_MERGE ≠ 0 ↔ x.testBit 4 = true :=
  and_two_pow_ne_zero x 4

theorem merge_bit_clear (x : Nat) : x &&& SHF_MERGE = 0 ↔ x.testBit 4 = false :=
  and_two_pow_eq_zero x 4

theorem group_bit (x : Nat) : x &&& SHF_GROUP ≠ 0 ↔ x.testBit 9 = true :=
  and_two_pow_ne_zero x 9

theorem group_bit_clear (x : Nat) : x &&& SHF_GROUP = 0 ↔ x.testBit 9 = false :=
  and_two_pow_eq_zero x 9

theorem sec_merge_bit (x : Nat) : x &&& SEC_MERGE ≠ 0 ↔ x.testBit 23 = true :=
  and_two_pow_ne_zero x 23

/-! ## The stages of `obj_elf_section` -/

theorem section_name_state_name (rd : Reader) (opts : Options) (s : State)
    (ilp n ilp1 : List Char) (s1 : State)
    (h : obj_elf_section_name rd opts s ilp = NameResult.name n ilp1 s1) : s1 = s := by
  unfold obj_elf_section_name at h
  simp only [] at h
  split at h
  · split at h
    · cases h
    · injection h with _ _ h3; exact h3.symm
  · split at h
    · cases h
    · split at h
      · cases h
      · injection h with _ _ h3; exact h3.symm

theorem section_name_state_null (rd : Reader) (opts : Options) (s : State)
    (ilp ilp1 : List Char) (s1 : State)
    (h : obj_elf_section_name rd opts s ilp = NameResult.null ilp1 s1) :
    s1 = s ∨ s1 = s.bad Message.missing_name := by
  unfold obj_elf_section_name at h
  simp only [] at h
  split at h
  · split at h
    · injection h with _ h3; exact Or.inl h3.symm
    · cases h
  · split at h
    · injection h with _ h3; exact Or.inr h3.symm
    · split at h
      · cases h
      · cases h

theorem section_merge_frame (rd : Reader) (l : SectionLocals) :
    (section_merge rd l).name = l.name
      ∧ (section_merge rd l).group_name = l.group_name
      ∧ (section_merge rd l).linkonce = l.linkonce
      ∧ (section_merge rd l).s.sections = l.s.sections
      ∧ (section_merge rd l).s.now_seg = l.s.now_seg
      ∧ (section_merge rd l).attr.testBit 9 = l.attr.testBit 9 := by
  unfold section_merge
  simp only []
  split
  · split
    · simp [State.warn, testBit_andNot]; intro _; decide
    · simp
  · split
    · simp [State.warn, testBit_andNot]; intro _; decide
    · simp

theorem section_merge_entsize (rd : Reader) (l : SectionLocals) (h0 : l.entsize = 0) :
    0 ≤ (section_merge rd l).entsize
      ∧ ((section_merge rd l).attr &&& SHF_MERGE = 0 → (section_merge rd l).entsize = 0) := by
  unfold section_merge
  simp only []
  split
  · rename_i hc
    split
    · simp
    · rename_i hn
      simp only [merge_bit_clear]
      have hb := (merge_bit _).1 hc.1
      simp only at hb
      refine ⟨by omega, ?_⟩
      intro hz
      rw [hb] at hz
      cases hz
  · split <;> simp [h0]

theorem section_merge_given (rd : Reader) (l : SectionLocals)
    (hM : l.attr &&& SHF_MERGE ≠ 0)
    (hc : peek (SKIP_WHITESPACE l.ilp) = ',')
    (hn : 0 ≤ to_int (rd.get_absolute_expression
            (SKIP_WHITESPACE (SKIP_WHITESPACE l.ilp).tail)).1) :
    (section_merge rd l).attr = l.attr
      ∧ (section_merge rd l).entsize
          = to_int (rd.get_absolute_expression
              (SKIP_WHITESPACE (SKIP_WHITESPACE l.ilp).tail)).1
      ∧ (section_merge rd l).s = l.s := by
  unfold section_merge
  simp only [hM, hc, ne_eq, not_false_eq_true, and_self, if_true]
  rw [if_neg (by omega)]
  simp

theorem section_merge_missing (rd : Reader) (l : SectionLocals)
    (hM : l.attr &&& SHF_MERGE ≠ 0)
    (hc : peek (SKIP_WHITESPACE l.ilp) ≠ ',') :
    (section_merge rd l).attr = andNot l.attr SHF_MERGE
      ∧ (section_merge rd l).entsize = l.entsize
      ∧ (section_merge rd l).s = l.s.warn Message.entity_size_for_SHF_MERGE_not_specified := by
  unfold section_merge
  simp [hM, hc]

theorem andNot_group_clear (x : Nat) : andNot x SHF_GROUP &&& SHF_GROUP = 0 := by
  rw [group_bit_clear, testBit_andNot]
  have h : SHF_GROUP.testBit 9 = true := by decide
  simp [h]

theorem section_group_spec (rd : Reader) (opts : Options) (l l1 : SectionLocals)
    (h : section_group rd opts l = some l1) :
    l1.entsize = l.entsize
      ∧ l1.name = l.name
      ∧ (l1.attr = l.attr ∨ l1.attr = andNot l.attr SHF_GROUP)
      ∧ (l1.attr &&& SHF_GROUP ≠ 0 → l1.group_name ≠ none)
      ∧ (l1.attr &&& SHF_GROUP = 0 → l1.group_name = l.group_name)
      ∧ List.count merge_warning l1.s.diags = List.count merge_warning l.s.diags
      ∧ l1.s.sections = l.s.sections
      ∧ l1.s.now_seg = l.s.now_seg := by
  unfold section_group at h
  split at h
  · rename_i hg
    split at h
    · cases h
    · rename_i ilp1 s1 hname
      injection h with h
      subst h
      have hs := section_name_state_null _ _ _ _ _ _ hname
      have hc := andNot_group_clear l.attr
      rcases hs with hs | hs <;> subst hs <;>
        simp [hc, State.bad, merge_warning]
    · rename_i g ilp1 s1 hname
      have hs := section_name_state_name _ _ _ _ _ _ _ hname
      subst hs
      split at h
      · simp only [] at h
        split at h <;> (injection h with h; subst h; simp [hg.1])
      · split at h <;> (injection h with h; subst h; simp [hg.1])
  · split at h
    · injection h with h
      subst h
      have hc := andNot_group_clear l.attr
      simp [hc, State.warn, merge_warning]
    · rename_i hg
      injection h with h
      subst h
      simp
      intro hx; exact absurd hx hg

theorem section_type_no_merge_warning (str : List Char) (len : Nat) (warn : Bool) :
    List.count merge_warning (obj_elf_section_type str len warn).2 = 0 := by
  unfold obj_elf_section_type
  repeat' split
  all_goals simp [merge_warning]

theorem section_word_spec (str : List Char) (len : Nat) (type : Int) :
    (obj_elf_section_word str len type).1.testBit 9 = false
      ∧ List.count merge_warning (obj_elf_section_word str len type).2.2 = 0 := by
  unfold obj_elf_section_word
  repeat' split
  all_goals simp [merge_warning]
  all_goals decide

theorem section_type_field_spec (rd : Reader) (type type1 : Int)
    (ilp ilp1 : List Char) (diags : List Diag)
    (h : section_type_field rd type ilp = TypeField.read type1 ilp1 diags) :
    List.count merge_warning diags = 0 := by
  unfold section_type_field at h
  simp only [] at h
  split at h
  · split at h
    · split at h
      · cases h
      · rw [TypeField.read.injEq] at h; obtain ⟨_, _, h3⟩ := h
        subst h3; exact section_type_no_merge_warning _ _ _
    · split at h
      · split at h
        · rw [TypeField.read.injEq] at h; obtain ⟨_, _, h3⟩ := h; subst h3; exact List.count_nil _
        · rw [TypeField.read.injEq] at h; obtain ⟨_, _, h3⟩ := h
          subst h3; exact section_type_no_merge_warning _ _ _
      · rw [TypeField.read.injEq] at h; obtain ⟨_, _, h3⟩ := h; subst h3; exact List.count_nil _
  · rw [TypeField.read.injEq] at h; obtain ⟨_, _, h3⟩ := h; subst h3; exact List.count_nil _

theorem section_words_spec (rd : Reader) (ilp : List Char) (attr : Nat) (type : Int)
    (s : State) (ilp1 : List Char) (attr1 : Nat) (type1 : Int) (s1 : State)
    (h : section_words rd ilp attr type s = WordsResult.done ilp1 attr1 type1 s1)
    (hg : attr.testBit 9 = false) :
    attr1.testBit 9 = false
      ∧ s1.sections = s.sections
      ∧ s1.now_seg = s.now_seg
      ∧ List.count merge_warning s1.diags = List.count merge_warning s.diags := by
  induction ilp, attr, type, s using section_words.induct rd with
  | case1 ilp attr type s h1 ilp2 be w ilp3 h2 ih =>
    rw [section_words] at h
    simp only [h1, if_true] at h
    rw [if_pos h2] at h
    have hw := section_word_spec (ilp2.drop be.1) (be.2 - be.1) type
    have := ih h (by rw [Nat.testBit_or, hg, hw.1]; rfl)
    refine ⟨this.1, this.2.1, this.2.2.1, ?_⟩
    rw [this.2.2.2]
    simp only [List.count_append]
    rw [hw.2]; rfl
  | case2 ilp attr type s h1 ilp2 be ilp3 h2 =>
    rw [section_words] at h
    simp only [h1, if_true] at h
    rw [if_neg h2] at h
    have hw := section_word_spec (ilp2.drop be.1) (be.2 - be.1) type
    rw [WordsResult.done.injEq] at h
    obtain ⟨_, ha, _, hs⟩ := h
    subst ha; subst hs
    refine ⟨by rw [Nat.testBit_or, hg, hw.1]; rfl, rfl, rfl, ?_⟩
    simp only [List.count_append]
    rw [hw.2]; rfl
  | case3 ilp attr type s h1 =>
    rw [section_words] at h
    simp only [h1, if_false] at h
    cases h

theorem section_flags_letters (rd : Reader) (l0 l : SectionLocals) (c : Bool)
    (h : section_flags rd l0 = SectionProgress.letters l c) :
    l.entsize = l0.entsize
      ∧ l.group_name = l0.group_name
      ∧ l.s.sections = l0.s.sections
      ∧ l.s.now_seg = l0.s.now_seg
      ∧ List.count merge_warning l.s.diags = List.count merge_warning l0.s.diags := by
  unfold section_flags at h
  split at h
  · unfold section_letters at h
    split at h
    · cases h
    · split at h
      · cases h
      · split at h
        · cases h
        · rename_i htf
          have hd := section_type_field_spec _ _ _ _ _ _ htf
          rw [SectionProgress.letters.injEq] at h
          obtain ⟨h1, _⟩ := h
          subst h1
          simp [List.count_append, hd]
  · split at h <;> cases h

theorem section_flags_done (rd : Reader) (l0 l : SectionLocals)
    (h : section_flags rd l0 = SectionProgress.done l)
    (hg : l0.attr.testBit 9 = false) :
    l.entsize = l0.entsize
      ∧ l.group_name = l0.group_name
      ∧ l.attr.testBit 9 = false
      ∧ l.s.sections = l0.s.sections
      ∧ l.s.now_seg = l0.s.now_seg
      ∧ List.count merge_warning l.s.diags = List.count merge_warning l0.s.diags := by
  unfold section_flags at h
  split at h
  · unfold section_letters at h
    split at h
    · cases h
    · split at h
      · cases h
      · split at h <;> cases h
  · split at h
    · cases h
    · rename_i hw
      have hs := section_words_spec _ _ _ _ _ _ _ _ _ hw hg
      rw [SectionProgress.done.injEq] at h
      subst h
      exact ⟨rfl, rfl, hs.1, hs.2.1, hs.2.2.1, hs.2.2.2⟩

theorem section_head_letters (rd : Reader) (opts : Options) (push : Int) (s : State)
    (ilp : List Char) (l : SectionLocals) (c : Bool)
    (h : section_head rd opts push s ilp = SectionProgress.letters l c) :
    l.entsize = 0
      ∧ l.group_name = none
      ∧ l.s.sections = s.sections
      ∧ l.s.now_seg = s.now_seg
      ∧ List.count merge_warning l.s.diags = List.count merge_warning s.diags := by
  unfold section_head at h
  split at h
  · cases h
  · split at h
    · cases h
    · cases h
    · rename_i name ilp1 s1 hname
      have hs := section_name_state_name _ _ _ _ _ _ _ hname
      subst hs
      simp only [] at h
      split at h
      · split at h
        · split at h
          · cases h
          · exact section_flags_letters _ _ _ _ h
        · exact section_flags_letters _ _ _ _ h
      · cases h

theorem section_head_done (rd : Reader) (opts : Options) (push : Int) (s : State)
    (ilp : List Char) (l : SectionLocals)
    (h : section_head rd opts push s ilp = SectionProgress.done l) :
    l.entsize = 0
      ∧ l.group_name = none
      ∧ l.attr.testBit 9 = false
      ∧ l.s.sections = s.sections
      ∧ l.s.now_seg = s.now_seg
      ∧ List.count merge_warning l.s.diags = List.count merge_warning s.diags := by
  unfold section_head at h
  split at h
  · cases h
  · split at h
    · cases h
    · cases h
    · rename_i name ilp1 s1 hname
      have hs := section_name_state_name _ _ _ _ _ _ _ hname
      subst hs
      simp only [] at h
      split at h
      · split at h
        · split at h
          · rw [SectionProgress.done.injEq] at h
            subst h
            exact ⟨rfl, rfl, (by simp : (0 : Nat).testBit 9 = false), rfl, rfl, rfl⟩
          · exact section_flags_done _ _ _ h (by simp : (0 : Nat).testBit 9 = false)
        · exact section_flags_done _ _ _ h (by simp : (0 : Nat).testBit 9 = false)
      · rw [SectionProgress.done.injEq] at h
        subst h
        exact ⟨rfl, rfl, (by simp : (0 : Nat).testBit 9 = false), rfl, rfl, rfl⟩

theorem section_clone_marker_spec (l : SectionLocals) (c : Bool) :
    (section_clone_marker l c).1.attr = l.attr
      ∧ (section_clone_marker l c).1.entsize = l.entsize
      ∧ (section_clone_marker l c).1.group_name = l.group_name
      ∧ (section_clone_marker l c).1.name = l.name
      ∧ (section_clone_marker l c).1.ilp = l.ilp
      ∧ ((section_clone_marker l c).2 = true → l.attr &&& SHF_GROUP = 0)
      ∧ List.count merge_warning (section_clone_marker l c).1.s.diags
          = List.count merge_warning l.s.diags
      ∧ (section_clone_marker l c).1.s.sections = l.s.sections
      ∧ (section_clone_marker l c).1.s.now_seg = l.s.now_seg := by
  unfold section_clone_marker
  split
  · simp [State.warn, merge_warning]
  · rename_i hc
    refine ⟨rfl, rfl, rfl, rfl, rfl, ?_, rfl, rfl, rfl⟩
    intro h1
    by_contra h2
    exact hc ⟨h2, h1⟩

theorem section_clone_spec (l : SectionLocals) (c : Bool) :
    (section_clone l c).attr = l.attr
      ∧ (section_clone l c).entsize = l.entsize
      ∧ (section_clone l c).name = l.name
      ∧ (section_clone l c).ilp = l.ilp
      ∧ (section_clone l c).s = l.s
      ∧ (section_clone l c).info = l.info
      ∧ ((section_clone l c).group_name = l.group_name
          ∨ (c = true
              ∧ (section_clone l c).group_name ≠ none
              ∧ (section_clone l c).group_name = elf_group_name l.s l.s.now_seg))
      ∧ (c = false → (section_clone l c).group_name = l.group_name) := by
  unfold section_clone
  split
  · rename_i hc
    split
    · rename_i g hg
      simp [hg, hc]
    · simp [hc]
  · rename_i hc
    simp

theorem section_mbind_spec (l : SectionLocals) :
    (section_mbind l).attr = l.attr
      ∧ (section_mbind l).entsize = l.entsize
      ∧ (section_mbind l).name = l.name
      ∧ (section_mbind l).group_name = l.group_name
      ∧ List.count merge_warning (section_mbind l).s.diags
          = List.count merge_warning l.s.diags
      ∧ (section_mbind l).s.sections = l.s.sections
      ∧ (section_mbind l).s.now_seg = l.s.now_seg := by
  unfold section_mbind
  simp only []
  split
  · split
    · split <;> simp [State.warn, merge_warning]
    · simp
  · simp

theorem elf_group_name_congr (s1 s2 : State) (sec : segT)
    (h : s1.sections = s2.sections) : elf_group_name s1 sec = elf_group_name s2 sec := by
  unfold elf_group_name State.sec?
  cases sec <;> simp [h]

theorem andNot_group_other_bit (x i : Nat) (hi : i ≠ 9) :
    (andNot x SHF_GROUP).testBit i = x.testBit i := by
  rw [testBit_andNot]
  have h : SHF_GROUP.testBit i = false := by
    show (2 ^ 9).testBit i = false
    exact Nat.testBit_two_pow_of_ne (Ne.symm hi)
  simp [h]

theorem section_tail_spec (rd : Reader) (opts : Options) (l l2 : SectionLocals)
    (c : Bool) (h : section_tail rd opts l c = some l2) :
    l2.entsize = (section_merge rd l).entsize
      ∧ l2.name = l.name
      ∧ (l2.attr = (section_merge rd l).attr
          ∨ l2.attr = andNot (section_merge rd l).attr SHF_GROUP)
      ∧ (l2.attr &&& SHF_GROUP ≠ 0 → l2.group_name ≠ none)
      ∧ (l2.attr &&& SHF_GROUP = 0 →
          l2.group_name = l.group_name
            ∨ (c = true ∧ l2.group_name ≠ none
                ∧ l2.group_name = elf_group_name l.s l.s.now_seg))
      ∧ List.count merge_warning l2.s.diags
          = List.count merge_warning (section_merge rd l).s.diags
      ∧ l2.s.sections = l.s.sections
      ∧ l2.s.now_seg = l.s.now_seg := by
  unfold section_tail at h
  simp only [] at h
  split at h
  · cases h
  · rename_i l1 hgroup
    injection h with h
    subst h
    have hm := section_merge_frame rd l
    have hk := section_clone_marker_spec (section_merge rd l) c
    have hg := section_group_spec _ _ _ _ hgroup
    have hc := section_clone_spec l1 (section_clone_marker (section_merge rd l) c).2
    have hb := section_mbind_spec
      (section_clone l1 (section_clone_marker (section_merge rd l) c).2)
    obtain ⟨hk1, hk2, hk3, hk4, hk5, hk6, hk7, hk8, hk9⟩ := hk
    obtain ⟨hg1, hg2, hg3, hg4, hg5, hg6, hg7, hg8⟩ := hg
    obtain ⟨hc1, hc2, hc3, hc4, hc5, hc6, hc7, hc8⟩ := hc
    obtain ⟨hb1, hb2, hb3, hb4, hb5, hb6, hb7⟩ := hb
    have hattr : l1.attr = (section_merge rd l).attr
        ∨ l1.attr = andNot (section_merge rd l).attr SHF_GROUP := by
      rw [hk1] at hg3; exact hg3
    have hsec : l1.s.sections = l.s.sections := by rw [hg7, hk8, hm.2.2.2.1]
    have hnow : l1.s.now_seg = l.s.now_seg := by rw [hg8, hk9, hm.2.2.2.2.1]
    refine ⟨?_, ?_, ?_, ?_, ?_, ?_, ?_, ?_⟩
    · rw [hb2, hc2, hg1, hk2]
    · rw [hb3, hc3, hg2, hk4, hm.1]
    · rw [hb1, hc1]; exact hattr
    · rw [hb1, hc1, hb4]
      intro hG
      cases hcl : (section_clone_marker (section_merge rd l) c).2 with
      | false => rw [hcl] at hc8; rw [hc8 rfl]; exact hg4 hG
      | true =>
        exfalso
        have h0 := hk6 hcl
        rcases hattr with ha | ha
        · rw [ha] at hG; exact hG h0
        · rw [ha] at hG; exact hG (andNot_group_clear _)
    · rw [hb1, hc1, hb4]
      intro hG
      have hl1 : l1.group_name = l.group_name := by rw [hg5 hG, hk3, hm.2.1]
      rcases hc7 with h1 | ⟨h1, h2, h3⟩
      · left; rw [h1, hl1]
      · right
        refine ⟨?_, h2, ?_⟩
        · unfold section_clone_marker at h1
          split at h1
          · cases h1
          · exact h1
        · rw [h3, hnow]
          exact elf_group_name_congr _ _ _ hsec
    · rw [hb5, hc5, hg6, hk7]
    · rw [hb6, hc5, hsec]
    · rw [hb7, hc5, hnow]

theorem section_done_spec (rd : Reader) (push : Int) (l : SectionLocals)
    (a : ChangeArgs) (n : Int) (s1 : State)
    (h : section_done rd push l = SectionResult.call a n s1) :
    a = l.args push
      ∧ n = l.new_subsection
      ∧ s1.sections = l.s.sections
      ∧ s1.now_seg = l.s.now_seg
      ∧ List.count merge_warning s1.diags = List.count merge_warning l.s.diags := by
  unfold section_done at h
  rw [SectionResult.call.injEq] at h
  obtain ⟨h1, h2, h3⟩ := h
  subst h1; subst h2; subst h3
  refine ⟨rfl, rfl, ?_, ?_, ?_⟩
  · split <;> simp [State.bad]
  · split <;> simp [State.bad]
  · split <;> simp [State.bad, merge_warning]

/-- What a directive in the second syntax hands over: the locals after the
last stage. -/
theorem parse_letters_call (rd : Reader) (opts : Options) (push : Int) (s : State)
    (ilp : List Char) (l : SectionLocals) (c : Bool) (a : ChangeArgs) (n : Int)
    (s1 : State)
    (hhead : section_head rd opts push s ilp = SectionProgress.letters l c)
    (hcall : obj_elf_section_parse rd opts push s ilp = SectionResult.call a n s1) :
    ∃ l2, section_tail rd opts l c = some l2
      ∧ a = l2.args push
      ∧ s1.sections = l2.s.sections
      ∧ s1.now_seg = l2.s.now_seg
      ∧ List.count merge_warning s1.diags = List.count merge_warning l2.s.diags := by
  unfold obj_elf_section_parse at hcall
  rw [hhead] at hcall
  simp only [] at hcall
  cases ht : section_tail rd opts l c with
  | none => rw [ht] at hcall; cases hcall
  | some l2 =>
    rw [ht] at hcall
    have hd := section_done_spec _ _ _ _ _ _ hcall
    exact ⟨l2, rfl, hd.1, hd.2.2.1, hd.2.2.2.1, hd.2.2.2.2⟩

/-! ## What `obj_elf_section` hands to `obj_elf_change_section` -/

/-- C8, as stated, fails: `.section .x,"aM",@progbits,0` hands the MERGE flag
together with the entity size 0 to `obj_elf_change_section`, because only a
negative entity size is rejected. -/
theorem C8_merge_with_zero_entsize_counterexample :
    obj_elf_section_parse sample_reader sample_options 0 sample_state line_merge_zero
        = SectionResult.call
            { name := ".x", type := SHT_PROGBITS, info := 0,
              attr := SHF_ALLOC ||| SHF_MERGE, entsize := 0, group_name := none,
              linkonce := 0, push := 0 }
            (-1) sample_state
      ∧ (SHF_ALLOC ||| SHF_MERGE) &&& SHF_MERGE ≠ 0
      ∧ ¬ ((SHF_ALLOC ||| SHF_MERGE) &&& SHF_MERGE ≠ 0 ↔ (0 : Int) < 0) := by
  decide

/-- C8, amended: for every `.section` directive, the flags and the entity
size that `obj_elf_section` hands to `obj_elf_change_section` satisfy: the
entity size is never negative, and it is 0 when MERGE is not set (so an
entity size greater than 0 comes with MERGE; MERGE may come with the entity
size 0). -/
theorem C8_entsize_needs_merge (rd : Reader) (opts : Options) (push : Int)
    (s : State) (ilp : List Char) (a : ChangeArgs) (n : Int) (s1 : State)
    (hcall : obj_elf_section_parse rd opts push s ilp = SectionResult.call a n s1) :
    0 ≤ a.entsize
      ∧ (a.attr &&& SHF_MERGE = 0 → a.entsize = 0)
      ∧ (0 < a.entsize → a.attr &&& SHF_MERGE ≠ 0) := by
  have key : 0 ≤ a.entsize ∧ (a.attr &&& SHF_MERGE = 0 → a.entsize = 0) := by
    cases hh : section_head rd opts push s ilp with
    | returned s2 => simp [obj_elf_section_parse, hh] at hcall
    | no_result => simp [obj_elf_section_parse, hh] at hcall
    | fatal f => simp [obj_elf_section_parse, hh] at hcall
    | done l =>
      have hd := section_head_done _ _ _ _ _ _ hh
      simp only [obj_elf_section_parse, hh] at hcall
      have ha := (section_done_spec _ _ _ _ _ _ hcall).1
      subst ha
      simp [SectionLocals.args, hd.1]
    | letters l c =>
      have hl := section_head_letters _ _ _ _ _ _ _ hh
      obtain ⟨l2, ht, ha, _⟩ := parse_letters_call _ _ _ _ _ _ _ _ _ _ hh hcall
      have hs := section_tail_spec _ _ _ _ _ ht
      have hm := section_merge_entsize rd l hl.1
      subst ha
      simp only [SectionLocals.args]
      rw [hs.1]
      refine ⟨hm.1, ?_⟩
      intro h0
      apply hm.2
      rcases hs.2.2.1 with h1 | h1
      · rw [← h1]; exact h0
      · rw [h1, merge_bit_clear, andNot_group_other_bit _ 4 (by decide)] at h0
        exact (merge_bit_clear _).2 h0
  refine ⟨key.1, key.2, ?_⟩
  intro hpos h0
  have := key.2 h0
  omega

/-- C9, as stated, fails: in a section of the group `g`, made current by
`.section .text.f,"axG",@progbits,g,comdat`, the directive `.section .x,"a?"`
hands the group name `g` to `obj_elf_change_section` without the GROUP
flag. -/
theorem C9_clone_group_without_flag_counterexample :
    obj_elf_section sample_reader sample_options sample_backend 0 sample_state
        line_group_member = some (Except.ok state_in_group)
      ∧ obj_elf_section_parse sample_reader sample_options 0 state_in_group line_clone
        = SectionResult.call
            { name := ".x", type := SHT_NULL, info := 0, attr := SHF_ALLOC, entsize := 0,
              group_name := some "g", linkonce := 1, push := 0 }
            (-1) state_in_group
      ∧ SHF_ALLOC &&& SHF_GROUP = 0
      ∧ ¬ (SHF_ALLOC &&& SHF_GROUP ≠ 0 ↔ (some "g" : Option String) ≠ none) := by
  decide

/-! ## The section a first declaration creates -/

theorem testBit_ite (c : Prop) [Decidable c] (a b i : Nat) :
    (if c then a else b).testBit i = if c then a.testBit i else b.testBit i := by
  split <;> rfl

theorem bfd_flags_sec_merge (attr type : Nat) (linkonce : Int) :
    (bfd_flags attr type linkonce).testBit 23 = attr.testBit 4 := by
  have h0 : (0 : Nat).testBit 23 = false := by decide
  have h1 : SEC_RELOC.testBit 23 = false := by decide
  have h2 : SEC_READONLY.testBit 23 = false := by decide
  have h3 : SEC_ALLOC.testBit 23 = false := by decide
  have h4 : SEC_LOAD.testBit 23 = false := by decide
  have h5 : SEC_CODE.testBit 23 = false := by decide
  have h6 : SEC_MERGE.testBit 23 = true := by decide
  have h7 : SEC_STRINGS.testBit 23 = false := by decide
  have h8 : SEC_EXCLUDE.testBit 23 = false := by decide
  have h9 : SEC_THREAD_LOCAL.testBit 23 = false := by decide
  have h10 : (SEC_LINK_ONCE ||| SEC_LINK_DUPLICATES_DISCARD).testBit 23 = false := by decide
  have hm : (if attr &&& SHF_MERGE ≠ 0 then true else false) = attr.testBit 4 := by
    by_cases h : attr &&& SHF_MERGE ≠ 0
    · rw [if_pos h, (merge_bit attr).1 h]
    · rw [if_neg h]
      have h' : attr &&& SHF_MERGE = 0 := by
        by_contra hc; exact h hc
      rw [(merge_bit_clear attr).1 h']
  unfold bfd_flags
  simp only []
  split <;>
    simp only [Nat.testBit_or, testBit_ite, h0, h1, h2, h3, h4, h5, h6, h7, h8, h9, h10,
      ite_self, Bool.or_false, Bool.false_or, hm]

theorem special_section_attr_keeps (ssect : Option bfd_elf_special_section)
    (name : String) (type attr : Nat) (group_name : Option String) (is_new : Bool)
    (i : Nat) (h : attr.testBit i = true) :
    (special_section ssect name type attr group_name is_new).2.1.testBit i = true := by
  cases ssect with
  | none => simpa [special_section] using h
  | some e =>
    simp only [special_section]
    split
    · rw [Nat.testBit_or, h]; rfl
    · exact h

theorem special_section_attr_adds (ssect : Option bfd_elf_special_section)
    (name : String) (type attr : Nat) (group_name : Option String) (is_new : Bool)
    (i : Nat) (h : attr.testBit i = false)
    (he : ∀ e, ssect = some e → e.attr.testBit i = false) :
    (special_section ssect name type attr group_name is_new).2.1.testBit i = false := by
  cases ssect with
  | none => simpa [special_section] using h
  | some e =>
    simp only [special_section]
    split
    · rw [Nat.testBit_or, h, he e rfl]; rfl
    · exact h

/-- The section that is current after a first declaration. -/
theorem change_section_new_current (bed : Backend) (a : ChangeArgs) (s s2 : State)
    (hnew : bfd_get_section_by_name_if s.sections a.name
              { group_name := a.group_name, info := a.info } = none)
    (h : obj_elf_change_section bed a s = Except.ok s2) :
    s2.sec? s2.now_seg
      = some (declare_section bed a
          (special_section (bed.get_sec_type_attr a.name) a.name a.type a.attr
            a.group_name true).1
          (special_section (bed.get_sec_type_attr a.name) a.name a.type a.attr
            a.group_name true).2.1
          (bfd_flags
            (special_section (bed.get_sec_type_attr a.name) a.name a.type a.attr
              a.group_name true).2.1
            (special_section (bed.get_sec_type_attr a.name) a.name a.type a.attr
              a.group_name true).1 a.linkonce)
          (fresh_section a.name)) := by
  rw [change_section_new bed a s hnew] at h
  split at h
  · cases h
  · injection h with h
    subst h
    simp [State.sec?]

/-- A run of `obj_elf_section` that returns after its call of
`obj_elf_change_section`: the state is the one the call gives, up to the
subsection. -/
theorem obj_elf_section_ok (rd : Reader) (opts : Options) (bed : Backend) (push : Int)
    (s : State) (ilp : List Char) (a : ChangeArgs) (n : Int) (s1 s2 : State)
    (hcall : obj_elf_section_parse rd opts push s ilp = SectionResult.call a n s1)
    (hrun : obj_elf_section rd opts bed push s ilp = some (Except.ok s2)) :
    ∃ s3, obj_elf_change_section bed a s1 = Except.ok s3
      ∧ s2.sections = s3.sections ∧ s2.now_seg = s3.now_seg := by
  unfold obj_elf_section at hrun
  rw [hcall] at hrun
  simp only [] at hrun
  cases hc : obj_elf_change_section bed a s1 with
  | error f => rw [hc] at hrun; simp at hrun
  | ok s3 =>
    rw [hc] at hrun
    simp only [] at hrun
    refine ⟨s3, rfl, ?_⟩
    split at hrun
    · simp only [Option.some.injEq, Except.ok.injEq] at hrun
      subst hrun
      simp [subseg_set]
    · simp only [Option.some.injEq, Except.ok.injEq] at hrun
      subst hrun
      simp

theorem andNot_or_self (x b : Nat) : andNot x b ||| b = x ||| b := by
  apply Nat.eq_of_testBit_eq
  intro i
  rw [Nat.testBit_or, Nat.testBit_or, testBit_andNot]
  cases x.testBit i <;> cases b.testBit i <;> rfl

theorem andNot_andNot_or (x b c : Nat) :
    andNot (andNot x b) c ||| (b ||| c) = x ||| (b ||| c) := by
  apply Nat.eq_of_testBit_eq
  intro i
  simp only [Nat.testBit_or, testBit_andNot]
  cases x.testBit i <;> cases b.testBit i <;> cases c.testBit i <;> rfl

theorem andNot_or_pair (x b c : Nat) : andNot x b ||| (b ||| c) = x ||| (b ||| c) := by
  apply Nat.eq_of_testBit_eq
  intro i
  simp only [Nat.testBit_or, testBit_andNot]
  cases x.testBit i <;> cases b.testBit i <;> cases c.testBit i <;> rfl

theorem to_int_range (x : Int) : -2147483648 ≤ to_int x ∧ to_int x < 2147483648 := by
  unfold to_int
  omega

theorem to_unsigned_of_nonneg (v : Int) (h0 : 0 ≤ v) (h1 : v < 2147483648) :
    ((to_unsigned v : Nat) : Int) = v := by
  unfold to_unsigned
  omega

/-- The entity size of a `.section` directive in the second syntax whose
flag string gives the MERGE flag: when an entity size follows and its value
n, as the `int` the directive stores, is not negative, `obj_elf_change_section` is
handed MERGE, the other flags as read (GROUP apart, which depends on the
group name) and the entity size n, no entity-size warning is emitted, and a
first declaration that returns stores MERGE in the ELF flags and in the BFD
flags of the section and stores the entity size n; when no entity size
follows, the warning `entity size for SHF_MERGE not specified` is emitted
exactly once, `obj_elf_change_section` is handed the flags without MERGE and
the entity size 0, and a first declaration that returns stores the entity
size 0, and stores neither MERGE flag unless the special-section entry of
the section carries MERGE itself. -/
theorem merge_entity_size_int (rd : Reader) (opts : Options) (push : Int) (s : State)
    (ilp : List Char) (l : SectionLocals) (c : Bool) (a : ChangeArgs) (n : Int)
    (s1 : State)
    (hhead : section_head rd opts push s ilp = SectionProgress.letters l c)
    (hM : l.attr &&& SHF_MERGE ≠ 0)
    (hcall : obj_elf_section_parse rd opts push s ilp = SectionResult.call a n s1) :
    (peek (SKIP_WHITESPACE l.ilp) = ',' →
      0 ≤ to_int (rd.get_absolute_expression
            (SKIP_WHITESPACE (SKIP_WHITESPACE l.ilp).tail)).1 →
        a.attr &&& SHF_MERGE ≠ 0
          ∧ a.attr ||| SHF_GROUP = l.attr ||| SHF_GROUP
          ∧ a.entsize = to_int (rd.get_absolute_expression
              (SKIP_WHITESPACE (SKIP_WHITESPACE l.ilp).tail)).1
          ∧ List.count merge_warning s1.diags = List.count merge_warning s.diags
          ∧ ∀ (bed : Backend) (s2 : State),
              bfd_get_section_by_name_if s.sections a.name
                  { group_name := a.group_name, info := a.info } = none →
              obj_elf_section rd opts bed push s ilp = some (Except.ok s2) →
              ∃ sec, s2.sec? s2.now_seg = some sec
                ∧ sec.sh_flags &&& SHF_MERGE ≠ 0
                ∧ sec.flags &&& SEC_MERGE ≠ 0
                ∧ (sec.entsize : Int) = to_int (rd.get_absolute_expression
                    (SKIP_WHITESPACE (SKIP_WHITESPACE l.ilp).tail)).1)
    ∧ (peek (SKIP_WHITESPACE l.ilp) ≠ ',' →
        a.attr &&& SHF_MERGE = 0
          ∧ a.attr ||| (SHF_MERGE ||| SHF_GROUP) = l.attr ||| (SHF_MERGE ||| SHF_GROUP)
          ∧ a.entsize = 0
          ∧ List.count merge_warning s1.diags = List.count merge_warning s.diags + 1
          ∧ ∀ (bed : Backend) (s2 : State),
              bfd_get_section_by_name_if s.sections a.name
                  { group_name := a.group_name, info := a.info } = none →
              obj_elf_section rd opts bed push s ilp = some (Except.ok s2) →
              ∃ sec, s2.sec? s2.now_seg = some sec
                ∧ sec.entsize = 0
                ∧ ((∀ e, bed.get_sec_type_attr a.name = some e → e.attr &&& SHF_MERGE = 0) →
                    sec.sh_flags &&& SHF_MERGE = 0 ∧ sec.flags &&& SEC_MERGE = 0)) := by
  have hl := section_head_letters _ _ _ _ _ _ _ hhead
  obtain ⟨l2, ht, ha, hsec1, _, hcount1⟩ := parse_letters_call _ _ _ _ _ _ _ _ _ _ hhead hcall
  have hs := section_tail_spec _ _ _ _ _ ht
  obtain ⟨hs1, _, hs3, _, _, hs6, hs7, _⟩ := hs
  have hsections : s1.sections = s.sections := by rw [hsec1, hs7, hl.2.2.1]
  -- the section stored by a first declaration
  have hstored : ∀ (bed : Backend) (s2 : State),
      bfd_get_section_by_name_if s.sections a.name
          { group_name := a.group_name, info := a.info } = none →
      obj_elf_section rd opts bed push s ilp = some (Except.ok s2) →
      s2.sec? s2.now_seg
        = some (declare_section bed a
            (special_section (bed.get_sec_type_attr a.name) a.name a.type a.attr
              a.group_name true).1
            (special_section (bed.get_sec_type_attr a.name) a.name a.type a.attr
              a.group_name true).2.1
            (bfd_flags
              (special_section (bed.get_sec_type_attr a.name) a.name a.type a.attr
                a.group_name true).2.1
              (special_section (bed.get_sec_type_attr a.name) a.name a.type a.attr
                a.group_name true).1 a.linkonce)
            (fresh_section a.name)) := by
    intro bed s2 hnew hrun
    obtain ⟨s3, hc3, hsec3, hnow3⟩ := obj_elf_section_ok _ _ _ _ _ _ _ _ _ _ hcall hrun
    rw [← hsections] at hnew
    have := change_section_new_current bed a s1 s3 hnew hc3
    rw [← this]
    unfold State.sec?
    rw [hnow3, hsec3]
  constructor
  · intro hc hn
    have hm := section_merge_given rd l hM hc hn
    have hattr : a.attr = l.attr ∨ a.attr = andNot l.attr SHF_GROUP := by
      subst ha
      simp only [SectionLocals.args]
      rw [← hm.1]; exact hs3
    have hbit : a.attr.testBit 4 = true := by
      have hb := (merge_bit _).1 hM
      rcases hattr with h | h
      · rw [h]; exact hb
      · rw [h, andNot_group_other_bit _ 4 (by decide)]; exact hb
    have hent : a.entsize = to_int (rd.get_absolute_expression
        (SKIP_WHITESPACE (SKIP_WHITESPACE l.ilp).tail)).1 := by
      subst ha
      simp only [SectionLocals.args]
      rw [hs1, hm.2.1]
    refine ⟨(merge_bit _).2 hbit, ?_, hent, ?_, ?_⟩
    · rcases hattr with h | h
      · rw [h]
      · rw [h, andNot_or_self]
    · rw [hcount1, hs6, hm.2.2, hl.2.2.2.2]
    · intro bed s2 hnew hrun
      refine ⟨_, hstored bed s2 hnew hrun, ?_, ?_, ?_⟩
      · simp only [declare_section]
        exact (merge_bit _).2 (special_section_attr_keeps _ _ _ _ _ _ 4 hbit)
      · simp only [declare_section]
        rw [sec_merge_bit, bfd_flags_sec_merge]
        exact special_section_attr_keeps _ _ _ _ _ _ 4 hbit
      · have hf : (bfd_flags
            (special_section (bed.get_sec_type_attr a.name) a.name a.type a.attr
              a.group_name true).2.1
            (special_section (bed.get_sec_type_attr a.name) a.name a.type a.attr
              a.group_name true).1 a.linkonce) &&& SEC_MERGE ≠ 0 := by
          rw [sec_merge_bit, bfd_flags_sec_merge]
          exact special_section_attr_keeps _ _ _ _ _ _ 4 hbit
        simp only [declare_section, hf, ne_eq, not_false_eq_true, if_true]
        rw [hent]
        exact to_unsigned_of_nonneg _ hn (to_int_range _).2
  · intro hc
    have hm := section_merge_missing rd l hM hc
    have hattr : a.attr = andNot l.attr SHF_MERGE
        ∨ a.attr = andNot (andNot l.attr SHF_MERGE) SHF_GROUP := by
      subst ha
      simp only [SectionLocals.args]
      rw [← hm.1]; exact hs3
    have hbit : a.attr.testBit 4 = false := by
      have hself : SHF_MERGE.testBit 4 = true := by decide
      rcases hattr with h | h
      · rw [h, testBit_andNot, hself]; simp
      · rw [h, andNot_group_other_bit _ 4 (by decide), testBit_andNot, hself]; simp
    have hent : a.entsize = 0 := by
      subst ha
      simp only [SectionLocals.args]
      rw [hs1, hm.2.1, hl.1]
    refine ⟨(merge_bit_clear _).2 hbit, ?_, hent, ?_, ?_⟩
    · rcases hattr with h | h
      · rw [h, andNot_or_pair]
      · rw [h, andNot_andNot_or]
    · rw [hcount1, hs6, hm.2.2, ← hl.2.2.2.2]
      simp [State.warn, merge_warning]
    · intro bed s2 hnew hrun
      refine ⟨_, hstored bed s2 hnew hrun, ?_, ?_⟩
      · simp only [declare_section, hent, fresh_section]
        split
        · decide
        · rfl
      · intro he
        have hclear := special_section_attr_adds (bed.get_sec_type_attr a.name) a.name
          a.type a.attr a.group_name true 4 hbit
          (fun e h => (merge_bit_clear _).1 (he e h))
        constructor
        · simp only [declare_section]
          exact (merge_bit_clear _).2 hclear
        · simp only [declare_section]
          by_contra hne
          have hne1 := (sec_merge_bit _).1 hne
          rw [bfd_flags_sec_merge, hclear] at hne1
          cases hne1

/-- C8, amended, at `.section .rodata.str,"aMS",@progbits,1`. -/
theorem C8_entsize_needs_merge_witness :
    obj_elf_section_parse sample_reader sample_options 0 sample_state line_rodata_str
        = SectionResult.call rodata_str_args (-1) sample_state
      ∧ 0 ≤ rodata_str_args.entsize
      ∧ (rodata_str_args.attr &&& SHF_MERGE = 0 → rodata_str_args.entsize = 0)
      ∧ (0 < rodata_str_args.entsize → rodata_str_args.attr &&& SHF_MERGE ≠ 0) :=
  ⟨by decide,
   C8_entsize_needs_merge sample_reader sample_options 0 sample_state line_rodata_str
     rodata_str_args (-1) sample_state (by decide)⟩

/-! ## The flag letters -/

theorem letters_loop_letter (prev c : Char) (rest : List Char) (attr : Nat)
    (cl : Bool) (h : is_flag_letter c = true) :
    parse_section_letters_loop prev 0 (c :: rest) attr cl
      = parse_section_letters_loop c 0 rest (attr ||| letter_bit c)
          (cl || decide (c = '?')) := by
  simp only [is_flag_letter, Bool.or_eq_true, decide_eq_true_eq] at h
  rcases h with ((((((((h | h) | h) | h) | h) | h) | h) | h) | h) | h <;> subst h <;>
    simp [parse_section_letters_loop, letter_bit]

theorem letters_loop_letters (prev : Char) (str : List Char) (attr : Nat) (cl : Bool)
    (h : ∀ c ∈ str, is_flag_letter c = true) :
    parse_section_letters_loop prev 0 str attr cl
      = Except.ok (str.foldl (fun v c => v ||| letter_bit c) attr,
          cl || decide ('?' ∈ str)) := by
  induction str generalizing prev attr cl with
  | nil => simp [parse_section_letters_loop]
  | cons c rest ih =>
    rw [letters_loop_letter prev c rest attr cl (h c (List.mem_cons_self c rest))]
    rw [ih c _ _ (fun d hd => h d (List.mem_cons_of_mem c hd))]
    simp only [List.foldl_cons, List.mem_cons, Except.ok.injEq, Prod.mk.injEq, true_and]
    by_cases hc : c = '?'
    · subst hc; simp
    · have hc' : ¬ '?' = c := fun h => hc h.symm
      simp [hc, hc']

theorem foldl_or_testBit (f : Char → Nat) (str : List Char) (v i : Nat) :
    (str.foldl (fun v c => v ||| f c) v).testBit i
      = (v.testBit i || str.any (fun c => (f c).testBit i)) := by
  induction str generalizing v with
  | nil => simp
  | cons c rest ih =>
    simp only [List.foldl_cons, List.any_cons]
    rw [ih, Nat.testBit_or, Bool.or_assoc]

theorem letters_value_same_letters (str1 str2 : List Char)
    (h : ∀ c, c ∈ str1 ↔ c ∈ str2) : letters_value str1 = letters_value str2 := by
  apply Nat.eq_of_testBit_eq
  intro i
  unfold letters_value
  rw [foldl_or_testBit, foldl_or_testBit]
  congr 1
  rw [Bool.eq_iff_iff]
  simp only [List.any_eq_true]
  constructor
  · rintro ⟨c, hc, hb⟩; exact ⟨c, (h c).1 hc, hb⟩
  · rintro ⟨c, hc, hb⟩; exact ⟨c, (h c).2 hc, hb⟩

/-- C11: for a flag string made only of the letters a, e, w, x, M, S, G, T,
d and `?`, `obj_elf_parse_section_letters` returns, without a fatal error,
the bitwise OR of the bits of the letters present and the clone marker
exactly when `?` occurs; the nine letters have nine distinct single bits
(ALLOC, EXCLUDE, WRITE, EXECINSTR, MERGE, STRINGS, GROUP, TLS, GNU_MBIND);
and a string with the same letters, in any order and any number of times,
gives the same result. -/
theorem C11_letters_are_bits (before : Char) (str str2 : List Char)
    (h : ∀ c ∈ str, is_flag_letter c = true)
    (hsame : ∀ c, c ∈ str2 ↔ c ∈ str) :
    obj_elf_parse_section_letters before str
        = Except.ok (letters_value str, decide ('?' ∈ str))
      ∧ (letter_bit 'a' = SHF_ALLOC ∧ letter_bit 'e' = SHF_EXCLUDE
          ∧ letter_bit 'w' = SHF_WRITE ∧ letter_bit 'x' = SHF_EXECINSTR
          ∧ letter_bit 'M' = SHF_MERGE ∧ letter_bit 'S' = SHF_STRINGS
          ∧ letter_bit 'G' = SHF_GROUP ∧ letter_bit 'T' = SHF_TLS
          ∧ letter_bit 'd' = SHF_GNU_MBIND ∧ letter_bit '?' = 0)
      ∧ letter_bits = [2 ^ 1, 2 ^ 31, 2 ^ 0, 2 ^ 2, 2 ^ 4, 2 ^ 5, 2 ^ 9, 2 ^ 10, 2 ^ 24]
      ∧ letter_bits.Nodup
      ∧ obj_elf_parse_section_letters before str2
          = obj_elf_parse_section_letters before str := by
  have h2 : ∀ c ∈ str2, is_flag_letter c = true := fun c hc => h c ((hsame c).1 hc)
  have hv : ∀ l : List Char, (∀ c ∈ l, is_flag_letter c = true) →
      obj_elf_parse_section_letters before l
        = Except.ok (letters_value l, decide ('?' ∈ l)) := by
    intro l hl
    unfold obj_elf_parse_section_letters
    rw [letters_loop_letters before l 0 false hl]
    simp [letters_value]
  refine ⟨hv str h, by decide, by decide, by decide, ?_⟩
  rw [hv str h, hv str2 h2, letters_value_same_letters str2 str hsame]
  have hq : decide ('?' ∈ str2) = decide ('?' ∈ str) := by
    rw [decide_eq_decide]; exact hsame '?'
  rw [hq]

/-- C11 at the flag strings `aMS` and `SMaSa`. -/
theorem C11_letters_are_bits_witness :
    (∀ c ∈ "aMS".data, is_flag_letter c = true)
      ∧ (∀ c, c ∈ "SMaSa".data ↔ c ∈ "aMS".data)
      ∧ obj_elf_parse_section_letters 'a' "aMS".data
          = Except.ok (SHF_ALLOC ||| SHF_MERGE ||| SHF_STRINGS, false)
      ∧ obj_elf_parse_section_letters 'a' "SMaSa".data
          = obj_elf_parse_section_letters 'a' "aMS".data :=
  ⟨by decide, by intro c; simp; tauto,
   (C11_letters_are_bits 'a' "aMS".data "SMaSa".data (by decide)
      (by intro c; simp; tauto)).1,
   (C11_letters_are_bits 'a' "aMS".data "SMaSa".data (by decide)
      (by intro c; simp; tauto)).2.2.2.2⟩

/-! ## Numbers in a flag string -/

theorem isdigit_range (c : Char) (h : ISDIGIT c = true) : 48 ≤ c.toNat ∧ c.toNat ≤ 57 := by
  simp only [ISDIGIT, decide_eq_true_eq] at h
  exact h

theorem digit_value_of_isdigit (c : Char) (h : ISDIGIT c = true) :
    digit_value c = some (c.toNat - 48) := by
  simp only [ISDIGIT, decide_eq_true_eq] at h
  simp [digit_value, h]

theorem scan_digits_decimal (str : List Char) (v n : Nat)
    (h : ∀ c ∈ str, ISDIGIT c = true) :
    scan_digits 10 str v n
      = (str.foldl (fun v c => v * 10 + (c.toNat - 48)) v, n + str.length) := by
  induction str generalizing v n with
  | nil => simp [scan_digits]
  | cons c rest ih =>
    have hc := h c (List.mem_cons_self c rest)
    have hr := isdigit_range c hc
    have hlt : c.toNat - 48 < 10 := by omega
    simp only [scan_digits, digit_value_of_isdigit c hc, hlt, if_true, List.foldl_cons,
      List.length_cons]
    rw [ih _ _ (fun d hd => h d (List.mem_cons_of_mem c hd))]
    simp only [Prod.mk.injEq, true_and]
    omega

theorem letters_loop_skip_all (prev : Char) (skip : Nat) (str : List Char) (attr : Nat)
    (cl : Bool) (h : str.length ≤ skip) :
    parse_section_letters_loop prev skip str attr cl = Except.ok (attr, cl) := by
  induction str generalizing prev skip with
  | nil => simp [parse_section_letters_loop]
  | cons c rest ih =>
    cases skip with
    | zero => simp at h
    | succ k =>
      simp only [parse_section_letters_loop]
      exact ih c k (by simpa using h)

theorem isdigit_not_letter (c : Char) (h : ISDIGIT c = true) :
    is_flag_letter c = false ∧ c ≠ 'm' := by
  have hr := isdigit_range c h
  refine ⟨?_, ?_⟩
  · simp only [is_flag_letter, Bool.or_eq_false_iff, decide_eq_false_iff_not]
    refine ⟨⟨⟨⟨⟨⟨⟨⟨⟨?_, ?_⟩, ?_⟩, ?_⟩, ?_⟩, ?_⟩, ?_⟩, ?_⟩, ?_⟩, ?_⟩ <;>
      (rintro rfl; revert hr; decide)
  · rintro rfl; revert hr; decide

theorem letters_loop_not_letter (prev c : Char) (rest : List Char) (attr : Nat)
    (cl : Bool) (h : is_flag_letter c = false) :
    parse_section_letters_loop prev 0 (c :: rest) attr cl
      = if c = 'm' ∧ prev = 'a' then
          if rest.head? = some 's' then
            parse_section_letters_loop c 1 rest ((attr ||| SHF_MERGE) ||| SHF_STRINGS) cl
          else
            parse_section_letters_loop c 0 rest (attr ||| SHF_MERGE) cl
        else if ISDIGIT c then
          parse_section_letters_loop c ((strtoul (c :: rest)).2 - 1) rest
            (attr ||| (strtoul (c :: rest)).1) cl
        else Except.error Fatal.unrecognized_section_attribute := by
  simp only [is_flag_letter, Bool.or_eq_false_iff, decide_eq_false_iff_not] at h
  obtain ⟨⟨⟨⟨⟨⟨⟨⟨⟨h1, h2⟩, h3⟩, h4⟩, h5⟩, h6⟩, h7⟩, h8⟩, h9⟩, h10⟩ := h
  simp only [parse_section_letters_loop, h1, h2, h3, h4, h5, h6, h7, h8, h9, h10, if_false]

theorem letters_loop_digit (prev c : Char) (rest : List Char) (attr : Nat) (cl : Bool)
    (h : ISDIGIT c = true) :
    parse_section_letters_loop prev 0 (c :: rest) attr cl
      = parse_section_letters_loop c ((strtoul (c :: rest)).2 - 1) rest
          (attr ||| (strtoul (c :: rest)).1) cl := by
  have hn := isdigit_not_letter c h
  rw [letters_loop_not_letter prev c rest attr cl hn.1]
  simp [hn.2, h]

theorem strtoul_decimal (c : Char) (rest : List Char) (h0 : c ≠ '0') :
    strtoul (c :: rest)
      = (min (scan_digits 10 (c :: rest) 0 0).1 ULONG_MAX,
         (scan_digits 10 (c :: rest) 0 0).2) := by
  unfold strtoul
  split
  · rename_i x r heq
    injection heq with h1 _
    exact absurd h1 h0
  · rfl

/-- C13, as stated, fails: the flag string `010` consists of decimal digits
and has the decimal value 10, and `obj_elf_parse_section_letters` returns
the flags 8, because `strtoul` is called with base 0 and reads a number
that begins with 0 as octal. -/
theorem C13_leading_zero_counterexample :
    (∀ c ∈ "010".data, ISDIGIT c = true)
      ∧ decimal_value "010".data = 10
      ∧ obj_elf_parse_section_letters (Char.ofNat 0) "010".data = Except.ok (8, false) := by
  decide

/-- C13, amended: for every flag string of decimal digits that does not
begin with the digit 0, or is the single digit 0, and whose decimal value
is at most `ULONG_MAX`, `obj_elf_parse_section_letters` returns the decimal
value of the string as the flags, without a fatal error and without the
clone marker. -/
theorem C13_decimal_flags (before : Char) (str : List Char)
    (hd : ∀ c ∈ str, ISDIGIT c = true)
    (h0 : str.head? ≠ some '0' ∨ str = ['0'])
    (hfit : decimal_value str ≤ ULONG_MAX) :
    obj_elf_parse_section_letters before str = Except.ok (decimal_value str, false) := by
  rcases h0 with h0 | h0
  · cases str with
    | nil => simp [obj_elf_parse_section_letters, parse_section_letters_loop, decimal_value]
    | cons c rest =>
      have hc : c ≠ '0' := by
        intro h; apply h0; simp [h]
      unfold obj_elf_parse_section_letters
      rw [letters_loop_digit before c rest 0 false (hd c (List.mem_cons_self c rest))]
      rw [strtoul_decimal c rest hc, scan_digits_decimal (c :: rest) 0 0 hd]
      rw [letters_loop_skip_all _ _ _ _ _ (by simp)]
      have hv : (c :: rest).foldl (fun v c => v * 10 + (c.toNat - 48)) 0
          = decimal_value (c :: rest) := rfl
      simp only [hv, Nat.zero_or]
      rw [Nat.min_eq_left hfit]
  · subst h0
    unfold obj_elf_parse_section_letters
    rw [letters_loop_digit before '0' [] 0 false (by decide)]
    rw [letters_loop_skip_all _ _ _ _ _ (by simp)]
    decide

/-- C13, amended, at the flag string `18`. -/
theorem C13_decimal_flags_witness :
    (∀ c ∈ "18".data, ISDIGIT c = true)
      ∧ ("18".data.head? ≠ some '0' ∨ "18".data = ['0'])
      ∧ decimal_value "18".data ≤ ULONG_MAX
      ∧ obj_elf_parse_section_letters 'a' "18".data = Except.ok (18, false) :=
  ⟨by decide, by decide, by decide,
   C13_decimal_flags 'a' "18".data (by decide) (by decide) (by decide)⟩

/-! ## Unrecognised characters in a flag string -/

theorem letters_loop_skip (prev : Char) (k : Nat) (str : List Char) (attr : Nat)
    (cl : Bool) :
    parse_section_letters_loop prev k str attr cl
      = parse_section_letters_loop (char_before prev k str) 0 (str.drop k) attr cl := by
  induction str generalizing prev k with
  | nil => simp [parse_section_letters_loop]
  | cons c rest ih =>
    cases k with
    | zero => simp [char_before]
    | succ k =>
      simp only [parse_section_letters_loop, char_before, List.drop_succ_cons]
      exact ih c k

theorem letters_loop_error (prev : Char) (k : Nat) (str : List Char) (attr : Nat)
    (cl : Bool) (e : Fatal)
    (h : parse_section_letters_loop prev k str attr cl = Except.error e) :
    e = Fatal.unrecognized_section_attribute := by
  induction str generalizing prev k attr cl with
  | nil => simp [parse_section_letters_loop] at h
  | cons c rest ih =>
    cases k with
    | succ k =>
      simp only [parse_section_letters_loop] at h
      exact ih _ _ _ _ h
    | zero =>
      by_cases hl : is_flag_letter c = true
      · rw [letters_loop_letter prev c rest attr cl hl] at h
        exact ih _ _ _ _ h
      · have hl' : is_flag_letter c = false := by simpa using hl
        rw [letters_loop_not_letter prev c rest attr cl hl'] at h
        split at h
        · split at h <;> exact ih _ _ _ _ h
        · split at h
          · exact ih _ _ _ _ h
          · injection h with h; exact h.symm

theorem letters_loop_ok_of_recognised (prev : Char) (str : List Char)
    (h : Recognised prev str) :
    ∀ (attr : Nat) (cl : Bool),
      ∃ r, parse_section_letters_loop prev 0 str attr cl = Except.ok r := by
  induction h with
  | nil prev => intro attr cl; exact ⟨(attr, cl), by simp [parse_section_letters_loop]⟩
  | letter prev c rest hl _ ih =>
    intro attr cl
    rw [letters_loop_letter prev c rest attr cl hl]
    exact ih _ _
  | compat_m rest hs _ ih =>
    intro attr cl
    rw [letters_loop_not_letter 'a' 'm' rest attr cl (by decide)]
    simp only [and_self, if_true, hs, if_false]
    exact ih _ _
  | compat_ms rest _ ih =>
    intro attr cl
    rw [letters_loop_not_letter 'a' 'm' ('s' :: rest) attr cl (by decide)]
    simp only [and_self, if_true, List.head?_cons]
    simp only [parse_section_letters_loop]
    exact ih _ _
  | number prev c rest hd _ ih =>
    intro attr cl
    rw [letters_loop_digit prev c rest attr cl hd, letters_loop_skip]
    exact ih _ _

theorem recognised_of_letters_loop_ok (n : Nat) :
    ∀ (prev : Char) (str : List Char) (attr : Nat) (cl : Bool) (r : Nat × Bool),
      str.length ≤ n →
      parse_section_letters_loop prev 0 str attr cl = Except.ok r →
      Recognised prev str := by
  induction n with
  | zero =>
    intro prev str attr cl r hlen _
    have : str = [] := List.length_eq_zero.1 (Nat.le_zero.1 hlen)
    subst this
    exact Recognised.nil prev
  | succ n ih =>
    intro prev str attr cl r hlen h
    cases str with
    | nil => exact Recognised.nil prev
    | cons c rest =>
      have hrest : rest.length ≤ n := by simpa using hlen
      by_cases hl : is_flag_letter c = true
      · rw [letters_loop_letter prev c rest attr cl hl] at h
        exact Recognised.letter prev c rest hl (ih _ _ _ _ _ hrest h)
      · have hl' : is_flag_letter c = false := by simpa using hl
        rw [letters_loop_not_letter prev c rest attr cl hl'] at h
        split at h
        · rename_i hm
          obtain ⟨hc, hp⟩ := hm
          subst hc; subst hp
          split at h
          · rename_i hs
            cases rest with
            | nil => simp at hs
            | cons d rest2 =>
              simp only [List.head?_cons, Option.some.injEq] at hs
              subst hs
              simp only [parse_section_letters_loop] at h
              exact Recognised.compat_ms rest2
                (ih _ _ _ _ _ (by simp at hrest; omega) h)
          · rename_i hs
            exact Recognised.compat_m rest hs (ih _ _ _ _ _ hrest h)
        · split at h
          · rename_i hd
            rw [letters_loop_skip] at h
            exact Recognised.number prev c rest hd
              (ih _ _ _ _ _ (by rw [List.length_drop]; omega) h)
          · cases h

theorem recognised_iff_letters (prev : Char) (str : List Char)
    (h : ∀ c ∈ str, ISDIGIT c = false ∧ c ≠ 'm') :
    Recognised prev str ↔ ∀ c ∈ str, is_flag_letter c = true := by
  constructor
  · intro hr
    induction hr with
    | nil prev => intro c hc; cases hc
    | letter prev c rest hl _ ih =>
      intro d hd
      rcases List.mem_cons.1 hd with hd | hd
      · rw [hd]; exact hl
      · exact ih (fun x hx => h x (List.mem_cons_of_mem c hx)) d hd
    | compat_m rest _ _ _ => exact absurd rfl (h 'm' (List.mem_cons_self _ _)).2
    | compat_ms rest _ _ => exact absurd rfl (h 'm' (List.mem_cons_self _ _)).2
    | number prev c rest hd _ _ =>
      have := (h c (List.mem_cons_self _ _)).1
      rw [hd] at this
      cases this
  · intro hall
    induction str generalizing prev with
    | nil => exact Recognised.nil prev
    | cons c rest ih =>
      exact Recognised.letter prev c rest (hall c (List.mem_cons_self _ _))
        (ih c (fun x hx => h x (List.mem_cons_of_mem c hx))
          (fun x hx => hall x (List.mem_cons_of_mem c hx)))

theorem recognised_prev_irrelevant (p q : Char) (str : List Char)
    (hp : p ≠ 'a') (h : Recognised p str) : Recognised q str := by
  cases h with
  | nil => exact Recognised.nil q
  | letter _ c rest hl hr => exact Recognised.letter q c rest hl hr
  | compat_m rest _ _ => exact absurd rfl hp
  | compat_ms rest _ => exact absurd rfl hp
  | number _ c rest hd hr => exact Recognised.number q c rest hd hr

theorem letters_ok_iff_recognised (before : Char) (str : List Char) :
    (∃ r, obj_elf_parse_section_letters before str = Except.ok r)
      ↔ Recognised before str := by
  unfold obj_elf_parse_section_letters
  constructor
  · rintro ⟨r, hr⟩
    exact recognised_of_letters_loop_ok str.length before str 0 false r (Nat.le_refl _) hr
  · intro h
    exact letters_loop_ok_of_recognised before str h 0 false

theorem letters_fatal_iff_not_ok (before : Char) (str : List Char) :
    obj_elf_parse_section_letters before str
        = Except.error Fatal.unrecognized_section_attribute
      ↔ ¬ ∃ r, obj_elf_parse_section_letters before str = Except.ok r := by
  constructor
  · rintro h ⟨r, hr⟩
    rw [h] at hr
    cases hr
  · intro h
    cases hres : obj_elf_parse_section_letters before str with
    | ok r => exact absurd ⟨r, hres⟩ h
    | error e =>
      unfold obj_elf_parse_section_letters at hres
      rw [letters_loop_error _ _ _ _ _ e hres]

/-- C12, as stated, fails: the flag string `am` contains no number and
contains the character `m`, which is not a recognised flag letter, and
`obj_elf_parse_section_letters` does not abort: it reads `m` after `a` as
MERGE, for compatibility. -/
theorem C12_compat_m_counterexample :
    (∀ c ∈ "am".data, ISDIGIT c = false)
      ∧ (∃ c ∈ "am".data, is_flag_letter c = false)
      ∧ obj_elf_parse_section_letters (Char.ofNat 0) "am".data
          = Except.ok (SHF_ALLOC ||| SHF_MERGE, false) := by
  decide

/-- C12, amended: with no target-specific flag table, and when the byte
before the string in memory is not `a`, `obj_elf_parse_section_letters`
aborts fatally on every flag string that contains, outside a number and
outside the compatibility forms `am` and `ams`, a character that is not one
of the recognised flag letters, and returns on every other string; in
particular, on a string without digits and without `m` it aborts exactly
when some character is not a recognised flag letter. -/
theorem C12_fatal_iff_unrecognised (before : Char) (str : List Char)
    (hb : before ≠ 'a') :
    (obj_elf_parse_section_letters before str
        = Except.error Fatal.unrecognized_section_attribute
      ↔ ¬ Recognised (Char.ofNat 0) str)
    ∧ ((∃ r, obj_elf_parse_section_letters before str = Except.ok r)
      ↔ Recognised (Char.ofNat 0) str)
    ∧ ((∀ c ∈ str, ISDIGIT c = false ∧ c ≠ 'm') →
        (obj_elf_parse_section_letters before str
            = Except.error Fatal.unrecognized_section_attribute
          ↔ ∃ c ∈ str, is_flag_letter c = false)) := by
  have hprev : Recognised before str ↔ Recognised (Char.ofNat 0) str :=
    ⟨recognised_prev_irrelevant _ _ _ hb,
     recognised_prev_irrelevant _ _ _ (by decide)⟩
  have hok := letters_ok_iff_recognised before str
  have hfatal := letters_fatal_iff_not_ok before str
  refine ⟨?_, ?_, ?_⟩
  · rw [hfatal, hok, hprev]
  · rw [hok, hprev]
  · intro hplain
    rw [hfatal, hok, recognised_iff_letters before str hplain]
    constructor
    · intro h
      by_contra hne
      apply h
      intro c hc
      by_contra hcl
      exact hne ⟨c, hc, by simpa using hcl⟩
    · rintro ⟨c, hc, hcl⟩ hall
      rw [hall c hc] at hcl
      cases hcl

/-- C12, amended, at the flag string `ab` after a quote. -/
theorem C12_fatal_iff_unrecognised_witness :
    '"' ≠ 'a'
      ∧ (∀ c ∈ "ab".data, ISDIGIT c = false ∧ c ≠ 'm')
      ∧ (∃ c ∈ "ab".data, is_flag_letter c = false)
      ∧ obj_elf_parse_section_letters '"' "ab".data
          = Except.error Fatal.unrecognized_section_attribute :=
  ⟨by decide, by decide, by decide,
   ((C12_fatal_iff_unrecognised '"' "ab".data (by decide)).2.2 (by decide)).2
     (by decide)⟩

/-! ## Section types -/

theorem take_name (name rest : List Char) (k : Nat) (p : List Char) (hp : p.length = k) :
    (name.length = k ∧ (name ++ rest).take k = p) ↔ name = p := by
  constructor
  · rintro ⟨h1, h2⟩
    rw [← h1, List.take_left'] at h2
    · exact h2
    · rfl
  · intro h
    subst h
    refine ⟨hp, ?_⟩
    rw [← hp, List.take_left']
    rfl

theorem section_type_other (name rest : List Char) (warn : Bool)
    (hn : name ∉ section_type_names) :
    obj_elf_section_type (name ++ rest) name.length warn
      = if ISDIGIT (peek (name ++ rest)) then
          (to_int (strtoul (name ++ rest)).1,
           if warn ∧ (strtoul (name ++ rest)).2 ≠ name.length then
             [Diag.as_warn Message.extraneous_characters_at_end_of_numeric_section_type]
           else [])
        else (0, if warn then [Diag.as_warn Message.unrecognized_section_type] else []) := by
  have h1 := take_name name rest 8 "progbits".data rfl
  have h2 := take_name name rest 6 "nobits".data rfl
  have h3 := take_name name rest 4 "note".data rfl
  have h4 := take_name name rest 10 "init_array".data rfl
  have h5 := take_name name rest 10 "fini_array".data rfl
  have h6 := take_name name rest 13 "preinit_array".data rfl
  simp only [section_type_names, List.mem_cons, List.mem_singleton, not_or,
    List.not_mem_nil, or_false] at hn
  obtain ⟨n1, n2, n3, n4, n5, n6⟩ := hn
  unfold obj_elf_section_type
  rw [if_neg (fun h => n1 (h1.1 h)), if_neg (fun h => n2 (h2.1 h)),
    if_neg (fun h => n3 (h3.1 h)), if_neg (fun h => n4 (h4.1 h)),
    if_neg (fun h => n5 (h5.1 h)), if_neg (fun h => n6 (h6.1 h))]

theorem to_int_of_small (v : Nat) (h : v < 2147483648) : to_int (v : Int) = (v : Int) := by
  unfold to_int
  omega

/-- The cases of `obj_elf_section_type` with no target-specific resolver:
given a name (the first `len` characters of the text at `str`), returns PROGBITS,
NOBITS, NOTE, INIT_ARRAY, FINI_ARRAY, PREINIT_ARRAY, without a warning,
when the name is progbits, nobits, note, init_array, fini_array,
preinit_array (the whole name, in lower case); for another name that starts
with a digit it returns the value of the number `strtoul` reads there, as
an `int`, which for a name of decimal digits that does not begin with 0 and
is less than 2^31 is its decimal value; and for every other name it returns
0 and emits the warning `unrecognized section type` exactly when warnings
are requested. -/
theorem section_type_cases (name rest : List Char) (warn : Bool) :
    (name = "progbits".data →
      obj_elf_section_type (name ++ rest) name.length warn
        = ((SHT_PROGBITS : Int), ([] : List Diag)))
    ∧ (name = "nobits".data →
      obj_elf_section_type (name ++ rest) name.length warn
        = ((SHT_NOBITS : Int), ([] : List Diag)))
    ∧ (name = "note".data →
      obj_elf_section_type (name ++ rest) name.length warn
        = ((SHT_NOTE : Int), ([] : List Diag)))
    ∧ (name = "init_array".data →
      obj_elf_section_type (name ++ rest) name.length warn
        = ((SHT_INIT_ARRAY : Int), ([] : List Diag)))
    ∧ (name = "fini_array".data →
      obj_elf_section_type (name ++ rest) name.length warn
        = ((SHT_FINI_ARRAY : Int), ([] : List Diag)))
    ∧ (name = "preinit_array".data →
      obj_elf_section_type (name ++ rest) name.length warn
        = ((SHT_PREINIT_ARRAY : Int), ([] : List Diag)))
    ∧ (name ∉ section_type_names → ISDIGIT (peek (name ++ rest)) = true →
      (obj_elf_section_type (name ++ rest) name.length warn).1
        = to_int (strtoul (name ++ rest)).1)
    ∧ (name ≠ [] → (∀ c ∈ name, ISDIGIT c = true) → name.head? ≠ some '0' →
        decimal_value name < 2147483648 →
      obj_elf_section_type name name.length warn
        = ((decimal_value name : Int), ([] : List Diag)))
    ∧ (name ∉ section_type_names → ISDIGIT (peek (name ++ rest)) = false →
      obj_elf_section_type (name ++ rest) name.length warn
        = (0, if warn then [Diag.as_warn Message.unrecognized_section_type] else [])) := by
  have h1 := take_name name rest 8 "progbits".data rfl
  have h2 := take_name name rest 6 "nobits".data rfl
  have h3 := take_name name rest 4 "note".data rfl
  have h4 := take_name name rest 10 "init_array".data rfl
  have h5 := take_name name rest 10 "fini_array".data rfl
  have h6 := take_name name rest 13 "preinit_array".data rfl
  refine ⟨?_, ?_, ?_, ?_, ?_, ?_, ?_, ?_, ?_⟩
  · intro h
    unfold obj_elf_section_type
    simp only [h1, h2, h3, h4, h5, h6]
    subst h
    rw [if_pos rfl]
  · intro h
    unfold obj_elf_section_type
    simp only [h1, h2, h3, h4, h5, h6]
    subst h
    rw [if_neg (by decide), if_pos rfl]
  · intro h
    unfold obj_elf_section_type
    simp only [h1, h2, h3, h4, h5, h6]
    subst h
    rw [if_neg (by decide), if_neg (by decide), if_pos rfl]
  · intro h
    unfold obj_elf_section_type
    simp only [h1, h2, h3, h4, h5, h6]
    subst h
    rw [if_neg (by decide), if_neg (by decide), if_neg (by decide), if_pos rfl]
  · intro h
    unfold obj_elf_section_type
    simp only [h1, h2, h3, h4, h5, h6]
    subst h
    rw [if_neg (by decide), if_neg (by decide), if_neg (by decide), if_neg (by decide),
      if_pos rfl]
  · intro h
    unfold obj_elf_section_type
    simp only [h1, h2, h3, h4, h5, h6]
    subst h
    rw [if_neg (by decide), if_neg (by decide), if_neg (by decide), if_neg (by decide),
      if_neg (by decide), if_pos rfl]
  · intro hn hd
    rw [section_type_other name rest warn hn, hd]
    rfl
  · intro hne hd h0 hlt
    cases name with
    | nil => exact absurd rfl hne
    | cons c r =>
      have hc := hd c (List.mem_cons_self c r)
      have hc0 : c ≠ '0' := by
        intro h; apply h0; simp [h]
      have hn : (c :: r) ∉ section_type_names := by
        have hr := isdigit_range c hc
        simp only [section_type_names, List.mem_cons, List.mem_singleton, not_or,
          List.not_mem_nil, or_false]
        refine ⟨?_, ?_, ?_, ?_, ?_, ?_⟩ <;>
          (intro h; injection h with h _; subst h; revert hr; decide)
      have hmain := section_type_other (c :: r) [] warn hn
      simp only [List.append_nil] at hmain
      rw [hmain]
      have hp : ISDIGIT (peek (c :: r)) = true := by simpa [peek] using hc
      rw [hp, strtoul_decimal c r hc0, scan_digits_decimal (c :: r) 0 0 hd]
      have hv : (c :: r).foldl (fun v c => v * 10 + (c.toNat - 48)) 0
          = decimal_value (c :: r) := rfl
      have hfit : decimal_value (c :: r) ≤ ULONG_MAX := by
        unfold ULONG_MAX; omega
      simp only [hv, if_true, Nat.min_eq_left hfit, Nat.zero_add, ne_eq, not_true_eq_false,
        and_false, if_false]
      rw [to_int_of_small _ hlt]
  · intro hn hd
    rw [section_type_other name rest warn hn, hd]
    rfl

/-! ## Special sections: the explicit type -/

theorem override_no_type_warning (e : bfd_elf_special_section) (name : String)
    (attr : Nat) (group_name : Option String) (is_new : Bool) (m : String) :
    List.count (Diag.as_warn (Message.setting_incorrect_section_type m))
        (special_section_override e name attr group_name is_new).2 = 0
      ∧ List.count (Diag.as_warn (Message.ignoring_incorrect_section_type m))
        (special_section_override e name attr group_name is_new).2 = 0 := by
  unfold special_section_override
  repeat' split
  all_goals simp

theorem special_section_type_kept (e : bfd_elf_special_section) (name : String)
    (type : Nat)
    (h1 : e.type ≠ SHT_INIT_ARRAY) (h2 : e.type ≠ SHT_FINI_ARRAY)
    (h3 : e.type ≠ SHT_PREINIT_ARRAY)
    (hexp : type ≠ SHT_NULL) (hdiff : type ≠ e.type) :
    special_section_type e name type true
      = (type,
         if e.type ≠ SHT_NOTE ∧ type < SHT_LOPROC then
           [Diag.as_warn (Message.setting_incorrect_section_type name)]
         else []) := by
  unfold special_section_type
  simp only [hexp, hdiff, h1, h2, h3, if_false, ne_eq, not_false_eq_true, decide_True,
    Bool.and_self, if_true]
  split <;> rfl

theorem special_section_type_ignored (e : bfd_elf_special_section) (name : String)
    (type : Nat) (is_new : Bool)
    (harr : e.type = SHT_INIT_ARRAY ∨ e.type = SHT_FINI_ARRAY ∨ e.type = SHT_PREINIT_ARRAY)
    (hexp : type ≠ SHT_NULL) (hdiff : type ≠ e.type) :
    special_section_type e name type is_new
      = (e.type, [Diag.as_warn (Message.ignoring_incorrect_section_type name)]) := by
  unfold special_section_type
  rw [if_neg hexp, if_pos hdiff]
  rcases harr with h | h | h <;> simp [h]

/-- The result of a first declaration that returns. -/
theorem change_section_new_state (bed : Backend) (a : ChangeArgs) (s s1 : State)
    (hnew : bfd_get_section_by_name_if s.sections a.name
              { group_name := a.group_name, info := a.info } = none)
    (h : obj_elf_change_section bed a s = Except.ok s1) :
    s1.diags = s.diags ++
        (special_section (bed.get_sec_type_attr a.name) a.name a.type a.attr
          a.group_name true).2.2
      ∧ ¬ mbind_without_alloc
          (special_section (bed.get_sec_type_attr a.name) a.name a.type a.attr
            a.group_name true).2.1 := by
  rw [change_section_new bed a s hnew] at h
  split at h
  · cases h
  · rename_i hnf
    injection h with h
    subst h
    exact ⟨rfl, hnf⟩

/-- The result of a declaration of an existing section that returns. -/
theorem change_section_old_state (bed : Backend) (a : ChangeArgs) (s s1 : State)
    (i : Nat) (old : asection)
    (hold : bfd_get_section_by_name_if s.sections a.name
              { group_name := a.group_name, info := a.info } = some (i, old))
    (h : obj_elf_change_section bed a s = Except.ok s1) :
    s1.diags = (s.diags ++
        (special_section (bed.get_sec_type_attr a.name) a.name a.type a.attr
          a.group_name false).2.2) ++
        redeclaration_warnings a
          (special_section (bed.get_sec_type_attr a.name) a.name a.type a.attr
            a.group_name false).1
          (special_section (bed.get_sec_type_attr a.name) a.name a.type a.attr
            a.group_name false).2.1
          (bfd_flags
            (special_section (bed.get_sec_type_attr a.name) a.name a.type a.attr
              a.group_name false).2.1
            (special_section (bed.get_sec_type_attr a.name) a.name a.type a.attr
              a.group_name false).1 a.linkonce)
          old
      ∧ s1.sections
          = modify_nth
              (redeclared_section
                (special_section (bed.get_sec_type_attr a.name) a.name a.type a.attr
                  a.group_name false).2.1
                (bfd_flags
                  (special_section (bed.get_sec_type_attr a.name) a.name a.type a.attr
                    a.group_name false).2.1
                  (special_section (bed.get_sec_type_attr a.name) a.name a.type a.attr
                    a.group_name false).1 a.linkonce))
              i s.sections := by
  rw [change_section_old bed a s i old hold] at h
  split at h
  · cases h
  · injection h with h
    subst h
    exact ⟨rfl, rfl⟩

/-- C15, as stated, fails: the first declaration of `.note.foo`, a special
section with the implicit type NOTE, with the explicit type PROGBITS keeps
PROGBITS as the type of the section and emits no warning, because any type
is allowed for a note section. -/
theorem C15_note_type_counterexample :
    generic_backend.get_sec_type_attr ".note.foo"
        = some { prefix_length := 5, suffix_length := -1, type := SHT_NOTE, attr := 0 }
      ∧ obj_elf_change_section generic_backend declare_note_progbits sample_state
        = Except.ok
            (state_after_declaring
              { name := ".note.foo", flags := SEC_RELOC ||| SEC_READONLY, entsize := 0,
                sh_type := SHT_PROGBITS, sh_flags := 0, sh_info := 0, group_name := none,
                bss := false }
              []) := by
  decide

/-- C15, amended: on the first declaration of a special section whose
implicit type is not INIT_ARRAY, FINI_ARRAY or PREINIT_ARRAY, an explicit
type that differs from the implicit type is kept as the type of the section;
the warning `setting incorrect section type` is emitted once when the
implicit type is not NOTE and the explicit type is below `SHT_LOPROC`, and
not at all otherwise; the type is never ignored.  (The call is one that
returns.) -/
theorem C15_explicit_type_kept (bed : Backend) (a : ChangeArgs) (s s1 : State)
    (e : bfd_elf_special_section)
    (hnew : bfd_get_section_by_name_if s.sections a.name
              { group_name := a.group_name, info := a.info } = none)
    (hss : bed.get_sec_type_attr a.name = some e)
    (h1 : e.type ≠ SHT_INIT_ARRAY) (h2 : e.type ≠ SHT_FINI_ARRAY)
    (h3 : e.type ≠ SHT_PREINIT_ARRAY)
    (hexp : a.type ≠ SHT_NULL) (hdiff : a.type ≠ e.type)
    (hcall : obj_elf_change_section bed a s = Except.ok s1) :
    (∃ sec, s1.sec? s1.now_seg = some sec ∧ sec.sh_type = a.type)
      ∧ List.count (Diag.as_warn (Message.setting_incorrect_section_type a.name)) s1.diags
          = List.count (Diag.as_warn (Message.setting_incorrect_section_type a.name)) s.diags
            + (if e.type ≠ SHT_NOTE ∧ a.type < SHT_LOPROC then 1 else 0)
      ∧ List.count (Diag.as_warn (Message.ignoring_incorrect_section_type a.name)) s1.diags
          = List.count (Diag.as_warn (Message.ignoring_incorrect_section_type a.name))
              s.diags := by
  have hcur := change_section_new_current bed a s s1 hnew hcall
  have hst := change_section_new_state bed a s s1 hnew hcall
  have hty := special_section_type_kept e a.name a.type h1 h2 h3 hexp hdiff
  have hov := override_no_type_warning e a.name a.attr a.group_name true a.name
  rw [hss] at hcur hst
  simp only [special_section, hty] at hcur hst
  refine ⟨⟨_, hcur, ?_⟩, ?_, ?_⟩
  · simp [declare_section, hexp]
  · rw [hst.1]
    simp only [List.count_append, hov.1]
    split <;> simp
  · rw [hst.1]
    simp only [List.count_append, hov.2]
    split <;> simp

/-- C15, amended, at `.section .data,"aw",@nobits` at the start of an
assembly: NOBITS is kept and the warning is given. -/
theorem C15_explicit_type_kept_witness :
    obj_elf_change_section sample_backend declare_data_nobits sample_state
        = Except.ok
            (state_after_declaring
              { name := ".data", flags := SEC_RELOC ||| SEC_ALLOC, entsize := 0,
                sh_type := SHT_NOBITS, sh_flags := SHF_ALLOC ||| SHF_WRITE, sh_info := 0,
                group_name := none, bss := true }
              [Diag.as_warn (Message.setting_incorrect_section_type ".data")])
      ∧ ∃ sec, (state_after_declaring
              { name := ".data", flags := SEC_RELOC ||| SEC_ALLOC, entsize := 0,
                sh_type := SHT_NOBITS, sh_flags := SHF_ALLOC ||| SHF_WRITE, sh_info := 0,
                group_name := none, bss := true }
              [Diag.as_warn (Message.setting_incorrect_section_type ".data")]).sec?
            (segT.reg 1) = some sec
          ∧ sec.sh_type = SHT_NOBITS :=
  ⟨by decide,
   (C15_explicit_type_kept sample_backend declare_data_nobits sample_state _
      { prefix_length := 5, suffix_length := -2, type := SHT_PROGBITS,
        attr := SHF_ALLOC ||| SHF_WRITE }
      (by decide) (by decide) (by decide) (by decide) (by decide) (by decide) (by decide)
      (by decide)).1⟩

theorem redeclaration_no_type_ignored (a : ChangeArgs) (type attr flags : Nat)
    (old : asection) (m : String) :
    List.count (Diag.as_warn (Message.ignoring_incorrect_section_type m))
      (redeclaration_warnings a type attr flags old) = 0 := by
  unfold redeclaration_warnings
  repeat' split
  all_goals simp

theorem redeclared_section_type (attr flags : Nat) (old : asection) :
    (redeclared_section attr flags old).sh_type = old.sh_type := by
  unfold redeclared_section
  split <;> rfl

/-- C16, as stated, fails: `.section .init_array,"aw",@progbits` at the start
of an assembly declares `.init_array` with its implicit type INIT_ARRAY, not
with PROGBITS, and emits the warning `ignoring incorrect section type`. -/
theorem C16_init_array_type_counterexample :
    sample_backend.get_sec_type_attr ".init_array"
        = some { prefix_length := 11, suffix_length := -2, type := SHT_INIT_ARRAY,
                 attr := SHF_ALLOC ||| SHF_WRITE }
      ∧ obj_elf_change_section sample_backend declare_init_array_progbits sample_state
        = Except.ok
            (state_after_declaring
              { name := ".init_array", flags := SEC_RELOC ||| SEC_ALLOC ||| SEC_LOAD,
                entsize := 0, sh_type := SHT_INIT_ARRAY,
                sh_flags := SHF_ALLOC ||| SHF_WRITE, sh_info := 0, group_name := none,
                bss := false }
              [Diag.as_warn (Message.ignoring_incorrect_section_type ".init_array")])
      ∧ SHT_INIT_ARRAY ≠ SHT_PROGBITS := by
  decide

/-- C16, amended: on a declaration of a special section whose implicit type
is INIT_ARRAY, FINI_ARRAY or PREINIT_ARRAY, an explicit type that differs
from the implicit type is ignored: the warning `ignoring incorrect section
type` is emitted exactly once, a first declaration gives the section its
implicit type, and a later declaration leaves the type of the section as it
was.  (The call is one that returns.) -/
theorem C16_array_type_ignored (bed : Backend) (a : ChangeArgs) (s s1 : State)
    (e : bfd_elf_special_section)
    (hss : bed.get_sec_type_attr a.name = some e)
    (harr : e.type = SHT_INIT_ARRAY ∨ e.type = SHT_FINI_ARRAY ∨ e.type = SHT_PREINIT_ARRAY)
    (hexp : a.type ≠ SHT_NULL) (hdiff : a.type ≠ e.type)
    (hcall : obj_elf_change_section bed a s = Except.ok s1) :
    List.count (Diag.as_warn (Message.ignoring_incorrect_section_type a.name)) s1.diags
        = List.count (Diag.as_warn (Message.ignoring_incorrect_section_type a.name))
            s.diags + 1
      ∧ (bfd_get_section_by_name_if s.sections a.name
            { group_name := a.group_name, info := a.info } = none →
          ∃ sec, s1.sec? s1.now_seg = some sec ∧ sec.sh_type = e.type)
      ∧ (∀ i old, bfd_get_section_by_name_if s.sections a.name
            { group_name := a.group_name, info := a.info } = some (i, old) →
          ∃ sec, s1.sections[i]? = some sec ∧ sec.sh_type = old.sh_type) := by
  have he0 : e.type ≠ SHT_NULL := by
    rcases harr with h | h | h <;> rw [h] <;> decide
  refine ⟨?_, ?_, ?_⟩
  · cases hl : bfd_get_section_by_name_if s.sections a.name
        { group_name := a.group_name, info := a.info } with
    | none =>
      have hst := change_section_new_state bed a s s1 hl hcall
      have hov := override_no_type_warning e a.name a.attr a.group_name true a.name
      rw [hss] at hst
      simp only [special_section,
        special_section_type_ignored e a.name a.type true harr hexp hdiff] at hst
      rw [hst.1]
      simp [List.count_append, hov.2]
    | some r =>
      obtain ⟨i, old⟩ := r
      have hst := change_section_old_state bed a s s1 i old hl hcall
      have hov := override_no_type_warning e a.name a.attr a.group_name false a.name
      rw [hss] at hst
      simp only [special_section,
        special_section_type_ignored e a.name a.type false harr hexp hdiff] at hst
      rw [hst.1]
      simp [List.count_append, hov.2, redeclaration_no_type_ignored]
  · intro hnew
    have hcur := change_section_new_current bed a s s1 hnew hcall
    rw [hss] at hcur
    simp only [special_section,
      special_section_type_ignored e a.name a.type true harr hexp hdiff] at hcur
    exact ⟨_, hcur, by simp [declare_section, he0]⟩
  · intro i old hold
    have hst := change_section_old_state bed a s s1 i old hold hcall
    have hsec := (first_index_get _ _ _ _ hold).1
    rw [hst.2, modify_nth_get, if_pos rfl, hsec]
    exact ⟨_, rfl, redeclared_section_type _ _ _⟩

/-- C16, amended, at `.section .init_array,"aw",@progbits` at the start of
an assembly. -/
theorem C16_array_type_ignored_witness :
    obj_elf_change_section sample_backend declare_init_array_progbits sample_state
        = Except.ok
            (state_after_declaring
              { name := ".init_array", flags := SEC_RELOC ||| SEC_ALLOC ||| SEC_LOAD,
                entsize := 0, sh_type := SHT_INIT_ARRAY,
                sh_flags := SHF_ALLOC ||| SHF_WRITE, sh_info := 0, group_name := none,
                bss := false }
              [Diag.as_warn (Message.ignoring_incorrect_section_type ".init_array")])
      ∧ List.count (Diag.as_warn (Message.ignoring_incorrect_section_type ".init_array"))
          [Diag.as_warn (Message.ignoring_incorrect_section_type ".init_array")]
        = List.count (Diag.as_warn (Message.ignoring_incorrect_section_type ".init_array"))
            sample_state.diags + 1 :=
  ⟨by decide,
   (C16_array_type_ignored sample_backend declare_init_array_progbits sample_state
      (state_after_declaring
        { name := ".init_array", flags := SEC_RELOC ||| SEC_ALLOC ||| SEC_LOAD,
          entsize := 0, sh_type := SHT_INIT_ARRAY,
          sh_flags := SHF_ALLOC ||| SHF_WRITE, sh_info := 0, group_name := none,
          bss := false }
        [Diag.as_warn (Message.ignoring_incorrect_section_type ".init_array")])
      { prefix_length := 11, suffix_length := -2, type := SHT_INIT_ARRAY,
        attr := SHF_ALLOC ||| SHF_WRITE }
      (by decide) (by decide) (by decide) (by decide) (by decide)).1⟩

/-! ## Special sections: the explicit flags -/

theorem override_cases (e : bfd_elf_special_section) (name : String) (attr : Nat)
    (group_name : Option String) :
    special_section_override e name attr group_name true
      = if extra_flags e attr then
          if exempt_note e attr then (false, [])
          else if exempt_suffix e name attr then (false, [])
          else if exempt_alloc name attr then (true, [])
          else if exempt_stack name attr then (true, [])
          else
            (true,
             if group_name = none then
               [Diag.as_warn (Message.setting_incorrect_section_attributes name)]
             else [])
        else (false, []) := by
  unfold special_section_override extra_flags exempt_note exempt_suffix exempt_alloc
    exempt_stack
  simp only [Bool.true_and, decide_eq_true_eq]

theorem override_not_new (e : bfd_elf_special_section) (name : String) (attr : Nat)
    (group_name : Option String) :
    special_section_override e name attr group_name false = (false, []) := by
  simp [special_section_override]

theorem special_section_type_no_attribute_warning (e : bfd_elf_special_section)
    (name : String) (type : Nat) (is_new : Bool) (m : String) :
    List.count (Diag.as_warn (Message.setting_incorrect_section_attributes m))
      (special_section_type e name type is_new).2 = 0 := by
  unfold special_section_type
  repeat' split
  all_goals simp

/-- C17, as stated, fails: `.section .data,"ax"` at the start of an assembly
names the flag EXECINSTR, which is not among the implicit flags ALLOC and
WRITE of `.data`; the warning is emitted, and the flags of the section are
the explicit flags ALLOC and EXECINSTR, not the implicit set. -/
theorem C17_flags_not_reset_counterexample :
    sample_backend.get_sec_type_attr ".data"
        = some { prefix_length := 5, suffix_length := -2, type := SHT_PROGBITS,
                 attr := SHF_ALLOC ||| SHF_WRITE }
      ∧ obj_elf_change_section sample_backend declare_data_ax sample_state
        = Except.ok
            (state_after_declaring
              { name := ".data",
                flags := SEC_RELOC ||| SEC_READONLY ||| SEC_ALLOC ||| SEC_LOAD ||| SEC_CODE,
                entsize := 0, sh_type := SHT_PROGBITS,
                sh_flags := SHF_ALLOC ||| SHF_EXECINSTR, sh_info := 0, group_name := none,
                bss := false }
              [Diag.as_warn (Message.setting_incorrect_section_attributes ".data")])
      ∧ SHF_ALLOC ||| SHF_EXECINSTR ≠ SHF_ALLOC ||| SHF_WRITE := by
  decide

theorem or_and_left_self (a b : Nat) : (a ||| b) &&& a = a := by
  apply Nat.eq_of_testBit_eq
  intro i
  rw [Nat.testBit_and, Nat.testBit_or]
  cases Nat.testBit a i <;> simp

/-- A name that continues the prefix of a special-section entry with `.str`
passes the test of the code for names like `.rodata.str`. -/
theorem str_name_exempt (e : bfd_elf_special_section) (pre rest : List Char) (attr : Nat)
    (hlen : pre.length = e.prefix_length) (hsuf : e.suffix_length = -2)
    (hattr : andNot (andNot (andNot attr e.attr) SHF_MERGE) SHF_STRINGS = 0) :
    exempt_suffix e (String.mk (pre ++ '.' :: 's' :: 't' :: 'r' :: rest)) attr := by
  refine ⟨hsuf, ?_, hattr⟩
  show (pre ++ '.' :: 's' :: 't' :: 'r' :: rest)[e.prefix_length]? = some '.'
  rw [← hlen, List.getElem?_append_right (le_refl _)]
  simp

/-- The flags and the warnings of the special-section block on a first
declaration, in an exempt case. -/
theorem special_section_exempt (e : bfd_elf_special_section) (name : String)
    (type attr : Nat) (group_name : Option String)
    (h : exempt_note e attr ∨ exempt_suffix e name attr ∨ exempt_alloc name attr
          ∨ exempt_stack name attr) :
    (special_section (some e) name type attr group_name true).2.2
        = (special_section_type e name type true).2
      ∧ ((special_section (some e) name type attr group_name true).2.1 = attr ||| e.attr
          ∨ (special_section (some e) name type attr group_name true).2.1 = attr)
      ∧ (exempt_note e attr ∨ exempt_suffix e name attr →
          (special_section (some e) name type attr group_name true).2.1
            = attr ||| e.attr) := by
  simp only [special_section, override_cases]
  by_cases hx : extra_flags e attr
  · by_cases h1 : exempt_note e attr
    · simp [hx, h1]
    · by_cases h2 : exempt_suffix e name attr
      · simp [hx, h1, h2]
      · by_cases h3 : exempt_alloc name attr
        · simp [hx, h1, h2, h3]
        · by_cases h4 : exempt_stack name attr
          · simp [hx, h1, h2, h3, h4]
          · simp [h1, h2, h3, h4] at h
  · simp [hx]

/-- C18: on the first declaration of a special section in one of the exempt
cases (implicit type NOTE with the explicit flags exactly ALLOC or exactly
EXECINSTR; a name that goes on with a dot after the prefix of an entry that
allows such a suffix, as `.rodata.str1.1`, with no explicit flag outside the
implicit set other than MERGE and STRINGS; `.interp`, `.strtab` or `.symtab`
with the flags exactly ALLOC; `.note.GNU-stack` with the flags exactly
EXECINSTR), a call of `obj_elf_change_section` that returns emits no warning
about section attributes, and every requested flag is a flag of the section.
In the first two cases the flags of the section are the requested flags
together with the implicit ones. -/
theorem C18_exempt_cases (bed : Backend) (a : ChangeArgs) (s s1 : State)
    (e : bfd_elf_special_section)
    (hnew : bfd_get_section_by_name_if s.sections a.name
              { group_name := a.group_name, info := a.info } = none)
    (hss : bed.get_sec_type_attr a.name = some e)
    (hexempt : exempt_note e a.attr ∨ exempt_suffix e a.name a.attr
                ∨ exempt_alloc a.name a.attr ∨ exempt_stack a.name a.attr)
    (hcall : obj_elf_change_section bed a s = Except.ok s1) :
    (∀ m, List.count (Diag.as_warn (Message.setting_incorrect_section_attributes m)) s1.diags
        = List.count (Diag.as_warn (Message.setting_incorrect_section_attributes m)) s.diags)
      ∧ (∀ m, List.count (Diag.as_warn (Message.ignoring_changed_section_attributes m))
                s1.diags
          = List.count (Diag.as_warn (Message.ignoring_changed_section_attributes m))
              s.diags)
      ∧ ∃ sec, s1.sec? s1.now_seg = some sec
          ∧ sec.sh_flags &&& a.attr = a.attr
          ∧ (exempt_note e a.attr ∨ exempt_suffix e a.name a.attr →
              sec.sh_flags = a.attr ||| e.attr) := by
  have hcur := change_section_new_current bed a s s1 hnew hcall
  have hst := change_section_new_state bed a s s1 hnew hcall
  obtain ⟨hd, hf, hm⟩ := special_section_exempt e a.name a.type a.attr a.group_name hexempt
  rw [hss] at hcur hst
  refine ⟨?_, ?_, _, hcur, ?_, ?_⟩
  · intro m
    rw [hst.1, hd, List.count_append, special_section_type_no_attribute_warning]
    rfl
  · intro m
    rw [hst.1, hd, List.count_append]
    have : List.count (Diag.as_warn (Message.ignoring_changed_section_attributes m))
        (special_section_type e a.name a.type true).2 = 0 := by
      unfold special_section_type
      repeat' split
      all_goals simp
    rw [this]
    rfl
  · show (special_section (some e) a.name a.type a.attr a.group_name true).2.1 &&& a.attr
      = a.attr
    rcases hf with hf | hf
    · rw [hf, or_and_left_self]
    · rw [hf, Nat.and_self]
  · intro h
    exact hm h

/-- C18 at the first declarations `.section .note.foo,"a"`,
`.section .rodata.str1.1,"aMS",@progbits,1`, `.section .interp,"a"` and
`.section .note.GNU-stack,"x",@progbits` at the start of an assembly. -/
theorem C18_exempt_cases_witness :
    (obj_elf_change_section generic_backend declare_note_alloc sample_state
        = Except.ok
            (state_after_declaring
              { name := ".note.foo", flags := SEC_RELOC ||| SEC_READONLY ||| SEC_ALLOC ||| SEC_LOAD,
                entsize := 0, sh_type := SHT_NOTE, sh_flags := SHF_ALLOC, sh_info := 0,
                group_name := none, bss := false } [])
      ∧ ∃ sec, (state_after_declaring
              { name := ".note.foo", flags := SEC_RELOC ||| SEC_READONLY ||| SEC_ALLOC ||| SEC_LOAD,
                entsize := 0, sh_type := SHT_NOTE, sh_flags := SHF_ALLOC, sh_info := 0,
                group_name := none, bss := false } []).sec? (segT.reg 1) = some sec
          ∧ sec.sh_flags &&& SHF_ALLOC = SHF_ALLOC)
      ∧ exempt_suffix
          { prefix_length := 7, suffix_length := -2, type := SHT_PROGBITS, attr := SHF_ALLOC }
          ".rodata.str1.1" (SHF_ALLOC ||| SHF_MERGE ||| SHF_STRINGS)
      ∧ (∃ s1, obj_elf_change_section generic_backend declare_rodata_str sample_state
                = Except.ok s1)
      ∧ (∃ s1, obj_elf_change_section generic_backend declare_interp_alloc sample_state
                = Except.ok s1)
      ∧ (∃ s1, obj_elf_change_section generic_backend declare_gnu_stack_exec sample_state
                = Except.ok s1) :=
  ⟨⟨by decide,
    (C18_exempt_cases generic_backend declare_note_alloc sample_state
      (state_after_declaring
        { name := ".note.foo", flags := SEC_RELOC ||| SEC_READONLY ||| SEC_ALLOC ||| SEC_LOAD,
          entsize := 0, sh_type := SHT_NOTE, sh_flags := SHF_ALLOC, sh_info := 0,
          group_name := none, bss := false } [])
      { prefix_length := 5, suffix_length := -1, type := SHT_NOTE, attr := 0 }
      (by decide) (by decide) (Or.inl (by decide)) (by decide)).2.2.imp
      (fun _ h => ⟨h.1, h.2.1⟩)⟩,
   by decide, ⟨_, rfl⟩, ⟨_, rfl⟩, ⟨_, rfl⟩⟩

/-! ## The clone marker together with the GROUP letter -/

theorem section_type_no_clone_warning (str : List Char) (len : Nat) (warn : Bool) :
    List.count clone_warning (obj_elf_section_type str len warn).2 = 0 := by
  unfold obj_elf_section_type
  repeat' split
  all_goals simp [clone_warning]

theorem section_type_field_clone (rd : Reader) (type type1 : Int)
    (ilp ilp1 : List Char) (diags : List Diag)
    (h : section_type_field rd type ilp = TypeField.read type1 ilp1 diags) :
    List.count clone_warning diags = 0 := by
  unfold section_type_field at h
  simp only [] at h
  split at h
  · split at h
    · split at h
      · cases h
      · rw [TypeField.read.injEq] at h; obtain ⟨_, _, h3⟩ := h
        subst h3; exact section_type_no_clone_warning _ _ _
    · split at h
      · split at h
        · rw [TypeField.read.injEq] at h; obtain ⟨_, _, h3⟩ := h; subst h3; exact List.count_nil _
        · rw [TypeField.read.injEq] at h; obtain ⟨_, _, h3⟩ := h
          subst h3; exact section_type_no_clone_warning _ _ _
      · rw [TypeField.read.injEq] at h; obtain ⟨_, _, h3⟩ := h; subst h3; exact List.count_nil _
  · rw [TypeField.read.injEq] at h; obtain ⟨_, _, h3⟩ := h; subst h3; exact List.count_nil _

theorem section_flags_letters_clone (rd : Reader) (l0 l : SectionLocals) (c : Bool)
    (h : section_flags rd l0 = SectionProgress.letters l c) :
    l.linkonce = l0.linkonce
      ∧ List.count clone_warning l.s.diags = List.count clone_warning l0.s.diags := by
  unfold section_flags at h
  split at h
  · unfold section_letters at h
    split at h
    · cases h
    · split at h
      · cases h
      · split at h
        · cases h
        · rename_i htf
          have hd := section_type_field_clone _ _ _ _ _ _ htf
          rw [SectionProgress.letters.injEq] at h
          obtain ⟨h1, _⟩ := h
          subst h1
          simp [List.count_append, hd]
  · split at h <;> cases h

theorem section_head_letters_clone (rd : Reader) (opts : Options) (push : Int) (s : State)
    (ilp : List Char) (l : SectionLocals) (c : Bool)
    (h : section_head rd opts push s ilp = SectionProgress.letters l c) :
    l.linkonce = 0
      ∧ List.count clone_warning l.s.diags = List.count clone_warning s.diags := by
  unfold section_head at h
  split at h
  · cases h
  · split at h
    · cases h
    · cases h
    · rename_i name ilp1 s1 hname
      have hs := section_name_state_name _ _ _ _ _ _ _ hname
      subst hs
      simp only [] at h
      split at h
      · split at h
        · split at h
          · cases h
          · exact section_flags_letters_clone _ _ _ _ h
        · exact section_flags_letters_clone _ _ _ _ h
      · cases h

theorem section_merge_clone (rd : Reader) (l : SectionLocals) :
    List.count clone_warning (section_merge rd l).s.diags
      = List.count clone_warning l.s.diags := by
  unfold section_merge
  simp only []
  split
  · split
    · simp [State.warn, clone_warning]
    · simp
  · split
    · simp [State.warn, clone_warning]
    · simp

theorem section_group_clone (rd : Reader) (opts : Options) (l l1 : SectionLocals)
    (h : section_group rd opts l = some l1) :
    List.count clone_warning l1.s.diags = List.count clone_warning l.s.diags
      ∧ (l1.attr &&& SHF_GROUP = 0 → l1.linkonce = l.linkonce) := by
  unfold section_group at h
  split at h
  · rename_i hg
    split at h
    · cases h
    · rename_i ilp1 s1 hname
      injection h with h
      subst h
      have hs := section_name_state_null _ _ _ _ _ _ hname
      rcases hs with hs | hs <;> subst hs <;> simp [State.bad, clone_warning]
    · rename_i g ilp1 s1 hname
      have hs := section_name_state_name _ _ _ _ _ _ _ hname
      subst hs
      split at h
      · simp only [] at h
        split at h <;> (injection h with h; subst h; simp [hg.1])
      · split at h <;> (injection h with h; subst h; simp [hg.1])
  · split at h
    · injection h with h
      subst h
      simp [State.warn, clone_warning]
    · injection h with h
      subst h
      simp

theorem section_mbind_clone (l : SectionLocals) :
    List.count clone_warning (section_mbind l).s.diags
        = List.count clone_warning l.s.diags
      ∧ (section_mbind l).linkonce = l.linkonce := by
  unfold section_mbind
  simp only []
  split
  · split
    · split <;> simp [State.warn, clone_warning]
    · simp
  · simp

theorem section_done_clone (rd : Reader) (push : Int) (l : SectionLocals)
    (a : ChangeArgs) (n : Int) (s1 : State)
    (h : section_done rd push l = SectionResult.call a n s1) :
    List.count clone_warning s1.diags = List.count clone_warning l.s.diags := by
  unfold section_done at h
  rw [SectionResult.call.injEq] at h
  obtain ⟨_, _, h3⟩ := h
  subst h3
  split <;> simp [State.bad, clone_warning]

/-- The name that `obj_elf_section_name` reads does not depend on the
diagnostics printed so far. -/
theorem section_name_diags (rd : Reader) (opts : Options) (s : State) (d : List Diag)
    (ilp : List Char) :
    obj_elf_section_name rd opts { s with diags := d } ilp
      = match obj_elf_section_name rd opts s ilp with
        | NameResult.name n i _ => NameResult.name n i { s with diags := d }
        | NameResult.null i s1 =>
            NameResult.null i { s with diags := d ++ s1.diags.drop s.diags.length }
        | NameResult.no_result => NameResult.no_result := by
  unfold obj_elf_section_name
  simp only []
  by_cases hp : peek (SKIP_WHITESPACE ilp) = '"'
  · simp only [hp, if_true]
    rcases hq : rd.demand_copy_C_string (SKIP_WHITESPACE ilp) with ⟨_ | name, n⟩ <;> simp
  · simp only [hp, if_false]
    by_cases hl : (List.takeWhile (fun c => !ends_name c) (SKIP_WHITESPACE ilp)).length = 0
    · simp [hl, State.bad]
    · simp only [hl, if_false]
      have hn : section_name { s with diags := d } s.now_seg = section_name s s.now_seg := by
        unfold section_name
        cases s.now_seg <;> rfl
      simp only [hn]
      split <;> simp_all

theorem mbind_args_state (name : String) (type : Int) (attr : Nat) (entsize : Int)
    (group_name : Option String) (linkonce new_subsection : Int) (info : Nat)
    (ilp : List Char) (s s2 : State) (push : Int) :
    (section_mbind
        { name := name, type := type, attr := attr, entsize := entsize,
          group_name := group_name, linkonce := linkonce,
          new_subsection := new_subsection, info := info, ilp := ilp, s := s }).args push
      = (section_mbind
          { name := name, type := type, attr := attr, entsize := entsize,
            group_name := group_name, linkonce := linkonce,
            new_subsection := new_subsection, info := info, ilp := ilp, s := s2 }).args push := by
  unfold section_mbind
  simp only []
  split
  · split
    · split <;> rfl
    · rfl
  · rfl

/-- The arguments that come out of the group stage do not depend on the
diagnostics printed so far. -/
theorem section_group_diags (rd : Reader) (opts : Options) (push : Int)
    (l : SectionLocals) (d : List Diag) :
    (section_group rd opts { l with s := { l.s with diags := d } }).map
        (fun r => (section_mbind r).args push)
      = (section_group rd opts l).map (fun r => (section_mbind r).args push) := by
  unfold section_group
  simp only [section_name_diags]
  by_cases hg : l.attr &&& SHF_GROUP ≠ 0 ∧ peek l.ilp = ','
  · simp only [hg, and_self, if_true, ne_eq, not_false_eq_true]
    cases hname : obj_elf_section_name rd opts l.s l.ilp.tail with
    | no_result => rfl
    | null i s1 =>
      simp only [Option.map_some']
      exact congrArg some (mbind_args_state _ _ _ _ _ _ _ _ _ _ _ _)
    | name n i s1 =>
      simp only []
      split
      · split <;>
          (simp only [Option.map_some']
           exact congrArg some (mbind_args_state _ _ _ _ _ _ _ _ _ _ _ _))
      · split <;>
          (simp only [Option.map_some']
           exact congrArg some (mbind_args_state _ _ _ _ _ _ _ _ _ _ _ _))
  · rw [if_neg hg, if_neg hg]
    split
    · simp only [Option.map_some']
      exact congrArg some (mbind_args_state _ _ _ _ _ _ _ _ _ _ _ _)
    · simp only [Option.map_some']
      exact congrArg some (mbind_args_state _ _ _ _ _ _ _ _ _ _ _ _)

/-- With the GROUP flag present, the clone marker changes nothing in the
arguments of the call. -/
theorem section_tail_clone_ignored (rd : Reader) (opts : Options) (push : Int)
    (l : SectionLocals) (hG : (section_merge rd l).attr &&& SHF_GROUP ≠ 0) :
    (section_tail rd opts l true).map (fun r => r.args push)
      = (section_tail rd opts l false).map (fun r => r.args push) := by
  have h := section_group_diags rd opts push (section_merge rd l)
    ((section_merge rd l).s.diags ++ [clone_warning])
  unfold section_tail section_clone_marker
  simp only [hG, ne_eq, not_false_eq_true, and_self, if_true, Bool.false_eq_true,
    and_false, if_false]
  simp only [State.warn]
  unfold clone_warning at h
  cases h1 : section_group rd opts
      { section_merge rd l with
        s := { (section_merge rd l).s with
               diags := (section_merge rd l).s.diags
                 ++ [Diag.as_warn Message.clone_flag_ignored_with_G_present] } } with
  | none =>
    rw [h1] at h
    cases h2 : section_group rd opts (section_merge rd l) with
    | none => rfl
    | some r2 => rw [h2] at h; cases h
  | some r1 =>
    rw [h1] at h
    cases h2 : section_group rd opts (section_merge rd l) with
    | none => rw [h2] at h; cases h
    | some r2 =>
      rw [h2] at h
      simp only [Option.map_some', section_clone] at h ⊢
      exact h

/-- C19, as stated, fails: in a section of the group `g`, made current by
`.section .text.f,"axG",@progbits,g,comdat`, the directive
`.section .x,"aG?",@progbits,h` emits the warning, hands the GROUP flag and
the group name `h` of the line to `obj_elf_change_section`, without the
link-once marker, and the section `.x` is declared with the GROUP flag in
the group `h`: the group name `g` and the link-once marker of the current
section are not taken over. -/
theorem C19_group_flag_kept_counterexample :
    obj_elf_section sample_reader sample_options sample_backend 0 sample_state
        line_group_member = some (Except.ok state_in_group)
      ∧ elf_group_name state_in_group state_in_group.now_seg = some "g"
      ∧ obj_elf_section_parse sample_reader sample_options 0 state_in_group line_clone_group
        = SectionResult.call
            { name := ".x", type := SHT_PROGBITS, info := 0, attr := SHF_ALLOC ||| SHF_GROUP,
              entsize := 0, group_name := some "h", linkonce := 0, push := 0 }
            (-1) (state_in_group.warn Message.clone_flag_ignored_with_G_present)
      ∧ (SHF_ALLOC ||| SHF_GROUP) &&& SHF_GROUP ≠ 0
      ∧ (match obj_elf_section sample_reader sample_options sample_backend 0 state_in_group
                line_clone_group with
          | some (Except.ok s2) =>
            (s2.sec? s2.now_seg).map
              (fun x => (x.name, x.sh_flags, x.group_name, x.flags &&& SEC_LINK_ONCE))
          | _ => none)
        = some (".x", SHF_ALLOC ||| SHF_GROUP, some "h", 0) := by
  decide

/-- C19, amended: when the flag string of a `.section` directive has given
both the clone marker and the GROUP flag, `obj_elf_section` emits the warning
`? section flag ignored with G present` once and drops the clone marker, not
the GROUP flag: the arguments handed to `obj_elf_change_section` are those
the rest of the line gives without the clone marker.  Either the GROUP flag
is set and the group name is the one read from the line, or no group name
could be read, and then the GROUP flag is cleared, there is no group name
and no link-once marker.  The group name and the link-once marker of the
current section are not used. -/
theorem C19_clone_marker_dropped (rd : Reader) (opts : Options) (push : Int)
    (s : State) (ilp : List Char) (l : SectionLocals) (a : ChangeArgs) (n : Int)
    (s1 : State)
    (hhead : section_head rd opts push s ilp = SectionProgress.letters l true)
    (hG : l.attr &&& SHF_GROUP ≠ 0)
    (hcall : obj_elf_section_parse rd opts push s ilp = SectionResult.call a n s1) :
    List.count clone_warning s1.diags = List.count clone_warning s.diags + 1
      ∧ (∃ l0, section_tail rd opts l false = some l0 ∧ a = l0.args push)
      ∧ ((a.attr &&& SHF_GROUP ≠ 0 ∧ a.group_name ≠ none)
          ∨ (a.attr &&& SHF_GROUP = 0 ∧ a.group_name = none ∧ a.linkonce = 0)) := by
  have hh := section_head_letters rd opts push s ilp l true hhead
  have hhc := section_head_letters_clone rd opts push s ilp l true hhead
  have hm := section_merge_frame rd l
  have hmc := section_merge_clone rd l
  have hGm : (section_merge rd l).attr &&& SHF_GROUP ≠ 0 := by
    rw [group_bit, hm.2.2.2.2.2]
    exact (group_bit _).1 hG
  unfold obj_elf_section_parse at hcall
  rw [hhead] at hcall
  simp only [] at hcall
  cases ht : section_tail rd opts l true with
  | none => rw [ht] at hcall; cases hcall
  | some l2 =>
    rw [ht] at hcall
    simp only [] at hcall
    have hd := section_done_spec rd push l2 a n s1 hcall
    have hdc := section_done_clone rd push l2 a n s1 hcall
    have hig := section_tail_clone_ignored rd opts push l hGm
    rw [ht] at hig
    have hk : section_clone_marker (section_merge rd l) true
        = ({ section_merge rd l with
             s := (section_merge rd l).s.warn Message.clone_flag_ignored_with_G_present },
           false) := by
      unfold section_clone_marker
      simp [hGm]
    unfold section_tail at ht
    simp only [hk] at ht
    split at ht
    · cases ht
    · rename_i l1 hgroup
      injection ht with ht
      have hcl : section_clone l1 false = l1 := by simp [section_clone]
      rw [hcl] at ht
      have hg := section_group_spec _ _ _ _ hgroup
      have hgc := section_group_clone _ _ _ _ hgroup
      have hb := section_mbind_spec l1
      have hbc := section_mbind_clone l1
      rw [ht] at hb hbc
      refine ⟨?_, ?_, ?_⟩
      · rw [hdc, hbc.1, hgc.1]
        simp only [State.warn, List.count_append]
        rw [hmc, hhc.2]
        simp [clone_warning]
      · cases h0 : section_tail rd opts l false with
        | none => rw [h0] at hig; cases hig
        | some l0 =>
          rw [h0] at hig
          simp only [Option.map_some'] at hig
          injection hig with hig
          exact ⟨l0, rfl, by rw [hd.1, hig]⟩
      · have ha : a.attr = l1.attr := by rw [hd.1]; exact hb.1
        have hn : a.group_name = l1.group_name := by rw [hd.1]; exact hb.2.2.2.1
        have hl : a.linkonce = l1.linkonce := by rw [hd.1]; exact hbc.2
        by_cases hx : l1.attr &&& SHF_GROUP = 0
        · right
          refine ⟨by rw [ha]; exact hx, ?_, ?_⟩
          · rw [hn, hg.2.2.2.2.1 hx]
            show (section_merge rd l).group_name = none
            rw [hm.2.1, hh.2.1]
          · rw [hl, hgc.2 hx]
            show (section_merge rd l).linkonce = 0
            rw [hm.2.2.1, hhc.1]
        · left
          exact ⟨by rw [ha]; exact hx, by rw [hn]; exact hg.2.2.2.1 hx⟩

/-- C19, amended, at the directive `.section .x,"aG?",@progbits,h` in a
section of the group `g`. -/
theorem C19_clone_marker_dropped_witness :
    section_head sample_reader sample_options 0 state_in_group line_clone_group
        = SectionProgress.letters
            { name := ".x", type := SHT_PROGBITS, attr := SHF_ALLOC ||| SHF_GROUP, entsize := 0,
              group_name := none, linkonce := 0, new_subsection := -1, info := 0,
              ilp := ",h\n".data, s := state_in_group }
            true
      ∧ List.count clone_warning
            (state_in_group.warn Message.clone_flag_ignored_with_G_present).diags
          = List.count clone_warning state_in_group.diags + 1 :=
  ⟨by decide,
   (C19_clone_marker_dropped sample_reader sample_options 0 state_in_group line_clone_group
      { name := ".x", type := SHT_PROGBITS, attr := SHF_ALLOC ||| SHF_GROUP, entsize := 0,
        group_name := none, linkonce := 0, new_subsection := -1, info := 0,
        ilp := ",h\n".data, s := state_in_group }
      { name := ".x", type := SHT_PROGBITS, info := 0, attr := SHF_ALLOC ||| SHF_GROUP,
        entsize := 0, group_name := some "h", linkonce := 0, push := 0 }
      (-1) (state_in_group.warn Message.clone_flag_ignored_with_G_present)
      (by decide) (by decide) (by decide)).1⟩

/-! ## The fatal error for GNU_MBIND without ALLOC -/

theorem mbind_without_alloc_iff (x : Nat) :
    mbind_without_alloc x ↔ x.testBit 24 = true ∧ x.testBit 1 = false := by
  have hc : SHF_ALLOC ||| SHF_GNU_MBIND = 2 ^ 1 ||| 2 ^ 24 := by decide
  have hm : SHF_GNU_MBIND = 2 ^ 24 := by decide
  unfold mbind_without_alloc
  rw [hc, hm]
  constructor
  · intro h
    have h24 := congrArg (fun n => Nat.testBit n 24) h
    have h1 := congrArg (fun n => Nat.testBit n 1) h
    simp only [Nat.testBit_and, Nat.testBit_or, Nat.testBit_two_pow] at h24 h1
    simp at h24 h1
    exact ⟨h24, h1⟩
  · rintro ⟨h24, h1⟩
    apply Nat.eq_of_testBit_eq
    intro i
    simp only [Nat.testBit_and, Nat.testBit_or, Nat.testBit_two_pow]
    by_cases hi : 24 = i
    · subst hi; simp [h24]
    · by_cases hj : 1 = i
      · subst hj; simp [h1]
      · simp [hi, hj]

/-- The outcome of `obj_elf_change_section` is decided by the test of line
596 on the effective flags. -/
theorem change_section_outcome (bed : Backend) (a : ChangeArgs) (s : State) :
    (mbind_without_alloc (effective_flags bed a s)
        ∧ obj_elf_change_section bed a s
            = Except.error (Fatal.SHF_ALLOC_not_set_for_GNU_MBIND_section a.name))
      ∨ (¬ mbind_without_alloc (effective_flags bed a s)
          ∧ ∃ s1, obj_elf_change_section bed a s = Except.ok s1) := by
  unfold effective_flags
  cases hlook : bfd_get_section_by_name_if s.sections a.name
      { group_name := a.group_name, info := a.info } with
  | none =>
    rw [change_section_new bed a s hlook]
    simp only [Option.isNone_none]
    split
    · rename_i h; exact Or.inl ⟨h, rfl⟩
    · rename_i h; exact Or.inr ⟨h, _, rfl⟩
  | some p =>
    obtain ⟨i, old⟩ := p
    rw [change_section_old bed a s i old hlook]
    simp only [Option.isNone_some]
    split
    · rename_i h; exact Or.inl ⟨h, rfl⟩
    · rename_i h; exact Or.inr ⟨h, _, rfl⟩

/-! ## Symbols found or made by name -/

theorem find_or_make_update (f : symbolS → symbolS) (name : String) (syms : List symbolS) :
    modify_nth f (symbol_find_or_make syms name).1 (symbol_find_or_make syms name).2
      = update_named f name syms := by
  induction syms with
  | nil => simp [symbol_find_or_make, symbol_find, first_index, modify_nth, update_named]
  | cons y ys ih =>
    unfold symbol_find_or_make symbol_find at ih ⊢
    by_cases hy : y.name = name
    · simp [first_index, hy, modify_nth, update_named]
    · cases hf : first_index (fun y => decide (y.name = name)) ys with
      | none =>
        rw [hf] at ih
        simp only [Option.map_none'] at ih
        simp only [first_index, hy, decide_False, Bool.false_eq_true, if_false, hf,
          Option.map_none', update_named]
        show y :: modify_nth f ys.length (ys ++ [symbol_make name]) = _
        rw [ih]
      | some r =>
        rw [hf] at ih
        simp only [Option.map_some'] at ih
        simp only [first_index, hy, decide_False, Bool.false_eq_true, if_false, hf,
          Option.map_some', update_named]
        show y :: modify_nth f r.1 ys = _
        rw [ih]

theorem update_named_absorb (f g : symbolS → symbolS) (name : String)
    (hg : ∀ y, (g y).name = y.name) (hfg : ∀ y, f (g y) = f y) (l : List symbolS) :
    update_named f name (update_named g name l) = update_named f name l := by
  induction l with
  | nil => simp [update_named, hg, symbol_make, hfg]
  | cons y ys ih =>
    by_cases hy : y.name = name
    · simp [update_named, hy, hg, hfg]
    · simp [update_named, hy, ih]

theorem update_named_commute (f g : symbolS → symbolS) (n m : String) (hnm : n ≠ m)
    (hf : ∀ y, (f y).name = y.name) (hg : ∀ y, (g y).name = y.name) (l : List symbolS)
    (hp : ∃ y ∈ l, y.name = n) :
    update_named f n (update_named g m l) = update_named g m (update_named f n l) := by
  induction l with
  | nil => obtain ⟨y, hy, _⟩ := hp; cases hy
  | cons y ys ih =>
    by_cases hyn : y.name = n
    · have hym : y.name ≠ m := by rw [hyn]; exact hnm
      simp [update_named, hyn, hym, hf, hnm]
    · by_cases hym : y.name = m
      · have hmn : ¬ m = n := fun h => hnm h.symm
        simp [update_named, hyn, hym, hg, hmn]
      · have hp2 : ∃ z ∈ ys, z.name = n := by
          obtain ⟨z, hz, hzn⟩ := hp
          rcases List.mem_cons.1 hz with h | h
          · subst h; exact absurd hzn hyn
          · exact ⟨z, h, hzn⟩
        simp [update_named, hyn, hym, ih hp2]

theorem update_named_present (f : symbolS → symbolS) (n k : String)
    (hf : ∀ y, (f y).name = y.name) (l : List symbolS)
    (hp : ∃ y ∈ l, y.name = k) : ∃ y ∈ update_named f n l, y.name = k := by
  induction l with
  | nil => obtain ⟨y, hy, _⟩ := hp; cases hy
  | cons y ys ih =>
    obtain ⟨z, hz, hzk⟩ := hp
    by_cases hyn : y.name = n
    · simp only [update_named, hyn, if_true]
      rcases List.mem_cons.1 hz with h | h
      · subst h; exact ⟨f z, List.mem_cons_self _ _, by rw [hf]; exact hzk⟩
      · exact ⟨z, List.mem_cons_of_mem _ h, hzk⟩
    · simp only [update_named, hyn, if_false]
      rcases List.mem_cons.1 hz with h | h
      · subst h; exact ⟨z, List.mem_cons_self _ _, hzk⟩
      · obtain ⟨w, hw, hwk⟩ := ih ⟨z, h, hzk⟩
        exact ⟨w, List.mem_cons_of_mem _ hw, hwk⟩

theorem update_named_self_present (f : symbolS → symbolS) (n : String)
    (hf : ∀ y, (f y).name = y.name) (l : List symbolS) :
    ∃ y ∈ update_named f n l, y.name = n := by
  induction l with
  | nil => exact ⟨f (symbol_make n), by simp [update_named], by rw [hf]; rfl⟩
  | cons y ys ih =>
    by_cases hyn : y.name = n
    · simp only [update_named, hyn, if_true]
      exact ⟨f y, List.mem_cons_self _ _, by rw [hf]; exact hyn⟩
    · simp only [update_named, hyn, if_false]
      obtain ⟨w, hw, hwk⟩ := ih
      exact ⟨w, List.mem_cons_of_mem _ hw, hwk⟩

theorem symbol_named_nil (k : String) : symbol_named [] k = none := rfl

theorem symbol_named_cons (y : symbolS) (ys : List symbolS) (k : String) :
    symbol_named (y :: ys) k = if y.name = k then some y else symbol_named ys k := by
  unfold symbol_named
  by_cases hy : y.name = k
  · simp [first_index, hy]
  · simp only [first_index, hy, decide_False, Bool.false_eq_true, if_false, Option.map_map]
    cases first_index (fun y => decide (y.name = k)) ys <;> rfl

theorem symbol_named_update (f : symbolS → symbolS) (n k : String)
    (hf : ∀ y, (f y).name = y.name) (l : List symbolS) :
    symbol_named (update_named f n l) k
      = if k = n then some (f ((symbol_named l n).getD (symbol_make n)))
        else symbol_named l k := by
  induction l with
  | nil =>
    by_cases hk : k = n
    · subst hk
      simp [update_named, symbol_named_cons, symbol_named_nil, hf, symbol_make]
    · have hk2 : ¬ n = k := fun h => hk h.symm
      simp [update_named, symbol_named_cons, symbol_named_nil, hf, symbol_make, hk, hk2]
  | cons y ys ih =>
    by_cases hyn : y.name = n
    · by_cases hk : k = n
      · subst hk
        simp [update_named, symbol_named_cons, hyn, hf]
      · have hyk : ¬ n = k := fun h => hk h.symm
        simp [update_named, symbol_named_cons, hyn, hf, hk, hyk]
    · by_cases hyk : y.name = k
      · have hk : ¬ k = n := by rw [← hyk]; exact hyn
        simp [update_named, symbol_named_cons, hyn, hyk, hk]
      · simp only [update_named, hyn, if_false, symbol_named_cons, hyk, ih]

theorem update_all_cons (f : symbolS → symbolS) (n : String) (ns : List String)
    (l : List symbolS) :
    update_all f (n :: ns) l = update_all f ns (update_named f n l) := rfl

theorem update_all_present (f : symbolS → symbolS) (ns : List String) (k : String)
    (hf : ∀ y, (f y).name = y.name) (l : List symbolS)
    (hp : ∃ y ∈ l, y.name = k) : ∃ y ∈ update_all f ns l, y.name = k := by
  induction ns generalizing l with
  | nil => exact hp
  | cons n ns ih =>
    rw [update_all_cons]
    exact ih _ (update_named_present f n k hf l hp)

/-- An update of a name that is in the table moves inwards past the updates
of a list of names, and absorbs those of its own name. -/
theorem update_named_past_all (f g : symbolS → symbolS) (n : String)
    (hf : ∀ y, (f y).name = y.name) (hg : ∀ y, (g y).name = y.name)
    (hfg : ∀ y, f (g y) = f y) (ms : List String) (l : List symbolS)
    (hp : ∃ y ∈ l, y.name = n) :
    update_named f n (update_all g ms l)
      = update_all g (ms.filter (fun m => decide (m ≠ n))) (update_named f n l) := by
  induction ms generalizing l with
  | nil => rfl
  | cons m ms ih =>
    rw [update_all_cons, ih _ (update_named_present g m n hg l hp)]
    by_cases hmn : m = n
    · subst hmn
      simp only [List.filter, ne_eq, not_true_eq_false, decide_False]
      rw [update_named_absorb f g m hg hfg]
    · have hnm : n ≠ m := fun h => hmn h.symm
      simp only [List.filter, ne_eq, hmn, not_false_eq_true, decide_True]
      rw [update_all_cons, update_named_commute f g n m hnm hf hg l hp]

/-- The updates `f` of a list of names absorb earlier updates `g` of the
same names. -/
theorem update_all_absorb (f g : symbolS → symbolS)
    (hf : ∀ y, (f y).name = y.name) (hg : ∀ y, (g y).name = y.name)
    (hfg : ∀ y, f (g y) = f y) (ns : List String) (done : List String)
    (l : List symbolS) (hp : ∀ d ∈ done, ∃ y ∈ l, y.name = d) :
    update_all f ns (update_all g (ns.filter (fun m => decide (m ∉ done))) l)
      = update_all f ns l := by
  induction ns generalizing done l with
  | nil => rfl
  | cons n ns ih =>
    by_cases hn : n ∈ done
    · simp only [List.filter, hn, not_true_eq_false, decide_False]
      rw [update_all_cons, update_all_cons,
        update_named_past_all f g n hf hg hfg _ l (hp n hn)]
      have hfil : (ns.filter (fun m => decide (m ∉ done))).filter (fun m => decide (m ≠ n))
          = ns.filter (fun m => decide (m ∉ done)) := by
        rw [List.filter_filter]
        apply List.filter_congr
        intro m _
        by_cases hm : m ∈ done
        · simp [hm]
        · have : m ≠ n := fun h => hm (h ▸ hn)
          simp [hm, this]
      rw [hfil]
      exact ih done _ (fun d hd => update_named_present f n d hf l (hp d hd))
    · simp only [List.filter, hn, not_false_eq_true, decide_True]
      rw [update_all_cons, update_all_cons, update_all_cons,
        update_named_past_all f g n hf hg hfg _ _ (update_named_self_present g n hg l),
        update_named_absorb f g n hg hfg]
      have hfil : (ns.filter (fun m => decide (m ∉ done))).filter (fun m => decide (m ≠ n))
          = ns.filter (fun m => decide (m ∉ n :: done)) := by
        rw [List.filter_filter]
        apply List.filter_congr
        intro m _
        by_cases hm : m ∈ done <;> by_cases hmn : m = n <;> simp [hm, hmn]
      rw [hfil]
      apply ih (n :: done)
      intro d hd
      rcases List.mem_cons.1 hd with h | h
      · subst h; exact update_named_self_present f d hf l
      · exact update_named_present f n d hf l (hp d h)

theorem symbol_named_update_all (f : symbolS → symbolS)
    (hf : ∀ y, (f y).name = y.name) (hff : ∀ y, f (f y) = f y)
    (ns : List String) (l : List symbolS) (k : String) :
    symbol_named (update_all f ns l) k
      = if k ∈ ns then some (f ((symbol_named l k).getD (symbol_make k)))
        else symbol_named l k := by
  induction ns generalizing l with
  | nil => simp [update_all]
  | cons n ns ih =>
    rw [update_all_cons, ih, symbol_named_update f n k hf]
    by_cases hk : k = n
    · subst hk
      by_cases hkn : k ∈ ns
      · simp [hkn, hff]
      · simp [hkn]
    · by_cases hkn : k ∈ ns
      · simp [hk, hkn]
      · simp [hk, hkn]

/-! ## Visibility -/

theorem three_testBit (i : Nat) : Nat.testBit 3 i = decide (i < 2) := by
  have : (3 : Nat) = 2 ^ 2 - 1 := by decide
  rw [this, Nat.testBit_two_pow_sub_one]

theorem small_testBit (v i : Nat) (hv : v < 4) (hi : 2 ≤ i) : v.testBit i = false := by
  apply Nat.testBit_eq_false_of_lt
  calc v < 4 := hv
    _ = 2 ^ 2 := by decide
    _ ≤ 2 ^ i := Nat.pow_le_pow_right (by decide) hi

theorem visibility_bits (o v i : Nat) (hv : v < 4) :
    ((andNot o 3 ||| v) % 256).testBit i
      = if i < 2 then v.testBit i else (decide (i < 8) && o.testBit i) := by
  have h256 : (256 : Nat) = 2 ^ 8 := by decide
  rw [h256, Nat.testBit_mod_two_pow, Nat.testBit_or, testBit_andNot, three_testBit]
  by_cases hi : i < 2
  · have : i < 8 := by omega
    simp [hi, this]
  · rw [small_testBit v i hv (by omega)]
    simp [hi]

theorem visibility_absorb (o v w : Nat) (hv : v < 4) :
    (andNot ((andNot o 3 ||| v) % 256) 3 ||| w) % 256 = (andNot o 3 ||| w) % 256 := by
  apply Nat.eq_of_testBit_eq
  intro i
  have h256 : (256 : Nat) = 2 ^ 8 := by decide
  rw [h256, Nat.testBit_mod_two_pow, Nat.testBit_mod_two_pow, Nat.testBit_or, Nat.testBit_or,
    testBit_andNot, testBit_andNot, ← h256, visibility_bits o v i hv, three_testBit]
  by_cases hi : i < 2
  · simp [hi]
  · simp only [hi, decide_False, Bool.not_false, Bool.and_true, if_false]
    by_cases h8 : i < 8 <;> simp [h8]

theorem set_visibility_absorb (v w : Nat) (hv : v < 4) (y : symbolS) :
    set_visibility w (set_visibility v y) = set_visibility w y := by
  unfold set_visibility
  simp only [visibility_absorb y.st_other v w hv]

theorem set_visibility_low (v : Nat) (hv : v < 4) (y : symbolS) :
    (set_visibility v y).st_other % 4 = v := by
  apply Nat.eq_of_testBit_eq
  intro i
  have h4 : (4 : Nat) = 2 ^ 2 := by decide
  rw [h4, Nat.testBit_mod_two_pow]
  show (decide (i < 2) && ((andNot y.st_other 3 ||| v) % 256).testBit i) = v.testBit i
  rw [visibility_bits _ _ _ hv]
  by_cases hi : i < 2
  · simp [hi]
  · rw [small_testBit v i hv (by omega)]
    simp [hi]

theorem set_visibility_high (v : Nat) (hv : v < 4) (y : symbolS) (hy : y.st_other < 256)
    (i : Nat) (hi : 2 ≤ i) :
    (set_visibility v y).st_other.testBit i = y.st_other.testBit i := by
  show ((andNot y.st_other 3 ||| v) % 256).testBit i = y.st_other.testBit i
  rw [visibility_bits _ _ _ hv, if_neg (by omega)]
  by_cases h8 : i < 8
  · simp [h8]
  · have : y.st_other.testBit i = false := by
      apply Nat.testBit_eq_false_of_lt
      calc y.st_other < 256 := hy
        _ = 2 ^ 8 := by decide
        _ ≤ 2 ^ i := Nat.pow_le_pow_right (by decide) (by omega)
    simp [h8, this]

theorem skip_whitespace_length (l : List Char) : (SKIP_WHITESPACE l).length ≤ l.length := by
  unfold SKIP_WHITESPACE
  split <;> simp

theorem skip_after_name_length (l : List Char) :
    (SKIP_WHITESPACE_AFTER_NAME l).length ≤ l.length := by
  unfold SKIP_WHITESPACE_AFTER_NAME
  by_cases h : peek l = '"'
  · rw [if_pos h]
    have b := skip_whitespace_length l.tail
    have c : l.tail.length ≤ l.length := by simp
    omega
  · rw [if_neg h]
    exact skip_whitespace_length l

/-- What `get_sym_from_input_line_and_check` gives: the symbol of the name
at the pointer, found or made; nothing else of the state changes but the
diagnostics. -/
theorem get_sym_spec (rd : Reader) (s : State) (ilp : List Char) :
    (get_sym_from_input_line_and_check rd s ilp).1
        = (symbol_find_or_make s.symbols
            (String.mk ((ilp.drop (rd.symbol_name ilp).1).take (rd.symbol_name ilp).2))).1
      ∧ (get_sym_from_input_line_and_check rd s ilp).2.1
        = SKIP_WHITESPACE_AFTER_NAME
            (ilp.drop ((rd.symbol_name ilp).1 + (rd.symbol_name ilp).2))
      ∧ (get_sym_from_input_line_and_check rd s ilp).2.2
        = { s with
            symbols := (symbol_find_or_make s.symbols
              (String.mk ((ilp.drop (rd.symbol_name ilp).1).take
                (rd.symbol_name ilp).2))).2,
            diags := (get_sym_from_input_line_and_check rd s ilp).2.2.diags } := by
  unfold get_sym_from_input_line_and_check
  simp only []
  split <;> simp [State.bad]

theorem get_sym_pointer_length (rd : Reader) (s : State) (ilp : List Char) :
    (get_sym_from_input_line_and_check rd s ilp).2.1.length ≤ ilp.length := by
  rw [(get_sym_spec rd s ilp).2.1]
  have h := skip_after_name_length
    (ilp.drop ((rd.symbol_name ilp).1 + (rd.symbol_name ilp).2))
  rw [List.length_drop] at h
  omega

/-- The loop of `obj_elf_visibility` sets the visibility of the listed
names, one after the other, and changes nothing else but the diagnostics. -/
theorem visibility_loop_spec (rd : Reader) (v : Nat) (rounds : Nat) (s : State)
    (ilp : List Char) :
    (visibility_loop rd v rounds s ilp).1
      = { s with
          symbols := update_all (set_visibility v) (listed_names rd rounds ilp) s.symbols,
          diags := (visibility_loop rd v rounds s ilp).1.diags } := by
  induction rounds generalizing s ilp with
  | zero => rfl
  | succ rounds ih =>
    obtain ⟨h1, h2, h3⟩ := get_sym_spec rd s ilp
    unfold visibility_loop listed_names
    simp only []
    rw [h2]
    split
    · split
      · rw [h1, h3]
        simp only [find_or_make_update]
        rfl
      · rw [ih]
        rw [h1, h3]
        simp only [find_or_make_update]
        rfl
    · rw [h1, h3]
      simp only [find_or_make_update]
      rfl

/-- The number of rounds allowed is never used up when it starts above the
length of the line. -/
theorem visibility_loop_rounds (rd : Reader) (v : Nat) (r1 r2 : Nat) (s : State)
    (ilp : List Char) (h1 : ilp.length < r1) (h2 : ilp.length < r2) :
    visibility_loop rd v r1 s ilp = visibility_loop rd v r2 s ilp := by
  induction r1 generalizing r2 s ilp with
  | zero => omega
  | succ r1 ih =>
    cases r2 with
    | zero => omega
    | succ r2 =>
      unfold visibility_loop
      simp only []
      split
      · rename_i hc
        split
        · rfl
        · have a1 := get_sym_pointer_length rd s ilp
          have a3 := skip_whitespace_length
            (get_sym_from_input_line_and_check rd s ilp).2.1.tail
          have a4 : (get_sym_from_input_line_and_check rd s ilp).2.1.tail.length
              < (get_sym_from_input_line_and_check rd s ilp).2.1.length := by
            cases hh : (get_sym_from_input_line_and_check rd s ilp).2.1 with
            | nil => rw [hh] at hc; simp [peek] at hc
            | cons _ _ => simp
          exact ih _ _ _ (by omega) (by omega)
      · rfl

theorem obj_elf_visibility_symbols (rd : Reader) (v : Nat) (s : State) (ilp : List Char) :
    (obj_elf_visibility rd v s ilp).symbols
      = update_all (set_visibility v) (listed_names rd (ilp.length + 1) ilp) s.symbols := by
  unfold obj_elf_visibility
  simp only []
  have h := visibility_loop_spec rd v (ilp.length + 1) s ilp
  split
  · show (visibility_loop rd v (ilp.length + 1) s ilp).1.symbols = _
    rw [h]
  · rw [h]

/-- C23: for a visibility `v` among internal (1), hidden (2) and protected
(3), `obj_elf_visibility` gives every symbol named on the line, found in the
table or made, the field `st_other` with its low two bits set to `v` and its
other bits unchanged, changes no other field of it and no other symbol; the
same directive applied twice leaves the symbol table as applied once; and a
later visibility directive for the same names overrides an earlier one. -/
theorem C23_visibility_low_bits (rd : Reader) (v w : Nat) (s : State) (ilp : List Char)
    (hv : 1 ≤ v ∧ v ≤ 3) :
    (∀ k, symbol_named (obj_elf_visibility rd v s ilp).symbols k
        = if k ∈ listed_names rd (ilp.length + 1) ilp then
            some (set_visibility v ((symbol_named s.symbols k).getD (symbol_make k)))
          else symbol_named s.symbols k)
      ∧ (∀ y : symbolS, (set_visibility v y).st_other % 4 = v
          ∧ (y.st_other < 256 → ∀ i, 2 ≤ i →
              (set_visibility v y).st_other.testBit i = y.st_other.testBit i)
          ∧ { set_visibility v y with st_other := y.st_other } = y)
      ∧ (obj_elf_visibility rd v (obj_elf_visibility rd v s ilp) ilp).symbols
          = (obj_elf_visibility rd v s ilp).symbols
      ∧ (obj_elf_visibility rd w (obj_elf_visibility rd v s ilp) ilp).symbols
          = (obj_elf_visibility rd w s ilp).symbols := by
  have hv4 : v < 4 := by omega
  have hname : ∀ u (y : symbolS), (set_visibility u y).name = y.name := fun _ _ => rfl
  have habs : ∀ u, update_all (set_visibility u) (listed_names rd (ilp.length + 1) ilp)
      (update_all (set_visibility v) (listed_names rd (ilp.length + 1) ilp) s.symbols)
      = update_all (set_visibility u) (listed_names rd (ilp.length + 1) ilp) s.symbols := by
    intro u
    have h := update_all_absorb (set_visibility u) (set_visibility v) (hname u) (hname v)
      (set_visibility_absorb v u hv4) (listed_names rd (ilp.length + 1) ilp) [] s.symbols
      (by intro d hd; cases hd)
    simpa using h
  refine ⟨?_, ?_, ?_, ?_⟩
  · intro k
    rw [obj_elf_visibility_symbols]
    exact symbol_named_update_all (set_visibility v) (hname v)
      (set_visibility_absorb v v hv4) _ _ _
  · intro y
    exact ⟨set_visibility_low v hv4 y, fun hy i hi => set_visibility_high v hv4 y hy i hi, rfl⟩
  · rw [obj_elf_visibility_symbols, obj_elf_visibility_symbols]
    exact habs v
  · rw [obj_elf_visibility_symbols, obj_elf_visibility_symbols, obj_elf_visibility_symbols]
    exact habs w

/-- C23 at `.hidden foo,bar` followed by `.protected foo,bar` at the start of
an assembly. -/
theorem C23_visibility_low_bits_witness :
    (1 ≤ 2 ∧ 2 ≤ 3)
      ∧ (obj_elf_visibility sample_reader 2 sample_state line_foo_bar).symbols.map
            (fun y => (y.name, y.st_other))
          = [(".text", 0), ("foo", 2), ("bar", 2)]
      ∧ (obj_elf_visibility sample_reader 3
            (obj_elf_visibility sample_reader 2 sample_state line_foo_bar)
            line_foo_bar).symbols
          = (obj_elf_visibility sample_reader 3 sample_state line_foo_bar).symbols :=
  ⟨by decide, by decide,
   (C23_visibility_low_bits sample_reader 2 3 sample_state line_foo_bar (by decide)).2.2.2⟩

/-! ## The size of a symbol -/

theorem set_size_name (exp : expressionS) (y : symbolS) : (set_size exp y).name = y.name := by
  unfold set_size
  split <;> rfl

/-- The symbol table after `obj_elf_size` has found the comma. -/
theorem obj_elf_size_symbols (rd : Reader) (s : State) (ilp : List Char)
    (hcomma : peek (SKIP_WHITESPACE_AFTER_NAME
        (ilp.drop ((rd.symbol_name ilp).1 + (rd.symbol_name ilp).2))) = ',') :
    (obj_elf_size rd s ilp).symbols
      = update_named
          (set_size
            (if (rd.expression (SKIP_WHITESPACE_AFTER_NAME
                  (ilp.drop ((rd.symbol_name ilp).1 + (rd.symbol_name ilp).2))).tail).1.X_op
                = operatorT.O_absent then
              { (rd.expression (SKIP_WHITESPACE_AFTER_NAME
                  (ilp.drop ((rd.symbol_name ilp).1 + (rd.symbol_name ilp).2))).tail).1 with
                X_op := operatorT.O_constant, X_add_number := 0 }
            else
              (rd.expression (SKIP_WHITESPACE_AFTER_NAME
                (ilp.drop ((rd.symbol_name ilp).1 + (rd.symbol_name ilp).2))).tail).1))
          (String.mk ((ilp.drop (rd.symbol_name ilp).1).take (rd.symbol_name ilp).2))
          s.symbols := by
  unfold obj_elf_size
  simp only [hcomma, ne_eq, not_true_eq_false, if_false]
  split <;> split <;> simp [State.bad, find_or_make_update]

/-- The diagnostics after `obj_elf_size` has found the comma. -/
theorem obj_elf_size_diags (rd : Reader) (s : State) (ilp : List Char)
    (hcomma : peek (SKIP_WHITESPACE_AFTER_NAME
        (ilp.drop ((rd.symbol_name ilp).1 + (rd.symbol_name ilp).2))) = ',') :
    (obj_elf_size rd s ilp).diags
      = (s.diags
          ++ (if (rd.expression (SKIP_WHITESPACE_AFTER_NAME
                  (ilp.drop ((rd.symbol_name ilp).1 + (rd.symbol_name ilp).2))).tail).1.X_op
                = operatorT.O_absent then
                [Diag.as_bad Message.missing_expression_in_size_directive]
              else []))
          ++ (if rd.junk_at_end_of_line
                ((SKIP_WHITESPACE_AFTER_NAME
                    (ilp.drop ((rd.symbol_name ilp).1 + (rd.symbol_name ilp).2))).tail.drop
                  (rd.expression (SKIP_WHITESPACE_AFTER_NAME
                    (ilp.drop ((rd.symbol_name ilp).1 + (rd.symbol_name ilp).2))).tail).2) then
                [Diag.as_bad Message.junk_at_end_of_line]
              else []) := by
  unfold obj_elf_size
  simp only [hcomma, ne_eq, not_true_eq_false, if_false]
  split <;> split <;> simp [State.bad]

theorem to_bfd_vma_of_nonneg (c : Int) (h0 : 0 ≤ c) (h1 : c < 18446744073709551616) :
    (to_bfd_vma c : Int) = c := by
  unfold to_bfd_vma
  rw [Int.emod_eq_of_lt h0 h1]
  exact Int.toNat_of_nonneg h0

/-- C25: when `obj_elf_size` has read the name of the symbol, the comma and
the expression `e`: if `e` is a constant `c`, the size of the symbol becomes
`c` (as a `bfd_vma`: `c` itself when it is not negative) and the symbol has
no pending size expression; if `e` is neither a constant nor absent, the
pending size expression becomes `e` and the size stays as it was; if the
expression is absent, the error `missing expression in .size directive` is
reported, the size becomes 0 and the symbol has no pending size expression.
No other field of the symbol changes; the symbol is the one found under the
name, or a new one. -/
theorem C25_size_directive (rd : Reader) (s : State) (ilp : List Char)
    (name : String) (rest : List Char) (e : expressionS) (old : symbolS)
    (hname : name = String.mk ((ilp.drop (rd.symbol_name ilp).1).take (rd.symbol_name ilp).2))
    (hrest : rest = SKIP_WHITESPACE_AFTER_NAME
        (ilp.drop ((rd.symbol_name ilp).1 + (rd.symbol_name ilp).2)))
    (hcomma : peek rest = ',')
    (he : e = (rd.expression rest.tail).1)
    (hold : old = (symbol_named s.symbols name).getD (symbol_make name)) :
    (e.X_op = operatorT.O_constant →
        symbol_named (obj_elf_size rd s ilp).symbols name
            = some { old with st_size := to_bfd_vma e.X_add_number, size := none }
          ∧ (0 ≤ e.X_add_number → e.X_add_number < 18446744073709551616 →
              (to_bfd_vma e.X_add_number : Int) = e.X_add_number)
          ∧ List.count (Diag.as_bad Message.missing_expression_in_size_directive)
                (obj_elf_size rd s ilp).diags
              = List.count (Diag.as_bad Message.missing_expression_in_size_directive)
                  s.diags)
      ∧ (e.X_op ≠ operatorT.O_constant → e.X_op ≠ operatorT.O_absent →
          symbol_named (obj_elf_size rd s ilp).symbols name
              = some { old with size := some e }
            ∧ List.count (Diag.as_bad Message.missing_expression_in_size_directive)
                  (obj_elf_size rd s ilp).diags
                = List.count (Diag.as_bad Message.missing_expression_in_size_directive)
                    s.diags)
      ∧ (e.X_op = operatorT.O_absent →
          symbol_named (obj_elf_size rd s ilp).symbols name
              = some { old with st_size := 0, size := none }
            ∧ List.count (Diag.as_bad Message.missing_expression_in_size_directive)
                  (obj_elf_size rd s ilp).diags
                = List.count (Diag.as_bad Message.missing_expression_in_size_directive)
                    s.diags + 1) := by
  subst hrest
  have hs := obj_elf_size_symbols rd s ilp hcomma
  have hd := obj_elf_size_diags rd s ilp hcomma
  rw [← he, ← hname] at hs
  rw [← he] at hd
  have hlook := fun exp => symbol_named_update (set_size exp) name name (set_size_name exp)
    s.symbols
  refine ⟨?_, ?_, ?_⟩
  · intro hc
    have hna : e.X_op ≠ operatorT.O_absent := by rw [hc]; decide
    rw [if_neg hna] at hs hd
    refine ⟨?_, to_bfd_vma_of_nonneg _, ?_⟩
    · rw [hs, hlook, if_pos rfl, ← hold]
      simp [set_size, hc]
    · rw [hd]
      simp only [List.append_nil, List.count_append]
      split <;> simp
  · intro hc hna
    rw [if_neg hna] at hs hd
    refine ⟨?_, ?_⟩
    · rw [hs, hlook, if_pos rfl, ← hold]
      simp [set_size, hc]
    · rw [hd]
      simp only [List.append_nil, List.count_append]
      split <;> simp
  · intro ha
    rw [if_pos ha] at hs hd
    refine ⟨?_, ?_⟩
    · rw [hs, hlook, if_pos rfl, ← hold]
      simp [set_size, to_bfd_vma]
    · rw [hd]
      simp only [List.count_append]
      split <;> simp

/-- C25 at `.size foo,12`, `.size foo,bar` and `.size foo,` at the start of
an assembly. -/
theorem C25_size_directive_witness :
    (symbol_named (obj_elf_size sample_reader sample_state line_size_constant).symbols "foo"
        = some { symbol_make "foo" with st_size := 12, size := none })
      ∧ (symbol_named (obj_elf_size sample_reader sample_state line_size_symbol).symbols "foo"
        = some { symbol_make "foo" with
                 size := some { X_op := operatorT.O_symbol, X_add_symbol := some "bar" } })
      ∧ ((obj_elf_size sample_reader sample_state line_size_absent).diags
          = [Diag.as_bad Message.missing_expression_in_size_directive]
        ∧ symbol_named (obj_elf_size sample_reader sample_state line_size_absent).symbols "foo"
          = some { symbol_make "foo" with st_size := 0, size := none }) :=
  ⟨((C25_size_directive sample_reader sample_state line_size_constant "foo" ",12\n".data
        { X_op := operatorT.O_constant, X_add_number := 12 } (symbol_make "foo")
        (by decide) (by decide) (by decide) (by decide) (by decide)).1 (by decide)).1,
   by decide, by decide⟩

/-! ## `elf_frob_symbol`: the pending size expression -/

theorem sym_at_modify (f : symbolS → symbolS) (j i : Nat) (l : List symbolS) :
    sym_at (modify_nth f j l) i
      = if i = j ∧ i < l.length then f (sym_at l i) else sym_at l i := by
  unfold sym_at
  rw [modify_nth_get]
  by_cases hij : i = j
  · subst hij
    by_cases hi : i < l.length
    · rw [List.getElem?_eq_getElem hi]
      simp [hi]
    · have : l[i]? = none := List.getElem?_eq_none (by omega)
      rw [this]
      simp [hi]
  · simp [hij]

theorem sym_at_append (l : List symbolS) (x : symbolS) (i : Nat) (hi : i < l.length) :
    sym_at (l ++ [x]) i = sym_at l i := by
  unfold sym_at
  rw [List.getElem?_append_left hi]

theorem find_or_make_sym_at (l : List symbolS) (name : String) (i : Nat)
    (hi : i < l.length) : sym_at (symbol_find_or_make l name).2 i = sym_at l i := by
  unfold symbol_find_or_make
  split
  · rfl
  · exact sym_at_append l _ i hi

theorem find_or_make_length (l : List symbolS) (name : String) :
    l.length ≤ (symbol_find_or_make l name).2.length := by
  unfold symbol_find_or_make
  split <;> simp

theorem assign_kept (f : symbolS → symbolS → symbolS) (j i : Nat) (l : List symbolS)
    (h : ∀ y, kept_fields (f y y) = kept_fields y) :
    kept_fields (sym_at (assign i j f l) i) = kept_fields (sym_at l i) := by
  unfold assign
  rw [sym_at_modify]
  split
  · exact h _
  · rfl

theorem assign_length (f : symbolS → symbolS → symbolS) (j i : Nat) (l : List symbolS) :
    (assign i j f l).length = l.length := by
  unfold assign
  exact modify_nth_length _ _ _

theorem copy_attributes_kept (i j : Nat) (l : List symbolS) :
    kept_fields (sym_at (copy_symbol_attributes j i l) i) = kept_fields (sym_at l i) := by
  unfold copy_symbol_attributes elf_copy_symbol_attributes
  refine (assign_kept _ _ _ _ (fun _ => rfl)).trans ?_
  refine (assign_kept _ _ _ _ (fun _ => rfl)).trans ?_
  exact assign_kept _ _ _ _ (fun _ => rfl)

/-- The symbol of which an alias is made keeps its name, its segment, its
sizes, its versioned name and its marks. -/
theorem frob_alias_self (i j : Nat) (l : List symbolS) :
    kept_fields (sym_at (frob_alias i j l) i) = kept_fields (sym_at l i) := by
  unfold frob_alias
  refine (assign_kept _ _ _ _ ?_).trans ?_
  · intro y
    cases h : y.external <;> simp [kept_fields, h]
  refine (assign_kept _ _ _ _ ?_).trans ?_
  · intro y
    cases h : y.weak <;> simp [kept_fields, h]
  refine (assign_kept _ _ _ _ (fun _ => rfl)).trans ?_
  refine (copy_attributes_kept _ _ _).trans ?_
  refine (assign_kept _ _ _ _ (fun _ => rfl)).trans ?_
  refine (assign_kept _ _ _ _ (fun _ => rfl)).trans ?_
  exact assign_kept _ _ _ _ (fun _ => rfl)

theorem frob_alias_length (i j : Nat) (l : List symbolS) :
    (frob_alias i j l).length = l.length := by
  unfold frob_alias copy_symbol_attributes elf_copy_symbol_attributes
  simp only [assign_length]

/-- The version step of `elf_frob_symbol` leaves the sizes, the segment and
the mark weak of the symbol alone, and adds no diagnostic about a size. -/
theorem frob_version_kept (i : Nat) (punt : Bool) (s : State) (hi : i < s.symbols.length) :
    (sym_at (frob_version i punt s).1.symbols i).st_size = (sym_at s.symbols i).st_size
      ∧ (sym_at (frob_version i punt s).1.symbols i).size = (sym_at s.symbols i).size
      ∧ (sym_at (frob_version i punt s).1.symbols i).segment = (sym_at s.symbols i).segment
      ∧ (sym_at (frob_version i punt s).1.symbols i).weak = (sym_at s.symbols i).weak := by
  unfold frob_version
  split
  · exact ⟨rfl, rfl, rfl, rfl⟩
  · rename_i vn _
    simp only []
    split
    · exact ⟨rfl, rfl, rfl, rfl⟩
    · split
      · split <;> simp [sym_at_modify, State.bad, hi]
      · split
        · simp [sym_at_modify, hi]
        · split
          · simp only [State.bad]
            rw [find_or_make_sym_at _ _ _ hi]
            exact ⟨rfl, rfl, rfl, rfl⟩
          · simp only []
            have h := frob_alias_self i
              (symbol_find_or_make s.symbols vn).1 (symbol_find_or_make s.symbols vn).2
            rw [find_or_make_sym_at _ _ _ hi] at h
            simp only [kept_fields, Prod.mk.injEq] at h
            exact ⟨h.2.2.1, h.2.2.2.1, h.2.1, h.2.2.2.2.2.1⟩

theorem frob_version_size_diags (i : Nat) (punt : Bool) (s : State) (n : String) :
    List.count (Diag.as_bad (Message.size_expression_does_not_evaluate_to_a_constant n))
        (frob_version i punt s).1.diags
      = List.count (Diag.as_bad (Message.size_expression_does_not_evaluate_to_a_constant n))
          s.diags
      ∧ List.count (Diag.as_warn (Message.size_expression_does_not_evaluate_to_a_constant n))
          (frob_version i punt s).1.diags
        = List.count (Diag.as_warn (Message.size_expression_does_not_evaluate_to_a_constant n))
            s.diags := by
  unfold frob_version
  split
  · exact ⟨rfl, rfl⟩
  · simp only []
    split
    · exact ⟨rfl, rfl⟩
    · split
      · split <;> simp [State.bad]
      · split
        · exact ⟨rfl, rfl⟩
        · split <;> simp [State.bad]

theorem frob_weak_symbols (i : Nat) (s : State) : (frob_weak i s).symbols = s.symbols := by
  unfold frob_weak
  split <;> rfl

theorem frob_weak_size_diags (i : Nat) (s : State) (n : String) :
    List.count (Diag.as_bad (Message.size_expression_does_not_evaluate_to_a_constant n))
        (frob_weak i s).diags
      = List.count (Diag.as_bad (Message.size_expression_does_not_evaluate_to_a_constant n))
          s.diags
      ∧ List.count (Diag.as_warn (Message.size_expression_does_not_evaluate_to_a_constant n))
          (frob_weak i s).diags
        = List.count (Diag.as_warn (Message.size_expression_does_not_evaluate_to_a_constant n))
            s.diags := by
  unfold frob_weak
  split <;> simp [State.bad]

/-- The size step of `elf_frob_symbol` on a symbol with a pending size
expression. -/
theorem frob_size_pending (flag : Bool)
    (resolve : List symbolS → expressionS → Bool × expressionS) (i : Nat) (s : State)
    (size : expressionS) (hi : i < s.symbols.length)
    (hsize : (sym_at s.symbols i).size = some size) :
    (frob_size flag resolve i s).symbols.length = s.symbols.length
      ∧ sym_at (frob_size flag resolve i s).symbols i
          = { sym_at s.symbols i with
              st_size :=
                if (resolve s.symbols size).1 = true
                    ∧ (resolve s.symbols size).2.X_op = operatorT.O_constant then
                  to_bfd_vma (resolve s.symbols size).2.X_add_number
                else (sym_at s.symbols i).st_size,
              size := none }
      ∧ (frob_size flag resolve i s).diags
          = s.diags ++
              (if (resolve s.symbols size).1 = true
                  ∧ (resolve s.symbols size).2.X_op = operatorT.O_constant then []
               else if flag then
                 [Diag.as_warn (Message.size_expression_does_not_evaluate_to_a_constant
                    (sym_at s.symbols i).name)]
               else
                 [Diag.as_bad (Message.size_expression_does_not_evaluate_to_a_constant
                    (sym_at s.symbols i).name)]) := by
  unfold frob_size
  rw [hsize]
  simp only []
  split
  · simp [modify_nth_length, sym_at_modify, hi]
  · cases flag <;> simp [modify_nth_length, sym_at_modify, hi, State.bad, State.warn]

/-- C26: for a symbol with a pending size expression, `elf_frob_symbol`
leaves the symbol without a pending size expression; when the expression
resolves to a constant `c`, the size of the symbol becomes `c` (as a
`bfd_vma`) and no diagnostic about the size is emitted; otherwise the size
of the symbol stays as it was and exactly one diagnostic `.size expression
does not evaluate to a constant` is emitted for it, an error when
`flag_allow_nonconst_size` is off and a warning when it is on.  For a
symbol without a versioned name that is not both weak and common these are
all the diagnostics of the call. -/
theorem C26_pending_size (flag : Bool)
    (resolve : List symbolS → expressionS → Bool × expressionS) (i : Nat) (punt : Bool)
    (s : State) (size : expressionS) (hi : i < s.symbols.length)
    (hsize : (sym_at s.symbols i).size = some size) :
    (sym_at (elf_frob_symbol flag resolve i punt s).1.symbols i).size = none
      ∧ ((resolve s.symbols size).1 = true
            ∧ (resolve s.symbols size).2.X_op = operatorT.O_constant →
          (sym_at (elf_frob_symbol flag resolve i punt s).1.symbols i).st_size
              = to_bfd_vma (resolve s.symbols size).2.X_add_number
            ∧ ∀ n,
                List.count
                    (Diag.as_bad (Message.size_expression_does_not_evaluate_to_a_constant n))
                    (elf_frob_symbol flag resolve i punt s).1.diags
                  = List.count
                      (Diag.as_bad (Message.size_expression_does_not_evaluate_to_a_constant n))
                      s.diags
                ∧ List.count
                    (Diag.as_warn (Message.size_expression_does_not_evaluate_to_a_constant n))
                    (elf_frob_symbol flag resolve i punt s).1.diags
                  = List.count
                      (Diag.as_warn (Message.size_expression_does_not_evaluate_to_a_constant n))
                      s.diags)
      ∧ (¬ ((resolve s.symbols size).1 = true
            ∧ (resolve s.symbols size).2.X_op = operatorT.O_constant) →
          (sym_at (elf_frob_symbol flag resolve i punt s).1.symbols i).st_size
              = (sym_at s.symbols i).st_size
            ∧ ∀ n,
                List.count
                    (Diag.as_bad (Message.size_expression_does_not_evaluate_to_a_constant n))
                    (elf_frob_symbol flag resolve i punt s).1.diags
                  = List.count
                      (Diag.as_bad (Message.size_expression_does_not_evaluate_to_a_constant n))
                      s.diags
                    + (if flag = false ∧ n = (sym_at s.symbols i).name then 1 else 0)
                ∧ List.count
                    (Diag.as_warn (Message.size_expression_does_not_evaluate_to_a_constant n))
                    (elf_frob_symbol flag resolve i punt s).1.diags
                  = List.count
                      (Diag.as_warn (Message.size_expression_does_not_evaluate_to_a_constant n))
                      s.diags
                    + (if flag = true ∧ n = (sym_at s.symbols i).name then 1 else 0))
      ∧ ((sym_at s.symbols i).versioned_name = none →
          ¬ ((sym_at s.symbols i).weak = true ∧ S_IS_COMMON (sym_at s.symbols i) = true) →
          (elf_frob_symbol flag resolve i punt s).1.diags
            = s.diags ++
                (if (resolve s.symbols size).1 = true
                    ∧ (resolve s.symbols size).2.X_op = operatorT.O_constant then []
                 else if flag then
                   [Diag.as_warn (Message.size_expression_does_not_evaluate_to_a_constant
                      (sym_at s.symbols i).name)]
                 else
                   [Diag.as_bad (Message.size_expression_does_not_evaluate_to_a_constant
                      (sym_at s.symbols i).name)])) := by
  obtain ⟨hlen, hsym, hdiag⟩ := frob_size_pending flag resolve i s size hi hsize
  have hi1 : i < (frob_size flag resolve i s).symbols.length := by rw [hlen]; exact hi
  have hk := frob_version_kept i punt (frob_size flag resolve i s) hi1
  have hvd := fun n => frob_version_size_diags i punt (frob_size flag resolve i s) n
  have hsyms : sym_at (elf_frob_symbol flag resolve i punt s).1.symbols i
      = sym_at (frob_version i punt (frob_size flag resolve i s)).1.symbols i := by
    unfold elf_frob_symbol
    simp only []
    split
    · rfl
    · rw [frob_weak_symbols]
  have hcount : ∀ n,
      List.count (Diag.as_bad (Message.size_expression_does_not_evaluate_to_a_constant n))
          (elf_frob_symbol flag resolve i punt s).1.diags
        = List.count (Diag.as_bad (Message.size_expression_does_not_evaluate_to_a_constant n))
            (frob_size flag resolve i s).diags
      ∧ List.count (Diag.as_warn (Message.size_expression_does_not_evaluate_to_a_constant n))
          (elf_frob_symbol flag resolve i punt s).1.diags
        = List.count (Diag.as_warn (Message.size_expression_does_not_evaluate_to_a_constant n))
            (frob_size flag resolve i s).diags := by
    intro n
    unfold elf_frob_symbol
    simp only []
    split
    · exact hvd n
    · have hw := frob_weak_size_diags i
        (frob_version i punt (frob_size flag resolve i s)).1 n
      exact ⟨hw.1.trans (hvd n).1, hw.2.trans (hvd n).2⟩
  refine ⟨?_, ?_, ?_, ?_⟩
  · rw [hsyms, hk.2.1, hsym]
  · intro hc
    refine ⟨?_, ?_⟩
    · rw [hsyms, hk.1, hsym]
      simp only [hc, and_self, if_true]
    · intro n
      rw [(hcount n).1, (hcount n).2, hdiag]
      simp [hc]
  · intro hc
    refine ⟨?_, ?_⟩
    · rw [hsyms, hk.1, hsym]
      simp only [hc, if_false]
    · intro n
      rw [(hcount n).1, (hcount n).2, hdiag, if_neg hc]
      cases flag
      · by_cases hn : n = (sym_at s.symbols i).name
        · simp [hn]
        · have hn2 : ¬ (sym_at s.symbols i).name = n := fun h => hn h.symm
          simp [hn, hn2]
      · by_cases hn : n = (sym_at s.symbols i).name
        · simp [hn]
        · have hn2 : ¬ (sym_at s.symbols i).name = n := fun h => hn h.symm
          simp [hn, hn2]
  · intro hv hwc
    have hv1 : (sym_at (frob_size flag resolve i s).symbols i).versioned_name = none := by
      rw [hsym]; exact hv
    have hver : frob_version i punt (frob_size flag resolve i s)
        = (frob_size flag resolve i s, punt, false) := by
      unfold frob_version
      rw [hv1]
    have hwc1 : ¬ ((sym_at (frob_size flag resolve i s).symbols i).weak = true
        ∧ S_IS_COMMON (sym_at (frob_size flag resolve i s).symbols i) = true) := by
      rw [hsym]
      exact hwc
    unfold elf_frob_symbol
    simp only [hver, Bool.false_eq_true, if_false]
    unfold frob_weak
    rw [if_neg hwc1, hdiag]

/-- C26 on the symbols `foo`, whose size expression is the absolute symbol
`twelve`, and `bar`, whose size expression is the undefined symbol
`nowhere`. -/
theorem C26_pending_size_witness :
    (sym_at (elf_frob_symbol false sample_resolve 1 false state_pending_sizes).1.symbols 1).size
        = none
      ∧ (sym_at (elf_frob_symbol false sample_resolve 1 false
            state_pending_sizes).1.symbols 1).st_size = 12
      ∧ (elf_frob_symbol false sample_resolve 1 false state_pending_sizes).1.diags = []
      ∧ (sym_at (elf_frob_symbol false sample_resolve 3 false
            state_pending_sizes).1.symbols 3).st_size = 7
      ∧ (elf_frob_symbol false sample_resolve 3 false state_pending_sizes).1.diags
        = [Diag.as_bad (Message.size_expression_does_not_evaluate_to_a_constant "bar")]
      ∧ (elf_frob_symbol true sample_resolve 3 false state_pending_sizes).1.diags
        = [Diag.as_warn (Message.size_expression_does_not_evaluate_to_a_constant "bar")] :=
  ⟨(C26_pending_size false sample_resolve 1 false state_pending_sizes
      { X_op := operatorT.O_symbol, X_add_symbol := some "twelve" } (by decide) (by decide)).1,
   by decide, by decide, by decide, by decide, by decide⟩

/-! ## `.symver` -/

theorem symbol_named_found (l : List symbolS) (n : String) (y : symbolS)
    (h : symbol_named l n = some y) :
    ∃ i, symbol_find_or_make l n = (i, l) ∧ sym_at l i = y ∧ i < l.length := by
  unfold symbol_named at h
  cases hf : first_index (fun y => decide (y.name = n)) l with
  | none => rw [hf] at h; cases h
  | some r =>
    rw [hf] at h
    simp only [Option.map_some', Option.some.injEq] at h
    have hg := first_index_get _ _ r.1 r.2 hf
    refine ⟨r.1, ?_, ?_, ?_⟩
    · simp [symbol_find_or_make, symbol_find, hf]
    · unfold sym_at
      rw [hg.1, ← h]
      rfl
    · by_contra hlt
      have : l[r.1]? = none := List.getElem?_eq_none (by omega)
      rw [this] at hg
      cases hg.1

/-- The symbol of a directive, when its name is there and in the table. -/
theorem get_sym_found (rd : Reader) (s : State) (ilp : List Char) (y : symbolS)
    (hname : (rd.symbol_name ilp).2 ≠ 0)
    (hsym : symbol_named s.symbols
        (String.mk ((ilp.drop (rd.symbol_name ilp).1).take (rd.symbol_name ilp).2)) = some y) :
    ∃ i, get_sym_from_input_line_and_check rd s ilp
          = (i, SKIP_WHITESPACE_AFTER_NAME
                (ilp.drop ((rd.symbol_name ilp).1 + (rd.symbol_name ilp).2)), s)
        ∧ sym_at s.symbols i = y ∧ i < s.symbols.length := by
  obtain ⟨i, h1, h2, h3⟩ := symbol_named_found _ _ _ hsym
  refine ⟨i, ?_, h2, h3⟩
  unfold get_sym_from_input_line_and_check
  simp only [h1, hname, false_and, if_false]

/-- C27: for a symbol that is not common and already has the versioned name
`v`, `obj_elf_symver` with the alias `v` changes nothing and reports nothing
(but junk after the alias, if there is any), and `obj_elf_symver` with
another alias reports the error `multiple versions` and changes nothing
else, so that the versioned name is still `v`. -/
theorem C27_symver_again (rd : Reader) (s : State) (ilp : List Char) (v given : String)
    (sym : symbolS) (rest : List Char)
    (hname : (rd.symbol_name ilp).2 ≠ 0)
    (hsym : symbol_named s.symbols
        (String.mk ((ilp.drop (rd.symbol_name ilp).1).take (rd.symbol_name ilp).2)) = some sym)
    (hnc : S_IS_COMMON sym = false)
    (hv : sym.versioned_name = some v)
    (hrest : rest = SKIP_WHITESPACE (SKIP_WHITESPACE_AFTER_NAME
        (ilp.drop ((rd.symbol_name ilp).1 + (rd.symbol_name ilp).2))).tail)
    (hcomma : peek (SKIP_WHITESPACE_AFTER_NAME
        (ilp.drop ((rd.symbol_name ilp).1 + (rd.symbol_name ilp).2))) = ',')
    (hgiven : given = String.mk
        ((rest.drop (rd.versioned_symbol_name rest).1).take
          (rd.versioned_symbol_name rest).2)) :
    (given = v →
        obj_elf_symver rd s ilp
          = if rd.junk_at_end_of_line
                (restore_line_pointer
                  (rest.drop ((rd.versioned_symbol_name rest).1
                    + (rd.versioned_symbol_name rest).2))) then
              s.bad Message.junk_at_end_of_line
            else s)
      ∧ (given ≠ v →
          obj_elf_symver rd s ilp = s.bad (Message.multiple_versions given v sym.name)
            ∧ symbol_named (obj_elf_symver rd s ilp).symbols
                (String.mk ((ilp.drop (rd.symbol_name ilp).1).take (rd.symbol_name ilp).2))
              = some sym) := by
  obtain ⟨i, hget, hat, _⟩ := get_sym_found rd s ilp sym hname hsym
  subst hrest
  have hmain : obj_elf_symver rd s ilp
      = if v ≠ given then s.bad (Message.multiple_versions given v sym.name)
        else if rd.junk_at_end_of_line
            (restore_line_pointer
              ((SKIP_WHITESPACE (SKIP_WHITESPACE_AFTER_NAME
                  (ilp.drop ((rd.symbol_name ilp).1 + (rd.symbol_name ilp).2))).tail).drop
                ((rd.versioned_symbol_name (SKIP_WHITESPACE (SKIP_WHITESPACE_AFTER_NAME
                    (ilp.drop ((rd.symbol_name ilp).1 + (rd.symbol_name ilp).2))).tail)).1
                  + (rd.versioned_symbol_name (SKIP_WHITESPACE (SKIP_WHITESPACE_AFTER_NAME
                    (ilp.drop ((rd.symbol_name ilp).1
                      + (rd.symbol_name ilp).2))).tail)).2))) then
          s.bad Message.junk_at_end_of_line
        else s := by
    unfold obj_elf_symver
    simp only [hget, hcomma, ne_eq, not_true_eq_false, if_false, hat, hnc,
      Bool.false_eq_true, hv, ← hgiven]
  refine ⟨?_, ?_⟩
  · intro h
    rw [hmain, if_neg (by rw [h]; simp)]
  · intro h
    have h2 : v ≠ given := fun e => h e.symm
    rw [hmain, if_pos h2]
    exact ⟨rfl, hsym⟩

/-- C27 at `.symver foo,foo@V1` and `.symver foo,foo@V2` after
`.symver foo,foo@V1`. -/
theorem C27_symver_again_witness :
    obj_elf_symver sample_reader sample_state line_symver_v1 = state_foo_v1
      ∧ obj_elf_symver sample_reader state_foo_v1 line_symver_v1 = state_foo_v1
      ∧ obj_elf_symver sample_reader state_foo_v1 line_symver_v2
        = state_foo_v1.bad (Message.multiple_versions "foo@V2" "foo@V1" "foo") :=
  ⟨by decide, by decide,
   ((C27_symver_again sample_reader state_foo_v1 line_symver_v2 "foo@V1" "foo@V2"
      { name := "foo", bfdsym := none, versioned_name := some "foo@V1" } "foo@V2\n".data
      (by decide) (by decide) (by decide) (by decide) (by decide) (by decide) (by decide)).2
      (by decide)).1⟩

theorem mem_modify_nth {α : Type} (f : α → α) (k : Nat) (l : List α) (y : α)
    (h : y ∈ modify_nth f k l) : y ∈ l ∨ ∃ x, l[k]? = some x ∧ y = f x := by
  induction l generalizing k with
  | nil => simp [modify_nth] at h
  | cons a as ih =>
    cases k with
    | zero =>
      simp only [modify_nth, List.mem_cons] at h
      rcases h with h | h
      · exact Or.inr ⟨a, by simp, h⟩
      · exact Or.inl (List.mem_cons_of_mem _ h)
    | succ k =>
      simp only [modify_nth, List.mem_cons] at h
      rcases h with h | h
      · exact Or.inl (by rw [h]; exact List.mem_cons_self _ _)
      · rcases ih k h with h1 | ⟨x, hx, hy⟩
        · exact Or.inl (List.mem_cons_of_mem _ h1)
        · exact Or.inr ⟨x, by simpa using hx, hy⟩

theorem mem_find_or_make (l : List symbolS) (n : String) (y : symbolS)
    (h : y ∈ (symbol_find_or_make l n).2) : y ∈ l ∨ y = symbol_make n := by
  unfold symbol_find_or_make at h
  split at h
  · exact Or.inl h
  · simpa using h

theorem get_sym_diags (rd : Reader) (s : State) (ilp : List Char) (d : Diag)
    (h : d ∈ s.diags) : d ∈ (get_sym_from_input_line_and_check rd s ilp).2.2.diags := by
  unfold get_sym_from_input_line_and_check
  simp only []
  split
  · simp [State.bad, h]
  · exact h

/-- One `.symver` directive keeps the versioned names checked. -/
theorem symver_keeps_checked (rd : Reader) (s : State) (ilp : List Char)
    (h : versioned_names_checked s) : versioned_names_checked (obj_elf_symver rd s ilp) := by
  have hr : versioned_names_checked (get_sym_from_input_line_and_check rd s ilp).2.2 := by
    intro y hy v hv
    rw [(get_sym_spec rd s ilp).2.2] at hy
    rcases mem_find_or_make _ _ _ hy with h1 | h1
    · rcases h y h1 v hv with h2 | h2
      · exact Or.inl h2
      · exact Or.inr (get_sym_diags rd s ilp _ h2)
    · rw [h1] at hv
      cases hv
  have hbad : ∀ (s1 : State) (m : Message), versioned_names_checked s1 →
      versioned_names_checked (s1.bad m) := by
    intro s1 m h1 y hy v hv
    rcases h1 y hy v hv with h2 | h2
    · exact Or.inl h2
    · exact Or.inr (by simp [State.bad, h2])
  unfold obj_elf_symver
  simp only []
  split
  · exact hbad _ _ hr
  · split
    · exact hbad _ _ hr
    · split
      · rename_i hnone
        have hset : ∀ (extra : List Diag) (name : String),
            (ELF_VER_CHR ∈ name.data
              ∨ Diag.as_bad (Message.missing_version_name name
                  (sym_at (get_sym_from_input_line_and_check rd s ilp).2.2.symbols
                    (get_sym_from_input_line_and_check rd s ilp).1).name) ∈ extra) →
            versioned_names_checked
              { (get_sym_from_input_line_and_check rd s ilp).2.2 with
                symbols := modify_nth (fun y => { y with versioned_name := some name })
                  (get_sym_from_input_line_and_check rd s ilp).1
                  (get_sym_from_input_line_and_check rd s ilp).2.2.symbols,
                diags := (get_sym_from_input_line_and_check rd s ilp).2.2.diags ++ extra } := by
          intro extra name hx y hy v hv
          rcases mem_modify_nth _ _ _ _ hy with h1 | ⟨x, hx1, hx2⟩
          · rcases hr y h1 v hv with h2 | h2
            · exact Or.inl h2
            · exact Or.inr (by simp [h2])
          · rw [hx2] at hv ⊢
            simp only [Option.some.injEq] at hv
            subst hv
            rcases hx with h3 | h3
            · exact Or.inl h3
            · right
              have hxa : sym_at (get_sym_from_input_line_and_check rd s ilp).2.2.symbols
                  (get_sym_from_input_line_and_check rd s ilp).1 = x := by
                unfold sym_at
                rw [hx1]
                rfl
              rw [hxa] at h3
              simp [h3]
        split
        · rename_i hno
          exact hset [_] _ (Or.inr (List.mem_singleton_self _))
        · rename_i hyes
          have hat : ELF_VER_CHR ∈ (String.mk
              ((SKIP_WHITESPACE (get_sym_from_input_line_and_check rd s ilp).2.1.tail).drop
                  (rd.versioned_symbol_name
                    (SKIP_WHITESPACE
                      (get_sym_from_input_line_and_check rd s ilp).2.1.tail)).1
                |>.take
                  (rd.versioned_symbol_name
                    (SKIP_WHITESPACE
                      (get_sym_from_input_line_and_check rd s ilp).2.1.tail)).2)).data := by
            by_contra hc
            exact hyes hc
          split
          · exact hset [_] _ (Or.inl hat)
          · have := hset [] _ (Or.inl hat)
            simpa using this
      · split
        · exact hbad _ _ hr
        · split
          · exact hbad _ _ hr
          · exact hr

/-- C28, as stated, fails: `.symver foo,bar` at the start of an assembly
reports the error `missing version name` and all the same stores `bar`,
which has no `@`, as the versioned name of `foo`. -/
theorem C28_unversioned_alias_counterexample :
    (symbol_named (symver_directives sample_reader [line_symver_unversioned]
        sample_state).symbols "foo").map (fun y => y.versioned_name) = some (some "bar")
      ∧ ELF_VER_CHR ∉ "bar".data
      ∧ (symver_directives sample_reader [line_symver_unversioned] sample_state).diags
        = [Diag.as_bad (Message.missing_version_name "bar" "foo")] := by
  decide

/-- C28, amended: after any run of `obj_elf_symver` directives, every
versioned name in the symbol table contains the separator `@`, or the error
`missing version name` has been reported for it and its symbol, provided
this was so before the run. -/
theorem C28_versioned_names_checked (rd : Reader) (lines : List (List Char)) (s : State)
    (h : versioned_names_checked s) :
    versioned_names_checked (symver_directives rd lines s) := by
  unfold symver_directives
  induction lines generalizing s with
  | nil => exact h
  | cons l ls ih => exact ih _ (symver_keeps_checked rd s l h)

/-- C28, amended, at the run `.symver foo,bar`, `.symver foo,foo@V1` from the
start of an assembly, where no symbol has a versioned name. -/
theorem C28_versioned_names_checked_witness :
    versioned_names_checked sample_state
      ∧ versioned_names_checked
          (symver_directives sample_reader [line_symver_unversioned, line_symver_v1]
            sample_state) :=
  ⟨by intro y hy v hv; revert v; revert y; decide,
   C28_versioned_names_checked sample_reader [line_symver_unversioned, line_symver_v1]
     sample_state (by intro y hy v hv; revert v; revert y; decide)⟩

/-! ## `elf_frob_symbol`: the versioned name -/

/-- The size step of `elf_frob_symbol` touches the sizes of the symbol and
nothing else of the symbol table. -/
theorem frob_size_frame (flag : Bool)
    (resolve : List symbolS → expressionS → Bool × expressionS) (i : Nat) (s : State) :
    (frob_size flag resolve i s).symbols.length = s.symbols.length
      ∧ (∀ j, j ≠ i → sym_at (frob_size flag resolve i s).symbols j = sym_at s.symbols j)
      ∧ (sym_at (frob_size flag resolve i s).symbols i).name = (sym_at s.symbols i).name
      ∧ (sym_at (frob_size flag resolve i s).symbols i).segment
          = (sym_at s.symbols i).segment
      ∧ (sym_at (frob_size flag resolve i s).symbols i).versioned_name
          = (sym_at s.symbols i).versioned_name
      ∧ (sym_at (frob_size flag resolve i s).symbols i).weak = (sym_at s.symbols i).weak
      ∧ ((sym_at s.symbols i).size = none → frob_size flag resolve i s = s) := by
  cases hsz : (sym_at s.symbols i).size with
  | none =>
    have h : frob_size flag resolve i s = s := by
      unfold frob_size
      rw [hsz]
    rw [h]
    exact ⟨rfl, fun _ _ => rfl, rfl, rfl, rfl, rfl, fun _ => rfl⟩
  | some size =>
    have hi : i < s.symbols.length := by
      by_contra hlt
      have hnone : s.symbols[i]? = none := List.getElem?_eq_none (by omega)
      unfold sym_at at hsz
      rw [hnone] at hsz
      cases hsz
    obtain ⟨hlen, hsym, _⟩ := frob_size_pending flag resolve i s size hi hsz
    refine ⟨hlen, ?_, by rw [hsym], by rw [hsym], by rw [hsym], by rw [hsym],
      fun h => by cases h⟩
    intro j hj
    unfold frob_size
    rw [hsz]
    simp only []
    split
    · simp [sym_at_modify, hj]
    · split <;> simp [sym_at_modify, hj, State.bad, State.warn]

theorem dropWhile_separator (n rest : List Char) (hn : ELF_VER_CHR ∉ n) :
    (n ++ ELF_VER_CHR :: rest).dropWhile (fun c => decide (c ≠ ELF_VER_CHR))
        = ELF_VER_CHR :: rest
      ∧ (n ++ ELF_VER_CHR :: rest).takeWhile (fun c => decide (c ≠ ELF_VER_CHR)) = n := by
  induction n with
  | nil => simp [List.dropWhile, List.takeWhile]
  | cons c cs ih =>
    have hc : c ≠ ELF_VER_CHR := fun h => hn (by rw [h]; exact List.mem_cons_self _ _)
    have hcs : ELF_VER_CHR ∉ cs := fun h => hn (List.mem_cons_of_mem _ h)
    have h := ih hcs
    show List.dropWhile (fun c => decide (c ≠ ELF_VER_CHR)) (c :: (cs ++ ELF_VER_CHR :: rest))
        = ELF_VER_CHR :: rest
      ∧ List.takeWhile (fun c => decide (c ≠ ELF_VER_CHR)) (c :: (cs ++ ELF_VER_CHR :: rest))
        = c :: cs
    rw [List.dropWhile_cons_of_pos (by simpa using hc),
      List.takeWhile_cons_of_pos (by simpa using hc), h.1, h.2]
    exact ⟨rfl, rfl⟩

theorem peek_separator (rest : List Char) :
    peek rest = ELF_VER_CHR ↔ rest.head? = some ELF_VER_CHR := by
  cases rest with
  | nil => simp [peek, ELF_VER_CHR]
  | cons c cs => simp [peek]

/-- The version step of `elf_frob_symbol` on an undefined symbol whose
versioned name has a separator. -/
theorem frob_version_undefined (i : Nat) (punt : Bool) (s : State) (n rest : List Char)
    (hv : (sym_at s.symbols i).versioned_name = some (String.mk (n ++ ELF_VER_CHR :: rest)))
    (hn : ELF_VER_CHR ∉ n)
    (hund : S_IS_DEFINED (sym_at s.symbols i) = false) :
    frob_version i punt s
      = ({ s with
           symbols := modify_nth
             (fun y => { y with name := String.mk (n ++ ELF_VER_CHR :: rest) }) i s.symbols,
           diags := s.diags ++
             (if rest.head? = some ELF_VER_CHR then
                [Diag.as_bad
                   (Message.invalid_attempt_to_declare_external_version_name_as_default
                     (String.mk (n ++ ELF_VER_CHR :: rest)))]
              else []) },
         punt || decide (rest.head? = some ELF_VER_CHR), false) := by
  have hmem : ELF_VER_CHR ∈ n ++ ELF_VER_CHR :: rest := by simp
  unfold frob_version
  rw [hv]
  simp only [hmem, not_true_eq_false, if_false, hund, Bool.false_eq_true,
    not_false_eq_true, if_true, (dropWhile_separator n rest hn).1, List.tail_cons,
    peek_separator]
  by_cases hd : rest.head? = some ELF_VER_CHR
  · simp [hd, State.bad]
  · simp [hd]

/-- C29: for a symbol that is undefined and has a versioned name `v` with a
separator, `elf_frob_symbol` renames the symbol in place to `v`: the table
keeps its length and its other symbols, and the symbol changes in nothing
but its name (and the pending size that the size step gives up).  It reports
the error `invalid attempt to declare external version name as default` and
sets `*puntp` exactly when the first separator of `v` is directly followed
by a second one. -/
theorem C29_undefined_renamed (flag : Bool)
    (resolve : List symbolS → expressionS → Bool × expressionS) (i : Nat) (punt : Bool)
    (s : State) (n rest : List Char)
    (hv : (sym_at s.symbols i).versioned_name = some (String.mk (n ++ ELF_VER_CHR :: rest)))
    (hn : ELF_VER_CHR ∉ n)
    (hund : S_IS_DEFINED (sym_at s.symbols i) = false) :
    sym_at (elf_frob_symbol flag resolve i punt s).1.symbols i
        = { sym_at (frob_size flag resolve i s).symbols i with
            name := String.mk (n ++ ELF_VER_CHR :: rest) }
      ∧ (elf_frob_symbol flag resolve i punt s).1.symbols.length = s.symbols.length
      ∧ (∀ j, j ≠ i →
          sym_at (elf_frob_symbol flag resolve i punt s).1.symbols j = sym_at s.symbols j)
      ∧ (elf_frob_symbol flag resolve i punt s).1.diags
          = (frob_size flag resolve i s).diags ++
              (if rest.head? = some ELF_VER_CHR then
                 [Diag.as_bad
                    (Message.invalid_attempt_to_declare_external_version_name_as_default
                      (String.mk (n ++ ELF_VER_CHR :: rest)))]
               else [])
      ∧ ((sym_at s.symbols i).size = none →
          (elf_frob_symbol flag resolve i punt s).1.diags
            = s.diags ++
                (if rest.head? = some ELF_VER_CHR then
                   [Diag.as_bad
                      (Message.invalid_attempt_to_declare_external_version_name_as_default
                        (String.mk (n ++ ELF_VER_CHR :: rest)))]
                 else []))
      ∧ (elf_frob_symbol flag resolve i punt s).2
          = (punt || decide (rest.head? = some ELF_VER_CHR)) := by
  obtain ⟨hlen, hother, _, hseg, hver, _, hnone⟩ := frob_size_frame flag resolve i s
  have hi : i < s.symbols.length := by
    by_contra hlt
    have h0 : s.symbols[i]? = none := List.getElem?_eq_none (by omega)
    unfold sym_at at hv
    rw [h0] at hv
    cases hv
  have hv1 := hver.trans hv
  have hund1 : S_IS_DEFINED (sym_at (frob_size flag resolve i s).symbols i) = false := by
    unfold S_IS_DEFINED at hund ⊢
    rw [hseg]
    exact hund
  have hfv := frob_version_undefined i punt (frob_size flag resolve i s) n rest hv1 hn hund1
  have hat : sym_at (frob_version i punt (frob_size flag resolve i s)).1.symbols i
      = { sym_at (frob_size flag resolve i s).symbols i with
          name := String.mk (n ++ ELF_VER_CHR :: rest) } := by
    rw [hfv]
    simp only [sym_at_modify, hlen, hi, and_self, if_true]
  have hweak : frob_weak i (frob_version i punt (frob_size flag resolve i s)).1
      = (frob_version i punt (frob_size flag resolve i s)).1 := by
    unfold frob_weak
    rw [hat]
    have : S_IS_COMMON { sym_at (frob_size flag resolve i s).symbols i with
        name := String.mk (n ++ ELF_VER_CHR :: rest) } = false := by
      unfold S_IS_DEFINED at hund1
      unfold S_IS_COMMON
      simp only [ne_eq, decide_not, Bool.not_eq_false', decide_eq_true_eq] at hund1
      simp [hund1]
    simp [this]
  have hall : elf_frob_symbol flag resolve i punt s
      = ((frob_version i punt (frob_size flag resolve i s)).1,
         punt || decide (rest.head? = some ELF_VER_CHR)) := by
    unfold elf_frob_symbol
    simp only []
    rw [hweak]
    rw [hfv]
    simp
  rw [hall]
  refine ⟨hat, ?_, ?_, ?_, ?_, rfl⟩
  · rw [hfv]
    simp [modify_nth_length, hlen]
  · intro j hj
    rw [hfv]
    simp only [sym_at_modify, hj, false_and, if_false]
    exact hother j hj
  · rw [hfv]
  · intro hs
    rw [hfv, hnone hs]

/-- C29 on the undefined symbols `foo`, versioned `foo@V1`, and `bar`,
versioned `bar@@V1`. -/
theorem C29_undefined_renamed_witness :
    sym_at (elf_frob_symbol false sample_resolve 1 false state_versioned).1.symbols 1
        = { name := "foo@V1", bfdsym := none, versioned_name := some "foo@V1" }
      ∧ elf_frob_symbol false sample_resolve 2 false state_versioned
        = ({ state_versioned with
             symbols := sample_state.symbols ++
               [{ name := "foo", bfdsym := none, versioned_name := some "foo@V1" },
                { name := "bar@@V1", bfdsym := none, versioned_name := some "bar@@V1" },
                { name := "baz", bfdsym := none, segment := segT.reg 0, value := 4,
                  versioned_name := some "baz@@@V1" }],
             diags :=
               [Diag.as_bad
                  (Message.invalid_attempt_to_declare_external_version_name_as_default
                    "bar@@V1")] },
           true) :=
  ⟨(C29_undefined_renamed false sample_resolve 1 false state_versioned "foo".data "V1".data
      (by decide) (by decide) (by decide)).1,
   by decide⟩

/-- The version step of `elf_frob_symbol` on a defined symbol whose
versioned name has three separators in a row. -/
theorem frob_version_triple (i : Nat) (punt : Bool) (s : State) (n w : List Char)
    (hv : (sym_at s.symbols i).versioned_name
        = some (String.mk (n ++ ELF_VER_CHR :: ELF_VER_CHR :: ELF_VER_CHR :: w)))
    (hn : ELF_VER_CHR ∉ n)
    (hdef : S_IS_DEFINED (sym_at s.symbols i) = true) :
    frob_version i punt s
      = ({ s with
           symbols := modify_nth
             (fun y => { y with
               versioned_name := some (String.mk (n ++ ELF_VER_CHR :: ELF_VER_CHR :: w)),
               name := String.mk (n ++ ELF_VER_CHR :: ELF_VER_CHR :: w) })
             i s.symbols },
         punt, false) := by
  have hmem : ELF_VER_CHR ∈ n ++ ELF_VER_CHR :: ELF_VER_CHR :: ELF_VER_CHR :: w := by simp
  unfold frob_version
  rw [hv]
  simp only [hmem, not_true_eq_false, if_false, hdef, (dropWhile_separator n _ hn).1,
    (dropWhile_separator n _ hn).2, List.tail_cons, peek, List.headD_cons, and_self, if_true]

/-- C30: for a defined symbol whose versioned name is `n@@@v`, the first
separator being the first of the three, `elf_frob_symbol` renames the symbol
in place to `n@@v`, the text with one separator less, which also becomes its
versioned name; it makes no alias: the table keeps its length and its other
symbols, the symbol changes in nothing else (but the pending size that the
size step gives up), and `*puntp` is left as it was. -/
theorem C30_triple_separator (flag : Bool)
    (resolve : List symbolS → expressionS → Bool × expressionS) (i : Nat) (punt : Bool)
    (s : State) (n w : List Char)
    (hv : (sym_at s.symbols i).versioned_name
        = some (String.mk (n ++ ELF_VER_CHR :: ELF_VER_CHR :: ELF_VER_CHR :: w)))
    (hn : ELF_VER_CHR ∉ n)
    (hdef : S_IS_DEFINED (sym_at s.symbols i) = true) :
    sym_at (elf_frob_symbol flag resolve i punt s).1.symbols i
        = { sym_at (frob_size flag resolve i s).symbols i with
            versioned_name := some (String.mk (n ++ ELF_VER_CHR :: ELF_VER_CHR :: w)),
            name := String.mk (n ++ ELF_VER_CHR :: ELF_VER_CHR :: w) }
      ∧ (n ++ ELF_VER_CHR :: ELF_VER_CHR :: w).length + 1
          = (n ++ ELF_VER_CHR :: ELF_VER_CHR :: ELF_VER_CHR :: w).length
      ∧ (elf_frob_symbol flag resolve i punt s).1.symbols.length = s.symbols.length
      ∧ (∀ j, j ≠ i →
          sym_at (elf_frob_symbol flag resolve i punt s).1.symbols j = sym_at s.symbols j)
      ∧ (elf_frob_symbol flag resolve i punt s).2 = punt := by
  obtain ⟨hlen, hother, _, hseg, hver, _, _⟩ := frob_size_frame flag resolve i s
  have hi : i < s.symbols.length := by
    by_contra hlt
    have h0 : s.symbols[i]? = none := List.getElem?_eq_none (by omega)
    unfold sym_at at hv
    rw [h0] at hv
    cases hv
  have hv1 := hver.trans hv
  have hdef1 : S_IS_DEFINED (sym_at (frob_size flag resolve i s).symbols i) = true := by
    unfold S_IS_DEFINED at hdef ⊢
    rw [hseg]
    exact hdef
  have hfv := frob_version_triple i punt (frob_size flag resolve i s) n w hv1 hn hdef1
  have hsyms : (elf_frob_symbol flag resolve i punt s).1.symbols
      = (frob_version i punt (frob_size flag resolve i s)).1.symbols := by
    unfold elf_frob_symbol
    simp only [hfv, Bool.false_eq_true, if_false]
    exact frob_weak_symbols _ _
  have hpunt : (elf_frob_symbol flag resolve i punt s).2 = punt := by
    unfold elf_frob_symbol
    simp only [hfv, Bool.false_eq_true, if_false]
  rw [hsyms, hfv]
  refine ⟨?_, by simp only [List.length_append, List.length_cons]; omega, ?_, ?_, hpunt⟩
  · simp only [sym_at_modify, hlen, hi, and_self, if_true]
  · simp [modify_nth_length, hlen]
  · intro j hj
    simp only [sym_at_modify, hj, false_and, if_false]
    exact hother j hj

/-- C30 on the symbol `baz`, defined in the text section and versioned
`baz@@@V1`. -/
theorem C30_triple_separator_witness :
    elf_frob_symbol false sample_resolve 3 false state_versioned
        = ({ state_versioned with
             symbols := sample_state.symbols ++
               [{ name := "foo", bfdsym := none, versioned_name := some "foo@V1" },
                { name := "bar", bfdsym := none, versioned_name := some "bar@@V1" },
                { name := "baz@@V1", bfdsym := none, segment := segT.reg 0, value := 4,
                  versioned_name := some "baz@@V1" }] },
           false)
      ∧ (elf_frob_symbol false sample_resolve 3 false state_versioned).1.symbols.length
        = state_versioned.symbols.length :=
  ⟨by decide,
   (C30_triple_separator false sample_resolve 3 false state_versioned "baz".data "V1".data
      (by decide) (by decide) (by decide)).2.2.1⟩

/-! ## `.type` with the type `common` -/

theorem find_or_make_index (l : List symbolS) (n : String) :
    (symbol_find_or_make l n).1 < (symbol_find_or_make l n).2.length := by
  unfold symbol_find_or_make symbol_find
  cases hf : first_index (fun y => decide (y.name = n)) l with
  | none => simp
  | some r =>
    simp only [Option.map_some']
    have hg := first_index_get _ _ r.1 r.2 hf
    by_contra hlt
    have : l[r.1]? = none := List.getElem?_eq_none (by omega)
    rw [this] at hg
    cases hg.1

theorem get_sym_index (rd : Reader) (s : State) (ilp : List Char) :
    (get_sym_from_input_line_and_check rd s ilp).1
      < (get_sym_from_input_line_and_check rd s ilp).2.2.symbols.length := by
  obtain ⟨h1, _, h3⟩ := get_sym_spec rd s ilp
  rw [h1, h3]
  exact find_or_make_index _ _

theorem junk_symbols (b : Bool) (s : State) :
    (if b = true then s.bad Message.junk_at_end_of_line else s).symbols = s.symbols := by
  cases b <;> rfl

theorem junk_count (b : Bool) (s : State) (d : Diag)
    (hd : d ≠ Diag.as_bad Message.junk_at_end_of_line) :
    List.count d (if b = true then s.bad Message.junk_at_end_of_line else s).diags
      = List.count d s.diags := by
  cases b
  · rfl
  · have : ¬ (Diag.as_bad Message.junk_at_end_of_line = d) := fun h => hd h.symm
    simp [State.bad, List.count_append, List.count_cons, this]

theorem symbol_type_common (type_name : String) (s : State) (i : Nat)
    (h : type_name = "common" ∨ type_name = "5" ∨ type_name = "STT_COMMON") :
    symbol_type type_name s i = (BSF_OBJECT, (type_common s i).1, (type_common s i).2) := by
  rcases h with h | h | h <;> subst h <;> simp [symbol_type]

/-- C24: for `.type sym,common`, also spelt `5` or `STT_COMMON`, on a symbol
that is not common: when the symbol is neither volatile, nor defined, nor
equated, it is moved to the common section with the value 0 and marked
external, and no error `symbol is already defined` is reported; when it is
not volatile and is defined or equated, that error is reported once and the
segment, the value and the mark external of the symbol stay as they were.
In both cases the flag `BSF_OBJECT` is added to the flags of the symbol and
nothing else of it changes. -/
theorem C24_type_common (rd : Reader) (s : State) (ilp : List Char) (i : Nat)
    (rest : List Char) (s1 : State) (sym : symbolS)
    (hget : get_sym_from_input_line_and_check rd s ilp = (i, rest, s1))
    (hsym : sym = sym_at s1.symbols i)
    (htype : (obj_elf_type_name rd
        (if peek (SKIP_WHITESPACE (if peek rest = ',' then rest.tail else rest)) = '#'
            ∨ peek (SKIP_WHITESPACE (if peek rest = ',' then rest.tail else rest)) = '@'
            ∨ peek (SKIP_WHITESPACE (if peek rest = ',' then rest.tail else rest)) = '"'
            ∨ peek (SKIP_WHITESPACE (if peek rest = ',' then rest.tail else rest)) = '%' then
          (SKIP_WHITESPACE (if peek rest = ',' then rest.tail else rest)).tail
        else SKIP_WHITESPACE (if peek rest = ',' then rest.tail else rest))).1
      ∈ ["common", "5", "STT_COMMON"])
    (hnc : S_IS_COMMON sym = false)
    (hnv : sym.volatile = false) :
    (S_IS_DEFINED sym = false → sym.equated = false →
        sym_at (obj_elf_type rd s ilp).symbols i
            = { sym with segment := segT.common_section, value := 0, external := true,
                         flags := sym.flags ||| BSF_OBJECT }
          ∧ List.count (Diag.as_bad (Message.symbol_is_already_defined sym.name))
                (obj_elf_type rd s ilp).diags
              = List.count (Diag.as_bad (Message.symbol_is_already_defined sym.name))
                  s1.diags)
      ∧ (S_IS_DEFINED sym = true ∨ sym.equated = true →
          sym_at (obj_elf_type rd s ilp).symbols i
              = { sym with flags := sym.flags ||| BSF_OBJECT }
            ∧ List.count (Diag.as_bad (Message.symbol_is_already_defined sym.name))
                  (obj_elf_type rd s ilp).diags
                = List.count (Diag.as_bad (Message.symbol_is_already_defined sym.name))
                    s1.diags + 1) := by
  have hi : i < s1.symbols.length := by
    have := get_sym_index rd s ilp
    rw [hget] at this
    exact this
  have ht : ∀ tn, tn ∈ ["common", "5", "STT_COMMON"] →
      tn = "common" ∨ tn = "5" ∨ tn = "STT_COMMON" := by
    intro tn h
    simpa using h
  have hty := symbol_type_common _ s1 i (ht _ htype)
  refine ⟨?_, ?_⟩
  · intro hd he
    have hc : type_common s1 i
        = ({ s1 with
             symbols := modify_nth
               (fun y => { y with segment := segT.common_section, value := 0,
                                  external := true }) i s1.symbols },
           false) := by
      unfold type_common
      simp [← hsym, hnc, hnv, hd, he]
    unfold obj_elf_type
    simp only [hget, hty, hc, Bool.false_eq_true, if_false]
    rw [junk_symbols, junk_count _ _ _ (by simp)]
    simp [sym_at_modify, modify_nth_length, hi, ← hsym]
  · intro hde
    have hc : type_common s1 i
        = (s1.bad (Message.symbol_is_already_defined sym.name), false) := by
      unfold type_common
      simp only [← hsym, hnc, Bool.false_eq_true, not_false_eq_true, if_true, hnv, if_false]
      rw [if_pos hde]
    unfold obj_elf_type
    simp only [hget, hty, hc, Bool.false_eq_true, if_false]
    rw [junk_symbols, junk_count _ _ _ (by simp)]
    simp [State.bad, sym_at_modify, hi, ← hsym, List.count_append]

/-- C24 at `.type foo,common` for a new symbol `foo`, and at `.type foo,@5`
for a symbol `foo` defined in the text section. -/
theorem C24_type_common_witness :
    sym_at (obj_elf_type sample_reader sample_state line_type_common).symbols 1
        = { name := "foo", bfdsym := none, segment := segT.common_section, value := 0,
            external := true, flags := BSF_OBJECT }
      ∧ (obj_elf_type sample_reader sample_state line_type_common).diags = []
      ∧ obj_elf_type sample_reader state_foo_defined line_type_five
        = { state_foo_defined with
            symbols := sample_state.symbols
              ++ [{ name := "foo", bfdsym := none, segment := segT.reg 0, value := 4,
                    flags := BSF_OBJECT }],
            diags := [Diag.as_bad (Message.symbol_is_already_defined "foo")] } :=
  ⟨((C24_type_common sample_reader sample_state line_type_common 1 ",common\n".data
        { sample_state with symbols := sample_state.symbols ++ [symbol_make "foo"] }
        (symbol_make "foo") (by decide) (by decide) (by decide) (by decide) (by decide)).1
      (by decide) (by decide)).1,
   by decide, by decide⟩

/-! ## Section groups: the lists of members -/

theorem members_upto_succ (secs : List asection) (k : Nat) (g : String) :
    members_upto secs (k + 1) g
      = members_upto secs k g ++ (if group_name_at secs k = some g then [k] else []) := by
  unfold members_upto
  rw [List.range_succ, List.filter_append]
  by_cases h : group_name_at secs k = some g
  · simp [h]
  · simp [h]

theorem members_upto_mem (secs : List asection) (k : Nat) (g : String) (m : Nat)
    (h : m ∈ members_upto secs k g) : m < k ∧ group_name_at secs m = some g := by
  unfold members_upto at h
  simpa using h

theorem chain_modify_other (f : asection → asection) (k : Nat) (secs : List asection)
    (st : Option Nat) (ms : List Nat) (h : Chain secs st ms) (hk : ∀ m ∈ ms, m ≠ k) :
    Chain (modify_nth f k secs) st ms := by
  induction h with
  | nil => exact Chain.nil
  | cons j x ms hj _ ih =>
    refine Chain.cons j x ms ?_ (ih (fun m hm => hk m (List.mem_cons_of_mem _ hm)))
    rw [modify_nth_get, if_neg (hk j (List.mem_cons_self _ _))]
    exact hj

theorem chain_modify_keep (f : asection → asection) (k : Nat) (secs : List asection)
    (hf : ∀ x, (f x).next_in_group = x.next_in_group)
    (st : Option Nat) (ms : List Nat) (h : Chain secs st ms) :
    Chain (modify_nth f k secs) st ms := by
  induction h with
  | nil => exact Chain.nil
  | cons j x ms hj _ ih =>
    by_cases hjk : j = k
    · refine Chain.cons j (f x) ms ?_ (by rw [hf]; exact ih)
      rw [modify_nth_get, if_pos hjk, hj]
      rfl
    · refine Chain.cons j x ms ?_ ih
      rw [modify_nth_get, if_neg hjk]
      exact hj

theorem chain_append (secs : List asection) (y : asection) (st : Option Nat)
    (ms : List Nat) (h : Chain secs st ms) : Chain (secs ++ [y]) st ms := by
  induction h with
  | nil => exact Chain.nil
  | cons j x ms hj _ ih =>
    refine Chain.cons j x ms ?_ ih
    have hlt : j < secs.length := by
      by_contra hc
      have : secs[j]? = none := List.getElem?_eq_none (by omega)
      rw [this] at hj
      cases hj
    rw [List.getElem?_append_left hlt]
    exact hj

theorem chain_unique (secs : List asection) (st : Option Nat) (ms ms2 : List Nat)
    (h : Chain secs st ms) (h2 : Chain secs st ms2) : ms = ms2 := by
  induction h generalizing ms2 with
  | nil => cases h2; rfl
  | cons j x ms hj _ ih =>
    cases h2 with
    | cons _ x2 ms3 hj2 hc2 =>
      rw [hj] at hj2
      injection hj2 with hx
      subst hx
      rw [ih ms3 hc2]

theorem group_name_at_modify (f : asection → asection) (k j : Nat) (secs : List asection)
    (hf : ∀ x, (f x).group_name = x.group_name) :
    group_name_at (modify_nth f k secs) j = group_name_at secs j := by
  unfold group_name_at
  rw [modify_nth_get]
  split
  · cases secs[j]? <;> simp [hf]
  · rfl

theorem sec_at_modify (f : asection → asection) (k j : Nat) (secs : List asection) :
    sec_at (modify_nth f k secs) j
      = if j = k ∧ j < secs.length then f (sec_at secs j) else sec_at secs j := by
  unfold sec_at
  rw [modify_nth_get]
  by_cases hjk : j = k
  · subst hjk
    by_cases hj : j < secs.length
    · rw [List.getElem?_eq_getElem hj]
      simp [hj]
    · have : secs[j]? = none := List.getElem?_eq_none (by omega)
      rw [this]
      simp [hj]
  · simp [hjk]

theorem hash_find_insert (indexes : List (String × Nat)) (g key : String) (v : Nat) :
    hash_find (hash_insert indexes g v) key
      = match hash_find indexes key with
        | some idx => some idx
        | none => if g = key then some v else none := by
  unfold hash_find hash_insert
  rw [List.find?_append]
  cases h : List.find? (fun e => decide (e.1 = key)) indexes with
  | some e => simp
  | none =>
    by_cases hg : g = key
    · simp [hg]
    · simp [hg]

theorem getD_set (l : List Nat) (idx k i : Nat) (h : idx < l.length) :
    (l.set idx k).getD i 0 = if i = idx then k else l.getD i 0 := by
  simp only [List.getD_eq_getElem?_getD, List.getElem?_set]
  by_cases hi : i = idx
  · subst hi
    simp [h]
  · have : ¬ idx = i := fun e => hi e.symm
    simp [hi, this]

theorem getD_append_last (l : List Nat) (k i : Nat) :
    (l ++ [k]).getD i 0
      = if i < l.length then l.getD i 0 else if i = l.length then k else 0 := by
  simp only [List.getD_eq_getElem?_getD]
  by_cases hi : i < l.length
  · rw [List.getElem?_append_left hi, if_pos hi]
  · rw [if_neg hi]
    by_cases hi2 : i = l.length
    · subst hi2
      simp
    · rw [if_neg hi2, List.getElem?_eq_none (by simp; omega)]
      rfl

theorem elf_group_name_at (s : State) (k : Nat) :
    elf_group_name s (segT.reg k) = group_name_at s.sections k := by
  show (match s.sections[k]? with
    | some x => x.group_name
    | none => none) = s.sections[k]?.bind (fun x => x.group_name)
  cases s.sections[k]? <;> rfl

theorem members_upto_same (secs : List asection) (k : Nat) (g : String)
    (h : group_name_at secs k ≠ some g) :
    members_upto secs (k + 1) g = members_upto secs k g := by
  rw [members_upto_succ, if_neg h, List.append_nil]

theorem members_upto_new (secs : List asection) (k : Nat) (g : String)
    (h : group_name_at secs k = some g) :
    (members_upto secs (k + 1) g).reverse = k :: (members_upto secs k g).reverse := by
  rw [members_upto_succ, if_pos h, List.reverse_append]
  rfl

/-- The visit of one more section keeps the group lists built. -/
theorem build_step (secs0 : List asection) (k : Nat) (s : State)
    (h : lists_built secs0 k s) (hk : k < secs0.length)
    (hnext : ∀ x, secs0[k]? = some x → x.next_in_group = none) :
    lists_built secs0 (k + 1) (build_group_lists s k) := by
  unfold build_group_lists
  rw [elf_group_name_at]
  cases hg : group_name_at s.sections k with
  | none =>
    have hg0 : group_name_at secs0 k = none := by rw [← h.names]; exact hg
    have hsame : ∀ g, members_upto secs0 (k + 1) g = members_upto secs0 k g :=
      fun g => members_upto_same _ _ _ (by rw [hg0]; simp)
    exact
      { length_eq := h.length_eq
        names := h.names
        untouched := fun j hj => h.untouched j (by omega)
        find_iff := h.find_iff
        chain := fun i hi => by
          obtain ⟨g, h1, h2⟩ := h.chain i hi
          exact ⟨g, h1, by rw [hsame]; exact h2⟩
        found := fun g hm => h.found g (by rw [← hsame]; exact hm)
        flags := h.flags }
  | some g =>
    have hg0 : group_name_at secs0 k = some g := by rw [← h.names]; exact hg
    have hother : ∀ g2, g2 ≠ g → members_upto secs0 (k + 1) g2 = members_upto secs0 k g2 :=
      fun g2 h2 => members_upto_same _ _ _ (by rw [hg0]; simpa using fun e => h2 e.symm)
    obtain ⟨x, hx⟩ : ∃ x, s.sections[k]? = some x := by
      have : k < s.sections.length := by rw [h.length_eq]; exact hk
      exact ⟨_, List.getElem?_eq_getElem this⟩
    simp only []
    cases hf : hash_find s.groups.indexes g with
    | some idx =>
      obtain ⟨hidx, hname⟩ := (h.find_iff g idx).1 hf
      have hhead : s.groups.head[idx]? = some (s.groups.head.getD idx 0) := by
        rw [List.getD_eq_getElem?_getD, List.getElem?_eq_getElem hidx]
        rfl
      simp only []
      refine
        { length_eq := by simp [modify_nth_length, h.length_eq]
          names := fun j => by
            show group_name_at (modify_nth (fun x => { x with next_in_group := s.groups.head[idx]? }) k
              s.sections) j = _
            refine (group_name_at_modify _ _ _ _ ?_).trans (h.names j)
            intro _
            rfl
          untouched := fun j hj => by
            show (modify_nth (fun x => { x with next_in_group := s.groups.head[idx]? }) k
              s.sections)[j]? = _
            rw [modify_nth_get, if_neg (by omega)]
            exact h.untouched j (by omega)
          find_iff := ?_
          chain := ?_
          found := ?_
          flags := fun j => by
            show (sec_at (modify_nth (fun x => { x with next_in_group := s.groups.head[idx]? }) k
              s.sections) j).flags = _
            rw [sec_at_modify]
            split
            · exact h.flags j
            · exact h.flags j }
      · intro g2 i
        show hash_find s.groups.indexes g2 = some i
          ↔ (i < (s.groups.head.set idx k).length
              ∧ group_name_at secs0 ((s.groups.head.set idx k).getD i 0) = some g2)
        rw [List.length_set, getD_set _ _ _ _ hidx, h.find_iff]
        by_cases hi : i = idx
        · subst hi
          simp only [if_true, hg0, hname]
        · simp only [hi, if_false]
      · intro i hi
        show ∃ g2, group_name_at secs0 ((s.groups.head.set idx k).getD i 0) = some g2
          ∧ Chain (modify_nth (fun x => { x with next_in_group := s.groups.head[idx]? }) k
                s.sections) (some ((s.groups.head.set idx k).getD i 0))
              (members_upto secs0 (k + 1) g2).reverse
        rw [List.length_set] at hi
        rw [getD_set _ _ _ _ hidx]
        by_cases hii : i = idx
        · subst hii
          rw [if_pos rfl]
          refine ⟨g, hg0, ?_⟩
          rw [members_upto_new _ _ _ hg0]
          obtain ⟨g3, h3, hc3⟩ := h.chain i hidx
          have hg3 : g3 = g := by
            rw [hname] at h3
            exact (Option.some.inj h3).symm
          subst hg3
          refine Chain.cons k _ _ (by rw [modify_nth_get, if_pos rfl, hx]; rfl) ?_
          show Chain _ s.groups.head[i]? _
          rw [hhead]
          refine chain_modify_other _ _ _ _ _ hc3 ?_
          intro m hm
          have := (members_upto_mem _ _ _ _ (List.mem_reverse.1 hm)).1
          omega
        · rw [if_neg hii]
          obtain ⟨g3, h3, hc3⟩ := h.chain i hi
          have hne : g3 ≠ g := by
            intro e
            subst e
            have h4 := (h.find_iff g3 i).2 ⟨hi, h3⟩
            rw [hf] at h4
            exact hii (Option.some.inj h4).symm
          refine ⟨g3, h3, ?_⟩
          rw [hother g3 hne]
          refine chain_modify_other _ _ _ _ _ hc3 ?_
          intro m hm
          have := (members_upto_mem _ _ _ _ (List.mem_reverse.1 hm)).1
          omega
      · intro g2 hm
        by_cases h2 : g2 = g
        · subst h2
          exact ⟨idx, hf⟩
        · rw [hother g2 h2] at hm
          exact h.found g2 hm
    | none =>
      have hempty : members_upto secs0 k g = [] := by
        by_contra hc
        obtain ⟨idx, hidx⟩ := h.found g hc
        rw [hf] at hidx
        cases hidx
      simp only []
      refine
        { length_eq := h.length_eq
          names := h.names
          untouched := fun j hj => h.untouched j (by omega)
          find_iff := ?_
          chain := ?_
          found := ?_
          flags := h.flags }
      · intro g2 i
        show hash_find (hash_insert s.groups.indexes g s.groups.head.length) g2 = some i
          ↔ (i < (s.groups.head ++ [k]).length
              ∧ group_name_at secs0 ((s.groups.head ++ [k]).getD i 0) = some g2)
        rw [hash_find_insert, getD_append_last, List.length_append, List.length_singleton]
        cases hf2 : hash_find s.groups.indexes g2 with
        | some i2 =>
          obtain ⟨hi2, hn2⟩ := (h.find_iff g2 i2).1 hf2
          simp only [Option.some.injEq]
          constructor
          · intro e
            subst e
            exact ⟨by omega, by rw [if_pos hi2]; exact hn2⟩
          · rintro ⟨hi, hn⟩
            by_cases hlt : i < s.groups.head.length
            · rw [if_pos hlt] at hn
              have := (h.find_iff g2 i).2 ⟨hlt, hn⟩
              rw [hf2] at this
              exact Option.some.inj this
            · have hie : i = s.groups.head.length := by omega
              rw [if_neg hlt, if_pos hie, hg0] at hn
              have : g = g2 := Option.some.inj hn
              subst this
              rw [hf] at hf2
              cases hf2
        | none =>
          simp only []
          constructor
          · intro e
            by_cases hgg : g = g2
            · rw [if_pos hgg] at e
              have hie : s.groups.head.length = i := Option.some.inj e
              subst hie
              refine ⟨by omega, ?_⟩
              rw [if_neg (by omega), if_pos rfl, hg0, hgg]
            · rw [if_neg hgg] at e
              cases e
          · rintro ⟨hi, hn⟩
            by_cases hlt : i < s.groups.head.length
            · rw [if_pos hlt] at hn
              have := (h.find_iff g2 i).2 ⟨hlt, hn⟩
              rw [hf2] at this
              cases this
            · have hie : i = s.groups.head.length := by omega
              rw [if_neg hlt, if_pos hie, hg0] at hn
              have : g = g2 := Option.some.inj hn
              rw [if_pos this, hie]
      · intro i hi
        show ∃ g2, group_name_at secs0 ((s.groups.head ++ [k]).getD i 0) = some g2
          ∧ Chain s.sections (some ((s.groups.head ++ [k]).getD i 0))
              (members_upto secs0 (k + 1) g2).reverse
        rw [List.length_append, List.length_singleton] at hi
        rw [getD_append_last]
        by_cases hlt : i < s.groups.head.length
        · rw [if_pos hlt]
          obtain ⟨g3, h3, hc3⟩ := h.chain i hlt
          have hne : g3 ≠ g := by
            intro e
            subst e
            have h4 := (h.find_iff g3 i).2 ⟨hlt, h3⟩
            rw [hf] at h4
            cases h4
          exact ⟨g3, h3, by rw [hother g3 hne]; exact hc3⟩
        · have hie : i = s.groups.head.length := by omega
          rw [if_neg hlt, if_pos hie]
          refine ⟨g, hg0, ?_⟩
          rw [members_upto_new _ _ _ hg0, hempty]
          have hx0 : secs0[k]? = some x := by rw [← h.untouched k (le_refl _)]; exact hx
          refine Chain.cons k x [] hx ?_
          rw [hnext x hx0]
          exact Chain.nil
      · intro g2 hm
        show ∃ idx, hash_find (hash_insert s.groups.indexes g s.groups.head.length) g2
          = some idx
        rw [hash_find_insert]
        by_cases h2 : g2 = g
        · subst h2
          rw [hf]
          exact ⟨s.groups.head.length, by simp⟩
        · rw [hother g2 h2] at hm
          obtain ⟨idx, hidx⟩ := h.found g2 hm
          rw [hidx]
          exact ⟨idx, rfl⟩

theorem build_group_lists_frame (s : State) (k : Nat) :
    (build_group_lists s k).symbols = s.symbols
      ∧ (build_group_lists s k).diags = s.diags
      ∧ (build_group_lists s k).now_seg = s.now_seg := by
  unfold build_group_lists
  split
  · exact ⟨rfl, rfl, rfl⟩
  · split <;> exact ⟨rfl, rfl, rfl⟩

/-- After `build_group_lists` has visited the first `m` sections, the group
lists are built for them. -/
theorem build_upto (s : State) (m : Nat) (hm : m ≤ s.sections.length)
    (hnone : ∀ x ∈ s.sections, x.next_in_group = none) :
    lists_built s.sections m
        ((List.range m).foldl build_group_lists
          { s with groups := { head := [], indexes := [] } })
      ∧ ((List.range m).foldl build_group_lists
          { s with groups := { head := [], indexes := [] } }).symbols = s.symbols := by
  induction m with
  | zero =>
    refine ⟨?_, rfl⟩
    exact
      { length_eq := rfl
        names := fun _ => rfl
        untouched := fun _ _ => rfl
        find_iff := fun g idx => by simp [hash_find]
        chain := fun i hi => by simp at hi
        found := fun g hg => by simp [members_upto] at hg
        flags := fun _ => rfl }
  | succ m ih =>
    obtain ⟨ih1, ih2⟩ := ih (by omega)
    rw [List.range_succ, List.foldl_append]
    refine ⟨?_, ?_⟩
    · refine build_step s.sections m _ ih1 (by omega) ?_
      intro x hx
      exact hnone x (List.mem_iff_getElem?.2 ⟨m, hx⟩)
    · simp only [List.foldl_cons, List.foldl_nil]
      rw [(build_group_lists_frame _ _).1, ih2]

theorem chain_transfer (secs1 secs2 : List asection)
    (h : ∀ (j : Nat) (x1 : asection), secs1[j]? = some x1 →
      ∃ x : asection, secs2[j]? = some x ∧ x.next_in_group = x1.next_in_group)
    (st : Option Nat) (ms : List Nat) (hc : Chain secs1 st ms) : Chain secs2 st ms := by
  induction hc with
  | nil => exact Chain.nil
  | cons j x1 ms hj _ ih =>
    obtain ⟨x, hx, hn⟩ := h j x1 hj
    exact Chain.cons j x ms hx (by rw [hn]; exact ih)

theorem sec_at_of_get (secs : List asection) (k : Nat) (x : asection)
    (h : secs[k]? = some x) : sec_at secs k = x := by
  unfold sec_at
  rw [h]
  rfl

/-- The loop over the members of a group ends when the links lead through a
list of members that is shorter than the number of rounds. -/
theorem group_flags_ends (secs : List asection) (head : Nat) (st : Option Nat)
    (ms : List Nat) (hc : Chain secs st ms) (rounds flags : Nat)
    (hr : ms.length < rounds) :
    ∃ r, group_flags secs head rounds st flags = some r := by
  induction hc generalizing rounds flags with
  | nil =>
    cases rounds with
    | zero => omega
    | succ n => exact ⟨_, rfl⟩
  | cons j x ms hj _ ih =>
    cases rounds with
    | zero => omega
    | succ n =>
      have hlen : ms.length < n := by
        simp only [List.length_cons] at hr
        omega
      unfold group_flags
      rw [sec_at_of_get _ _ _ hj]
      split
      · split
        · exact ⟨_, rfl⟩
        · exact ih n _ hlen
      · exact ih n _ hlen

theorem group_signature_spec (syms : List symbolS) (g : String) (now_seg : segT) :
    (group_signature syms g now_seg).2 < (group_signature syms g now_seg).1.length
      ∧ (sym_at (group_signature syms g now_seg).1 (group_signature syms g now_seg).2).name = g
      ∧ (∀ j, j < syms.length →
          sym_at (group_signature syms g now_seg).1 j = sym_at syms j)
      ∧ syms.length ≤ (group_signature syms g now_seg).1.length := by
  have hnew : ∀ y : symbolS, y.name = g →
      syms.length < (syms ++ [y]).length
        ∧ (sym_at (syms ++ [y]) syms.length).name = g
        ∧ (∀ j, j < syms.length → sym_at (syms ++ [y]) j = sym_at syms j)
        ∧ syms.length ≤ (syms ++ [y]).length := by
    intro y hy
    refine ⟨by simp, ?_, fun j hj => sym_at_append _ _ _ hj, by simp⟩
    unfold sym_at
    simp [hy]
  unfold group_signature symbol_find_exact symbol_find
  cases hf : first_index (fun y => decide (y.name = g)) syms with
  | none => exact hnew _ rfl
  | some r =>
    have hg := first_index_get _ _ r.1 r.2 hf
    simp only [Option.map_some']
    split
    · exact hnew _ rfl
    · have hlt : r.1 < syms.length := by
        by_contra hc
        have : syms[r.1]? = none := List.getElem?_eq_none (by omega)
        rw [this] at hg
        cases hg.1
      refine ⟨hlt, ?_, fun _ _ => rfl, le_refl _⟩
      unfold sym_at
      rw [hg.1]
      simpa using hg.2

/-! ## Section groups: the control sections -/

/-- What one round of the loop of `elf_adjust_symtab` makes of the state. -/
theorem adjust_group_result (s s1 : State) (i : Nat) (h : adjust_group s i = some s1) :
    ∃ flags : Nat,
      s1.sections
          = modify_nth (fun x => { x with sec_group := some s.sections.length })
              (s.groups.head.getD i 0)
              (modify_nth
                (fun x => { x with
                  flags := flags, alignment_power := 2, sh_type := SHT_GROUP,
                  next_in_group := some (s.groups.head.getD i 0),
                  group_id := some
                    (group_signature s.symbols
                      ((elf_group_name s (segT.reg (s.groups.head.getD i 0))).getD "")
                      (segT.reg s.sections.length)).2 })
                s.sections.length
                (s.sections ++
                  [{ name := ".group", flags := 0, entsize := 0, sh_type := 0, sh_flags := 0,
                     sh_info := 0, group_name := none, bss := false }]))
        ∧ s1.symbols
          = (group_signature s.symbols
              ((elf_group_name s (segT.reg (s.groups.head.getD i 0))).getD "")
              (segT.reg s.sections.length)).1
        ∧ s1.groups = s.groups := by
  unfold adjust_group at h
  simp only [] at h
  split at h
  · cases h
  · rename_i flags warned _
    injection h with h
    subst h
    refine ⟨flags, ?_, ?_, ?_⟩
    · cases warned <;> simp [subseg_force_new, State.warn]
    · cases warned <;> simp [subseg_force_new, State.warn]
    · cases warned <;> simp [subseg_force_new, State.warn]

/-- One more round of the loop of `elf_adjust_symtab` comes to an end and
makes the control section of one more group. -/
theorem adjust_step (secs1 : List asection) (heads : List Nat) (i : Nat) (s : State)
    (h : groups_adjusted secs1 heads i s)
    (hch : ∃ ms, Chain secs1 (some (heads.getD i 0)) ms ∧ ms.length ≤ secs1.length) :
    ∃ s1, adjust_group s i = some s1 ∧ groups_adjusted secs1 heads (i + 1) s1 := by
  obtain ⟨ms, hc, hlen⟩ := hch
  have hc2 : Chain s.sections (some (s.groups.head.getD i 0)) ms := by
    rw [h.heads_eq]
    refine chain_transfer secs1 s.sections ?_ _ _ hc
    intro j x1 hj
    obtain ⟨x, hx, hn, _⟩ := h.members j x1 hj
    exact ⟨x, hx, hn⟩
  have hhd : ∃ x1, secs1[heads.getD i 0]? = some x1 := by
    cases hc with
    | cons _ x1 _ hj _ => exact ⟨x1, hj⟩
  obtain ⟨xh1, hxh1⟩ := hhd
  have hhdlt : heads.getD i 0 < secs1.length := by
    by_contra hcon
    have : secs1[heads.getD i 0]? = none := List.getElem?_eq_none (by omega)
    rw [this] at hxh1
    cases hxh1
  obtain ⟨r, hr⟩ := group_flags_ends s.sections (s.groups.head.getD i 0) _ ms hc2
    (s.sections.length + 1)
    (SEC_READONLY ||| SEC_HAS_CONTENTS ||| SEC_IN_MEMORY ||| SEC_GROUP)
    (by rw [h.length_eq]; omega)
  have hsome : ∃ s1, adjust_group s i = some s1 := by
    unfold adjust_group
    simp only []
    rw [hr]
    exact ⟨_, rfl⟩
  obtain ⟨s1, hs1⟩ := hsome
  refine ⟨s1, hs1, ?_⟩
  obtain ⟨flags, hsec, hsym, hgr⟩ := adjust_group_result s s1 i hs1
  have hgname : (elf_group_name s (segT.reg (s.groups.head.getD i 0))).getD ""
      = (group_name_at secs1 (heads.getD i 0)).getD "" := by
    rw [elf_group_name_at, h.heads_eq]
    obtain ⟨x, hx, _, hg, _⟩ := h.members _ xh1 hxh1
    unfold group_name_at
    rw [hx, hxh1]
    simp [hg]
  have hsig := group_signature_spec s.symbols
    ((elf_group_name s (segT.reg (s.groups.head.getD i 0))).getD "")
    (segT.reg s.sections.length)
  rw [h.heads_eq] at hsec
  exact
    { length_eq := by
        rw [hsec]
        simp [modify_nth_length, h.length_eq]
        omega
      heads_eq := by rw [hgr]; exact h.heads_eq
      members := by
        intro j x1 hj
        obtain ⟨x, hx, hn, hg, hfl⟩ := h.members j x1 hj
        have hjlt : j < s.sections.length := by
          by_contra hcon
          have : s.sections[j]? = none := List.getElem?_eq_none (by omega)
          rw [this] at hx
          cases hx
        have hbase : (modify_nth
            (fun x => { x with
              flags := flags, alignment_power := 2, sh_type := SHT_GROUP,
              next_in_group := some (heads.getD i 0),
              group_id := some
                (group_signature s.symbols
                  ((elf_group_name s (segT.reg (heads.getD i 0))).getD "")
                  (segT.reg s.sections.length)).2 })
            s.sections.length
            (s.sections ++
              [{ name := ".group", flags := 0, entsize := 0, sh_type := 0, sh_flags := 0,
                 sh_info := 0, group_name := none, bss := false }]))[j]? = some x := by
          rw [modify_nth_get, if_neg (by omega), List.getElem?_append_left hjlt]
          exact hx
        rw [hsec, modify_nth_get, hbase]
        split
        · exact ⟨_, rfl, hn, hg, hfl⟩
        · exact ⟨x, rfl, hn, hg, hfl⟩
      control := by
        intro m hm
        by_cases hmi : m < i
        · obtain ⟨c, sy, hc1, hc2, hc3, hc4, hc5, hc6, hc7, hc8⟩ := h.control m hmi
          have hlt : secs1.length + m < s.sections.length := by rw [h.length_eq]; omega
          refine ⟨c, sy, ?_, hc2, hc3, hc4, hc5, hc6, ?_, ?_⟩
          · rw [hsec, modify_nth_get, if_neg (by omega), modify_nth_get, if_neg (by omega),
              List.getElem?_append_left hlt]
            exact hc1
          · rw [hsym]
            exact Nat.lt_of_lt_of_le hc7 hsig.2.2.2
          · rw [hsym, hsig.2.2.1 sy hc7]
            exact hc8
        · have hme : m = i := by omega
          subst hme
          have hidx : secs1.length + m = s.sections.length := by rw [h.length_eq]
          refine ⟨{ name := ".group", flags := flags, entsize := 0, sh_type := SHT_GROUP,
                    sh_flags := 0, sh_info := 0, group_name := none, bss := false,
                    alignment_power := 2, next_in_group := some (heads.getD m 0),
                    group_id := some
                      (group_signature s.symbols
                        ((elf_group_name s (segT.reg (heads.getD m 0))).getD "")
                        (segT.reg s.sections.length)).2 },
            (group_signature s.symbols
              ((elf_group_name s (segT.reg (heads.getD m 0))).getD "")
              (segT.reg s.sections.length)).2,
            ?_, rfl, rfl, rfl, rfl, rfl, ?_, ?_⟩
          · rw [hsec, modify_nth_get, if_neg (by omega), modify_nth_get, if_pos hidx, hidx]
            simp
          · rw [hsym, ← h.heads_eq]
            exact hsig.1
          · rw [hsym, ← hgname, ← h.heads_eq]
            exact hsig.2.1 }

theorem adjust_all (secs1 : List asection) (heads : List Nat) (n i : Nat) (s : State)
    (h : groups_adjusted secs1 heads i s) (hn : i + n = heads.length)
    (hch : ∀ m, m < heads.length →
      ∃ ms, Chain secs1 (some (heads.getD m 0)) ms ∧ ms.length ≤ secs1.length) :
    ∃ s1, adjust_groups n i s = some s1 ∧ groups_adjusted secs1 heads heads.length s1 := by
  induction n generalizing i s with
  | zero =>
    have : i = heads.length := by omega
    subst this
    exact ⟨s, rfl, h⟩
  | succ n ih =>
    obtain ⟨s1, h1, h2⟩ := adjust_step secs1 heads i s h (hch i (by omega))
    obtain ⟨s2, h3, h4⟩ := ih (i + 1) s1 h2 (by omega)
    refine ⟨s2, ?_, h4⟩
    unfold adjust_groups
    rw [h1]
    exact h3

theorem members_upto_length (secs : List asection) (k : Nat) (g : String) :
    (members_upto secs k g).length ≤ k := by
  unfold members_upto
  calc (List.filter _ (List.range k)).length ≤ (List.range k).length := List.length_filter_le _ _
    _ = k := List.length_range k

theorem chain_head_ne_nil (secs : List asection) (k : Nat) (ms : List Nat)
    (h : Chain secs (some k) ms) : ms ≠ [] := by
  cases h with
  | cons _ _ _ _ _ => simp

/-- The names of the heads of the group lists are the group names that
occur, each once. -/
theorem head_names_spec (secs0 : List asection) (s : State)
    (h : lists_built secs0 secs0.length s) :
    (head_names secs0 s.groups.head).Nodup
      ∧ (∀ g, g ∈ head_names secs0 s.groups.head ↔ group_members secs0 g ≠ [])
      ∧ (∀ m, m < s.groups.head.length →
          group_name_at secs0 (s.groups.head.getD m 0)
            = some ((head_names secs0 s.groups.head).getD m "")) := by
  have hname : ∀ m, m < s.groups.head.length →
      group_name_at secs0 (s.groups.head.getD m 0)
        = some ((head_names secs0 s.groups.head).getD m "") := by
    intro m hm
    obtain ⟨g, hg, _⟩ := h.chain m hm
    unfold head_names
    simp only [List.getD_eq_getElem?_getD, List.getElem?_map, List.getElem?_eq_getElem hm,
      Option.getD_some, Option.map_some'] at hg ⊢
    rw [hg]
    rfl
  refine ⟨?_, ?_, hname⟩
  · rw [List.nodup_iff_injective_get]
    intro a b hab
    have ha : a.1 < s.groups.head.length := by
      have := a.2
      simpa [head_names] using this
    have hb : b.1 < s.groups.head.length := by
      have := b.2
      simpa [head_names] using this
    have h1 := hname a.1 ha
    have h2 := hname b.1 hb
    have e : (head_names secs0 s.groups.head).getD a.1 ""
        = (head_names secs0 s.groups.head).getD b.1 "" := by
      rw [List.getD_eq_getElem?_getD, List.getD_eq_getElem?_getD,
        List.getElem?_eq_getElem a.2, List.getElem?_eq_getElem b.2]
      simp only [Option.getD_some]
      exact hab
    rw [e] at h1
    have f1 := (h.find_iff _ a.1).2 ⟨ha, h1⟩
    have f2 := (h.find_iff _ b.1).2 ⟨hb, h2⟩
    rw [f1] at f2
    exact Fin.ext (Option.some.inj f2)
  · intro g
    constructor
    · intro hg
      unfold head_names at hg
      obtain ⟨head, hhead, hg2⟩ := List.mem_map.1 hg
      obtain ⟨m, hm⟩ := List.mem_iff_getElem?.1 hhead
      have hmlt : m < s.groups.head.length := by
        by_contra hc
        have : s.groups.head[m]? = none := List.getElem?_eq_none (by omega)
        rw [this] at hm
        cases hm
      obtain ⟨g3, h3, hc3⟩ := h.chain m hmlt
      have hd : s.groups.head.getD m 0 = head := by
        rw [List.getD_eq_getElem?_getD, hm]
        rfl
      rw [hd] at h3 hc3
      rw [h3] at hg2
      simp only [Option.getD_some] at hg2
      subst hg2
      have := chain_head_ne_nil _ _ _ hc3
      unfold group_members
      intro e
      rw [e] at this
      exact this rfl
    · intro hg
      obtain ⟨idx, hidx⟩ := h.found g hg
      obtain ⟨hlt, hn⟩ := (h.find_iff g idx).1 hidx
      have := hname idx hlt
      rw [hn] at this
      have e : g = (head_names secs0 s.groups.head).getD idx "" := Option.some.inj this
      rw [e, List.getD_eq_getElem?_getD]
      have hlt2 : idx < (head_names secs0 s.groups.head).length := by
        simpa [head_names] using hlt
      rw [List.getElem?_eq_getElem hlt2]
      exact List.getElem_mem _

/-- C21: when no section has a link yet, `elf_adjust_symtab`, which has
`build_group_lists` visit all sections in the order of registration, comes
to an end, and the group names carried by sections can be listed without
repetition so that the sections made are one control section for each name
of the list, in that order, after the sections there were, which keep their
group names; the control section has the name `.group` and the type
`SHT_GROUP`, the links from the first member it points at lead through
exactly the sections that carry the group name, in reverse order of
registration, and its signature symbol has the group name as its name. -/
theorem C21_one_control_section_per_group (s : State)
    (hnone : ∀ x ∈ s.sections, x.next_in_group = none) :
    ∃ (s1 : State) (names : List String),
      elf_adjust_symtab s = some s1
      ∧ names.Nodup
      ∧ (∀ g, g ∈ names ↔ group_members s.sections g ≠ [])
      ∧ s1.sections.length = s.sections.length + names.length
      ∧ (∀ j, j < s.sections.length →
          group_name_at s1.sections j = group_name_at s.sections j)
      ∧ (∀ m, m < names.length → ∃ (c : asection) (head sy : Nat),
          s1.sections[s.sections.length + m]? = some c
          ∧ c.name = ".group" ∧ c.sh_type = SHT_GROUP ∧ c.group_name = none
          ∧ c.next_in_group = some head
          ∧ Chain s1.sections (some head) (group_members s.sections (names.getD m "")).reverse
          ∧ c.group_id = some sy
          ∧ (sym_at s1.symbols sy).name = names.getD m "") := by
  obtain ⟨hb, _⟩ := build_upto s s.sections.length (le_refl _) hnone
  generalize hsB : (List.range s.sections.length).foldl build_group_lists
    { s with groups := { head := [], indexes := [] } } = sB at hb
  have base : groups_adjusted sB.sections sB.groups.head 0 sB :=
    { length_eq := rfl
      heads_eq := rfl
      members := fun j x1 h => ⟨x1, h, rfl, rfl, rfl⟩
      control := fun m hm => absurd hm (Nat.not_lt_zero m) }
  have hch : ∀ m, m < sB.groups.head.length →
      ∃ ms, Chain sB.sections (some (sB.groups.head.getD m 0)) ms
        ∧ ms.length ≤ sB.sections.length := by
    intro m hm
    obtain ⟨g, _, hc⟩ := hb.chain m hm
    refine ⟨_, hc, ?_⟩
    rw [List.length_reverse, hb.length_eq]
    exact members_upto_length _ _ _
  obtain ⟨s1, h1, h2⟩ := adjust_all sB.sections sB.groups.head sB.groups.head.length 0 sB
    base (by simp) hch
  obtain ⟨hnd, hmem, hnames⟩ := head_names_spec s.sections sB hb
  have hlen : (head_names s.sections sB.groups.head).length = sB.groups.head.length := by
    simp [head_names]
  refine ⟨s1, head_names s.sections sB.groups.head, ?_, hnd, hmem, ?_, ?_, ?_⟩
  · unfold elf_adjust_symtab bfd_map_over_sections
    simp only []
    rw [hsB]
    exact h1
  · rw [h2.length_eq, hb.length_eq, hlen]
  · intro j hj
    have hj2 : j < sB.sections.length := by rw [hb.length_eq]; exact hj
    obtain ⟨x, hx, _, hg, _⟩ := h2.members j _ (List.getElem?_eq_getElem hj2)
    rw [← hb.names j]
    unfold group_name_at
    rw [hx, List.getElem?_eq_getElem hj2]
    exact hg
  · intro m hm
    rw [hlen] at hm
    obtain ⟨c, sy, hc, hn, ht, hg, hnx, hid, _, hsy⟩ := h2.control m hm
    obtain ⟨g, hgn, hchain⟩ := hb.chain m hm
    have hg2 : g = (head_names s.sections sB.groups.head).getD m "" := by
      have := hnames m hm
      rw [hgn] at this
      exact Option.some.inj this
    refine ⟨c, sB.groups.head.getD m 0, sy, ?_, hn, ht, hg, hnx, ?_, hid, ?_⟩
    · rw [← hb.length_eq]
      exact hc
    · rw [← hg2]
      refine chain_transfer sB.sections s1.sections ?_ _ _ hchain
      intro j x1 hj
      obtain ⟨x, hx, hnx2, _, _⟩ := h2.members j x1 hj
      exact ⟨x, hx, hnx2⟩
    · rw [hsy, hb.names, hgn, ← hg2]
      rfl

/-- C21, witness: two sections declared with the group name `g`. -/
theorem C21_one_control_section_per_group_witness :
    (∀ x ∈ state_two_in_group.sections, x.next_in_group = none)
      ∧ group_members state_two_in_group.sections "g" = [1, 2]
      ∧ ∃ (s1 : State) (names : List String),
        elf_adjust_symtab state_two_in_group = some s1
        ∧ names.Nodup
        ∧ (∀ g, g ∈ names ↔ group_members state_two_in_group.sections g ≠ [])
        ∧ s1.sections.length = state_two_in_group.sections.length + names.length
        ∧ (∀ j, j < state_two_in_group.sections.length →
            group_name_at s1.sections j = group_name_at state_two_in_group.sections j)
        ∧ (∀ m, m < names.length → ∃ (c : asection) (head sy : Nat),
            s1.sections[state_two_in_group.sections.length + m]? = some c
            ∧ c.name = ".group" ∧ c.sh_type = SHT_GROUP ∧ c.group_name = none
            ∧ c.next_in_group = some head
            ∧ Chain s1.sections (some head)
                (group_members state_two_in_group.sections (names.getD m "")).reverse
            ∧ c.group_id = some sy
            ∧ (sym_at s1.symbols sy).name = names.getD m "") :=
  ⟨by decide, by decide,
   C21_one_control_section_per_group state_two_in_group (by decide)⟩

/-! ## Section groups: the sizes of the control sections -/

theorem chain_suffix (secs : List asection) (st : Option Nat) (ms : List Nat)
    (h : Chain secs st ms) (k : Nat) (hk : k ∈ ms) :
    ∃ ms2, Chain secs (some k) ms2 ∧ ms2.length ≤ ms.length := by
  induction h with
  | nil => simp at hk
  | cons j x ms hj hc ih =>
    rcases List.mem_cons.1 hk with e | e
    · subst e
      exact ⟨_, Chain.cons k x ms hj hc, le_refl _⟩
    · obtain ⟨ms2, h2, hl⟩ := ih e
      exact ⟨ms2, h2, by simp only [List.length_cons]; omega⟩

theorem chain_nodup (secs : List asection) (st : Option Nat) (ms : List Nat)
    (h : Chain secs st ms) : ms.Nodup := by
  induction h with
  | nil => exact List.nodup_nil
  | cons j x ms hj hc ih =>
    refine List.nodup_cons.2 ⟨?_, ih⟩
    intro hmem
    obtain ⟨ms2, h2, hl⟩ := chain_suffix secs _ ms hc j hmem
    have := chain_unique secs _ _ _ h2 (Chain.cons j x ms hj hc)
    rw [this] at hl
    simp only [List.length_cons] at hl
    omega

theorem chain_bound (secs : List asection) (st : Option Nat) (ms : List Nat)
    (h : Chain secs st ms) : ∀ k ∈ ms, k < secs.length := by
  induction h with
  | nil => simp
  | cons j x ms hj _ ih =>
    intro k hk
    rcases List.mem_cons.1 hk with e | e
    · subst e
      by_contra hc
      rw [List.getElem?_eq_none (by omega)] at hj
      cases hj
    · exact ih k e

/-- A list of members reached by the links has no more members than there
are sections. -/
theorem chain_length (secs : List asection) (st : Option Nat) (ms : List Nat)
    (h : Chain secs st ms) : ms.length ≤ secs.length := by
  have hsub : ms ⊆ List.range secs.length := by
    intro k hk
    exact List.mem_range.2 (chain_bound secs st ms h k hk)
  have := ((chain_nodup secs st ms h).subperm hsub).length_le
  rwa [List.length_range] at this

/-- The loop over the members of a group adds 8 for every member that
carries the flag `SEC_RELOC` and 4 for every other member. -/
theorem group_size_chain (secs : List asection) (st : Option Nat) (ms : List Nat)
    (hc : Chain secs st ms) (rounds size : Nat) (hr : ms.length < rounds) :
    group_size secs rounds st size
      = some (size + 4 * (ms.length - ms.countP (carries_reloc secs))
          + 8 * ms.countP (carries_reloc secs)) := by
  induction hc generalizing rounds size with
  | nil =>
    cases rounds with
    | zero => simp at hr
    | succ rounds => simp [group_size]
  | cons k x ms hk _ ih =>
    cases rounds with
    | zero => simp at hr
    | succ rounds =>
      simp only [List.length_cons] at hr
      have hle := List.countP_le_length (carries_reloc secs) (l := ms)
      have hx : (sec_at secs k).next_in_group = x.next_in_group := by
        rw [sec_at_of_get secs k x hk]
      unfold group_size
      rw [hx, ih rounds _ (by omega), List.countP_cons, List.length_cons]
      by_cases hf : (sec_at secs k).flags &&& SEC_RELOC ≠ 0
      · have e : carries_reloc secs k = true := by simp [carries_reloc, hf]
        rw [if_pos hf, e, if_pos rfl]
        congr 1
        omega
      · have e : carries_reloc secs k = false := by simp [carries_reloc, hf]
        rw [if_neg hf, e]
        simp only [Bool.false_eq_true, if_false]
        congr 1
        omega

theorem frob_group_spec (s : State) (i c : Nat) (ms : List Nat)
    (hc : Chain s.sections (some (s.groups.head.getD i 0)) ms)
    (hsg : (sec_at s.sections (s.groups.head.getD i 0)).sec_group = some c) :
    frob_group s i
      = some { subseg_set s (segT.reg c) 0 with
               sections := modify_nth
                 (fun x => { x with size :=
                    4 + 4 * (ms.length - ms.countP (carries_reloc s.sections))
                      + 8 * ms.countP (carries_reloc s.sections) })
                 c s.sections } := by
  unfold frob_group
  simp only []
  rw [group_size_chain s.sections _ ms hc _ 4
    (Nat.lt_succ_of_le (chain_length s.sections _ ms hc)), hsg]
  rfl

theorem carries_reloc_same (secs secs0 : List asection)
    (h : ∀ j, (sec_at secs j).flags = (sec_at secs0 j).flags) :
    carries_reloc secs = carries_reloc secs0 := by
  funext k
  unfold carries_reloc
  rw [h k]

theorem frob_groups_spec (s0 : State) (members : Nat → List Nat) (c : Nat → Nat)
    (hsg : ∀ m, m < s0.groups.head.length →
      (sec_at s0.sections (s0.groups.head.getD m 0)).sec_group = some (c m))
    (hcl : ∀ m, m < s0.groups.head.length → c m < s0.sections.length)
    (hinj : ∀ m m2, m < s0.groups.head.length → m2 < s0.groups.head.length →
      c m = c m2 → m = m2)
    (n i : Nat) (s : State) (hn : i + n = s0.groups.head.length)
    (hgroups : s.groups = s0.groups)
    (hlen : s.sections.length = s0.sections.length)
    (hsame : ∀ j, (sec_at s.sections j).next_in_group = (sec_at s0.sections j).next_in_group
      ∧ (sec_at s.sections j).flags = (sec_at s0.sections j).flags
      ∧ (sec_at s.sections j).sec_group = (sec_at s0.sections j).sec_group)
    (hchs : ∀ m, m < s0.groups.head.length →
      Chain s.sections (some (s0.groups.head.getD m 0)) (members m))
    (hsizes : ∀ m, m < i → (sec_at s.sections (c m)).size
      = 4 + 4 * ((members m).length - (members m).countP (carries_reloc s0.sections))
          + 8 * (members m).countP (carries_reloc s0.sections)) :
    ∃ s1, frob_groups n i s = some s1 ∧ s1.groups = s0.groups
      ∧ s1.sections.length = s0.sections.length
      ∧ ∀ m, m < s0.groups.head.length → (sec_at s1.sections (c m)).size
        = 4 + 4 * ((members m).length - (members m).countP (carries_reloc s0.sections))
            + 8 * (members m).countP (carries_reloc s0.sections) := by
  induction n generalizing i s with
  | zero =>
    refine ⟨s, rfl, hgroups, hlen, ?_⟩
    intro m hm
    exact hsizes m (by omega)
  | succ n ih =>
    have hi : i < s0.groups.head.length := by omega
    have hci : c i < s.sections.length := by
      rw [hlen]
      exact hcl i hi
    have hstep := frob_group_spec s i (c i) (members i)
      (by rw [hgroups]; exact hchs i hi)
      (by rw [hgroups, (hsame _).2.2]; exact hsg i hi)
    rw [carries_reloc_same s.sections s0.sections (fun j => (hsame j).2.1)] at hstep
    unfold frob_groups
    rw [hstep]
    simp only []
    refine ih (i + 1) _ (by omega) hgroups ?_ ?_ ?_ ?_
    · show (modify_nth _ (c i) s.sections).length = _
      rw [modify_nth_length, hlen]
    · intro j
      show (sec_at (modify_nth _ (c i) s.sections) j).next_in_group = _
        ∧ (sec_at (modify_nth _ (c i) s.sections) j).flags = _
        ∧ (sec_at (modify_nth _ (c i) s.sections) j).sec_group = _
      rw [sec_at_modify]
      split
      · exact hsame j
      · exact hsame j
    · intro m hm
      show Chain (modify_nth _ (c i) s.sections) _ _
      apply chain_modify_keep
      · intro _
        rfl
      · exact hchs m hm
    · intro m hm
      show (sec_at (modify_nth _ (c i) s.sections) (c m)).size = _
      rw [sec_at_modify]
      by_cases e : m = i
      · subst e
        rw [if_pos ⟨rfl, hci⟩]
      · have hne : c m ≠ c i := fun h => e (hinj m i (by omega) hi h)
        rw [if_neg (fun h => hne h.1)]
        exact hsizes m (by omega)

/-- C22: when the links lead from the head of every group through a list of
members, the heads point at their control sections, and these are sections
of the file, different for different groups, `elf_frob_file_after_relocs`
comes to an end and sets the size of the control section of every group
with `n` members, of which `r` carry the flag `SEC_RELOC`, to
`4 + 4 * (n - r) + 8 * r`, which lies between `4 + 4 * n` and
`4 + 8 * n`. -/
theorem C22_control_section_size (s : State) (members : Nat → List Nat) (c : Nat → Nat)
    (hch : ∀ m, m < s.groups.head.length →
      Chain s.sections (some (s.groups.head.getD m 0)) (members m))
    (hsg : ∀ m, m < s.groups.head.length →
      (sec_at s.sections (s.groups.head.getD m 0)).sec_group = some (c m))
    (hcl : ∀ m, m < s.groups.head.length → c m < s.sections.length)
    (hinj : ∀ m m2, m < s.groups.head.length → m2 < s.groups.head.length →
      c m = c m2 → m = m2) :
    ∃ s1, elf_frob_file_after_relocs s = some s1
      ∧ s1.sections.length = s.sections.length
      ∧ ∀ m, m < s.groups.head.length →
          (sec_at s1.sections (c m)).size
            = 4 + 4 * ((members m).length - (members m).countP (carries_reloc s.sections))
                + 8 * (members m).countP (carries_reloc s.sections)
          ∧ (members m).countP (carries_reloc s.sections) ≤ (members m).length
          ∧ 4 + 4 * (members m).length ≤ (sec_at s1.sections (c m)).size
          ∧ (sec_at s1.sections (c m)).size ≤ 4 + 8 * (members m).length := by
  obtain ⟨s1, h1, _, h3, h4⟩ := frob_groups_spec s members c hsg hcl hinj
    s.groups.head.length 0 s (by simp) rfl rfl (fun _ => ⟨rfl, rfl, rfl⟩) hch
    (fun m hm => absurd hm (Nat.not_lt_zero m))
  refine ⟨{ s1 with groups := { s1.groups with indexes := [] } }, ?_, h3, ?_⟩
  · unfold elf_frob_file_after_relocs
    rw [h1]
    rfl
  · intro m hm
    have hle := List.countP_le_length (carries_reloc s.sections) (l := members m)
    have hsz := h4 m hm
    refine ⟨hsz, hle, ?_, ?_⟩
    · show 4 + 4 * (members m).length ≤ (sec_at s1.sections (c m)).size
      omega
    · show (sec_at s1.sections (c m)).size ≤ 4 + 8 * (members m).length
      omega

/-- C22, witness: a group of three members, two of which carry the flag
`SEC_RELOC`; the size of the control section becomes 24. -/
theorem C22_control_section_size_witness :
    ∃ s1, elf_frob_file_after_relocs state_groups_made = some s1
      ∧ s1.sections.length = 5
      ∧ (sec_at s1.sections 4).size = 24 := by
  have hlen : state_groups_made.groups.head.length = 1 := by decide
  obtain ⟨s1, h1, h2, h3⟩ := C22_control_section_size state_groups_made
    (fun _ => [3, 2, 1]) (fun _ => 4)
    (by
      intro m hm
      have hm0 : m = 0 := by omega
      subst hm0
      exact Chain.cons 3 (sec_at state_groups_made.sections 3) [2, 1] (by decide)
        (Chain.cons 2 (sec_at state_groups_made.sections 2) [1] (by decide)
          (Chain.cons 1 (sec_at state_groups_made.sections 1) [] (by decide) Chain.nil)))
    (by
      intro m hm
      have hm0 : m = 0 := by omega
      subst hm0
      decide)
    (by
      intro m _
      show 4 < state_groups_made.sections.length
      decide)
    (by
      intro m m2 hm hm2 _
      omega)
  refine ⟨s1, h1, h2.trans (by decide), ?_⟩
  have := (h3 0 (by omega)).1
  rw [this]
  decide

/-! ## Recorded attributes -/

theorem one_shiftLeft_testBit (k j : Nat) : (1 <<< k).testBit j = decide (k = j) := by
  rw [Nat.one_shiftLeft, Nat.testBit_two_pow]

theorem tag_of_base_bit (t u : Nat) (h1 : t / 64 = u / 64) (h2 : t % 64 = u % 64) : t = u := by
  omega

theorem record_attribute_keys (vendor : Int) (tag : Nat) (l : List recorded_attribute_info)
    (h : (l.map (fun rai => (rai.vendor, rai.base))).Nodup) :
    ((record_attribute vendor tag l).map (fun rai => (rai.vendor, rai.base))).Nodup := by
  unfold record_attribute
  simp only []
  cases hf : first_index (fun rai => decide (rai.vendor = vendor ∧ rai.base = tag / 64)) l with
  | none =>
    simp only [List.map_cons, List.nodup_cons]
    refine ⟨?_, h⟩
    intro hmem
    obtain ⟨x, hx, hk⟩ := List.mem_map.1 hmem
    have := (first_index_none _ l).1 hf x hx
    simp only [Prod.mk.injEq] at hk
    simp [hk.1, hk.2] at this
  | some r =>
    obtain ⟨i, x⟩ := r
    simp only []
    rw [modify_nth_map (fun rai => { rai with mask := rai.mask ||| 1 <<< (tag % 64) })
      (fun rai => (rai.vendor, rai.base)) i l (fun _ => rfl)]
    exact h

theorem record_attribute_seen (vendor : Int) (tag : Nat) (l : List recorded_attribute_info)
    (v : Int) (t : Nat) :
    attribute_seen (record_attribute vendor tag l) v t
      ↔ attribute_seen l v t ∨ (v = vendor ∧ t = tag) := by
  unfold record_attribute attribute_seen
  simp only []
  cases hf : first_index (fun rai => decide (rai.vendor = vendor ∧ rai.base = tag / 64)) l with
  | none =>
    simp only [List.mem_cons, exists_eq_or_imp, one_shiftLeft_testBit, decide_eq_true_eq]
    constructor
    · rintro (⟨h1, h2, h3⟩ | h)
      · exact Or.inr ⟨h1.symm, (tag_of_base_bit _ _ h2 h3).symm⟩
      · exact Or.inl h
    · rintro (h | ⟨h1, h2⟩)
      · exact Or.inr h
      · subst h1 h2
        exact Or.inl ⟨rfl, rfl, rfl⟩
  | some r =>
    obtain ⟨i, x⟩ := r
    obtain ⟨hi, hp⟩ := first_index_get _ _ _ _ hf
    simp only [decide_eq_true_eq] at hp
    simp only []
    constructor
    · rintro ⟨rai, hmem, h1, h2, h3⟩
      obtain ⟨k, hk⟩ := List.mem_iff_getElem?.1 hmem
      rw [modify_nth_get] at hk
      by_cases hki : k = i
      · subst hki
        rw [if_pos rfl, hi] at hk
        simp only [Option.map_some', Option.some.injEq] at hk
        subst hk
        simp only [Nat.testBit_or, one_shiftLeft_testBit, Bool.or_eq_true,
          decide_eq_true_eq] at h3
        rcases h3 with h3 | h3
        · exact Or.inl ⟨x, List.mem_iff_getElem?.2 ⟨k, hi⟩, h1, h2, h3⟩
        · refine Or.inr ⟨?_, ?_⟩
          · rw [← h1]
            exact hp.1
          · simp only [] at h2
            exact (tag_of_base_bit _ _ (hp.2.symm.trans h2) h3).symm
      · rw [if_neg hki] at hk
        exact Or.inl ⟨rai, List.mem_iff_getElem?.2 ⟨k, hk⟩, h1, h2, h3⟩
    · rintro (⟨rai, hmem, h1, h2, h3⟩ | ⟨h1, h2⟩)
      · obtain ⟨k, hk⟩ := List.mem_iff_getElem?.1 hmem
        by_cases hki : k = i
        · subst hki
          refine ⟨{ rai with mask := rai.mask ||| 1 <<< (tag % 64) },
            List.mem_iff_getElem?.2 ⟨k, ?_⟩, h1, h2, ?_⟩
          · rw [modify_nth_get, if_pos rfl, hk]
            rfl
          · simp only [Nat.testBit_or, h3, Bool.true_or]
        · refine ⟨rai, List.mem_iff_getElem?.2 ⟨k, ?_⟩, h1, h2, h3⟩
          rw [modify_nth_get, if_neg hki]
          exact hk
      · subst h1 h2
        refine ⟨{ x with mask := x.mask ||| 1 <<< (t % 64) },
          List.mem_iff_getElem?.2 ⟨i, ?_⟩, hp.1, hp.2, ?_⟩
        · rw [modify_nth_get, if_pos rfl, hi]
          rfl
        · simp only [Nat.testBit_or, one_shiftLeft_testBit, decide_True, Bool.or_true]

theorem record_attributes_spec (calls : List (Int × Nat)) (l : List recorded_attribute_info)
    (h : (l.map (fun rai => (rai.vendor, rai.base))).Nodup) :
    (∀ v t, attribute_seen (record_attributes calls l) v t
        ↔ attribute_seen l v t ∨ (v, t) ∈ calls)
      ∧ ((record_attributes calls l).map (fun rai => (rai.vendor, rai.base))).Nodup := by
  induction calls generalizing l with
  | nil =>
    refine ⟨?_, h⟩
    intro v t
    simp [record_attributes]
  | cons c rest ih =>
    obtain ⟨ih1, ih2⟩ := ih (record_attribute c.1 c.2 l) (record_attribute_keys _ _ _ h)
    refine ⟨?_, ih2⟩
    intro v t
    have := ih1 v t
    unfold record_attributes at this ⊢
    rw [List.foldl_cons, this, record_attribute_seen, List.mem_cons]
    constructor
    · rintro ((h1 | ⟨h1, h2⟩) | h1)
      · exact Or.inl h1
      · exact Or.inr (Or.inl (by rw [h1, h2]))
      · exact Or.inr (Or.inr h1)
    · rintro (h1 | h1 | h1)
      · exact Or.inl (Or.inl h1)
      · refine Or.inl (Or.inr ?_)
        rw [← h1]
        exact ⟨rfl, rfl⟩
      · exact Or.inr h1

/-- C36: after any run of calls of `record_attribute` from the empty list, a
vendor and tag are marked as seen (bit `tag % 64` is set in the mask of an
entry of that vendor and of the base `tag / 64`) if and only if
`record_attribute` was called with them, and no two entries of the list have
both the same vendor and the same base. -/
theorem C36_recorded_attributes (calls : List (Int × Nat)) :
    (∀ vendor tag, attribute_seen (record_attributes calls []) vendor tag
        ↔ (vendor, tag) ∈ calls)
      ∧ ((record_attributes calls []).map (fun rai => (rai.vendor, rai.base))).Nodup := by
  obtain ⟨h1, h2⟩ := record_attributes_spec calls [] List.nodup_nil
  refine ⟨?_, h2⟩
  intro vendor tag
  rw [h1]
  simp [attribute_seen]

/-! ## The BFD flags of a section -/

/-- The bits of the BFD flags that `obj_elf_change_section` computes. -/
theorem bfd_flags_testBit (attr type : Nat) (linkonce : Int) (k : Nat) :
    (bfd_flags attr type linkonce).testBit k
      = (decide (k = 2) || (decide (k = 3) && !attr.testBit 0)
          || (decide (k = 0) && attr.testBit 1)
          || (decide (k = 1) && (attr.testBit 1 && decide (type ≠ SHT_NOBITS)))
          || (decide (k = 4) && attr.testBit 2)
          || (decide (k = 23) && attr.testBit 4)
          || (decide (k = 24) && attr.testBit 5)
          || (decide (k = 15) && attr.testBit 31)
          || (decide (k = 10) && attr.testBit 10)
          || (decide (k = 17) && decide (linkonce ≠ 0))) := by
  have c0 : (0 : Nat).testBit k = false := Nat.zero_testBit k
  have c1 : SEC_RELOC.testBit k = decide (k = 2) := by
    rw [show SEC_RELOC = 2 ^ 2 from rfl, Nat.testBit_two_pow]; simp [eq_comm]
  have c2 : SEC_READONLY.testBit k = decide (k = 3) := by
    rw [show SEC_READONLY = 2 ^ 3 from rfl, Nat.testBit_two_pow]; simp [eq_comm]
  have c3 : SEC_ALLOC.testBit k = decide (k = 0) := by
    rw [show SEC_ALLOC = 2 ^ 0 from rfl, Nat.testBit_two_pow]; simp [eq_comm]
  have c4 : SEC_LOAD.testBit k = decide (k = 1) := by
    rw [show SEC_LOAD = 2 ^ 1 from rfl, Nat.testBit_two_pow]; simp [eq_comm]
  have c5 : SEC_CODE.testBit k = decide (k = 4) := by
    rw [show SEC_CODE = 2 ^ 4 from rfl, Nat.testBit_two_pow]; simp [eq_comm]
  have c6 : SEC_MERGE.testBit k = decide (k = 23) := by
    rw [show SEC_MERGE = 2 ^ 23 from rfl, Nat.testBit_two_pow]; simp [eq_comm]
  have c7 : SEC_STRINGS.testBit k = decide (k = 24) := by
    rw [show SEC_STRINGS = 2 ^ 24 from rfl, Nat.testBit_two_pow]; simp [eq_comm]
  have c8 : SEC_EXCLUDE.testBit k = decide (k = 15) := by
    rw [show SEC_EXCLUDE = 2 ^ 15 from rfl, Nat.testBit_two_pow]; simp [eq_comm]
  have c9 : SEC_THREAD_LOCAL.testBit k = decide (k = 10) := by
    rw [show SEC_THREAD_LOCAL = 2 ^ 10 from rfl, Nat.testBit_two_pow]; simp [eq_comm]
  have c10 : (SEC_LINK_ONCE ||| SEC_LINK_DUPLICATES_DISCARD).testBit k = decide (k = 17) := by
    rw [show SEC_LINK_ONCE ||| SEC_LINK_DUPLICATES_DISCARD = 2 ^ 17 from rfl,
      Nat.testBit_two_pow]; simp [eq_comm]
  have a0 : (attr &&& SHF_WRITE ≠ 0) ↔ attr.testBit 0 = true :=
    and_two_pow_ne_zero attr 0
  have a1 : (attr &&& SHF_ALLOC ≠ 0) ↔ attr.testBit 1 = true :=
    and_two_pow_ne_zero attr 1
  have a2 : (attr &&& SHF_EXECINSTR ≠ 0) ↔ attr.testBit 2 = true :=
    and_two_pow_ne_zero attr 2
  have a4 : (attr &&& SHF_MERGE ≠ 0) ↔ attr.testBit 4 = true :=
    and_two_pow_ne_zero attr 4
  have a5 : (attr &&& SHF_STRINGS ≠ 0) ↔ attr.testBit 5 = true :=
    and_two_pow_ne_zero attr 5
  have a31 : (attr &&& SHF_EXCLUDE ≠ 0) ↔ attr.testBit 31 = true :=
    and_two_pow_ne_zero attr 31
  have a10 : (attr &&& SHF_TLS ≠ 0) ↔ attr.testBit 10 = true :=
    and_two_pow_ne_zero attr 10
  have e1 : ∀ (p : Prop) [Decidable p] (c : Nat),
      (if p then c else 0).testBit k = (decide p && c.testBit k) := by
    intro p _ c
    by_cases h : p <;> simp [h]
  have e2 : ∀ (p : Prop) [Decidable p] (c : Nat),
      (if p then 0 else c).testBit k = (!decide p && c.testBit k) := by
    intro p _ c
    by_cases h : p <;> simp [h]
  have e3 : ∀ (p : Prop) [Decidable p] (x c : Nat),
      (if p then x ||| c else x).testBit k = (x.testBit k || (decide p && c.testBit k)) := by
    intro p _ x c
    by_cases h : p <;> simp [h]
  unfold bfd_flags
  simp only [e3, Nat.testBit_or, e1, e2, c1, c2, c3, c4, c5, c6, c7, c8, c9, c10, a0, a1, a2,
    a4, a5, a31, a10, Bool.decide_and, Bool.decide_eq_true]
  cases attr.testBit 0 <;> cases attr.testBit 1 <;> cases attr.testBit 2
    <;> cases attr.testBit 4 <;> cases attr.testBit 5 <;> cases attr.testBit 31
    <;> cases attr.testBit 10 <;> simp [Bool.and_comm]

theorem change_section_new_section (bed : Backend) (a : ChangeArgs) (s s1 : State)
    (hnew : bfd_get_section_by_name_if s.sections a.name
              { group_name := a.group_name, info := a.info } = none)
    (h : obj_elf_change_section bed a s = Except.ok s1) :
    sec_at s1.sections s.sections.length
      = declare_section bed a
          (special_section (bed.get_sec_type_attr a.name) a.name a.type a.attr
            a.group_name true).1
          (special_section (bed.get_sec_type_attr a.name) a.name a.type a.attr
            a.group_name true).2.1
          (bfd_flags
            (special_section (bed.get_sec_type_attr a.name) a.name a.type a.attr
              a.group_name true).2.1
            (special_section (bed.get_sec_type_attr a.name) a.name a.type a.attr
              a.group_name true).1 a.linkonce)
          (fresh_section a.name) := by
  rw [change_section_new bed a s hnew] at h
  split at h
  · cases h
  · injection h with h
    subst h
    simp [sec_at]

/-- C38: for all ELF flags `attr`, every type and every link-once marker,
the BFD flags that `obj_elf_change_section` computes contain RELOC; READONLY
exactly when WRITE is clear; ALLOC exactly when ALLOC is set; LOAD exactly
when ALLOC is set and the type is not NOBITS; CODE, MERGE, STRINGS, EXCLUDE
and THREAD_LOCAL exactly when EXECINSTR, MERGE, STRINGS, EXCLUDE and TLS are
set; LINK_ONCE, with LINK_DUPLICATES_DISCARD, exactly when the marker is not
zero.  A first declaration that returns gives the new section these flags,
for the ELF flags and the type that the section gets, and marks it `bss`
exactly when its type is NOBITS, which it is when the type asked for, as
reconciled with the special-section entry, is NOBITS. -/
theorem C38_flags_of_attributes (bed : Backend) (a : ChangeArgs) (s s1 : State)
    (attr type : Nat) (linkonce : Int)
    (hnew : bfd_get_section_by_name_if s.sections a.name
              { group_name := a.group_name, info := a.info } = none)
    (hok : obj_elf_change_section bed a s = Except.ok s1) :
    (bfd_flags attr type linkonce &&& SEC_RELOC ≠ 0
      ∧ (bfd_flags attr type linkonce &&& SEC_READONLY ≠ 0 ↔ attr &&& SHF_WRITE = 0)
      ∧ (bfd_flags attr type linkonce &&& SEC_ALLOC ≠ 0 ↔ attr &&& SHF_ALLOC ≠ 0)
      ∧ (bfd_flags attr type linkonce &&& SEC_LOAD ≠ 0
          ↔ attr &&& SHF_ALLOC ≠ 0 ∧ type ≠ SHT_NOBITS)
      ∧ (bfd_flags attr type linkonce &&& SEC_CODE ≠ 0 ↔ attr &&& SHF_EXECINSTR ≠ 0)
      ∧ (bfd_flags attr type linkonce &&& SEC_MERGE ≠ 0 ↔ attr &&& SHF_MERGE ≠ 0)
      ∧ (bfd_flags attr type linkonce &&& SEC_STRINGS ≠ 0 ↔ attr &&& SHF_STRINGS ≠ 0)
      ∧ (bfd_flags attr type linkonce &&& SEC_EXCLUDE ≠ 0 ↔ attr &&& SHF_EXCLUDE ≠ 0)
      ∧ (bfd_flags attr type linkonce &&& SEC_THREAD_LOCAL ≠ 0 ↔ attr &&& SHF_TLS ≠ 0)
      ∧ (bfd_flags attr type linkonce &&& SEC_LINK_ONCE ≠ 0 ↔ linkonce ≠ 0)
      ∧ (bfd_flags attr type linkonce &&& (SEC_LINK_ONCE ||| SEC_LINK_DUPLICATES_DISCARD)
            = SEC_LINK_ONCE ||| SEC_LINK_DUPLICATES_DISCARD
          ↔ linkonce ≠ 0))
    ∧ (sec_at s1.sections s.sections.length).flags
        = bfd_flags (sec_at s1.sections s.sections.length).sh_flags
            (special_section (bed.get_sec_type_attr a.name) a.name a.type a.attr
              a.group_name true).1 a.linkonce
    ∧ ((sec_at s1.sections s.sections.length).bss = true
        ↔ (sec_at s1.sections s.sections.length).sh_type = SHT_NOBITS)
    ∧ ((special_section (bed.get_sec_type_attr a.name) a.name a.type a.attr
          a.group_name true).1 = SHT_NOBITS →
        (sec_at s1.sections s.sections.length).sh_type = SHT_NOBITS)
    ∧ (bed.get_sec_type_attr a.name = none → a.type = SHT_NOBITS →
        (sec_at s1.sections s.sections.length).bss = true) := by
  have hsec := change_section_new_section bed a s s1 hnew hok
  have b : ∀ k, (bfd_flags attr type linkonce &&& 2 ^ k ≠ 0)
      ↔ (bfd_flags attr type linkonce).testBit k = true :=
    fun k => and_two_pow_ne_zero _ k
  have hnob : SHT_NOBITS ≠ SHT_NULL := by decide
  refine ⟨⟨?_, ?_, ?_, ?_, ?_, ?_, ?_, ?_, ?_, ?_, ?_⟩, ?_, ?_, ?_, ?_⟩
  · rw [show SEC_RELOC = 2 ^ 2 from rfl, b, bfd_flags_testBit]
    simp
  · rw [show SEC_READONLY = 2 ^ 3 from rfl, b, bfd_flags_testBit,
      show SHF_WRITE = 2 ^ 0 from rfl, and_two_pow_eq_zero]
    simp
  · rw [show SEC_ALLOC = 2 ^ 0 from rfl, b, bfd_flags_testBit,
      show SHF_ALLOC = 2 ^ 1 from rfl, and_two_pow_ne_zero]
    simp
  · rw [show SEC_LOAD = 2 ^ 1 from rfl, b, bfd_flags_testBit,
      show SHF_ALLOC = 2 ^ 1 from rfl, and_two_pow_ne_zero]
    simp
  · rw [show SEC_CODE = 2 ^ 4 from rfl, b, bfd_flags_testBit,
      show SHF_EXECINSTR = 2 ^ 2 from rfl, and_two_pow_ne_zero]
    simp
  · rw [show SEC_MERGE = 2 ^ 23 from rfl, b, bfd_flags_testBit,
      show SHF_MERGE = 2 ^ 4 from rfl, and_two_pow_ne_zero]
    simp
  · rw [show SEC_STRINGS = 2 ^ 24 from rfl, b, bfd_flags_testBit,
      show SHF_STRINGS = 2 ^ 5 from rfl, and_two_pow_ne_zero]
    simp
  · rw [show SEC_EXCLUDE = 2 ^ 15 from rfl, b, bfd_flags_testBit,
      show SHF_EXCLUDE = 2 ^ 31 from rfl, and_two_pow_ne_zero]
    simp
  · rw [show SEC_THREAD_LOCAL = 2 ^ 10 from rfl, b, bfd_flags_testBit,
      show SHF_TLS = 2 ^ 10 from rfl, and_two_pow_ne_zero]
    simp
  · rw [show SEC_LINK_ONCE = 2 ^ 17 from rfl, b, bfd_flags_testBit]
    simp
  · rw [show SEC_LINK_ONCE ||| SEC_LINK_DUPLICATES_DISCARD = 2 ^ 17 from rfl]
    constructor
    · intro h
      have h2 : bfd_flags attr type linkonce &&& 2 ^ 17 ≠ 0 := by
        rw [h]
        decide
      rw [b, bfd_flags_testBit] at h2
      simpa using h2
    · intro h
      have h2 : (bfd_flags attr type linkonce).testBit 17 = true := by
        rw [bfd_flags_testBit]
        simp [h]
      apply Nat.eq_of_testBit_eq
      intro i
      rw [Nat.testBit_and, Nat.testBit_two_pow]
      by_cases hi : 17 = i
      · subst hi
        simp [h2]
      · simp [hi]
  · rw [hsec]
    rfl
  · rw [hsec]
    simp [declare_section, fresh_section]
  · intro h
    rw [hsec]
    simp [declare_section, h, hnob]
  · intro hnone ht
    rw [hsec]
    simp [declare_section, special_section, hnone, ht, hnob]

/-- C38 at `.section .tbss.x,"awT",@nobits` at the start of an assembly: the
new section has the flags RELOC, ALLOC and THREAD_LOCAL, neither READONLY
nor LOAD, and is marked `bss`. -/
theorem C38_flags_of_attributes_witness :
    obj_elf_change_section sample_backend declare_tbss_nobits sample_state
        = Except.ok state_after_tbss
      ∧ (bfd_flags (SHF_ALLOC ||| SHF_WRITE ||| SHF_TLS) SHT_NOBITS 0 &&& SEC_LOAD ≠ 0
          ↔ (SHF_ALLOC ||| SHF_WRITE ||| SHF_TLS) &&& SHF_ALLOC ≠ 0
            ∧ SHT_NOBITS ≠ SHT_NOBITS)
      ∧ (sec_at state_after_tbss.sections sample_state.sections.length).bss = true :=
  ⟨by decide,
   (C38_flags_of_attributes sample_backend declare_tbss_nobits sample_state
      state_after_tbss (SHF_ALLOC ||| SHF_WRITE ||| SHF_TLS) SHT_NOBITS 0
      (by decide) (by decide)).1.2.2.2.1,
   (C38_flags_of_attributes sample_backend declare_tbss_nobits sample_state
      state_after_tbss (SHF_ALLOC ||| SHF_WRITE ||| SHF_TLS) SHT_NOBITS 0
      (by decide) (by decide)).2.2.2.2 (by decide) (by decide)⟩

/-! ## Runs of section directives -/

theorem run_directives_append (bed : Backend) (l1 l2 : List Directive) (s s1 : State) :
    run_directives bed (l1 ++ l2) s = Except.ok s1
      ↔ ∃ s2, run_directives bed l1 s = Except.ok s2
          ∧ run_directives bed l2 s2 = Except.ok s1 := by
  induction l1 generalizing s with
  | nil => simp [run_directives]
  | cons d rest ih =>
    simp only [List.cons_append, run_directives]
    cases hd : d.run bed s with
    | error e => simp
    | ok s2 => exact ih s2

/-- The depth of the section stack after a directive. -/
theorem directive_depth (bed : Backend) (d : Directive) (s s1 : State)
    (h : d.run bed s = Except.ok s1) :
    s1.section_stack
      = if d.is_push then saved_frame s :: s.section_stack
        else if d.is_pop then s.section_stack.tail
        else s.section_stack := by
  cases d with
  | change a =>
    have := (change_section_context bed a s s1 h).1
    rw [this]
    unfold pushed_stack Directive.is_push Directive.is_pop
    by_cases hp : a.push ≠ 0 <;> simp [hp]
  | previous =>
    injection h with h
    subst h
    unfold obj_elf_previous
    cases s.previous_section <;> simp [Directive.is_push, Directive.is_pop, State.warn, subseg_set]
  | popsection =>
    injection h with h
    subst h
    unfold obj_elf_popsection
    cases hst : s.section_stack <;>
      simp [Directive.is_push, Directive.is_pop, State.warn, subseg_set, hst]
  | subsection temp =>
    injection h with h
    subst h
    simp [Directive.is_push, Directive.is_pop, obj_elf_subsection, subseg_set]
  | data data_section subseg =>
    injection h with h
    subst h
    simp [Directive.is_push, Directive.is_pop, obj_elf_data, s_data, subseg_set]
  | text text_section subseg =>
    injection h with h
    subst h
    simp [Directive.is_push, Directive.is_pop, obj_elf_text, s_text, subseg_set]
  | struct =>
    injection h with h
    subst h
    simp [Directive.is_push, Directive.is_pop, obj_elf_struct, s_struct,
      obj_elf_section_change_hook, subseg_set]

/-- A balanced run of directives leaves the section stack as it was. -/
theorem balanced_stack (bed : Backend) (ops : List Directive) (hb : Balanced ops)
    (s s1 : State) (h : run_directives bed ops s = Except.ok s1) :
    s1.section_stack = s.section_stack := by
  induction hb generalizing s s1 with
  | nil =>
    injection h with h
    rw [h]
  | plain d rest hpush hpop _ ih =>
    simp only [run_directives] at h
    cases hd : d.run bed s with
    | error e => simp [hd] at h
    | ok s2 =>
      rw [hd] at h
      rw [ih s2 s1 h, directive_depth bed d s s2 hd, hpush, hpop]
      simp
  | nest a inner rest hp _ _ ih1 ih2 =>
    simp only [run_directives] at h
    cases hd : (Directive.change a).run bed s with
    | error e => simp [hd] at h
    | ok s2 =>
      rw [hd] at h
      simp only [] at h
      obtain ⟨s3, h3, h4⟩ := (run_directives_append bed inner _ s2 s1).1 h
      simp only [run_directives, Directive.run] at h4
      have e2 := directive_depth bed _ s s2 hd
      have e3 := ih1 s2 s3 h3
      rw [ih2 _ s1 h4]
      have hst : s3.section_stack = saved_frame s :: s.section_stack := by
        rw [e3, e2]
        simp [Directive.is_push, hp]
      rw [popsection_cons s3 _ _ hst]

/-- C37: after a push, any balanced run of directives and the matching
`.popsection`, the current section and subsection and the previous slot are
those of the moment of the push, and so is the section stack; the target of
a `.previous` that follows is therefore the one it had before the push.  The
section stack gains one frame with every push, loses its top frame with
every `.popsection` (which leaves an empty stack empty), and is left alone
by every other directive, `.previous` and the section changes without push
among them. -/
theorem C37_pop_restores_previous_slot (bed : Backend) (a : ChangeArgs)
    (inner : List Directive) (s s1 : State)
    (hpush : a.push ≠ 0) (hinner : Balanced inner)
    (hrun : run_directives bed (Directive.change a :: (inner ++ [Directive.popsection])) s
      = Except.ok s1) :
    (s1.now_seg = s.now_seg ∧ s1.now_subseg = s.now_subseg
      ∧ s1.previous_section = s.previous_section
      ∧ s1.previous_subsection = s.previous_subsection
      ∧ s1.section_stack = s.section_stack)
    ∧ ((obj_elf_previous s1).now_seg = (obj_elf_previous s).now_seg
      ∧ (obj_elf_previous s1).now_subseg = (obj_elf_previous s).now_subseg)
    ∧ (∀ (d : Directive) (t t1 : State), d.run bed t = Except.ok t1 →
        t1.section_stack.length
          = if d.is_push then t.section_stack.length + 1
            else if d.is_pop then t.section_stack.length - 1
            else t.section_stack.length) := by
  simp only [run_directives] at hrun
  cases hd : (Directive.change a).run bed s with
  | error e => simp [hd] at hrun
  | ok s2 =>
    rw [hd] at hrun
    simp only [] at hrun
    obtain ⟨s3, h3, h4⟩ := (run_directives_append bed inner _ s2 s1).1 hrun
    simp only [run_directives, Directive.run] at h4
    injection h4 with h4
    have e2 := directive_depth bed _ s s2 hd
    have e3 := balanced_stack bed inner hinner s2 s3 h3
    have hst : s3.section_stack = saved_frame s :: s.section_stack := by
      rw [e3, e2]
      simp [Directive.is_push, hpush]
    rw [popsection_cons s3 _ _ hst] at h4
    have main : s1.now_seg = s.now_seg ∧ s1.now_subseg = s.now_subseg
        ∧ s1.previous_section = s.previous_section
        ∧ s1.previous_subsection = s.previous_subsection
        ∧ s1.section_stack = s.section_stack := by
      subst h4
      simp [saved_frame]
    refine ⟨main, ?_, ?_⟩
    · unfold obj_elf_previous
      rw [main.2.2.1, main.2.2.2.1]
      cases s.previous_section with
      | none => exact ⟨main.1, main.2.1⟩
      | some p => exact ⟨rfl, rfl⟩
    · intro d t t1 ht
      rw [directive_depth bed d t t1 ht]
      cases d.is_push <;> cases d.is_pop <;> simp

/-- C37 at `.pushsection .foo,"ax",@progbits`, `.previous`, `.subsection 1`
and `.popsection` after `.pushsection .data,"aw"`: `.data` is current again
and `.previous` still leads to `.text`. -/
theorem C37_pop_restores_previous_slot_witness :
    run_directives sample_backend
        [Directive.change push_foo, Directive.previous, Directive.subsection 1,
         Directive.popsection] state_after_push_data
        = Except.ok state_after_push_pop
      ∧ state_after_push_pop.now_seg = segT.reg 1
      ∧ state_after_push_pop.previous_section = some (segT.reg 0)
      ∧ (obj_elf_previous state_after_push_pop).now_seg = segT.reg 0
      ∧ state_after_push_pop.section_stack = state_after_push_data.section_stack :=
  ⟨by decide, rfl, rfl, by decide,
   (C37_pop_restores_previous_slot sample_backend push_foo
      [Directive.previous, Directive.subsection 1] state_after_push_data
      state_after_push_pop (by decide)
      (Balanced.plain _ _ rfl rfl (Balanced.plain _ _ rfl rfl Balanced.nil))
      (by decide)).1.2.2.2.2⟩

/-! ## `elf_frob_file_before_adjust` -/

theorem before_adjust_removed (y : symbolS) : (before_adjust_symbol y).2 = unneeded y := by
  unfold before_adjust_symbol unneeded
  cases hd : S_IS_DEFINED y <;> cases hv : y.versioned_name <;> cases hu : y.used
    <;> cases hr : y.used_in_reloc <;> cases hw : y.weak <;> simp

theorem before_adjust_kept (y : symbolS) :
    (before_adjust_symbol y).1
      = { y with versioned_name :=
            if S_IS_DEFINED y then y.versioned_name
            else y.versioned_name.map before_adjust_name } := by
  unfold before_adjust_symbol
  cases y
  rename_i versioned_name
  cases versioned_name <;> simp only [] <;> split <;> simp_all

theorem before_adjust_loop_eq (l : List symbolS) :
    before_adjust_loop l
      = (l.filter (fun y => !unneeded y)).map (fun y => (before_adjust_symbol y).1) := by
  induction l with
  | nil => rfl
  | cons y rest ih =>
    unfold before_adjust_loop
    rw [before_adjust_removed, ih]
    cases h : unneeded y <;> simp [h]

/-- C34: `elf_frob_file_before_adjust` takes out of the list of symbols
exactly the symbols that are undefined, neither used nor used in a
relocation, and either carry a versioned name or are weak; the other
symbols stay, in their order, and change in nothing but their versioned
names. -/
theorem C34_unneeded_symbols_removed (s : State) :
    (elf_frob_file_before_adjust s).symbols
        = (s.symbols.filter (fun y => !unneeded y)).map (fun y => (before_adjust_symbol y).1)
      ∧ (∀ y, (unneeded y = true
          ↔ S_IS_DEFINED y = false ∧ y.used = false ∧ y.used_in_reloc = false
            ∧ (y.versioned_name ≠ none ∨ y.weak = true)))
      ∧ (∀ y, { (before_adjust_symbol y).1 with versioned_name := y.versioned_name } = y)
      ∧ (∀ y, ((before_adjust_symbol y).1.versioned_name = none ↔ y.versioned_name = none)
          ∧ unneeded (before_adjust_symbol y).1 = unneeded y)
      ∧ (∀ y, y.versioned_name = none → (before_adjust_symbol y).1 = y) := by
  refine ⟨before_adjust_loop_eq s.symbols, ?_, ?_, ?_, ?_⟩
  · intro y
    unfold unneeded
    cases S_IS_DEFINED y <;> cases y.used <;> cases y.used_in_reloc <;> cases y.weak
      <;> cases y.versioned_name <;> simp
  · intro y
    rw [before_adjust_kept]
  · intro y
    rw [before_adjust_kept]
    unfold unneeded S_IS_DEFINED
    cases hv : y.versioned_name <;> simp
    split <;> simp
  · intro y hv
    rw [before_adjust_kept]
    cases y
    simp only [] at hv
    subst hv
    simp

/-- C34 on a table of seven symbols: `foo` (undefined, unused, versioned)
and `qux` (undefined, unused, weak) leave the list. -/
theorem C34_unneeded_symbols_removed_witness :
    (elf_frob_file_before_adjust state_before_adjust).symbols.map (fun y => y.name)
        = [".text", "bar", "baz", "quux", "sym"]
      ∧ state_before_adjust.symbols.map (fun y => (y.name, unneeded y))
        = [(".text", false), ("foo", true), ("bar", false), ("baz", false), ("qux", true),
           ("quux", false), ("sym", false)] := by
  refine ⟨?_, by decide⟩
  rw [(C34_unneeded_symbols_removed state_before_adjust).1]
  decide

theorem separator_split (l : List Char) (h : ELF_VER_CHR ∈ l) :
    ∃ rest, l.dropWhile (fun c => decide (c ≠ ELF_VER_CHR)) = ELF_VER_CHR :: rest
      ∧ l = l.takeWhile (fun c => decide (c ≠ ELF_VER_CHR)) ++ ELF_VER_CHR :: rest := by
  induction l with
  | nil => simp at h
  | cons c cs ih =>
    by_cases hc : c = ELF_VER_CHR
    · subst hc
      exact ⟨cs, by simp, by simp⟩
    · have hm : ELF_VER_CHR ∈ cs := by
        rcases List.mem_cons.1 h with e | e
        · exact absurd e.symm hc
        · exact e
      obtain ⟨rest, h1, h2⟩ := ih hm
      refine ⟨rest, ?_, ?_⟩
      · rw [List.dropWhile_cons_of_pos (by simpa using hc)]
        exact h1
      · rw [List.takeWhile_cons_of_pos (by simpa using hc), List.cons_append, ← h2]

theorem peek_cons (l : List Char) (h : peek l = ELF_VER_CHR) : l = ELF_VER_CHR :: l.tail := by
  cases l with
  | nil =>
    exfalso
    revert h
    decide
  | cons c cs =>
    simp only [peek, List.headD_cons] at h
    rw [h]
    rfl

theorem before_adjust_name_triple (n w : List Char) (hn : ELF_VER_CHR ∉ n) :
    before_adjust_name (String.mk (n ++ ELF_VER_CHR :: ELF_VER_CHR :: ELF_VER_CHR :: w))
      = String.mk (n ++ ELF_VER_CHR :: w) := by
  unfold before_adjust_name
  simp only []
  rw [(dropWhile_separator n _ hn).1, (dropWhile_separator n _ hn).2]
  simp [peek]

theorem before_adjust_name_other (v : String)
    (h : ∀ n w : List Char, v.data ≠ n ++ ELF_VER_CHR :: ELF_VER_CHR :: ELF_VER_CHR :: w) :
    before_adjust_name v = v := by
  unfold before_adjust_name
  simp only []
  split
  · rename_i hc
    exfalso
    obtain ⟨hmem, h1, h2⟩ := hc
    obtain ⟨rest, hd, hsplit⟩ := separator_split v.data hmem
    rw [hd] at h1 h2
    simp only [List.tail_cons] at h1 h2
    have e1 := peek_cons rest h1
    have e2 := peek_cons rest.tail h2
    refine h (v.data.takeWhile (fun c => decide (c ≠ ELF_VER_CHR))) rest.tail.tail ?_
    rw [← e2, ← e1]
    exact hsplit
  · rfl

/-- C40: for an undefined symbol whose versioned name is `n@@@v`, the first
separator being the first of the three, `elf_frob_file_before_adjust`
rewrites the versioned name to `n@v`, two characters shorter; it leaves
alone every versioned name in which no three separators follow one another,
and every symbol that is defined.  Every symbol of the list afterwards is a
symbol of the list before that has gone through this, and every symbol that
is not taken out of the list is in the list afterwards. -/
theorem C40_override_marker_of_undefined (s : State) :
    (∀ (y : symbolS) (n w : List Char), S_IS_DEFINED y = false →
        y.versioned_name
          = some (String.mk (n ++ ELF_VER_CHR :: ELF_VER_CHR :: ELF_VER_CHR :: w)) →
        ELF_VER_CHR ∉ n →
        (before_adjust_symbol y).1
            = { y with versioned_name := some (String.mk (n ++ ELF_VER_CHR :: w)) }
          ∧ (n ++ ELF_VER_CHR :: w).length + 2
            = (n ++ ELF_VER_CHR :: ELF_VER_CHR :: ELF_VER_CHR :: w).length)
      ∧ (∀ (y : symbolS) (v : String), y.versioned_name = some v →
          (∀ n w : List Char,
            v.data ≠ n ++ ELF_VER_CHR :: ELF_VER_CHR :: ELF_VER_CHR :: w) →
          (before_adjust_symbol y).1 = y)
      ∧ (∀ y : symbolS, S_IS_DEFINED y = true → before_adjust_symbol y = (y, false))
      ∧ (∀ z ∈ (elf_frob_file_before_adjust s).symbols,
          ∃ y ∈ s.symbols, z = (before_adjust_symbol y).1)
      ∧ (∀ y ∈ s.symbols, (before_adjust_symbol y).2 = false →
          (before_adjust_symbol y).1 ∈ (elf_frob_file_before_adjust s).symbols) := by
  have heq : (elf_frob_file_before_adjust s).symbols
      = (s.symbols.filter (fun y => !unneeded y)).map (fun y => (before_adjust_symbol y).1) :=
    before_adjust_loop_eq s.symbols
  refine ⟨?_, ?_, ?_, ?_, ?_⟩
  · intro y n w hd hv hn
    refine ⟨?_, ?_⟩
    · rw [before_adjust_kept, hd, hv]
      simp [before_adjust_name_triple n w hn]
    · simp only [List.length_append, List.length_cons]
      omega
  · intro y v hv h
    rw [before_adjust_kept, hv]
    cases y
    simp only [] at hv
    subst hv
    simp [before_adjust_name_other v h]
  · intro y hd
    unfold before_adjust_symbol
    simp [hd]
  · intro z hz
    rw [heq] at hz
    obtain ⟨y, hy, e⟩ := List.mem_map.1 hz
    exact ⟨y, (List.mem_filter.1 hy).1, e.symm⟩
  · intro y hy hk
    rw [heq]
    refine List.mem_map.2 ⟨y, List.mem_filter.2 ⟨hy, ?_⟩, rfl⟩
    rw [← before_adjust_removed, hk]
    rfl

/-- C40 on a table of seven symbols: the versioned name of the undefined
`bar` becomes `bar@V1`, that of the defined `baz` stays `baz@@@V1` and that
of `sym` stays `sym@V1`. -/
theorem C40_override_marker_of_undefined_witness :
    (elf_frob_file_before_adjust state_before_adjust).symbols.map
        (fun y => (y.name, y.versioned_name))
        = [(".text", none), ("bar", some "bar@V1"), ("baz", some "baz@@@V1"),
           ("quux", none), ("sym", some "sym@V1")]
      ∧ (before_adjust_symbol
          { name := "bar", bfdsym := none, used_in_reloc := true,
            versioned_name := some "bar@@@V1" }).1
        = { name := "bar", bfdsym := none, used_in_reloc := true,
            versioned_name := some "bar@V1" } :=
  ⟨by decide,
   ((C40_override_marker_of_undefined state_before_adjust).1
      { name := "bar", bfdsym := none, used_in_reloc := true,
        versioned_name := some "bar@@@V1" } "bar".data "V1".data (by decide) (by decide)
      (by decide)).1⟩

/-! ## `elf_frob_symbol`: the alias of a defined symbol -/

theorem assign_at (f : symbolS → symbolS → symbolS) (src dest k : Nat) (l : List symbolS) :
    sym_at (assign src dest f l) k
      = if k = dest ∧ k < l.length then f (sym_at l src) (sym_at l k) else sym_at l k := by
  unfold assign
  rw [sym_at_modify]

theorem assigns_length (fs : List (symbolS → symbolS → symbolS)) (i j : Nat)
    (l : List symbolS) :
    (fs.foldl (fun l f => assign i j f l) l).length = l.length := by
  induction fs generalizing l with
  | nil => rfl
  | cons f fs ih => rw [List.foldl_cons, ih, assign_length]

theorem assigns_other (fs : List (symbolS → symbolS → symbolS)) (i j k : Nat)
    (l : List symbolS) (hk : k ≠ j) :
    sym_at (fs.foldl (fun l f => assign i j f l) l) k = sym_at l k := by
  induction fs generalizing l with
  | nil => rfl
  | cons f fs ih =>
    rw [List.foldl_cons, ih, assign_at, if_neg (fun h => hk h.1)]

theorem assigns_dest (fs : List (symbolS → symbolS → symbolS)) (i j : Nat)
    (l : List symbolS) (hij : j ≠ i) (hj : j < l.length) :
    sym_at (fs.foldl (fun l f => assign i j f l) l) j
      = fs.foldl (fun y f => f (sym_at l i) y) (sym_at l j) := by
  induction fs generalizing l with
  | nil => rfl
  | cons f fs ih =>
    have h1 : sym_at (assign i j f l) j = f (sym_at l i) (sym_at l j) := by
      rw [assign_at, if_pos ⟨rfl, hj⟩]
    have h2 : sym_at (assign i j f l) i = sym_at l i := by
      rw [assign_at, if_neg (fun h => hij h.1.symm)]
    rw [List.foldl_cons, ih _ (by rw [assign_length]; exact hj), h1, h2]
    rfl

theorem assigns_self (fs : List (symbolS → symbolS → symbolS)) (i : Nat)
    (l : List symbolS) (hi : i < l.length) :
    sym_at (fs.foldl (fun l f => assign i i f l) l) i
      = fs.foldl (fun y f => f y y) (sym_at l i) := by
  induction fs generalizing l with
  | nil => rfl
  | cons f fs ih =>
    have h1 : sym_at (assign i i f l) i = f (sym_at l i) (sym_at l i) := by
      rw [assign_at, if_pos ⟨rfl, hi⟩]
    rw [List.foldl_cons, ih _ (by rw [assign_length]; exact hi), h1]
    rfl

theorem frob_alias_fold (i j : Nat) (l : List symbolS) :
    frob_alias i j l
      = [fun (x y : symbolS) => { y with segment := x.segment },
         fun (x y : symbolS) => { y with
           value := (x.value + 18446744073709551616 - x.fr_address % 18446744073709551616)
                     % 18446744073709551616 },
         fun (x y : symbolS) => { y with fr_address := x.fr_address },
         fun (x y : symbolS) => { y with size := x.size },
         fun (x y : symbolS) => { y with st_size := x.st_size },
         fun (x y : symbolS) =>
           { y with st_other := ((y.st_other &&& 3) ||| andNot x.st_other 3) % 256 },
         fun (x y : symbolS) => { y with st_other := x.st_other },
         fun (x y : symbolS) => if x.weak then { y with weak := true } else y,
         fun (x y : symbolS) => if x.external then { y with external := true } else y].foldl
          (fun l f => assign i j f l) l := rfl

/-- The alias that lines 2060-2083 of `elf_frob_symbol` make of a symbol,
when it is another symbol. -/
theorem frob_alias_other (i j : Nat) (l : List symbolS) (hij : j ≠ i) (hj : j < l.length) :
    sym_at (frob_alias i j l) j
        = { sym_at l j with
            segment := (sym_at l i).segment,
            value := ((sym_at l i).value + 18446744073709551616
                        - (sym_at l i).fr_address % 18446744073709551616)
                      % 18446744073709551616,
            fr_address := (sym_at l i).fr_address,
            size := (sym_at l i).size,
            st_size := (sym_at l i).st_size,
            st_other := (sym_at l i).st_other,
            weak := (sym_at l i).weak || (sym_at l j).weak,
            external := (sym_at l i).external || (sym_at l j).external }
      ∧ (∀ k, k ≠ j → sym_at (frob_alias i j l) k = sym_at l k) := by
  rw [frob_alias_fold]
  refine ⟨?_, fun k hk => assigns_other _ i j k l hk⟩
  rw [assigns_dest _ i j l hij hj]
  simp only [List.foldl_cons, List.foldl_nil]
  cases (sym_at l i).weak <;> cases (sym_at l i).external <;> simp

/-- The alias that lines 2060-2083 of `elf_frob_symbol` make of a symbol,
when it is the symbol itself. -/
theorem frob_alias_same (i : Nat) (l : List symbolS) (hi : i < l.length) :
    sym_at (frob_alias i i l) i
        = { sym_at l i with
            value := ((sym_at l i).value + 18446744073709551616
                        - (sym_at l i).fr_address % 18446744073709551616)
                      % 18446744073709551616,
            st_other := (((sym_at l i).st_other &&& 3) ||| andNot (sym_at l i).st_other 3)
                          % 256 }
      ∧ (∀ k, k ≠ i → sym_at (frob_alias i i l) k = sym_at l k) := by
  rw [frob_alias_fold]
  refine ⟨?_, fun k hk => assigns_other _ i i k l hk⟩
  rw [assigns_self _ i l hi]
  simp only [List.foldl_cons, List.foldl_nil]
  cases (sym_at l i).weak <;> cases (sym_at l i).external <;> simp

theorem find_or_make_name (l : List symbolS) (n : String) :
    (sym_at (symbol_find_or_make l n).2 (symbol_find_or_make l n).1).name = n := by
  unfold symbol_find_or_make symbol_find
  cases hf : first_index (fun y => decide (y.name = n)) l with
  | none =>
    simp only [Option.map_none']
    unfold sym_at
    simp [symbol_make]
  | some r =>
    have hg := first_index_get _ _ r.1 r.2 hf
    simp only [Option.map_some']
    unfold sym_at
    rw [hg.1]
    simpa using hg.2

/-- What the size step of `elf_frob_symbol` makes of the symbol: a size, and
no pending size expression. -/
theorem frob_size_symbol (flag : Bool)
    (resolve : List symbolS → expressionS → Bool × expressionS) (i : Nat) (s : State)
    (hi : i < s.symbols.length) :
    sym_at (frob_size flag resolve i s).symbols i
        = { sym_at s.symbols i with
            st_size := (sym_at (frob_size flag resolve i s).symbols i).st_size,
            size := none }
      ∧ ∃ d, (frob_size flag resolve i s).diags = s.diags ++ d := by
  cases hsz : (sym_at s.symbols i).size with
  | none =>
    have h : frob_size flag resolve i s = s := by
      unfold frob_size
      rw [hsz]
    rw [h]
    refine ⟨?_, [], by simp⟩
    generalize sym_at s.symbols i = y at hsz
    cases y
    simp only [] at hsz
    subst hsz
    rfl
  | some size =>
    obtain ⟨_, hsym, hd⟩ := frob_size_pending flag resolve i s size hi hsz
    refine ⟨?_, _, hd⟩
    rw [hsym]

theorem visibility_split (a : Nat) : (a &&& 3) ||| andNot a 3 = a := by
  apply Nat.eq_of_testBit_eq
  intro k
  rw [Nat.testBit_or, Nat.testBit_and, testBit_andNot]
  cases a.testBit k <;> cases Nat.testBit 3 k <;> rfl

/-- Lines 2041-2084 of `elf_frob_symbol`, for a defined symbol whose
versioned name has a separator that is not the first of three. -/
theorem frob_version_alias (i : Nat) (punt : Bool) (s : State) (n rest : List Char)
    (hv : (sym_at s.symbols i).versioned_name = some (String.mk (n ++ ELF_VER_CHR :: rest)))
    (hn : ELF_VER_CHR ∉ n)
    (hno : ¬ (rest.head? = some ELF_VER_CHR ∧ rest.tail.head? = some ELF_VER_CHR))
    (hdef : S_IS_DEFINED (sym_at s.symbols i) = true) :
    frob_version i punt s
      = if S_IS_COMMON
            (sym_at (symbol_find_or_make s.symbols
              (String.mk (n ++ ELF_VER_CHR :: rest))).2 i) = true then
          ({ s with
             symbols := (symbol_find_or_make s.symbols
               (String.mk (n ++ ELF_VER_CHR :: rest))).2,
             diags := s.diags ++
               [Diag.as_bad (Message.cant_be_versioned_to_common_symbol
                 (String.mk (n ++ ELF_VER_CHR :: rest))
                 (sym_at (symbol_find_or_make s.symbols
                   (String.mk (n ++ ELF_VER_CHR :: rest))).2 i).name)] },
           true, true)
        else
          ({ s with
             symbols := frob_alias i
               (symbol_find_or_make s.symbols (String.mk (n ++ ELF_VER_CHR :: rest))).1
               (symbol_find_or_make s.symbols (String.mk (n ++ ELF_VER_CHR :: rest))).2 },
           punt, false) := by
  have hmem : ELF_VER_CHR ∈ n ++ ELF_VER_CHR :: rest := by simp
  have hno2 : ¬ (peek rest = ELF_VER_CHR ∧ peek rest.tail = ELF_VER_CHR) := by
    rw [peek_separator, peek_separator]
    exact hno
  unfold frob_version
  rw [hv]
  simp only [hmem, not_true_eq_false, if_false, hdef, (dropWhile_separator n rest hn).1,
    List.tail_cons, hno2]
  split <;> rfl

/-- The function `elf_frob_symbol` on a defined symbol that is not common
and whose versioned name `v` has a separator that is not the first of
three: the symbol `j` found or made under the name `v` becomes its alias.
`x` is the symbol after the size step. -/
theorem elf_frob_symbol_alias (flag : Bool)
    (resolve : List symbolS → expressionS → Bool × expressionS) (i : Nat) (punt : Bool)
    (s : State) (n rest : List Char) (x : symbolS) (j : Nat)
    (hi : i < s.symbols.length)
    (hv : (sym_at s.symbols i).versioned_name = some (String.mk (n ++ ELF_VER_CHR :: rest)))
    (hn : ELF_VER_CHR ∉ n)
    (hno : ¬ (rest.head? = some ELF_VER_CHR ∧ rest.tail.head? = some ELF_VER_CHR))
    (hdef : S_IS_DEFINED (sym_at s.symbols i) = true)
    (hnc : S_IS_COMMON (sym_at s.symbols i) = false)
    (hx : x = sym_at (frob_size flag resolve i s).symbols i)
    (hj : j = (symbol_find_or_make (frob_size flag resolve i s).symbols
      (String.mk (n ++ ELF_VER_CHR :: rest))).1) :
    elf_frob_symbol flag resolve i punt s
        = ({ frob_size flag resolve i s with
             symbols := frob_alias i j
               (symbol_find_or_make (frob_size flag resolve i s).symbols
                 (String.mk (n ++ ELF_VER_CHR :: rest))).2 },
           punt)
      ∧ j < (elf_frob_symbol flag resolve i punt s).1.symbols.length
      ∧ (sym_at (elf_frob_symbol flag resolve i punt s).1.symbols i).name = x.name
      ∧ (sym_at (elf_frob_symbol flag resolve i punt s).1.symbols i).st_size = x.st_size
      ∧ (sym_at (elf_frob_symbol flag resolve i punt s).1.symbols j).name
          = String.mk (n ++ ELF_VER_CHR :: rest)
      ∧ (sym_at (elf_frob_symbol flag resolve i punt s).1.symbols j).segment = x.segment
      ∧ (sym_at (elf_frob_symbol flag resolve i punt s).1.symbols j).st_size = x.st_size
      ∧ (sym_at (elf_frob_symbol flag resolve i punt s).1.symbols j).size = x.size
      ∧ (sym_at (elf_frob_symbol flag resolve i punt s).1.symbols j).value
          = (x.value + 18446744073709551616 - x.fr_address % 18446744073709551616)
              % 18446744073709551616
      ∧ (x.st_other < 256 →
          (sym_at (elf_frob_symbol flag resolve i punt s).1.symbols j).st_other = x.st_other)
      ∧ (x.weak = true →
          (sym_at (elf_frob_symbol flag resolve i punt s).1.symbols j).weak = true)
      ∧ (x.external = true →
          (sym_at (elf_frob_symbol flag resolve i punt s).1.symbols j).external = true)
      ∧ (j ≠ i → sym_at (elf_frob_symbol flag resolve i punt s).1.symbols i = x)
      ∧ (∀ k, k ≠ j →
          sym_at (elf_frob_symbol flag resolve i punt s).1.symbols k
            = sym_at (symbol_find_or_make (frob_size flag resolve i s).symbols
                (String.mk (n ++ ELF_VER_CHR :: rest))).2 k) := by
  obtain ⟨hlen, _, _, hseg, hver, _, _⟩ := frob_size_frame flag resolve i s
  have hiL : i < (frob_size flag resolve i s).symbols.length := by rw [hlen]; exact hi
  have hvL := hver.trans hv
  have hdefL : S_IS_DEFINED (sym_at (frob_size flag resolve i s).symbols i) = true := by
    unfold S_IS_DEFINED at hdef ⊢
    rw [hseg]
    exact hdef
  have hncL : S_IS_COMMON (sym_at (frob_size flag resolve i s).symbols i) = false := by
    unfold S_IS_COMMON at hnc ⊢
    rw [hseg]
    exact hnc
  have hfv := frob_version_alias i punt (frob_size flag resolve i s) n rest hvL hn hno hdefL
  have hsame := find_or_make_sym_at (frob_size flag resolve i s).symbols
    (String.mk (n ++ ELF_VER_CHR :: rest)) i hiL
  rw [hsame, hncL] at hfv
  simp only [Bool.false_eq_true, if_false] at hfv
  rw [← hj] at hfv
  have hjlt := find_or_make_index (frob_size flag resolve i s).symbols
    (String.mk (n ++ ELF_VER_CHR :: rest))
  rw [← hj] at hjlt
  have hjname := find_or_make_name (frob_size flag resolve i s).symbols
    (String.mk (n ++ ELF_VER_CHR :: rest))
  rw [← hj] at hjname
  have hile := Nat.lt_of_lt_of_le hiL
    (find_or_make_length (frob_size flag resolve i s).symbols
      (String.mk (n ++ ELF_VER_CHR :: rest)))
  rw [← hx] at hsame hncL
  generalize (symbol_find_or_make (frob_size flag resolve i s).symbols
    (String.mk (n ++ ELF_VER_CHR :: rest))).2 = L at hfv hsame hjlt hjname hile ⊢
  have hkept := frob_alias_self i j L
  rw [hsame] at hkept
  have hweak : frob_weak i
      { frob_size flag resolve i s with symbols := frob_alias i j L }
      = { frob_size flag resolve i s with symbols := frob_alias i j L } := by
    unfold frob_weak
    have hc : S_IS_COMMON (sym_at (frob_alias i j L) i) = false := by
      have : (sym_at (frob_alias i j L) i).segment = x.segment := by
        have := congrArg (fun p => p.2.1) hkept
        exact this
      unfold S_IS_COMMON at hncL ⊢
      rw [this]
      exact hncL
    simp only [hc, Bool.false_eq_true, and_false, if_false]
  have heq : elf_frob_symbol flag resolve i punt s
      = ({ frob_size flag resolve i s with symbols := frob_alias i j L }, punt) := by
    unfold elf_frob_symbol
    simp only [hfv, Bool.false_eq_true, if_false, hweak]
  rw [heq]
  simp only []
  have hname_i : (sym_at (frob_alias i j L) i).name = x.name :=
    congrArg (fun p => p.1) hkept
  have hsize_i : (sym_at (frob_alias i j L) i).st_size = x.st_size :=
    congrArg (fun p => p.2.2.1) hkept
  by_cases hji : j = i
  · subst hji
    obtain ⟨h1, h2⟩ := frob_alias_same j L hjlt
    rw [hsame] at h1
    refine ⟨trivial, by rw [frob_alias_length]; exact hjlt, hname_i, hsize_i, ?_, ?_, ?_, ?_, ?_,
      ?_, ?_, ?_, ?_, h2⟩
    · rw [hname_i, ← hsame]
      exact hjname
    · rw [h1]
    · rw [h1]
    · rw [h1]
    · rw [h1]
    · intro hlt
      rw [h1]
      simp only []
      rw [visibility_split]
      exact Nat.mod_eq_of_lt hlt
    · intro hw
      rw [h1]
      exact hw
    · intro he
      rw [h1]
      exact he
    · intro hne
      exact absurd rfl hne
  · obtain ⟨h1, h2⟩ := frob_alias_other i j L hji hjlt
    rw [hsame] at h1
    refine ⟨trivial, by rw [frob_alias_length]; exact hjlt, hname_i, hsize_i, ?_, ?_, ?_, ?_, ?_,
      ?_, ?_, ?_, ?_, h2⟩
    · rw [h1]
      exact hjname
    · rw [h1]
    · rw [h1]
    · rw [h1]
    · rw [h1]
    · intro _
      rw [h1]
    · intro hw
      rw [h1]
      simp [hw]
    · intro he
      rw [h1]
      simp [he]
    · intro _
      rw [h2 i (fun h => hji h.symm)]
      exact hsame

/-- The diagnostics of the versioned-name step of `elf_frob_symbol`: it
adds to those there are, and when it makes the function return, what it
adds is the error about a common symbol. -/
theorem frob_version_diags (i : Nat) (punt : Bool) (s : State) :
    ∃ d, (frob_version i punt s).1.diags = s.diags ++ d
      ∧ ((frob_version i punt s).2.2 = true →
          ∃ v nm, d = [Diag.as_bad (Message.cant_be_versioned_to_common_symbol v nm)])
      ∧ ((sym_at s.symbols i).versioned_name = none → frob_version i punt s = (s, punt, false))
      := by
  unfold frob_version
  cases hv : (sym_at s.symbols i).versioned_name with
  | none => exact ⟨[], by simp, by simp, fun _ => rfl⟩
  | some v =>
    simp only []
    split
    · exact ⟨[], by simp, by simp, by simp⟩
    · split
      · split
        · exact ⟨_, rfl, by simp, by simp⟩
        · exact ⟨[], by simp, by simp, by simp⟩
      · split
        · exact ⟨[], by simp, by simp, by simp⟩
        · split
          · exact ⟨_, rfl, fun _ => ⟨_, _, rfl⟩, by simp⟩
          · exact ⟨[], by simp, by simp, by simp⟩

/-- C33: for a symbol that is both weak and common, `elf_frob_symbol` reports
an error, the last of its diagnostics: that the symbol can not be both weak
and common, or, when the symbol has a versioned name for which an alias
would have to be made, that it can not be versioned to a common symbol.  For
a symbol with no pending size and no versioned name the function leaves the
symbols alone and reports an error exactly when the symbol is both weak and
common. -/
theorem C33_weak_and_common (flag : Bool)
    (resolve : List symbolS → expressionS → Bool × expressionS) (i : Nat) (punt : Bool)
    (s : State) (hi : i < s.symbols.length) :
    ((sym_at s.symbols i).weak = true → S_IS_COMMON (sym_at s.symbols i) = true →
        ∃ pre m, (elf_frob_symbol flag resolve i punt s).1.diags
            = s.diags ++ pre ++ [Diag.as_bad m]
          ∧ ((m = Message.can_not_be_both_weak_and_common
                (sym_at (elf_frob_symbol flag resolve i punt s).1.symbols i).name)
              ∨ ∃ v nm, (sym_at s.symbols i).versioned_name ≠ none
                  ∧ m = Message.cant_be_versioned_to_common_symbol v nm))
      ∧ ((sym_at s.symbols i).size = none → (sym_at s.symbols i).versioned_name = none →
          elf_frob_symbol flag resolve i punt s
            = ({ s with diags := s.diags ++
                  (if (sym_at s.symbols i).weak = true
                      ∧ S_IS_COMMON (sym_at s.symbols i) = true then
                     [Diag.as_bad (Message.can_not_be_both_weak_and_common
                        (sym_at s.symbols i).name)]
                   else []) },
               punt)) := by
  obtain ⟨hlen, _, _, hseg, hver, hweak, hnop⟩ := frob_size_frame flag resolve i s
  have hiL : i < (frob_size flag resolve i s).symbols.length := by rw [hlen]; exact hi
  obtain ⟨_, d1, hd1⟩ := frob_size_symbol flag resolve i s hi
  obtain ⟨d2, hd2, hret, hnov⟩ := frob_version_diags i punt (frob_size flag resolve i s)
  obtain ⟨_, _, hseg2, hweak2⟩ := frob_version_kept i punt (frob_size flag resolve i s) hiL
  refine ⟨?_, ?_⟩
  · intro hw hc
    unfold elf_frob_symbol
    simp only []
    by_cases hr : (frob_version i punt (frob_size flag resolve i s)).2.2 = true
    · obtain ⟨v, nm, hd⟩ := hret hr
      rw [if_pos hr, hd2, hd1, hd]
      refine ⟨d1, _, rfl, Or.inr ⟨v, nm, ?_, rfl⟩⟩
      intro hnone
      rw [hnov (hver.trans hnone)] at hr
      cases hr
    · rw [if_neg hr]
      have hw3 : (sym_at (frob_version i punt (frob_size flag resolve i s)).1.symbols i).weak
          = true := by rw [hweak2, hweak, hw]
      have hc3 : S_IS_COMMON
          (sym_at (frob_version i punt (frob_size flag resolve i s)).1.symbols i) = true := by
        unfold S_IS_COMMON at hc ⊢
        rw [hseg2, hseg]
        exact hc
      unfold frob_weak
      rw [if_pos ⟨hw3, hc3⟩]
      refine ⟨d1 ++ d2, _, ?_, Or.inl rfl⟩
      simp [State.bad, hd2, hd1]
  · intro hsz hv
    unfold elf_frob_symbol
    simp only []
    obtain ⟨_, _, _, hnov0⟩ := frob_version_diags i punt s
    rw [hnop hsz, hnov0 hv]
    simp only [Bool.false_eq_true, if_false]
    unfold frob_weak
    split <;> simp [State.bad]

/-- C33 on the symbol `x`, weak and common, and on the symbol `.text`. -/
theorem C33_weak_and_common_witness :
    elf_frob_symbol false sample_resolve 1 false state_weak_common
        = ({ state_weak_common with
             diags := [Diag.as_bad (Message.can_not_be_both_weak_and_common "x")] },
           false)
      ∧ elf_frob_symbol false sample_resolve 0 false state_weak_common
        = (state_weak_common, false) :=
  ⟨(C33_weak_and_common false sample_resolve 1 false state_weak_common (by decide)).2
      rfl rfl,
   (C33_weak_and_common false sample_resolve 0 false state_weak_common (by decide)).2
      rfl rfl⟩

/-- C31, as stated, fails for a versioned name without a separator: after
`.symver foo,bar` for a defined symbol `foo`, which reports an error and
stores `bar`, `elf_frob_symbol` sets `*puntp` and neither finds nor makes a
symbol named `bar`. -/
theorem C31_no_separator_counterexample :
    obj_elf_symver sample_reader state_foo_defined line_symver_unversioned
        = state_foo_alias_bar
      ∧ S_IS_DEFINED (sym_at state_foo_alias_bar.symbols 1) = true
      ∧ S_IS_COMMON (sym_at state_foo_alias_bar.symbols 1) = false
      ∧ (sym_at state_foo_alias_bar.symbols 1).versioned_name = some "bar"
      ∧ ELF_VER_CHR ∉ "bar".data
      ∧ elf_frob_symbol false sample_resolve 1 false state_foo_alias_bar
        = (state_foo_alias_bar, true)
      ∧ symbol_named
          (elf_frob_symbol false sample_resolve 1 false state_foo_alias_bar).1.symbols "bar"
        = none := by
  decide

/-- C31, amended: for a defined symbol whose versioned name `v` has a
separator that is not the first of three, `elf_frob_symbol` leaves the name
of the symbol unchanged.  When the symbol is not common, the symbol `j`
found or made under the name `v` gets its segment, its size, its `st_other`
field, and as value its value less the address of its frag (as a
`bfd_vma`); it is weak if the symbol is weak and external if the symbol is
external; no error is reported for this and `*puntp` is left as it was.
When the symbol is common, the error that it can not be versioned to a
common symbol is reported, `*puntp` is set, and the symbols are as they
were, but for a new symbol of the name `v` with no attribute set. -/
theorem C31_alias_of_defined_symbol (flag : Bool)
    (resolve : List symbolS → expressionS → Bool × expressionS) (i : Nat) (punt : Bool)
    (s : State) (n rest : List Char) (j : Nat)
    (hi : i < s.symbols.length)
    (hv : (sym_at s.symbols i).versioned_name = some (String.mk (n ++ ELF_VER_CHR :: rest)))
    (hn : ELF_VER_CHR ∉ n)
    (hno : ¬ (rest.head? = some ELF_VER_CHR ∧ rest.tail.head? = some ELF_VER_CHR))
    (hdef : S_IS_DEFINED (sym_at s.symbols i) = true)
    (hj : j = (symbol_find_or_make (frob_size flag resolve i s).symbols
      (String.mk (n ++ ELF_VER_CHR :: rest))).1) :
    (sym_at (elf_frob_symbol flag resolve i punt s).1.symbols i).name
        = (sym_at s.symbols i).name
      ∧ (S_IS_COMMON (sym_at s.symbols i) = false →
          j < (elf_frob_symbol flag resolve i punt s).1.symbols.length
          ∧ (sym_at (elf_frob_symbol flag resolve i punt s).1.symbols j).name
              = String.mk (n ++ ELF_VER_CHR :: rest)
          ∧ (sym_at (elf_frob_symbol flag resolve i punt s).1.symbols j).segment
              = (sym_at s.symbols i).segment
          ∧ (sym_at (elf_frob_symbol flag resolve i punt s).1.symbols j).st_size
              = (sym_at (elf_frob_symbol flag resolve i punt s).1.symbols i).st_size
          ∧ (sym_at (elf_frob_symbol flag resolve i punt s).1.symbols j).size = none
          ∧ ((sym_at s.symbols i).st_other < 256 →
              (sym_at (elf_frob_symbol flag resolve i punt s).1.symbols j).st_other
                = (sym_at s.symbols i).st_other)
          ∧ (sym_at (elf_frob_symbol flag resolve i punt s).1.symbols j).value
              = ((sym_at s.symbols i).value + 18446744073709551616
                  - (sym_at s.symbols i).fr_address % 18446744073709551616)
                % 18446744073709551616
          ∧ ((sym_at s.symbols i).fr_address ≤ (sym_at s.symbols i).value →
              (sym_at s.symbols i).value < 18446744073709551616 →
              (sym_at (elf_frob_symbol flag resolve i punt s).1.symbols j).value
                = (sym_at s.symbols i).value - (sym_at s.symbols i).fr_address)
          ∧ ((sym_at s.symbols i).weak = true →
              (sym_at (elf_frob_symbol flag resolve i punt s).1.symbols j).weak = true)
          ∧ ((sym_at s.symbols i).external = true →
              (sym_at (elf_frob_symbol flag resolve i punt s).1.symbols j).external = true)
          ∧ (elf_frob_symbol flag resolve i punt s).1.diags
              = (frob_size flag resolve i s).diags
          ∧ (elf_frob_symbol flag resolve i punt s).2 = punt)
      ∧ (S_IS_COMMON (sym_at s.symbols i) = true →
          elf_frob_symbol flag resolve i punt s
            = ({ frob_size flag resolve i s with
                 symbols := (symbol_find_or_make (frob_size flag resolve i s).symbols
                   (String.mk (n ++ ELF_VER_CHR :: rest))).2,
                 diags := (frob_size flag resolve i s).diags ++
                   [Diag.as_bad (Message.cant_be_versioned_to_common_symbol
                     (String.mk (n ++ ELF_VER_CHR :: rest)) (sym_at s.symbols i).name)] },
               true)
          ∧ (∀ k, k < s.symbols.length →
              sym_at (elf_frob_symbol flag resolve i punt s).1.symbols k
                = sym_at (frob_size flag resolve i s).symbols k)
          ∧ (∀ y ∈ (elf_frob_symbol flag resolve i punt s).1.symbols,
              y ∈ (frob_size flag resolve i s).symbols
                ∨ y = symbol_make (String.mk (n ++ ELF_VER_CHR :: rest)))) := by
  obtain ⟨hlen, _, hname, hseg, hver, hweak, _⟩ := frob_size_frame flag resolve i s
  have hiL : i < (frob_size flag resolve i s).symbols.length := by rw [hlen]; exact hi
  obtain ⟨hx, _⟩ := frob_size_symbol flag resolve i s hi
  have hvL := hver.trans hv
  have hdefL : S_IS_DEFINED (sym_at (frob_size flag resolve i s).symbols i) = true := by
    unfold S_IS_DEFINED at hdef ⊢
    rw [hseg]
    exact hdef
  have hfv := frob_version_alias i punt (frob_size flag resolve i s) n rest hvL hn hno hdefL
  have hsame := find_or_make_sym_at (frob_size flag resolve i s).symbols
    (String.mk (n ++ ELF_VER_CHR :: rest)) i hiL
  rw [hsame] at hfv
  have hcL : S_IS_COMMON (sym_at (frob_size flag resolve i s).symbols i)
      = S_IS_COMMON (sym_at s.symbols i) := by
    unfold S_IS_COMMON
    rw [hseg]
  have hfields : (sym_at (frob_size flag resolve i s).symbols i).st_other
        = (sym_at s.symbols i).st_other
      ∧ (sym_at (frob_size flag resolve i s).symbols i).value = (sym_at s.symbols i).value
      ∧ (sym_at (frob_size flag resolve i s).symbols i).fr_address
        = (sym_at s.symbols i).fr_address
      ∧ (sym_at (frob_size flag resolve i s).symbols i).external
        = (sym_at s.symbols i).external
      ∧ (sym_at (frob_size flag resolve i s).symbols i).size = none := by
    rw [hx]
    exact ⟨rfl, rfl, rfl, rfl, rfl⟩
  by_cases hc : S_IS_COMMON (sym_at s.symbols i) = true
  · rw [hcL, hc] at hfv
    simp only [if_true] at hfv
    have heq : elf_frob_symbol flag resolve i punt s
        = ({ frob_size flag resolve i s with
             symbols := (symbol_find_or_make (frob_size flag resolve i s).symbols
               (String.mk (n ++ ELF_VER_CHR :: rest))).2,
             diags := (frob_size flag resolve i s).diags ++
               [Diag.as_bad (Message.cant_be_versioned_to_common_symbol
                 (String.mk (n ++ ELF_VER_CHR :: rest)) (sym_at s.symbols i).name)] },
           true) := by
      unfold elf_frob_symbol
      simp only [hfv, if_true, hname]
    refine ⟨?_, fun h => ?_, fun _ => ⟨heq, ?_, ?_⟩⟩
    · rw [heq]
      simp only []
      rw [hsame, hname]
    · rw [hc] at h
      cases h
    · intro k hk
      rw [heq]
      exact find_or_make_sym_at _ _ k (by rw [hlen]; exact hk)
    · intro y hy
      rw [heq] at hy
      exact mem_find_or_make _ _ y hy
  · have hnc : S_IS_COMMON (sym_at s.symbols i) = false := by
      cases h : S_IS_COMMON (sym_at s.symbols i)
      · rfl
      · exact absurd h hc
    obtain ⟨heq, h1, h2, h3, h4, h5, h6, h7, h8, h9, h10, h11, _, _⟩ :=
      elf_frob_symbol_alias flag resolve i punt s n rest _ j hi hv hn hno hdef hnc rfl hj
    refine ⟨by rw [h2, hname], fun _ => ⟨h1, h4, by rw [h5, hseg], by rw [h6, h3], ?_, ?_,
      ?_, ?_, ?_, ?_, ?_, ?_⟩, fun h => absurd h hc⟩
    · rw [h7]
      exact hfields.2.2.2.2
    · intro hlt
      rw [← hfields.1] at hlt ⊢
      exact h9 hlt
    · rw [h8, hfields.2.1, hfields.2.2.1]
    · intro hle hlt
      rw [h8, hfields.2.1, hfields.2.2.1]
      omega
    · intro hw
      exact h10 (by rw [hweak]; exact hw)
    · intro he
      exact h11 (by rw [hfields.2.2.2.1]; exact he)
    · rw [heq]
    · rw [heq]

/-- C31, amended, on the symbol `sym`, defined in the text section at the
value 12 in a frag at the address 8, with the versioned name `sym@@V1`: the
symbol `sym@@V1` is made, in the text section, with the value 4. -/
theorem C31_alias_of_defined_symbol_witness :
    (sym_at (elf_frob_symbol false sample_resolve 1 false state_sym_default).1.symbols 1).name
        = "sym"
      ∧ (elf_frob_symbol false sample_resolve 1 false state_sym_default).1.symbols
        = state_sym_default.symbols
            ++ [{ name := "sym@@V1", bfdsym := none, segment := segT.reg 0, value := 4,
                  fr_address := 8, external := true, st_other := STV_HIDDEN, st_size := 4 }]
      ∧ (sym_at (elf_frob_symbol false sample_resolve 1 false
            state_sym_default).1.symbols 2).value = 12 - 8 :=
  ⟨(C31_alias_of_defined_symbol false sample_resolve 1 false state_sym_default
      "sym".data "@V1".data 2 (by decide) (by decide) (by decide) (by decide) (by decide)
      (by decide)).1,
   by decide,
   (C31_alias_of_defined_symbol false sample_resolve 1 false state_sym_default
      "sym".data "@V1".data 2 (by decide) (by decide) (by decide) (by decide) (by decide)
      (by decide)).2.1 (by decide) |>.2.2.2.2.2.2.2.1 (by decide) (by decide)⟩

/-- C32, as stated, fails: the symbol `sym`, defined in the text section and
with the versioned name `sym@@V1`, goes through
`elf_frob_file_before_adjust` unchanged, and `elf_frob_symbol` leaves it the
name `sym` and makes a second symbol named `sym@@V1`; no symbol is named
`sym@V1`, also after `elf_frob_symbol` has seen every symbol of the
table. -/
theorem C32_default_version_counterexample :
    S_IS_DEFINED (sym_at state_sym_default.symbols 1) = true
      ∧ (sym_at state_sym_default.symbols 1).versioned_name = some "sym@@V1"
      ∧ elf_frob_file_before_adjust state_sym_default = state_sym_default
      ∧ (elf_frob_symbol false sample_resolve 1 false
            (elf_frob_file_before_adjust state_sym_default)).1.symbols.map (fun y => y.name)
          = [".text", "sym", "sym@@V1"]
      ∧ (elf_frob_symbol false sample_resolve 2 false
          (elf_frob_symbol false sample_resolve 1 false
            (elf_frob_symbol false sample_resolve 0 false
              (elf_frob_file_before_adjust state_sym_default)).1).1).1.symbols.map
            (fun y => y.name)
          = [".text", "sym", "sym@@V1"]
      ∧ symbol_named
          (elf_frob_symbol false sample_resolve 1 false
            (elf_frob_file_before_adjust state_sym_default)).1.symbols "sym@V1" = none := by
  decide

/-- C32, amended: a symbol that is defined, not common and has a versioned
name `n@@w` with two separators stays in the list of symbols through
`elf_frob_file_before_adjust`, unchanged, and `elf_frob_symbol` then leaves
it its name and makes the symbol found or made under the name `n@@w` its
alias: in its segment, with its value less the address of its frag, weak if
it is weak and external if it is external. -/
theorem C32_default_version_alias (s : State) (y : symbolS) (n w : List Char)
    (hy : y ∈ s.symbols)
    (hdef : S_IS_DEFINED y = true) (hnc : S_IS_COMMON y = false)
    (hv : y.versioned_name = some (String.mk (n ++ ELF_VER_CHR :: ELF_VER_CHR :: w)))
    (hn : ELF_VER_CHR ∉ n) (hw : w.head? ≠ some ELF_VER_CHR) :
    y ∈ (elf_frob_file_before_adjust s).symbols
      ∧ ∀ (flag : Bool) (resolve : List symbolS → expressionS → Bool × expressionS)
          (punt : Bool) (i : Nat),
          i < (elf_frob_file_before_adjust s).symbols.length →
          sym_at (elf_frob_file_before_adjust s).symbols i = y →
          (sym_at (elf_frob_symbol flag resolve i punt
              (elf_frob_file_before_adjust s)).1.symbols i).name = y.name
            ∧ ∃ j, j < (elf_frob_symbol flag resolve i punt
                  (elf_frob_file_before_adjust s)).1.symbols.length
                ∧ (sym_at (elf_frob_symbol flag resolve i punt
                    (elf_frob_file_before_adjust s)).1.symbols j).name
                  = String.mk (n ++ ELF_VER_CHR :: ELF_VER_CHR :: w)
                ∧ (sym_at (elf_frob_symbol flag resolve i punt
                    (elf_frob_file_before_adjust s)).1.symbols j).segment = y.segment
                ∧ (sym_at (elf_frob_symbol flag resolve i punt
                    (elf_frob_file_before_adjust s)).1.symbols j).value
                  = (y.value + 18446744073709551616 - y.fr_address % 18446744073709551616)
                      % 18446744073709551616
                ∧ (y.weak = true →
                    (sym_at (elf_frob_symbol flag resolve i punt
                      (elf_frob_file_before_adjust s)).1.symbols j).weak = true)
                ∧ (y.external = true →
                    (sym_at (elf_frob_symbol flag resolve i punt
                      (elf_frob_file_before_adjust s)).1.symbols j).external = true)
                ∧ (elf_frob_symbol flag resolve i punt
                    (elf_frob_file_before_adjust s)).2 = punt := by
  have hkeep : before_adjust_symbol y = (y, false) := by
    unfold before_adjust_symbol
    simp [hdef]
  refine ⟨?_, ?_⟩
  · show y ∈ before_adjust_loop s.symbols
    rw [before_adjust_loop_eq]
    refine List.mem_map.2 ⟨y, List.mem_filter.2 ⟨hy, ?_⟩, by rw [hkeep]⟩
    rw [← before_adjust_removed, hkeep]
    rfl
  · intro flag resolve punt i hi hsym
    have hno : ¬ ((ELF_VER_CHR :: w).head? = some ELF_VER_CHR
        ∧ (ELF_VER_CHR :: w).tail.head? = some ELF_VER_CHR) := fun h => hw h.2
    obtain ⟨hxs, _⟩ := frob_size_symbol flag resolve i (elf_frob_file_before_adjust s) hi
    obtain ⟨heq, h1, h2, _, h4, h5, _, _, h8, _, h10, h11, _, _⟩ :=
      elf_frob_symbol_alias flag resolve i punt (elf_frob_file_before_adjust s) n
        (ELF_VER_CHR :: w) _ _ hi (by rw [hsym]; exact hv) hn hno
        (by rw [hsym]; exact hdef) (by rw [hsym]; exact hnc) rfl rfl
    rw [hsym] at hxs
    refine ⟨?_, _, h1, h4, ?_, ?_, ?_, ?_, ?_⟩
    · rw [h2, hxs]
    · rw [h5, hxs]
    · rw [h8, hxs]
    · intro hwk
      exact h10 (by rw [hxs]; exact hwk)
    · intro he
      exact h11 (by rw [hxs]; exact he)
    · rw [heq]

/-- C32, amended, on the symbol `sym`, defined in the text section, with the
versioned name `sym@@V1`. -/
theorem C32_default_version_alias_witness :
    { name := "sym", bfdsym := none, segment := segT.reg 0, value := 12, fr_address := 8,
      external := true, st_other := STV_HIDDEN, st_size := 4,
      versioned_name := some "sym@@V1" }
        ∈ (elf_frob_file_before_adjust state_sym_default).symbols
      ∧ (sym_at (elf_frob_symbol false sample_resolve 1 false
          (elf_frob_file_before_adjust state_sym_default)).1.symbols 1).name = "sym" :=
  ⟨(C32_default_version_alias state_sym_default
      { name := "sym", bfdsym := none, segment := segT.reg 0, value := 12, fr_address := 8,
        external := true, st_other := STV_HIDDEN, st_size := 4,
        versioned_name := some "sym@@V1" }
      "sym".data "V1".data (by decide) (by decide) (by decide) (by decide) (by decide)
      (by decide)).1,
   ((C32_default_version_alias state_sym_default
      { name := "sym", bfdsym := none, segment := segT.reg 0, value := 12, fr_address := 8,
        external := true, st_other := STV_HIDDEN, st_size := 4,
        versioned_name := some "sym@@V1" }
      "sym".data "V1".data (by decide) (by decide) (by decide) (by decide) (by decide)
      (by decide)).2 false sample_resolve false 1 (by decide) (by decide)).1⟩

/-! ## `.type`: the flags of the symbol -/

theorem link_once_test (secs : List asection) (k flags : Nat) :
    (((sec_at secs k).flags ^^^ flags) &&& SEC_LINK_ONCE ≠ 0)
      ↔ link_once secs k ≠ decide (flags &&& SEC_LINK_ONCE ≠ 0) := by
  unfold link_once
  rw [show SEC_LINK_ONCE = 2 ^ 17 from rfl]
  simp only [and_two_pow_ne_zero, Nat.testBit_xor]
  cases (sec_at secs k).flags.testBit 17 <;> cases flags.testBit 17 <;> simp

/-- The loop over the members of a group, past its head: it goes on as long
as the members are link-once or not as the flags say. -/
theorem group_flags_tail (secs : List asection) (head : Nat) (st : Option Nat)
    (ms : List Nat) (hc : Chain secs st ms) (hh : head ∉ ms) (rounds flags : Nat)
    (hr : ms.length < rounds) :
    group_flags secs head rounds st flags
      = if ms.all (fun k => link_once secs k == decide (flags &&& SEC_LINK_ONCE ≠ 0)) then
          some (flags, false)
        else some (flags ||| SEC_LINK_ONCE ||| SEC_LINK_DUPLICATES_DISCARD, true) := by
  induction hc generalizing rounds with
  | nil =>
    cases rounds with
    | zero => omega
    | succ n => rfl
  | cons k x ms hk _ ih =>
    cases rounds with
    | zero => omega
    | succ n =>
      have hlen : ms.length < n := by
        simp only [List.length_cons] at hr
        omega
      have hkh : k ≠ head := fun h => hh (by rw [h]; exact List.mem_cons_self _ _)
      have hx : (sec_at secs k).next_in_group = x.next_in_group := by
        rw [sec_at_of_get secs k x hk]
      unfold group_flags
      by_cases ht : ((sec_at secs k).flags ^^^ flags) &&& SEC_LINK_ONCE ≠ 0
      · rw [if_pos ht, if_pos hkh]
        have hne := (link_once_test secs k flags).1 ht
        have hb : (link_once secs k == decide (flags &&& SEC_LINK_ONCE ≠ 0)) = false := by
          generalize decide (flags &&& SEC_LINK_ONCE ≠ 0) = f at hne
          cases h : link_once secs k <;> cases f <;> simp_all
        rw [List.all_cons, hb, Bool.false_and]
        rfl
      · rw [if_neg ht, hx, ih (fun h => hh (List.mem_cons_of_mem _ h)) n hlen]
        have heq : link_once secs k = decide (flags &&& SEC_LINK_ONCE ≠ 0) := by
          by_contra hne
          exact ht ((link_once_test secs k flags).2 hne)
        have hb : (link_once secs k == decide (flags &&& SEC_LINK_ONCE ≠ 0)) = true := by
          rw [heq]
          exact beq_self_eq_true _
        rw [List.all_cons, hb, Bool.true_and]

/-- The loop over the members of a group: the flags of its control section
and whether it warns. -/
theorem group_flags_spec (secs : List asection) (head : Nat) (ms : List Nat)
    (hc : Chain secs (some head) ms) (rounds : Nat) (hr : ms.length < rounds) :
    group_flags secs head rounds (some head)
        (SEC_READONLY ||| SEC_HAS_CONTENTS ||| SEC_IN_MEMORY ||| SEC_GROUP)
      = some (control_flags secs ms, members_disagree secs ms) := by
  have hnd := chain_nodup secs _ ms hc
  cases hc with
  | cons _ x tl hk htl =>
    have hh : head ∉ tl := (List.nodup_cons.1 hnd).1
    cases rounds with
    | zero => omega
    | succ n =>
      have hlen : tl.length < n := by
        simp only [List.length_cons] at hr
        omega
      have hx : (sec_at secs head).next_in_group = x.next_in_group := by
        rw [sec_at_of_get secs head x hk]
      have hbase : decide ((SEC_READONLY ||| SEC_HAS_CONTENTS ||| SEC_IN_MEMORY ||| SEC_GROUP)
          &&& SEC_LINK_ONCE ≠ 0) = false := by decide
      have hset : decide ((SEC_READONLY ||| SEC_HAS_CONTENTS ||| SEC_IN_MEMORY ||| SEC_GROUP
          ||| SEC_LINK_ONCE ||| SEC_LINK_DUPLICATES_DISCARD) &&& SEC_LINK_ONCE ≠ 0) = true := by
        decide
      unfold group_flags control_flags members_disagree
      by_cases ht : ((sec_at secs head).flags
          ^^^ (SEC_READONLY ||| SEC_HAS_CONTENTS ||| SEC_IN_MEMORY ||| SEC_GROUP))
          &&& SEC_LINK_ONCE ≠ 0
      · have hlo : link_once secs head = true := by
          have := (link_once_test secs head _).1 ht
          rw [hbase] at this
          simpa using this
        rw [if_pos ht, if_neg (not_not.2 rfl), hx, group_flags_tail secs head _ tl htl hh n _ hlen,
          hset]
        simp only [List.any_cons, hlo, Bool.true_or, if_true, Bool.not_true, Bool.false_or,
          Bool.true_and, beq_true]
        by_cases hall : tl.all (fun k => link_once secs k) = true
        · rw [if_pos hall]
          have : tl.any (fun k => !link_once secs k) = false := by
            rw [List.any_eq_false]
            intro k hk
            have := List.all_eq_true.1 hall k hk
            simp [this]
          rw [this]
        · rw [if_neg hall]
          have : tl.any (fun k => !link_once secs k) = true := by
            rw [List.any_eq_true]
            by_contra hcon
            apply hall
            rw [List.all_eq_true]
            intro k hk
            by_contra hk2
            exact hcon ⟨k, hk, by simpa using hk2⟩
          rw [this]
          rfl
      · have hlo : link_once secs head = false := by
          by_contra hne
          apply ht
          refine (link_once_test secs head _).2 ?_
          rw [hbase]
          exact hne
        rw [if_neg ht, hx, group_flags_tail secs head _ tl htl hh n _ hlen, hbase]
        simp only [List.any_cons, hlo, Bool.false_or, Bool.not_false, Bool.true_or,
          Bool.and_true, beq_false]
        by_cases hany : tl.any (link_once secs) = true
        · rw [if_pos hany, hany]
          have : tl.all (fun k => !link_once secs k) = false := by
            rw [List.all_eq_false]
            obtain ⟨k, hk, hk2⟩ := List.any_eq_true.1 hany
            exact ⟨k, hk, by simp [hk2]⟩
          rw [this]
          rfl
        · have hany2 : tl.any (link_once secs) = false := by
            cases h : tl.any (link_once secs)
            · rfl
            · exact absurd h hany
          rw [if_neg hany, hany2]
          have : tl.all (fun k => !link_once secs k) = true := by
            rw [List.all_eq_true]
            intro k hk
            have := List.any_eq_false.1 hany2 k hk
            simpa using this
          rw [this]
          rfl

/-- One round of the loop of `elf_adjust_symtab`, for a group whose members
are known: the warning and the flags of the new control section. -/
theorem adjust_group_flags (s : State) (i : Nat) (ms : List Nat)
    (hc : Chain s.sections (some (s.groups.head.getD i 0)) ms) :
    ∃ s1, adjust_group s i = some s1
      ∧ s1.diags = s.diags ++
          (if members_disagree s.sections ms then
             [Diag.as_warn (Message.assuming_all_members_of_group_are_COMDAT
                ((elf_group_name s (segT.reg (s.groups.head.getD i 0))).getD ""))]
           else [])
      ∧ (sec_at s1.sections s.sections.length).flags = control_flags s.sections ms
      ∧ (∀ k, k < s.sections.length →
          (sec_at s1.sections k).flags = (sec_at s.sections k).flags) := by
  have hgf := group_flags_spec s.sections _ ms hc (s.sections.length + 1)
    (Nat.lt_succ_of_le (chain_length s.sections _ ms hc))
  unfold adjust_group
  simp only [hgf]
  refine ⟨_, rfl, ?_, ?_, ?_⟩
  · cases members_disagree s.sections ms <;> simp [subseg_force_new, State.warn]
  · cases members_disagree s.sections ms <;>
      simp only [subseg_force_new, State.warn, Bool.false_eq_true, if_false, if_true,
        sec_at_modify, modify_nth_length, List.length_append, List.length_singleton] <;>
      split <;> simp [sec_at]
  · intro k hk
    cases members_disagree s.sections ms <;>
      simp only [subseg_force_new, State.warn, Bool.false_eq_true, if_false, if_true,
        sec_at_modify, modify_nth_length, List.length_append, List.length_singleton] <;>
      split <;> simp [sec_at, List.getElem?_append_left hk, Nat.ne_of_lt hk]

theorem chain_head (secs : List asection) (k : Nat) (ms : List Nat)
    (h : Chain secs (some k) ms) : ms.head? = some k ∧ k ∈ ms := by
  cases h with
  | cons _ _ _ _ _ => exact ⟨rfl, List.mem_cons_self _ _⟩

theorem any_congr_mem (ms : List Nat) (f g : Nat → Bool) (h : ∀ k ∈ ms, f k = g k) :
    ms.any f = ms.any g := by
  induction ms with
  | nil => rfl
  | cons k ks ih =>
    rw [List.any_cons, List.any_cons, h k (List.mem_cons_self _ _),
      ih (fun j hj => h j (List.mem_cons_of_mem _ hj))]

theorem link_once_same (secs secs1 : List asection) (ms : List Nat)
    (h : ∀ k ∈ ms, (sec_at secs k).flags = (sec_at secs1 k).flags) :
    control_flags secs ms = control_flags secs1 ms
      ∧ members_disagree secs ms = members_disagree secs1 ms := by
  have e : ∀ k ∈ ms, link_once secs k = link_once secs1 k := by
    intro k hk
    unfold link_once
    rw [h k hk]
  unfold control_flags members_disagree
  rw [any_congr_mem ms _ _ e,
    any_congr_mem ms (fun k => !link_once secs k) (fun k => !link_once secs1 k)
      (fun k hk => by simp only [e k hk])]
  exact ⟨rfl, rfl⟩

/-- All the rounds of the loop of `elf_adjust_symtab`: the flags of the
control sections and the warnings. -/
theorem adjust_flags_all (secs1 : List asection) (heads : List Nat) (names : List String)
    (members : Nat → List Nat) (diags0 : List Diag) (n i : Nat) (s : State)
    (h : groups_adjusted secs1 heads i s) (hn : i + n = heads.length)
    (hch : ∀ m, m < heads.length → Chain secs1 (some (heads.getD m 0)) (members m))
    (hnames : ∀ m, m < heads.length →
      group_name_at secs1 (heads.getD m 0) = some (names.getD m ""))
    (hfl : ∀ m, m < i →
      (sec_at s.sections (secs1.length + m)).flags = control_flags secs1 (members m))
    (hdg : s.diags = diags0 ++ group_warnings secs1 names members i) :
    ∃ s1, adjust_groups n i s = some s1 ∧ groups_adjusted secs1 heads heads.length s1
      ∧ (∀ m, m < heads.length →
          (sec_at s1.sections (secs1.length + m)).flags = control_flags secs1 (members m))
      ∧ s1.diags = diags0 ++ group_warnings secs1 names members heads.length := by
  induction n generalizing i s with
  | zero =>
    have : i = heads.length := by omega
    subst this
    exact ⟨s, rfl, h, hfl, hdg⟩
  | succ n ih =>
    have hi : i < heads.length := by omega
    have hc1 := hch i hi
    have hc2 : Chain s.sections (some (s.groups.head.getD i 0)) (members i) := by
      rw [h.heads_eq]
      refine chain_transfer secs1 s.sections ?_ _ _ hc1
      intro j x1 hj
      obtain ⟨x, hx, hnx, _⟩ := h.members j x1 hj
      exact ⟨x, hx, hnx⟩
    obtain ⟨s1, e1, hd1, hf1, hold1⟩ := adjust_group_flags s i (members i) hc2
    obtain ⟨s1b, e1b, hadj⟩ := adjust_step secs1 heads i s h
      ⟨members i, hc1, chain_length secs1 _ _ hc1⟩
    rw [e1] at e1b
    have hs : s1 = s1b := Option.some.inj e1b
    subst hs
    have hsame : ∀ k ∈ members i, (sec_at s.sections k).flags = (sec_at secs1 k).flags := by
      intro k hk
      have hkl := chain_bound secs1 _ _ hc1 k hk
      obtain ⟨x, hx, _, _, hfx⟩ := h.members k _ (List.getElem?_eq_getElem hkl)
      rw [sec_at_of_get _ _ _ hx, sec_at_of_get _ _ _ (List.getElem?_eq_getElem hkl)]
      exact hfx
    obtain ⟨hcf, hmd⟩ := link_once_same s.sections secs1 (members i) hsame
    have hgname : (elf_group_name s (segT.reg (s.groups.head.getD i 0))).getD ""
        = names.getD i "" := by
      rw [elf_group_name_at, h.heads_eq]
      have hkl : heads.getD i 0 < secs1.length :=
        chain_bound secs1 _ _ hc1 _ (chain_head secs1 _ _ hc1).2
      obtain ⟨x, hx, _, hg, _⟩ := h.members _ _ (List.getElem?_eq_getElem hkl)
      have hn1 := hnames i hi
      unfold group_name_at at hn1 ⊢
      rw [List.getElem?_eq_getElem hkl] at hn1
      rw [hx]
      simp only [Option.some_bind] at hn1 ⊢
      rw [hg, hn1]
      rfl
    obtain ⟨s2, e2, hadj2, hfl2, hdg2⟩ := ih (i + 1) s1 hadj (by omega)
      (by
        intro m hm
        by_cases hmi : m < i
        · rw [hold1 _ (by rw [h.length_eq]; omega)]
          exact hfl m hmi
        · have hme : m = i := by omega
          subst hme
          rw [← h.length_eq, hf1, hcf])
      (by
        rw [hd1, hdg, hmd, hgname]
        simp only [group_warnings, List.append_assoc])
    refine ⟨s2, ?_, hadj2, hfl2, hdg2⟩
    unfold adjust_groups
    rw [e1]
    exact e2

theorem build_all_diags (l : List Nat) (s : State) :
    (l.foldl build_group_lists s).diags = s.diags := by
  induction l generalizing s with
  | nil => rfl
  | cons k ks ih => rw [List.foldl_cons, ih, (build_group_lists_frame s k).2.1]

theorem group_warnings_count (secs : List asection) (names : List String)
    (members : Nat → List Nat) (hnd : names.Nodup) (g : String) (k : Nat)
    (hk : k ≤ names.length) :
    List.count (Diag.as_warn (Message.assuming_all_members_of_group_are_COMDAT g))
        (group_warnings secs names members k)
      = if ∃ m, m < k ∧ names.getD m "" = g ∧ members_disagree secs (members m) = true
        then 1 else 0 := by
  induction k with
  | zero => simp [group_warnings]
  | succ k ih =>
    have ihk := ih (by omega)
    have hklt : k < names.length := by omega
    unfold group_warnings
    rw [List.count_append, ihk]
    have hinj : ∀ m, m < k → names.getD m "" ≠ names.getD k "" := by
      intro m hm heq
      have hmlt : m < names.length := by omega
      rw [List.getD_eq_getElem?_getD, List.getD_eq_getElem?_getD,
        List.getElem?_eq_getElem hmlt, List.getElem?_eq_getElem hklt] at heq
      simp only [Option.getD_some] at heq
      have := (List.Nodup.getElem_inj_iff hnd).1 heq
      omega
    by_cases hnew : names.getD k "" = g ∧ members_disagree secs (members k) = true
    · have hold : ¬ ∃ m, m < k ∧ names.getD m "" = g
          ∧ members_disagree secs (members m) = true := by
        rintro ⟨m, hm, hg, _⟩
        exact hinj m hm (hg.trans hnew.1.symm)
      rw [if_neg hold, if_pos hnew.2, hnew.1, if_pos ⟨k, by omega, hnew.1, hnew.2⟩]
      simp
    · have hzero : List.count
            (Diag.as_warn (Message.assuming_all_members_of_group_are_COMDAT g))
            (if members_disagree secs (members k) = true then
              [Diag.as_warn (Message.assuming_all_members_of_group_are_COMDAT
                (names.getD k ""))]
             else []) = 0 := by
        by_cases hd : members_disagree secs (members k) = true
        · rw [if_pos hd]
          have hne : names.getD k "" ≠ g := fun h => hnew ⟨h, hd⟩
          have hne2 : ¬ (Diag.as_warn
                (Message.assuming_all_members_of_group_are_COMDAT (names.getD k ""))
              = Diag.as_warn (Message.assuming_all_members_of_group_are_COMDAT g)) := by
            intro h
            injection h with h
            injection h with h
            exact hne h
          rw [List.count_cons, List.count_nil]
          generalize names.getD k "" = nk at hne2
          simp [hne2]
        · rw [if_neg hd]
          rfl
      rw [hzero, Nat.add_zero]
      by_cases hold : ∃ m, m < k ∧ names.getD m "" = g
          ∧ members_disagree secs (members m) = true
      · obtain ⟨m, hm, hg, hd⟩ := hold
        rw [if_pos ⟨m, hm, hg, hd⟩, if_pos ⟨m, by omega, hg, hd⟩]
      · rw [if_neg hold, if_neg]
        rintro ⟨m, hm, hg, hd⟩
        by_cases hmk : m = k
        · subst hmk
          exact hnew ⟨hg, hd⟩
        · exact hold ⟨m, by omega, hg, hd⟩

/-- C35: when no section has a link yet, `elf_adjust_symtab` comes to an end
and, the group names being listed as for the control sections, the control
section of every group has the flags read-only, has-contents, in-memory and
GROUP, and link-once (with duplicates discarded) exactly when a member of
the group is link-once; it has the type `SHT_GROUP` and points at the first
member of the list of the group.  The diagnostics added are one warning
`assuming all members of group are COMDAT` for every group with a member
that is link-once and a member that is not, in the order of the groups, so
that the warning for a group is there exactly when its members disagree,
and once. -/
theorem C35_control_section_flags (s : State)
    (hnone : ∀ x ∈ s.sections, x.next_in_group = none) :
    ∃ (s1 : State) (names : List String),
      elf_adjust_symtab s = some s1
      ∧ names.Nodup
      ∧ (∀ g, g ∈ names ↔ group_members s.sections g ≠ [])
      ∧ (∀ m, m < names.length →
          (sec_at s1.sections (s.sections.length + m)).flags
              = control_flags s.sections (group_members s.sections (names.getD m "")).reverse
            ∧ (sec_at s1.sections (s.sections.length + m)).sh_type = SHT_GROUP
            ∧ (sec_at s1.sections (s.sections.length + m)).next_in_group
              = (group_members s.sections (names.getD m "")).reverse.head?
            ∧ (group_members s.sections (names.getD m "")).reverse ≠ [])
      ∧ s1.diags = s.diags ++
          group_warnings s.sections names
            (fun m => (group_members s.sections (names.getD m "")).reverse) names.length
      ∧ (∀ g, List.count (Diag.as_warn (Message.assuming_all_members_of_group_are_COMDAT g))
            (group_warnings s.sections names
              (fun m => (group_members s.sections (names.getD m "")).reverse) names.length)
          = if g ∈ names
              ∧ members_disagree s.sections (group_members s.sections g).reverse = true
            then 1 else 0)
      ∧ (∀ ms : List Nat,
          (control_flags s.sections ms &&& SEC_LINK_ONCE ≠ 0
            ↔ ∃ k ∈ ms, (sec_at s.sections k).flags &&& SEC_LINK_ONCE ≠ 0)
          ∧ control_flags s.sections ms
              &&& (SEC_READONLY ||| SEC_HAS_CONTENTS ||| SEC_IN_MEMORY ||| SEC_GROUP)
            = SEC_READONLY ||| SEC_HAS_CONTENTS ||| SEC_IN_MEMORY ||| SEC_GROUP
          ∧ (members_disagree s.sections ms = true
            ↔ (∃ k ∈ ms, (sec_at s.sections k).flags &&& SEC_LINK_ONCE ≠ 0)
              ∧ ∃ k ∈ ms, (sec_at s.sections k).flags &&& SEC_LINK_ONCE = 0)) := by
  obtain ⟨hb, _⟩ := build_upto s s.sections.length (le_refl _) hnone
  have hdiag := build_all_diags (List.range s.sections.length)
    { s with groups := { head := [], indexes := [] } }
  generalize hsB : (List.range s.sections.length).foldl build_group_lists
    { s with groups := { head := [], indexes := [] } } = sB at hb hdiag
  have base : groups_adjusted sB.sections sB.groups.head 0 sB :=
    { length_eq := rfl
      heads_eq := rfl
      members := fun j x1 h => ⟨x1, h, rfl, rfl, rfl⟩
      control := fun m hm => absurd hm (Nat.not_lt_zero m) }
  obtain ⟨hnd, hmem, hnames⟩ := head_names_spec s.sections sB hb
  have hlen : (head_names s.sections sB.groups.head).length = sB.groups.head.length := by
    simp [head_names]
  have hchain : ∀ m, m < sB.groups.head.length →
      Chain sB.sections (some (sB.groups.head.getD m 0))
        (group_members s.sections ((head_names s.sections sB.groups.head).getD m "")).reverse
      := by
    intro m hm
    obtain ⟨g, hgn, hc⟩ := hb.chain m hm
    have hg2 : g = (head_names s.sections sB.groups.head).getD m "" := by
      have := hnames m hm
      rw [hgn] at this
      exact Option.some.inj this
    rw [← hg2]
    exact hc
  have hnames1 : ∀ m, m < sB.groups.head.length →
      group_name_at sB.sections (sB.groups.head.getD m 0)
        = some ((head_names s.sections sB.groups.head).getD m "") := by
    intro m hm
    rw [hb.names]
    exact hnames m hm
  obtain ⟨s1, h1, h2, h3, h4⟩ := adjust_flags_all sB.sections sB.groups.head
    (head_names s.sections sB.groups.head)
    (fun m => (group_members s.sections
      ((head_names s.sections sB.groups.head).getD m "")).reverse)
    sB.diags sB.groups.head.length 0 sB base (by simp) hchain hnames1
    (fun m hm => absurd hm (Nat.not_lt_zero m)) (by simp [group_warnings])
  have hsame : ∀ ms : List Nat,
      control_flags sB.sections ms = control_flags s.sections ms
        ∧ members_disagree sB.sections ms = members_disagree s.sections ms :=
    fun ms => link_once_same sB.sections s.sections ms (fun k _ => hb.flags k)
  have hgw : ∀ k, group_warnings sB.sections (head_names s.sections sB.groups.head)
        (fun m => (group_members s.sections
          ((head_names s.sections sB.groups.head).getD m "")).reverse) k
      = group_warnings s.sections (head_names s.sections sB.groups.head)
        (fun m => (group_members s.sections
          ((head_names s.sections sB.groups.head).getD m "")).reverse) k := by
    intro k
    induction k with
    | zero => rfl
    | succ k ih =>
      unfold group_warnings
      rw [ih, (hsame _).2]
  refine ⟨s1, head_names s.sections sB.groups.head, ?_, hnd, hmem, ?_, ?_, ?_, ?_⟩
  · unfold elf_adjust_symtab bfd_map_over_sections
    simp only []
    rw [hsB]
    exact h1
  · intro m hm
    rw [hlen] at hm
    obtain ⟨c, sy, hc, _, ht, _, hnx, _, _, _⟩ := h2.control m hm
    rw [hb.length_eq] at hc h3
    have hch := chain_head _ _ _ (hchain m hm)
    refine ⟨?_, ?_, ?_, ?_⟩
    · rw [h3 m hm, (hsame _).1]
    · rw [sec_at_of_get _ _ _ hc, ht]
    · rw [sec_at_of_get _ _ _ hc, hnx, hch.1]
    · intro he
      rw [he] at hch
      cases hch.1
  · rw [h4, hdiag, hlen, hgw]
  · intro g
    rw [group_warnings_count s.sections _ _ hnd g _ (le_refl _)]
    by_cases hg : g ∈ head_names s.sections sB.groups.head
        ∧ members_disagree s.sections (group_members s.sections g).reverse = true
    · rw [if_pos hg, if_pos]
      obtain ⟨m, hm⟩ := List.mem_iff_getElem?.1 hg.1
      have hmlt : m < (head_names s.sections sB.groups.head).length := by
        by_contra hcon
        rw [List.getElem?_eq_none (by omega)] at hm
        cases hm
      have hgm : (head_names s.sections sB.groups.head).getD m "" = g := by
        rw [List.getD_eq_getElem?_getD, hm]
        rfl
      refine ⟨m, hmlt, hgm, ?_⟩
      simp only [hgm]
      exact hg.2
    · rw [if_neg hg, if_neg]
      rintro ⟨m, hm, hgm, hd⟩
      apply hg
      refine ⟨?_, ?_⟩
      · rw [← hgm, List.getD_eq_getElem?_getD, List.getElem?_eq_getElem hm]
        exact List.getElem_mem _
      · simp only [hgm] at hd
        exact hd
  · intro ms
    have hlo : ∀ k, link_once s.sections k = true
        ↔ (sec_at s.sections k).flags &&& SEC_LINK_ONCE ≠ 0 := by
      intro k
      unfold link_once
      simp
    have hany : ms.any (link_once s.sections) = true
        ↔ ∃ k ∈ ms, (sec_at s.sections k).flags &&& SEC_LINK_ONCE ≠ 0 := by
      rw [List.any_eq_true]
      constructor
      · rintro ⟨k, hk, h⟩
        exact ⟨k, hk, (hlo k).1 h⟩
      · rintro ⟨k, hk, h⟩
        exact ⟨k, hk, (hlo k).2 h⟩
    refine ⟨?_, ?_, ?_⟩
    · rw [← hany]
      unfold control_flags
      cases ms.any (link_once s.sections) <;> decide
    · unfold control_flags
      cases ms.any (link_once s.sections) <;> decide
    · unfold members_disagree
      rw [Bool.and_eq_true, hany, List.any_eq_true]
      constructor
      · rintro ⟨h, k, hk, hk2⟩
        refine ⟨h, k, hk, ?_⟩
        by_contra hne
        rw [(hlo k).2 hne] at hk2
        cases hk2
      · rintro ⟨h, k, hk, hk2⟩
        refine ⟨h, k, hk, ?_⟩
        have : link_once s.sections k = false := by
          cases hl : link_once s.sections k
          · rfl
          · exact absurd hk2 ((hlo k).1 hl)
        rw [this]
        rfl

/-- C35 on a group `g` of three members, two of them link-once: the control
section is link-once and the warning is given once. -/
theorem C35_control_section_flags_witness :
    (∀ x ∈ state_mixed_group.sections, x.next_in_group = none)
      ∧ (elf_adjust_symtab state_mixed_group).map
          (fun s1 => ((sec_at s1.sections 4).flags, (sec_at s1.sections 4).sh_type,
            (sec_at s1.sections 4).next_in_group, s1.diags))
        = some
            (SEC_READONLY ||| SEC_HAS_CONTENTS ||| SEC_IN_MEMORY ||| SEC_GROUP
              ||| SEC_LINK_ONCE ||| SEC_LINK_DUPLICATES_DISCARD,
             SHT_GROUP, some 3,
             [Diag.as_warn (Message.assuming_all_members_of_group_are_COMDAT "g")])
      ∧ ∃ (s1 : State) (names : List String),
          elf_adjust_symtab state_mixed_group = some s1
          ∧ (∀ g, g ∈ names ↔ group_members state_mixed_group.sections g ≠ [])
          ∧ s1.diags = state_mixed_group.diags ++
              group_warnings state_mixed_group.sections names
                (fun m =>
                  (group_members state_mixed_group.sections (names.getD m "")).reverse)
                names.length := by
  refine ⟨by decide, by decide, ?_⟩
  obtain ⟨s1, names, h1, _, h3, _, h5, _⟩ :=
    C35_control_section_flags state_mixed_group (by decide)
  exact ⟨s1, names, h1, h3, h5⟩

/-! ## The flags in which the fatal test looks -/

/-- The value of `attr` at the test of line 596 is given by the cases of
`merged_flags`. -/
theorem effective_flags_eq (bed : Backend) (a : ChangeArgs) (s : State) :
    effective_flags bed a s = merged_flags bed a s := by
  unfold effective_flags merged_flags
  cases hss : bed.get_sec_type_attr a.name with
  | none => simp [special_section]
  | some e =>
    by_cases hlook : first_declaration a s
    · have hl := hlook
      unfold first_declaration at hl
      simp only [special_section, hl, Option.isNone_none, Bool.and_true, hlook, true_and]
      rw [override_cases]
      by_cases hx : extra_flags e a.attr
      · by_cases hn : exempt_note e a.attr
        · simp [hx, hn]
        · by_cases hsf : exempt_suffix e a.name a.attr
          · simp [hx, hn, hsf]
          · by_cases hal : exempt_alloc a.name a.attr
            · simp [hx, hn, hsf, hal]
            · by_cases hst : exempt_stack a.name a.attr
              · simp [hx, hn, hsf, hal, hst]
              · simp [hx, hn, hsf, hal, hst]
      · simp [hx]
    · have hl := hlook
      unfold first_declaration at hl
      have hi : (bfd_get_section_by_name_if s.sections a.name
          { group_name := a.group_name, info := a.info }).isNone = false := by
        cases hb : bfd_get_section_by_name_if s.sections a.name
          { group_name := a.group_name, info := a.info } with
        | none => exact absurd hb hl
        | some p => rfl
      simp [special_section, hi, hlook]

/-- C20, as stated, fails: `.section .data,"xd"` at the start of an assembly
ends in the fatal error although the explicit flags together with the
implicit flags of `.data` hold ALLOC; and after `.section .data,"d"`, which
returns, the same directive a second time ends in the fatal error. -/
theorem C20_implicit_flags_counterexample :
    sample_backend.get_sec_type_attr ".data"
        = some { prefix_length := 5, suffix_length := -2, type := SHT_PROGBITS,
                 attr := SHF_ALLOC ||| SHF_WRITE }
      ∧ obj_elf_change_section sample_backend declare_data_exec_mbind sample_state
          = Except.error (Fatal.SHF_ALLOC_not_set_for_GNU_MBIND_section ".data")
      ∧ ¬ mbind_without_alloc (declare_data_exec_mbind.attr ||| (SHF_ALLOC ||| SHF_WRITE))
      ∧ obj_elf_change_section sample_backend declare_data_mbind sample_state
          = Except.ok state_after_data_mbind
      ∧ obj_elf_change_section sample_backend declare_data_mbind state_after_data_mbind
          = Except.error (Fatal.SHF_ALLOC_not_set_for_GNU_MBIND_section ".data")
      ∧ ¬ mbind_without_alloc (declare_data_mbind.attr ||| (SHF_ALLOC ||| SHF_WRITE)) := by
  decide

/-- C20, amended: `obj_elf_change_section` ends in the fatal error
`SHF_ALLOC isn't set for GNU_MBIND section` exactly when the flags
`merged_flags` hold GNU_MBIND, bit 24, and not ALLOC, bit 1; it ends in no
other fatal error, and in every other case it returns.  The implicit flags of
the special-section entry are part of those flags only on a first
declaration whose explicit flags hold no flag of bits 0 to 19 outside the
implicit ones, or only such as the exemption of a note section or of MERGE
and STRINGS after a name with a suffix allows: on a redeclaration, for a name
without an entry, and on a first declaration with another extra flag, the
error is decided by the explicit flags alone. -/
theorem C20_fatal_iff_mbind_without_alloc (bed : Backend) (a : ChangeArgs) (s : State) :
    (obj_elf_change_section bed a s
          = Except.error (Fatal.SHF_ALLOC_not_set_for_GNU_MBIND_section a.name)
        ↔ (merged_flags bed a s).testBit 24 = true
            ∧ (merged_flags bed a s).testBit 1 = false)
      ∧ (∀ f, obj_elf_change_section bed a s = Except.error f
              ↔ (f = Fatal.SHF_ALLOC_not_set_for_GNU_MBIND_section a.name
                  ∧ (merged_flags bed a s).testBit 24 = true
                  ∧ (merged_flags bed a s).testBit 1 = false))
      ∧ ((∃ s1, obj_elf_change_section bed a s = Except.ok s1)
          ↔ ¬ ((merged_flags bed a s).testBit 24 = true
                ∧ (merged_flags bed a s).testBit 1 = false))
      ∧ ((bed.get_sec_type_attr a.name = none ∨ ¬ first_declaration a s) →
          (obj_elf_change_section bed a s
              = Except.error (Fatal.SHF_ALLOC_not_set_for_GNU_MBIND_section a.name)
            ↔ a.attr.testBit 24 = true ∧ a.attr.testBit 1 = false))
      ∧ (∀ e, bed.get_sec_type_attr a.name = some e → first_declaration a s →
          (¬ extra_flags e a.attr ∨ exempt_note e a.attr ∨ exempt_suffix e a.name a.attr) →
          (obj_elf_change_section bed a s
              = Except.error (Fatal.SHF_ALLOC_not_set_for_GNU_MBIND_section a.name)
            ↔ (a.attr.testBit 24 = true ∨ e.attr.testBit 24 = true)
                ∧ a.attr.testBit 1 = false ∧ e.attr.testBit 1 = false))
      ∧ (∀ e, bed.get_sec_type_attr a.name = some e → first_declaration a s →
          extra_flags e a.attr → ¬ exempt_note e a.attr → ¬ exempt_suffix e a.name a.attr →
          (obj_elf_change_section bed a s
              = Except.error (Fatal.SHF_ALLOC_not_set_for_GNU_MBIND_section a.name)
            ↔ a.attr.testBit 24 = true ∧ a.attr.testBit 1 = false)) := by
  have heq := effective_flags_eq bed a s
  have hiff := mbind_without_alloc_iff (merged_flags bed a s)
  have hout := change_section_outcome bed a s
  rw [heq] at hout
  have h1 : obj_elf_change_section bed a s
          = Except.error (Fatal.SHF_ALLOC_not_set_for_GNU_MBIND_section a.name)
        ↔ (merged_flags bed a s).testBit 24 = true
            ∧ (merged_flags bed a s).testBit 1 = false := by
    rcases hout with ⟨h, hr⟩ | ⟨h, s1, hr⟩
    · rw [hr]; exact ⟨fun _ => hiff.mp h, fun _ => rfl⟩
    · rw [hr]
      constructor
      · intro hc; cases hc
      · intro hc; exact absurd (hiff.mpr hc) h
  refine ⟨h1, ?_, ?_, ?_, ?_, ?_⟩
  · intro f
    rcases hout with ⟨h, hr⟩ | ⟨h, s1, hr⟩
    · rw [hr]
      constructor
      · intro hc
        injection hc with hc
        exact ⟨hc.symm, hiff.mp h⟩
      · rintro ⟨hf, _⟩
        rw [hf]
    · rw [hr]
      constructor
      · intro hc; cases hc
      · rintro ⟨_, hc⟩; exact absurd (hiff.mpr hc) h
  · rcases hout with ⟨h, hr⟩ | ⟨h, s1, hr⟩
    · rw [hr]
      constructor
      · rintro ⟨s1, hc⟩; cases hc
      · intro hc; exact absurd (hiff.mp h) hc
    · rw [hr]
      exact ⟨fun _ hc => h (hiff.mpr hc), fun _ => ⟨s1, rfl⟩⟩
  · intro hc
    have hm : merged_flags bed a s = a.attr := by
      unfold merged_flags
      rcases hc with hc | hc
      · rw [hc]
      · split
        · rfl
        · rw [if_neg (fun h => hc h.1)]
    rw [h1, hm]
  · intro e he hfirst hmerge
    have hm : merged_flags bed a s = a.attr ||| e.attr := by
      unfold merged_flags
      rw [he]
      simp only []
      rw [if_pos ⟨hfirst, hmerge⟩]
    rw [h1, hm, Nat.testBit_or, Nat.testBit_or]
    simp only [Bool.or_eq_true, Bool.or_eq_false_iff]
  · intro e he hfirst hx hn hsf
    have hm : merged_flags bed a s = a.attr := by
      unfold merged_flags
      rw [he]
      simp only []
      rw [if_neg]
      rintro ⟨_, h | h | h⟩
      · exact h hx
      · exact hn h
      · exact hsf h
    rw [h1, hm]

/-- C20, amended, at `.section .foo,"d"`, which is fatal, at
`.section .data,"d"`, which returns because the implicit flags of `.data`,
merged on this first declaration, hold ALLOC, and at `.section .data,"xd"`,
which is fatal because EXECINSTR is not an implicit flag of `.data` and the
implicit flags are not merged. -/
theorem C20_fatal_iff_mbind_without_alloc_witness :
    obj_elf_change_section sample_backend declare_foo_mbind sample_state
        = Except.error (Fatal.SHF_ALLOC_not_set_for_GNU_MBIND_section ".foo")
      ∧ merged_flags sample_backend declare_foo_mbind sample_state = SHF_GNU_MBIND
      ∧ (∃ s1, obj_elf_change_section sample_backend declare_data_mbind sample_state
                = Except.ok s1)
      ∧ merged_flags sample_backend declare_data_mbind sample_state
          = SHF_GNU_MBIND ||| SHF_ALLOC ||| SHF_WRITE
      ∧ obj_elf_change_section sample_backend declare_data_exec_mbind sample_state
          = Except.error (Fatal.SHF_ALLOC_not_set_for_GNU_MBIND_section ".data")
      ∧ merged_flags sample_backend declare_data_exec_mbind sample_state
          = SHF_EXECINSTR ||| SHF_GNU_MBIND
      ∧ obj_elf_change_section sample_backend declare_data_mbind state_after_data_mbind
          = Except.error (Fatal.SHF_ALLOC_not_set_for_GNU_MBIND_section ".data") :=
  ⟨(C20_fatal_iff_mbind_without_alloc sample_backend declare_foo_mbind sample_state).1.mpr
      (by decide),
   by decide,
   (C20_fatal_iff_mbind_without_alloc sample_backend declare_data_mbind
      sample_state).2.2.1.mpr (by decide),
   by decide,
   ((C20_fatal_iff_mbind_without_alloc sample_backend declare_data_exec_mbind
      sample_state).2.2.2.2.2
        { prefix_length := 5, suffix_length := -2, type := SHT_PROGBITS,
          attr := SHF_ALLOC ||| SHF_WRITE }
        (by decide) (by decide) (by decide) (by decide) (by decide)).mpr (by decide),
   by decide,
   ((C20_fatal_iff_mbind_without_alloc sample_backend declare_data_mbind
      state_after_data_mbind).2.2.2.1 (Or.inr (by decide))).mpr (by decide)⟩

/-! ## The previous slot after each section-changing directive -/

/-- C4, amended: in every state, the start of an assembly included, each of
the following holds on its own.  A call of `obj_elf_change_section` (with or
without push) that returns, `obj_elf_subsection`, `obj_elf_data`,
`obj_elf_text` and `obj_elf_struct` set the previous slot to the (section,
subsection) that was current immediately before the operation, whatever the
slot and the stack were before; so does `obj_elf_previous` when the previous
slot is set; `obj_elf_popsection` on a non-empty stack sets the previous slot
to the one saved in the frame it pops.  `obj_elf_previous` with an empty slot
and `obj_elf_popsection` on an empty stack change neither the context nor the
slot. -/
theorem C4_previous_slot_is_context_left (s : State) :
    (∀ (bed : Backend) (a : ChangeArgs) (s1 : State),
        obj_elf_change_section bed a s = Except.ok s1 →
        s1.previous_section = some s.now_seg
          ∧ s1.previous_subsection = s.now_subseg)
    ∧ (∀ temp : Int,
        (obj_elf_subsection temp s).previous_section = some s.now_seg
          ∧ (obj_elf_subsection temp s).previous_subsection = s.now_subseg)
    ∧ (∀ (data_section : segT) (subseg : Int),
        (obj_elf_data data_section subseg s).previous_section = some s.now_seg
          ∧ (obj_elf_data data_section subseg s).previous_subsection = s.now_subseg)
    ∧ (∀ (text_section : segT) (subseg : Int),
        (obj_elf_text text_section subseg s).previous_section = some s.now_seg
          ∧ (obj_elf_text text_section subseg s).previous_subsection = s.now_subseg)
    ∧ ((obj_elf_struct s).previous_section = some s.now_seg
        ∧ (obj_elf_struct s).previous_subsection = s.now_subseg)
    ∧ (∀ p : segT, s.previous_section = some p →
        (obj_elf_previous s).previous_section = some s.now_seg
          ∧ (obj_elf_previous s).previous_subsection = s.now_subseg)
    ∧ (∀ (top : section_stack) (next : List section_stack),
        s.section_stack = top :: next →
        (obj_elf_popsection s).previous_section = top.prev_seg
          ∧ (obj_elf_popsection s).previous_subsection = top.prev_subseg)
    ∧ (s.previous_section = none →
        (obj_elf_previous s).now_seg = s.now_seg
          ∧ (obj_elf_previous s).now_subseg = s.now_subseg
          ∧ (obj_elf_previous s).previous_section = none
          ∧ (obj_elf_previous s).previous_subsection = s.previous_subsection)
    ∧ (s.section_stack = [] →
        (obj_elf_popsection s).now_seg = s.now_seg
          ∧ (obj_elf_popsection s).now_subseg = s.now_subseg
          ∧ (obj_elf_popsection s).previous_section = s.previous_section
          ∧ (obj_elf_popsection s).previous_subsection = s.previous_subsection) := by
  refine ⟨?_, ?_, ?_, ?_, ?_, ?_, ?_, ?_, ?_⟩
  · intro bed a s1 hchange
    have hctx := change_section_context bed a s s1 hchange
    exact ⟨hctx.2.1, hctx.2.2.1⟩
  · intro temp
    simp [obj_elf_subsection, subseg_set]
  · intro data_section subseg
    simp [obj_elf_data, s_data, subseg_set]
  · intro text_section subseg
    simp [obj_elf_text, s_text, subseg_set]
  · simp [obj_elf_struct, s_struct, obj_elf_section_change_hook, subseg_set]
  · intro p hprev
    simp [obj_elf_previous, hprev, subseg_set]
  · intro top next hstack
    simp [obj_elf_popsection, hstack, subseg_set]
  · intro hprev
    simp [obj_elf_previous, hprev, State.warn]
  · intro hstack
    simp [obj_elf_popsection, hstack, State.warn]

/-- C4, amended, at the start of an assembly, where the previous slot is
empty and the stack is empty (`.pushsection .data,"aw"`, `.subsection 1`,
`.data`, `.text`, `.struct`, `.previous` and `.popsection`), and in the state
after `.pushsection .data,"aw"` (`.pushsection .foo,"ax"`, `.previous` and
`.popsection`). -/
theorem C4_previous_slot_is_context_left_witness :
    (sample_state.previous_section = none
      ∧ sample_state.section_stack = []
      ∧ sample_state.now_seg = segT.reg 0
      ∧ obj_elf_change_section sample_backend push_data sample_state
          = Except.ok state_after_push_data
      ∧ state_after_push_data.previous_section = some (segT.reg 0)
      ∧ (obj_elf_subsection 1 sample_state).previous_section = some (segT.reg 0)
      ∧ (obj_elf_data (segT.reg 1) 0 sample_state).previous_section = some (segT.reg 0)
      ∧ (obj_elf_text (segT.reg 0) 0 sample_state).previous_section = some (segT.reg 0)
      ∧ (obj_elf_struct sample_state).previous_section = some (segT.reg 0)
      ∧ (obj_elf_previous sample_state).previous_section = none
      ∧ (obj_elf_popsection sample_state).previous_section = none)
    ∧ (obj_elf_change_section sample_backend push_foo state_after_push_data
          = Except.ok state_after_two_pushes
      ∧ state_after_push_data.now_seg = segT.reg 1
      ∧ state_after_push_data.previous_section = some (segT.reg 0)
      ∧ state_after_push_data.section_stack
          = [{ seg := segT.reg 0, prev_seg := none, subseg := 0, prev_subseg := 0 }]
      ∧ state_after_two_pushes.previous_section = some (segT.reg 1)
      ∧ (obj_elf_previous state_after_push_data).previous_section = some (segT.reg 1)
      ∧ (obj_elf_popsection state_after_push_data).previous_section = none) :=
  ⟨⟨rfl, rfl, rfl, by decide,
    ((C4_previous_slot_is_context_left sample_state).1 sample_backend push_data
      state_after_push_data (by decide)).1,
    ((C4_previous_slot_is_context_left sample_state).2.1 1).1,
    ((C4_previous_slot_is_context_left sample_state).2.2.1 (segT.reg 1) 0).1,
    ((C4_previous_slot_is_context_left sample_state).2.2.2.1 (segT.reg 0) 0).1,
    (C4_previous_slot_is_context_left sample_state).2.2.2.2.1.1,
    ((C4_previous_slot_is_context_left sample_state).2.2.2.2.2.2.2.1 rfl).2.2.1,
    ((C4_previous_slot_is_context_left sample_state).2.2.2.2.2.2.2.2 rfl).2.2.1⟩,
   ⟨by decide, rfl, rfl, rfl,
    ((C4_previous_slot_is_context_left state_after_push_data).1 sample_backend push_foo
      state_after_two_pushes (by decide)).1,
    ((C4_previous_slot_is_context_left state_after_push_data).2.2.2.2.2.1 (segT.reg 0)
      rfl).1,
    ((C4_previous_slot_is_context_left state_after_push_data).2.2.2.2.2.2.1
      { seg := segT.reg 0, prev_seg := none, subseg := 0, prev_subseg := 0 } [] rfl).1⟩⟩

/-! ## The group name without the GROUP flag -/

/-- The loop of `obj_elf_parse_section_letters` sets the clone marker only
at the character `?`. -/
theorem letters_loop_clone (prev : Char) (skip : Nat) (str : List Char) (attr : Nat)
    (cl : Bool) (attr1 : Nat)
    (h : parse_section_letters_loop prev skip str attr cl = Except.ok (attr1, true)) :
    cl = true ∨ '?' ∈ str := by
  induction str generalizing prev skip attr cl with
  | nil =>
    simp only [parse_section_letters_loop, Except.ok.injEq, Prod.mk.injEq] at h
    exact Or.inl h.2
  | cons c rest ih =>
    have key : ∀ p k a1, parse_section_letters_loop p k rest a1 cl = Except.ok (attr1, true) →
        cl = true ∨ '?' ∈ c :: rest := by
      intro p k a1 h2
      rcases ih _ _ _ _ h2 with h1 | h1
      · exact Or.inl h1
      · exact Or.inr (List.mem_cons_of_mem c h1)
    cases skip with
    | succ k =>
      simp only [parse_section_letters_loop] at h
      exact key _ _ _ h
    | zero =>
      by_cases hl : is_flag_letter c = true
      · rw [letters_loop_letter prev c rest attr cl hl] at h
        rcases ih _ _ _ _ h with h1 | h1
        · simp only [Bool.or_eq_true, decide_eq_true_eq] at h1
          rcases h1 with h1 | h1
          · exact Or.inl h1
          · subst h1
            exact Or.inr (List.mem_cons_self _ _)
        · exact Or.inr (List.mem_cons_of_mem c h1)
      · have hl2 : is_flag_letter c = false := by simpa using hl
        rw [letters_loop_not_letter prev c rest attr cl hl2] at h
        split at h
        · split at h <;> exact key _ _ _ h
        · split at h
          · exact key _ _ _ h
          · cases h

/-- The clone marker that the flag string of a `.section` directive gives
comes from a `?` in the flag string. -/
theorem section_flags_marker (rd : Reader) (l0 l : SectionLocals)
    (h : section_flags rd l0 = SectionProgress.letters l true) :
    ∃ (beg : List Char) (n attr : Nat),
      rd.demand_copy_C_string l0.ilp = (some beg, n)
        ∧ obj_elf_parse_section_letters rd.byte_before_string beg = Except.ok (attr, true)
        ∧ '?' ∈ beg := by
  unfold section_flags at h
  split at h
  · unfold section_letters at h
    split at h
    · cases h
    · rename_i beg n hcopy
      split at h
      · cases h
      · rename_i attr is_clone hparse
        split at h
        · cases h
        · rw [SectionProgress.letters.injEq] at h
          obtain ⟨_, h2⟩ := h
          subst h2
          refine ⟨beg, n, attr, hcopy, hparse, ?_⟩
          unfold obj_elf_parse_section_letters at hparse
          rcases letters_loop_clone _ _ _ _ _ _ hparse with h1 | h1
          · cases h1
          · exact h1
  · split at h <;> cases h

theorem section_head_marker (rd : Reader) (opts : Options) (push : Int) (s : State)
    (ilp : List Char) (l : SectionLocals)
    (h : section_head rd opts push s ilp = SectionProgress.letters l true) :
    ∃ (text beg : List Char) (n attr : Nat),
      rd.demand_copy_C_string text = (some beg, n)
        ∧ obj_elf_parse_section_letters rd.byte_before_string beg = Except.ok (attr, true)
        ∧ '?' ∈ beg := by
  unfold section_head at h
  split at h
  · cases h
  · split at h
    · cases h
    · cases h
    · simp only [] at h
      split at h
      · split at h
        · split at h
          · cases h
          · exact ⟨_, section_flags_marker _ _ _ h⟩
        · exact ⟨_, section_flags_marker _ _ _ h⟩
      · cases h

/-- C9, amended: for every `.section` directive, the flags and the group
name that `obj_elf_section` hands to `obj_elf_change_section` satisfy: when
the GROUP flag is set the group name is non-null; and a non-null group name
without the GROUP flag occurs only through the clone marker: the directive
has a flag string, the parse of the flag string has set the clone marker,
which it does only at a `?` in the string, and the group name is then the
group name of the current section. -/
theorem C9_group_flag_needs_name (rd : Reader) (opts : Options) (push : Int)
    (s : State) (ilp : List Char) (a : ChangeArgs) (n : Int) (s1 : State)
    (hcall : obj_elf_section_parse rd opts push s ilp = SectionResult.call a n s1) :
    (a.attr &&& SHF_GROUP ≠ 0 → a.group_name ≠ none)
      ∧ (a.attr &&& SHF_GROUP = 0 → a.group_name ≠ none →
          (∃ l, section_head rd opts push s ilp = SectionProgress.letters l true)
            ∧ (∃ (text beg : List Char) (k attr : Nat),
                rd.demand_copy_C_string text = (some beg, k)
                  ∧ obj_elf_parse_section_letters rd.byte_before_string beg
                      = Except.ok (attr, true)
                  ∧ '?' ∈ beg)
            ∧ a.group_name = elf_group_name s s.now_seg)
      ∧ (∀ (before : Char) (str : List Char) (attr : Nat),
          obj_elf_parse_section_letters before str = Except.ok (attr, true) → '?' ∈ str) := by
  refine ⟨?_, ?_, ?_⟩
  · cases hh : section_head rd opts push s ilp with
    | returned s2 => simp [obj_elf_section_parse, hh] at hcall
    | no_result => simp [obj_elf_section_parse, hh] at hcall
    | fatal f => simp [obj_elf_section_parse, hh] at hcall
    | done l =>
      have hd := section_head_done _ _ _ _ _ _ hh
      simp only [obj_elf_section_parse, hh] at hcall
      have ha := (section_done_spec _ _ _ _ _ _ hcall).1
      subst ha
      simp only [SectionLocals.args, hd.2.1]
      intro hG
      rw [group_bit, hd.2.2.1] at hG
      cases hG
    | letters l c =>
      obtain ⟨l2, ht, ha, _⟩ := parse_letters_call _ _ _ _ _ _ _ _ _ _ hh hcall
      have hs := section_tail_spec _ _ _ _ _ ht
      subst ha
      simp only [SectionLocals.args]
      exact hs.2.2.2.1
  · cases hh : section_head rd opts push s ilp with
    | returned s2 => simp [obj_elf_section_parse, hh] at hcall
    | no_result => simp [obj_elf_section_parse, hh] at hcall
    | fatal f => simp [obj_elf_section_parse, hh] at hcall
    | done l =>
      have hd := section_head_done _ _ _ _ _ _ hh
      simp only [obj_elf_section_parse, hh] at hcall
      have ha := (section_done_spec _ _ _ _ _ _ hcall).1
      subst ha
      simp only [SectionLocals.args, hd.2.1]
      exact fun _ h => absurd rfl h
    | letters l c =>
      have hl := section_head_letters _ _ _ _ _ _ _ hh
      obtain ⟨l2, ht, ha, _⟩ := parse_letters_call _ _ _ _ _ _ _ _ _ _ hh hcall
      have hs := section_tail_spec _ _ _ _ _ ht
      subst ha
      simp only [SectionLocals.args]
      intro hG hne
      rcases hs.2.2.2.2.1 hG with h1 | ⟨hc, _, h3⟩
      · rw [h1, hl.2.1] at hne; exact absurd rfl hne
      · subst hc
        refine ⟨⟨l, rfl⟩, section_head_marker _ _ _ _ _ _ hh, ?_⟩
        rw [h3, hl.2.2.2.1]
        exact elf_group_name_congr _ _ _ hl.2.2.1
  · intro before str attr h
    unfold obj_elf_parse_section_letters at h
    rcases letters_loop_clone _ _ _ _ _ _ h with h1 | h1
    · cases h1
    · exact h1

/-- C9, amended, at `.section .text.f,"axG",@progbits,g,comdat` at the start
of an assembly, and at `.section .x,"a?"` in the section of the group `g`
that the first directive makes current. -/
theorem C9_group_flag_needs_name_witness :
    (obj_elf_section_parse sample_reader sample_options 0 sample_state line_group_member
        = SectionResult.call group_member_args (-1) sample_state
      ∧ group_member_args.attr &&& SHF_GROUP ≠ 0
      ∧ group_member_args.group_name ≠ none)
    ∧ (obj_elf_section_parse sample_reader sample_options 0 state_in_group line_clone
        = SectionResult.call clone_args (-1) state_in_group
      ∧ clone_args.attr &&& SHF_GROUP = 0
      ∧ clone_args.group_name = some "g"
      ∧ (∃ l, section_head sample_reader sample_options 0 state_in_group line_clone
                = SectionProgress.letters l true)
      ∧ elf_group_name state_in_group state_in_group.now_seg = some "g") :=
  ⟨⟨by decide, by decide,
    (C9_group_flag_needs_name sample_reader sample_options 0 sample_state
      line_group_member group_member_args (-1) sample_state (by decide)).1 (by decide)⟩,
   ⟨by decide, by decide, rfl,
    ((C9_group_flag_needs_name sample_reader sample_options 0 state_in_group
      line_clone clone_args (-1) state_in_group (by decide)).2.1
        (by decide) (by decide)).1,
    ((C9_group_flag_needs_name sample_reader sample_options 0 state_in_group
      line_clone clone_args (-1) state_in_group (by decide)).2.1
        (by decide) (by decide)).2.2.symm⟩⟩

/-! ## The flags that count as extra -/

theorem not_unsigned_mask : not_unsigned (SHF_MASKOS ||| SHF_MASKPROC) = 2 ^ 20 - 1 := by
  decide

/-- The test of lines 554-555 looks at bits 0 to 19 of the explicit flags:
the bits of the operating system (20 to 27) and of the processor (28 to 31)
are masked out, and so is every bit from bit 32 up, since the mask is an
`unsigned int`. -/
theorem extra_flags_iff (e : bfd_elf_special_section) (attr : Nat) :
    extra_flags e attr
      ↔ ∃ k, k < 20 ∧ attr.testBit k = true ∧ e.attr.testBit k = false := by
  unfold extra_flags
  rw [not_unsigned_mask]
  constructor
  · intro h
    obtain ⟨k, hk⟩ := Nat.ne_zero_implies_bit_true h
    rw [testBit_andNot, Nat.testBit_and, Nat.testBit_two_pow_sub_one] at hk
    simp only [Bool.and_eq_true, decide_eq_true_eq, Bool.not_eq_true'] at hk
    exact ⟨k, hk.1.2, hk.1.1, hk.2⟩
  · rintro ⟨k, hk, h1, h2⟩ h0
    have hb : (andNot (attr &&& (2 ^ 20 - 1)) e.attr).testBit k = true := by
      rw [testBit_andNot, Nat.testBit_and, Nat.testBit_two_pow_sub_one]
      simp [hk, h1, h2]
    rw [h0] at hb
    simp at hb

/-- C17, amended: on the first declaration of a special section that is in
none of the exempt cases, if the explicit flags hold, among bits 0 to 19 (the
bits of the operating system and of the processor, and the bits from bit 32
up, are not looked at), a flag that is not in the implicit flag set of the
section, `obj_elf_change_section` emits the warning `setting incorrect
section attributes` once when no group name is given (and not when one is
given), and the flags of the section are the explicit flags: the implicit
flags are not merged into them.  (The call is one that returns.) -/
theorem C17_extra_flags_set (bed : Backend) (a : ChangeArgs) (s s1 : State)
    (e : bfd_elf_special_section)
    (hnew : bfd_get_section_by_name_if s.sections a.name
              { group_name := a.group_name, info := a.info } = none)
    (hss : bed.get_sec_type_attr a.name = some e)
    (hextra : ∃ k, k < 20 ∧ a.attr.testBit k = true ∧ e.attr.testBit k = false)
    (hnote : ¬ exempt_note e a.attr)
    (hsuffix : ¬ exempt_suffix e a.name a.attr)
    (halloc : ¬ exempt_alloc a.name a.attr)
    (hstack : ¬ exempt_stack a.name a.attr)
    (hcall : obj_elf_change_section bed a s = Except.ok s1) :
    List.count (Diag.as_warn (Message.setting_incorrect_section_attributes a.name)) s1.diags
        = List.count (Diag.as_warn (Message.setting_incorrect_section_attributes a.name))
            s.diags + (if a.group_name = none then 1 else 0)
      ∧ ∃ sec, s1.sec? s1.now_seg = some sec ∧ sec.sh_flags = a.attr := by
  have hx : extra_flags e a.attr := (extra_flags_iff e a.attr).2 hextra
  have hcur := change_section_new_current bed a s s1 hnew hcall
  have hst := change_section_new_state bed a s s1 hnew hcall
  have hov : special_section_override e a.name a.attr a.group_name true
      = (true,
         if a.group_name = none then
           [Diag.as_warn (Message.setting_incorrect_section_attributes a.name)]
         else []) := by
    rw [override_cases, if_pos hx, if_neg hnote, if_neg hsuffix, if_neg halloc,
      if_neg hstack]
  have hty := special_section_type_no_attribute_warning e a.name a.type true a.name
  rw [hss] at hcur hst
  simp only [special_section, hov] at hcur hst
  refine ⟨?_, _, hcur, ?_⟩
  · rw [hst.1]
    simp only [List.count_append, hty]
    split <;> simp
  · simp [declare_section]

/-- C17, amended, at `.section .data,"ax"` at the start of an assembly, where
EXECINSTR (bit 2) is not an implicit flag of `.data`; and a first declaration
of `.data` whose explicit flags are bit 32 alone, which is not looked at:
there is no warning and the implicit flags ALLOC and WRITE are merged. -/
theorem C17_extra_flags_set_witness :
    (obj_elf_change_section sample_backend declare_data_ax sample_state
        = Except.ok
            (state_after_declaring
              { name := ".data",
                flags := SEC_RELOC ||| SEC_READONLY ||| SEC_ALLOC ||| SEC_LOAD ||| SEC_CODE,
                entsize := 0, sh_type := SHT_PROGBITS,
                sh_flags := SHF_ALLOC ||| SHF_EXECINSTR, sh_info := 0, group_name := none,
                bss := false }
              [Diag.as_warn (Message.setting_incorrect_section_attributes ".data")])
      ∧ List.count (Diag.as_warn (Message.setting_incorrect_section_attributes ".data"))
          [Diag.as_warn (Message.setting_incorrect_section_attributes ".data")]
        = List.count (Diag.as_warn (Message.setting_incorrect_section_attributes ".data"))
            sample_state.diags + (if declare_data_ax.group_name = none then 1 else 0))
    ∧ (obj_elf_change_section sample_backend declare_data_bit32 sample_state
        = Except.ok
            (state_after_declaring
              { name := ".data", flags := SEC_RELOC ||| SEC_ALLOC ||| SEC_LOAD,
                entsize := 0, sh_type := SHT_PROGBITS,
                sh_flags := 4294967296 ||| SHF_ALLOC ||| SHF_WRITE, sh_info := 0,
                group_name := none, bss := false }
              [])) :=
  ⟨⟨by decide,
   (C17_extra_flags_set sample_backend declare_data_ax sample_state
      (state_after_declaring
        { name := ".data",
          flags := SEC_RELOC ||| SEC_READONLY ||| SEC_ALLOC ||| SEC_LOAD ||| SEC_CODE,
          entsize := 0, sh_type := SHT_PROGBITS,
          sh_flags := SHF_ALLOC ||| SHF_EXECINSTR, sh_info := 0, group_name := none,
          bss := false }
        [Diag.as_warn (Message.setting_incorrect_section_attributes ".data")])
      { prefix_length := 5, suffix_length := -2, type := SHT_PROGBITS,
        attr := SHF_ALLOC ||| SHF_WRITE }
      (by decide) (by decide) ⟨2, by decide, by decide, by decide⟩ (by decide) (by decide)
      (by decide) (by decide) (by decide)).1⟩,
   by decide⟩

/-- A first declaration of `.data` whose explicit flags are bit 32 alone
stores that bit together with the implicit flags ALLOC and WRITE, without a
warning: the flags stored are not the explicit flags.  The same directive a
second time finds the flags changed and warns. -/
theorem declare_data_bit32_twice :
    obj_elf_change_section sample_backend declare_data_bit32 sample_state
        = Except.ok state_after_data_bit32
      ∧ (special_section (sample_backend.get_sec_type_attr ".data") ".data" SHT_NULL
            4294967296 none true).2.1 = 4294967299
      ∧ obj_elf_change_section sample_backend declare_data_bit32 state_after_data_bit32
          = Except.ok
              { state_after_data_bit32 with
                previous_section := some (segT.reg 1),
                diags := [Diag.as_warn (Message.ignoring_changed_section_attributes ".data")] } := by
  decide

/-! ## The entity size as written and as stored -/

/-- C7, as stated, fails for an entity size that does not fit the `int` in
which `obj_elf_section` stores it: in `.section .x,"aM",@progbits,2147483648`
the entity size 2147483648 follows, and the directive warns `invalid merge
entity size` and hands on the flags without MERGE and the entity size 0; in
`.section .x,"aM",@progbits,4294967297` the entity size handed on is 1. -/
theorem C7_entity_size_int_counterexample :
    (sample_reader.get_absolute_expression "2147483648\n".data).1 = 2147483648
      ∧ obj_elf_section_parse sample_reader sample_options 0 sample_state
          line_merge_two_pow_31
        = SectionResult.call
            { name := ".x", type := SHT_PROGBITS, info := 0, attr := SHF_ALLOC,
              entsize := 0, group_name := none, linkonce := 0, push := 0 }
            (-1) (sample_state.warn Message.invalid_merge_entity_size)
      ∧ SHF_ALLOC &&& SHF_MERGE = 0
      ∧ (sample_reader.get_absolute_expression "4294967297\n".data).1 = 4294967297
      ∧ obj_elf_section_parse sample_reader sample_options 0 sample_state
          line_merge_two_pow_32_plus_1
        = SectionResult.call
            { name := ".x", type := SHT_PROGBITS, info := 0,
              attr := SHF_ALLOC ||| SHF_MERGE,
              entsize := 1, group_name := none, linkonce := 0, push := 0 }
            (-1) sample_state := by
  decide

/-- C7, amended: for a `.section` directive in the second syntax whose flag
string gives the MERGE flag: when an entity size n with 0 ≤ n < 2^31 follows,
`obj_elf_change_section` is handed MERGE, the other flags as read (GROUP
apart, which depends on the group name) and the entity size n, no
entity-size warning is emitted, and a first declaration that returns stores
MERGE in the ELF flags and in the BFD flags of the section and stores the
entity size n; more generally this holds with the `int` that the directive
stores for the number written, whenever that `int` is not negative; when no
entity size follows, the warning `entity size for SHF_MERGE not specified` is
emitted exactly once, `obj_elf_change_section` is handed the flags without
MERGE and the entity size 0, and a first declaration that returns stores the
entity size 0, and stores neither MERGE flag unless the special-section
entry of the section carries MERGE itself. -/
theorem C7_merge_entity_size (rd : Reader) (opts : Options) (push : Int) (s : State)
    (ilp : List Char) (l : SectionLocals) (c : Bool) (a : ChangeArgs) (n : Int)
    (s1 : State)
    (hhead : section_head rd opts push s ilp = SectionProgress.letters l c)
    (hM : l.attr &&& SHF_MERGE ≠ 0)
    (hcall : obj_elf_section_parse rd opts push s ilp = SectionResult.call a n s1) :
    (peek (SKIP_WHITESPACE l.ilp) = ',' →
      0 ≤ (rd.get_absolute_expression (SKIP_WHITESPACE (SKIP_WHITESPACE l.ilp).tail)).1 →
      (rd.get_absolute_expression (SKIP_WHITESPACE (SKIP_WHITESPACE l.ilp).tail)).1
          < 2147483648 →
        a.attr &&& SHF_MERGE ≠ 0
          ∧ a.attr ||| SHF_GROUP = l.attr ||| SHF_GROUP
          ∧ a.entsize
              = (rd.get_absolute_expression
                  (SKIP_WHITESPACE (SKIP_WHITESPACE l.ilp).tail)).1
          ∧ List.count merge_warning s1.diags = List.count merge_warning s.diags
          ∧ ∀ (bed : Backend) (s2 : State),
              bfd_get_section_by_name_if s.sections a.name
                  { group_name := a.group_name, info := a.info } = none →
              obj_elf_section rd opts bed push s ilp = some (Except.ok s2) →
              ∃ sec, s2.sec? s2.now_seg = some sec
                ∧ sec.sh_flags &&& SHF_MERGE ≠ 0
                ∧ sec.flags &&& SEC_MERGE ≠ 0
                ∧ (sec.entsize : Int)
                    = (rd.get_absolute_expression
                        (SKIP_WHITESPACE (SKIP_WHITESPACE l.ilp).tail)).1)
    ∧ (peek (SKIP_WHITESPACE l.ilp) = ',' →
      0 ≤ to_int (rd.get_absolute_expression
            (SKIP_WHITESPACE (SKIP_WHITESPACE l.ilp).tail)).1 →
        a.attr &&& SHF_MERGE ≠ 0
          ∧ a.attr ||| SHF_GROUP = l.attr ||| SHF_GROUP
          ∧ a.entsize = to_int (rd.get_absolute_expression
              (SKIP_WHITESPACE (SKIP_WHITESPACE l.ilp).tail)).1
          ∧ List.count merge_warning s1.diags = List.count merge_warning s.diags
          ∧ ∀ (bed : Backend) (s2 : State),
              bfd_get_section_by_name_if s.sections a.name
                  { group_name := a.group_name, info := a.info } = none →
              obj_elf_section rd opts bed push s ilp = some (Except.ok s2) →
              ∃ sec, s2.sec? s2.now_seg = some sec
                ∧ sec.sh_flags &&& SHF_MERGE ≠ 0
                ∧ sec.flags &&& SEC_MERGE ≠ 0
                ∧ (sec.entsize : Int) = to_int (rd.get_absolute_expression
                    (SKIP_WHITESPACE (SKIP_WHITESPACE l.ilp).tail)).1)
    ∧ (peek (SKIP_WHITESPACE l.ilp) ≠ ',' →
        a.attr &&& SHF_MERGE = 0
          ∧ a.attr ||| (SHF_MERGE ||| SHF_GROUP) = l.attr ||| (SHF_MERGE ||| SHF_GROUP)
          ∧ a.entsize = 0
          ∧ List.count merge_warning s1.diags = List.count merge_warning s.diags + 1
          ∧ ∀ (bed : Backend) (s2 : State),
              bfd_get_section_by_name_if s.sections a.name
                  { group_name := a.group_name, info := a.info } = none →
              obj_elf_section rd opts bed push s ilp = some (Except.ok s2) →
              ∃ sec, s2.sec? s2.now_seg = some sec
                ∧ sec.entsize = 0
                ∧ ((∀ e, bed.get_sec_type_attr a.name = some e → e.attr &&& SHF_MERGE = 0) →
                    sec.sh_flags &&& SHF_MERGE = 0 ∧ sec.flags &&& SEC_MERGE = 0)) := by
  have h := merge_entity_size_int rd opts push s ilp l c a n s1 hhead hM hcall
  refine ⟨?_, h.1, h.2⟩
  intro hc h0 h31
  have hv : to_int (rd.get_absolute_expression
      (SKIP_WHITESPACE (SKIP_WHITESPACE l.ilp).tail)).1
        = (rd.get_absolute_expression
            (SKIP_WHITESPACE (SKIP_WHITESPACE l.ilp).tail)).1 := by
    unfold to_int
    omega
  have h1 := h.1 hc (by rw [hv]; exact h0)
  rw [hv] at h1
  exact h1

/-- C7, amended, at `.section .rodata.str,"aMS",@progbits,1` and at
`.section .x,"aM",@progbits`. -/
theorem C7_merge_entity_size_witness :
    (section_head sample_reader sample_options 0 sample_state line_rodata_str
        = SectionProgress.letters rodata_str_locals false
      ∧ rodata_str_locals.attr &&& SHF_MERGE ≠ 0
      ∧ obj_elf_section_parse sample_reader sample_options 0 sample_state line_rodata_str
          = SectionResult.call rodata_str_args (-1) sample_state
      ∧ rodata_str_args.attr &&& SHF_MERGE ≠ 0
      ∧ rodata_str_args.entsize = 1
      ∧ ∃ sec, state_after_rodata_str.sec? state_after_rodata_str.now_seg = some sec
          ∧ sec.sh_flags &&& SHF_MERGE ≠ 0
          ∧ sec.flags &&& SEC_MERGE ≠ 0
          ∧ (sec.entsize : Int) = 1)
    ∧ (section_head sample_reader sample_options 0 sample_state line_merge_missing
        = SectionProgress.letters merge_missing_locals false
      ∧ merge_missing_locals.attr &&& SHF_MERGE ≠ 0
      ∧ obj_elf_section_parse sample_reader sample_options 0 sample_state
          line_merge_missing
          = SectionResult.call merge_missing_args (-1)
              (sample_state.warn Message.entity_size_for_SHF_MERGE_not_specified)
      ∧ merge_missing_args.attr &&& SHF_MERGE = 0
      ∧ merge_missing_args.entsize = 0
      ∧ List.count merge_warning
            (sample_state.warn Message.entity_size_for_SHF_MERGE_not_specified).diags
          = List.count merge_warning sample_state.diags + 1) := by
  have h1 := (C7_merge_entity_size sample_reader sample_options 0 sample_state
    line_rodata_str rodata_str_locals false rodata_str_args (-1) sample_state
    (by decide) (by decide) (by decide)).1 (by decide) (by decide) (by decide)
  have h2 := (C7_merge_entity_size sample_reader sample_options 0 sample_state
    line_merge_missing merge_missing_locals false merge_missing_args (-1)
    (sample_state.warn Message.entity_size_for_SHF_MERGE_not_specified)
    (by decide) (by decide) (by decide)).2.2 (by decide)
  exact ⟨⟨by decide, by decide, by decide, h1.1, h1.2.2.1,
      h1.2.2.2.2 sample_backend state_after_rodata_str (by decide) (by decide)⟩,
    ⟨by decide, by decide, by decide, h2.1, h2.2.2.1, h2.2.2.2.1⟩⟩

/-! ## The numeric section type as written and as returned -/

/-- C14, as stated, fails for a number that does not fit the `int` that
`obj_elf_section_type` returns: for the string `4294967297`, whose numeric
value is 4294967297, it returns 1, and for `2147483648` it returns
-2147483648. -/
theorem C14_numeric_value_counterexample :
    decimal_value "4294967297".data = 4294967297
      ∧ obj_elf_section_type "4294967297".data 10 true = (1, ([] : List Diag))
      ∧ decimal_value "2147483648".data = 2147483648
      ∧ obj_elf_section_type "2147483648".data 10 true
          = (-2147483648, ([] : List Diag)) := by
  decide

/-- C14, amended: with no target-specific resolver, `obj_elf_section_type`,
given a name (the first `len` characters of the text at `str`), returns
PROGBITS, NOBITS, NOTE, INIT_ARRAY, FINI_ARRAY, PREINIT_ARRAY, without a
warning, when the name is progbits, nobits, note, init_array, fini_array,
preinit_array (the whole name, in lower case); for a name of decimal digits
that does not begin with 0 and whose value is less than 2^31 it returns that
value, without a warning; for any other name that starts with a digit it
returns the `int` (between -2^31 and 2^31 - 1) that equals, modulo 2^32, the
number `strtoul` reads there; and for every other name it returns 0 and emits
the warning `unrecognized section type` exactly when warnings are
requested. -/
theorem C14_section_type (name rest : List Char) (warn : Bool) :
    (name = "progbits".data →
      obj_elf_section_type (name ++ rest) name.length warn
        = ((SHT_PROGBITS : Int), ([] : List Diag)))
    ∧ (name = "nobits".data →
      obj_elf_section_type (name ++ rest) name.length warn
        = ((SHT_NOBITS : Int), ([] : List Diag)))
    ∧ (name = "note".data →
      obj_elf_section_type (name ++ rest) name.length warn
        = ((SHT_NOTE : Int), ([] : List Diag)))
    ∧ (name = "init_array".data →
      obj_elf_section_type (name ++ rest) name.length warn
        = ((SHT_INIT_ARRAY : Int), ([] : List Diag)))
    ∧ (name = "fini_array".data →
      obj_elf_section_type (name ++ rest) name.length warn
        = ((SHT_FINI_ARRAY : Int), ([] : List Diag)))
    ∧ (name = "preinit_array".data →
      obj_elf_section_type (name ++ rest) name.length warn
        = ((SHT_PREINIT_ARRAY : Int), ([] : List Diag)))
    ∧ (name ≠ [] → (∀ c ∈ name, ISDIGIT c = true) → name.head? ≠ some '0' →
        decimal_value name < 2147483648 →
      obj_elf_section_type name name.length warn
        = ((decimal_value name : Int), ([] : List Diag)))
    ∧ (name ∉ section_type_names → ISDIGIT (peek (name ++ rest)) = true →
      -2147483648 ≤ (obj_elf_section_type (name ++ rest) name.length warn).1
        ∧ (obj_elf_section_type (name ++ rest) name.length warn).1 < 2147483648
        ∧ ((obj_elf_section_type (name ++ rest) name.length warn).1
              - ((strtoul (name ++ rest)).1 : Int)) % 4294967296 = 0)
    ∧ (name ∉ section_type_names → ISDIGIT (peek (name ++ rest)) = false →
      obj_elf_section_type (name ++ rest) name.length warn
        = (0, if warn then [Diag.as_warn Message.unrecognized_section_type] else [])) := by
  have h := section_type_cases name rest warn
  obtain ⟨h1, h2, h3, h4, h5, h6, h7, h8, h9⟩ := h
  refine ⟨h1, h2, h3, h4, h5, h6, h8, ?_, h9⟩
  intro hn hd
  rw [h7 hn hd]
  unfold to_int
  omega

/-- C14, amended, at the names `note`, `NOTE` (upper case is not matched),
`7`, and `0x10`, where `strtoul` reads 16. -/
theorem C14_section_type_witness :
    obj_elf_section_type "note".data 4 true = ((SHT_NOTE : Int), ([] : List Diag))
      ∧ obj_elf_section_type "NOTE".data 4 true
          = (0, [Diag.as_warn Message.unrecognized_section_type])
      ∧ obj_elf_section_type "7".data 1 true = (7, ([] : List Diag))
      ∧ (obj_elf_section_type "0x10".data 4 true).1 < 2147483648
      ∧ obj_elf_section_type "0x10".data 4 true = (16, ([] : List Diag)) :=
  ⟨(C14_section_type "note".data [] true).2.2.1 rfl,
   (C14_section_type "NOTE".data [] true).2.2.2.2.2.2.2.2 (by decide) (by decide),
   (C14_section_type "7".data [] true).2.2.2.2.2.2.1 (by decide) (by decide) (by decide)
     (by decide),
   ((C14_section_type "0x10".data [] true).2.2.2.2.2.2.2.1 (by decide) (by decide)).2.1,
   by decide⟩

/-! ## The type `common` of a volatile symbol -/

end ObjElf
